import Mathlib

/-!
Direct convolution: configuration codec, store, default selector, search and construction.

A shallow embedding of `src/src/mlo_dir_conv.cpp`.

* C++ `int` values are integers (`Int`). Signed overflow is undefined behaviour in C++; the
  compiled code leaves the two's-complement value modulo 2^32, and `int32` reduces a value
  in this way. It is applied wherever the code forms, in `int`, a sum or a product that
  involves a dimension of the shape: the number of pixels in the 1x1 strategy and in the
  search and the divisor of the exchange step there, the scaled number of input maps and the
  number of input loops of the 1x1 strategy, `out_len4` of the default selector, the doubled
  output sizes in the filters of the search, the numerators and the products from which the
  local and global work sizes are computed, and the weight strides and sizes and the input
  sizes passed as options (a quotient multiplied back by its divisor, as in `(batch_sz /
  n_stacks) * n_stacks`, cannot leave `int` and is left as it is). Two kinds of arithmetic
  are exact: that on the tiling values and the quotients derived from them, which stays
  within `int` for the tilings of the default selector and of the search, and under
  `intSized`; and the padding of the backward direction, `kernel_size - 1 - pad`.
* Integer division truncates (`Int.tdiv`); a zero divisor is the fault `undefined_behaviour`.
* `std::string` is the list of its characters.
* A file is its content; a file that does not exist reads as the empty content.
* Functions that can throw or run into undefined behaviour return `Except Fault`.
-/

namespace MLOpen

/-! ## Strings and the C++ library functions used by the code -/

/-- A C++ `std::string`: the sequence of its characters. -/
abbrev CString := List Char

/-- Abnormal terminations: the two exceptions of `std::stoi`, and undefined behaviour
(indexing a vector past its end, dividing by zero). -/
inductive Fault where
  | invalid_argument
  | out_of_range
  | undefined_behaviour
  deriving DecidableEq

deriving instance DecidableEq for Except

/-- Smallest value of a C++ `int`. -/
def INT_MIN : Int := -2147483648

/-- Largest value of a C++ `int`. -/
def INT_MAX : Int := 2147483647

/-- The value is representable as a C++ `int`. -/
def isInt (v : Int) : Prop := INT_MIN ≤ v ∧ v ≤ INT_MAX

instance (v : Int) : Decidable (isInt v) := by unfold isInt; infer_instance

/-- The value that the compiled code leaves in an `int` when the mathematical value of the
expression is `v`: `v` reduced modulo 2^32 into the range of `int` (two's complement). A
value within `int` is left as it is. -/
def int32 (v : Int) : Int := (v + 2147483648) % 4294967296 - 2147483648

/-- The character of a decimal digit. -/
def digitChar (d : Nat) : Char := Char.ofNat (48 + d)

/-- The value of a decimal digit character. -/
def digitVal (c : Char) : Nat := c.toNat - 48

/-- Decimal digits of a natural number, most significant first, in front of `acc`;
the first argument bounds the number of digits produced. -/
def to_string_digits : Nat → Nat → CString → CString
  | 0, _, acc => acc
  | fuel + 1, n, acc =>
    if n < 10 then digitChar n :: acc
    else to_string_digits fuel (n / 10) (digitChar (n % 10) :: acc)

/-- `std::to_string(long long)`: decimal representation, `-` in front of a negative value. -/
def to_string (v : Int) : CString :=
  if v < 0 then '-' :: to_string_digits (v.natAbs + 1) v.natAbs []
  else to_string_digits (v.natAbs + 1) v.natAbs []

/-- `isspace` in the C locale. -/
def isspace (c : Char) : Bool :=
  c = ' ' || c = '\t' || c = '\n' || c = '\x0b' || c = '\x0c' || c = '\r'

/-- Value of a sequence of decimal digits read left to right, starting from `acc`. -/
def digitsValue (acc : Nat) (ds : CString) : Nat :=
  ds.foldl (fun a c => a * 10 + digitVal c) acc

/-- `std::stoi(str)` (base 10): skips leading white space, reads an optional sign and the
longest run of decimal digits, and ignores what follows. Throws `invalid_argument` when
there is no digit and `out_of_range` when the value is not an `int`. -/
def stoi (str : CString) : Except Fault Int :=
  let s1 := str.dropWhile isspace
  let neg := s1.head? = some '-'
  let s2 := if s1.head? = some '-' ∨ s1.head? = some '+' then s1.tail else s1
  let ds := s2.takeWhile Char.isDigit
  if ds = [] then .error .invalid_argument
  else
    let v : Int := if neg then -(digitsValue 0 ds : Int) else (digitsValue 0 ds : Int)
    if isInt v then .ok v else .error .out_of_range

/-- Modelled from the spec: `tokenize` of `mlopen/mlo_utils.hpp`, which is not part of the
sources at hand. The string is cut at every character of `delimiters`; empty pieces are
dropped (§4.2: "each non-empty line"; the store is written with an empty line after every
entry and read back through this function). `cur` is the piece being read, reversed. -/
def tokenizeFrom (delimiters : CString) : CString → CString → List CString
  | cur, [] => if cur = [] then [] else [cur.reverse]
  | cur, c :: cs =>
    if c ∈ delimiters then
      if cur = [] then tokenizeFrom delimiters [] cs
      else cur.reverse :: tokenizeFrom delimiters [] cs
    else tokenizeFrom delimiters (c :: cur) cs

/-- Modelled from the spec: `tokenize(str, tokens, delimiters)` of `mlopen/mlo_utils.hpp`
appends the non-empty pieces of `str` between delimiter characters to `tokens`. -/
def tokenize (str : CString) (tokens : List CString) (delimiters : CString) : List CString :=
  tokens ++ tokenizeFrom delimiters [] str

/-- Unchecked `operator[]` of `std::vector`: reading past the end is undefined behaviour. -/
def vecAt {α : Type} (v : List α) (i : Nat) : Except Fault α :=
  match v.get? i with
  | some x => .ok x
  | none => .error .undefined_behaviour

/-! ## Configuration value codec -/

/-- The nine tiling parameters, in the order of the value format. -/
structure Tiling where
  grp_tile1 : Int
  grp_tile0 : Int
  in_tile1 : Int
  in_tile0 : Int
  out_pix_tile1 : Int
  out_pix_tile0 : Int
  n_out_pix_tiles : Int
  n_in_data_tiles : Int
  n_stacks : Int
  deriving DecidableEq

/-- The nine values are C++ `int` values. -/
def Tiling.isInt (t : Tiling) : Prop :=
  MLOpen.isInt t.grp_tile1 ∧ MLOpen.isInt t.grp_tile0 ∧ MLOpen.isInt t.in_tile1
    ∧ MLOpen.isInt t.in_tile0 ∧ MLOpen.isInt t.out_pix_tile1 ∧ MLOpen.isInt t.out_pix_tile0
    ∧ MLOpen.isInt t.n_out_pix_tiles ∧ MLOpen.isInt t.n_in_data_tiles ∧ MLOpen.isInt t.n_stacks

instance (t : Tiling) : Decidable t.isInt := by unfold Tiling.isInt; infer_instance

/-- `mloBuildConf_Val`: the nine values in decimal, joined by `.`. -/
def mloBuildConf_Val (t : Tiling) : CString :=
  to_string t.grp_tile1 ++ ['.']
    ++ to_string t.grp_tile0 ++ ['.']
    ++ to_string t.in_tile1 ++ ['.']
    ++ to_string t.in_tile0 ++ ['.']
    ++ to_string t.out_pix_tile1 ++ ['.']
    ++ to_string t.out_pix_tile0 ++ ['.']
    ++ to_string t.n_out_pix_tiles ++ ['.']
    ++ to_string t.n_in_data_tiles ++ ['.']
    ++ to_string t.n_stacks

/-- `mloParseConf`: tokenizes on `.` and converts the first nine tokens with `std::stoi`,
in order. -/
def mloParseConf (conf_val : CString) : Except Fault Tiling := do
  let conf_val_vec := tokenize conf_val [] ['.']
  let grp_tile1 ← stoi (← vecAt conf_val_vec 0)
  let grp_tile0 ← stoi (← vecAt conf_val_vec 1)
  let in_tile1 ← stoi (← vecAt conf_val_vec 2)
  let in_tile0 ← stoi (← vecAt conf_val_vec 3)
  let out_pix_tile1 ← stoi (← vecAt conf_val_vec 4)
  let out_pix_tile0 ← stoi (← vecAt conf_val_vec 5)
  let n_out_pix_tiles ← stoi (← vecAt conf_val_vec 6)
  let n_in_data_tiles ← stoi (← vecAt conf_val_vec 7)
  let n_stacks ← stoi (← vecAt conf_val_vec 8)
  pure { grp_tile1 := grp_tile1, grp_tile0 := grp_tile0, in_tile1 := in_tile1,
         in_tile0 := in_tile0, out_pix_tile1 := out_pix_tile1,
         out_pix_tile0 := out_pix_tile0, n_out_pix_tiles := n_out_pix_tiles,
         n_in_data_tiles := n_in_data_tiles, n_stacks := n_stacks }

/-! ## Text databases -/

/-- `mloReadDb`: appends the lines of the file (pieces between `\n` and `\r`) to `db`.
The result of `readBinaryFromFile` is only returned, never tested; a missing file has the
empty content. -/
def mloReadDb (file : CString) (db : List CString) : List CString :=
  tokenize file db ['\n', '\r']

/-- `mloUpdateDb`: the new content of the file, every entry followed by `\n`. -/
def mloUpdateDb (db : List CString) : CString :=
  db.foldl (fun serial it => serial ++ (it ++ ['\n'])) []

/-- The loop of `mloFindConfigReq`: the position of the first entry equal to the key, or
the length of the list (for `end()`) when there is none. -/
def findReq (req_conf_db : List CString) (conf_key : CString) : Nat :=
  match req_conf_db with
  | [] => 0
  | it :: rest => if it = conf_key then 0 else findReq rest conf_key + 1

/-- `mloFindConfigReq`: reads the request file into `req_conf_db` and looks for the first
entry equal to `conf_key`. Returns `found`, the entries and the position `it`. -/
def mloFindConfigReq (file : CString) (conf_key : CString) (req_conf_db : List CString) :
    Bool × List CString × Nat :=
  let db := mloReadDb file req_conf_db
  let it := findReq db conf_key
  (decide (it < db.length), db, it)

/-- `std::string::compare(...) < 0`: lexicographic order, character by character. -/
def strLt : CString → CString → Bool
  | [], [] => false
  | [], _ :: _ => true
  | _ :: _, [] => false
  | a :: as, b :: bs => decide (a < b) || (decide (a = b) && strLt as bs)

/-- A `std::map<std::string, std::string>`: its entries in iteration order, that is by
increasing key. -/
abbrev StdMap := List (CString × CString)

/-- `std::map::find`: the value stored under the key, if any. -/
def StdMap.find (m : StdMap) (key : CString) : Option CString :=
  match m with
  | [] => none
  | (k, v) :: rest => if k = key then some v else StdMap.find rest key

/-- `m[key] = val` on a `std::map`: overwrites the entry of the key, or inserts a new entry
at its place in key order. -/
def StdMap.set (m : StdMap) (key val : CString) : StdMap :=
  match m with
  | [] => [(key, val)]
  | (k, v) :: rest =>
    if strLt key k then (key, val) :: (k, v) :: rest
    else if k = key then (key, val) :: rest
    else (k, v) :: StdMap.set rest key val

/-- The invariant of a `std::map`: the keys increase strictly along the entries. -/
def StdMap.ordered (m : StdMap) : Prop :=
  (m.map Prod.fst).Pairwise (fun a b => strLt a b = true)

/-- A key or value as the database holds them: not empty, and free of spaces and line
breaks. -/
def cleanStr (s : CString) : Prop := s ≠ [] ∧ ' ' ∉ s ∧ '\n' ∉ s ∧ '\r' ∉ s

/-- Every key and value of the mapping is clean. -/
def StdMap.clean (m : StdMap) : Prop := ∀ kv ∈ m, cleanStr kv.1 ∧ cleanStr kv.2

instance (m : StdMap) : Decidable m.ordered := by unfold StdMap.ordered; infer_instance

instance (s : CString) : Decidable (cleanStr s) := by unfold cleanStr; infer_instance

instance (m : StdMap) : Decidable m.clean := by unfold StdMap.clean; infer_instance

/-- `mloSearchConfigDB`: `found` and the new content of `conf_val`. -/
def mloSearchConfigDB (conf_db : StdMap) (conf_key conf_val : CString) : Bool × CString :=
  match conf_db.find conf_key with
  | some v => (true, v)
  | none => (false, conf_val)

/-! ## The construction object -/

/-- The device behind the stream: `CL_DEVICE_LOCAL_MEM_SIZE`. -/
structure Device where
  local_mem_size : Nat
  deriving DecidableEq

/-- The two files of a device: the configuration database (`.cd.pdb.txt`) and the request
log (`.cd.rdb.txt`). -/
structure Files where
  conf_db : CString
  req_db : CString
  deriving DecidableEq

/-- The fields of `mlo_construct_direct2D` read or written by the code. `_l_wk` and `_g_wk`
hold `size_t` values. `_search` is what `doSearch()` returns. -/
structure mlo_construct_direct2D where
  _direction : Int
  _pad0 : Int
  _pad1 : Int
  _kernel_size0 : Int
  _kernel_size1 : Int
  _kernel_stride0 : Int
  _kernel_stride1 : Int
  _n_outputs : Int
  _n_inputs : Int
  _batch_sz : Int
  _out_width : Int
  _out_height : Int
  _out_batch_stride : Int
  _out_channel_stride : Int
  _out_stride : Int
  _in_width : Int
  _in_height : Int
  _in_batch_stride : Int
  _in_channel_stride : Int
  _in_stride : Int
  _in_layout : CString
  _in_data_type : CString
  _grp_tile1 : Int
  _grp_tile0 : Int
  _in_tile1 : Int
  _in_tile0 : Int
  _out_pix_tile1 : Int
  _out_pix_tile0 : Int
  _n_out_pix_tiles : Int
  _n_in_data_tiles : Int
  _n_stacks : Int
  _bias : Int
  _gen : Bool
  _search : Bool
  _save_srch_req : Bool
  _hw_wave_sz : Int
  _dev_local_mem_sz : Int
  _comp_options : CString
  _gen_comp_options : CString
  _l_wk : List Int
  _g_wk : List Int
  _kernel_file : CString
  _kernel_name : CString
  deriving DecidableEq

/-- Modelled from the spec: `getDirectcion()` of `mlopen/mlo_internal.hpp` (not part of the
sources at hand); direction 1 is forward, 0 is backward, and the result is true for
forward. -/
def getDirectcion (s : mlo_construct_direct2D) : Bool := decide (s._direction ≠ 0)

/-- Modelled from the spec: `doSearch()` of `mlopen/mlo_internal.hpp` (not part of the
sources at hand): whether the search is enabled. -/
def doSearch (s : mlo_construct_direct2D) : Bool := s._search

/-- Modelled from the spec: `getGeneralCompOptions()` of `mlopen/mlo_internal.hpp` (not part
of the sources at hand): the general compiler options of the object. -/
def getGeneralCompOptions (s : mlo_construct_direct2D) : CString := s._gen_comp_options

/-- Modelled from the spec: `getConfigParameters(...)` of `mlopen/mlo_internal.hpp` (not
part of the sources at hand): the nine tiling fields of the object. -/
def getConfigParameters (s : mlo_construct_direct2D) : Tiling :=
  { grp_tile1 := s._grp_tile1, grp_tile0 := s._grp_tile0, in_tile1 := s._in_tile1,
    in_tile0 := s._in_tile0, out_pix_tile1 := s._out_pix_tile1,
    out_pix_tile0 := s._out_pix_tile0, n_out_pix_tiles := s._n_out_pix_tiles,
    n_in_data_tiles := s._n_in_data_tiles, n_stacks := s._n_stacks }

/-- Stores nine values in the tiling fields of the object. -/
def setTiling (s : mlo_construct_direct2D) (t : Tiling) : mlo_construct_direct2D :=
  { s with _grp_tile1 := t.grp_tile1, _grp_tile0 := t.grp_tile0, _in_tile1 := t.in_tile1,
           _in_tile0 := t.in_tile0, _out_pix_tile1 := t.out_pix_tile1,
           _out_pix_tile0 := t.out_pix_tile0, _n_out_pix_tiles := t.n_out_pix_tiles,
           _n_in_data_tiles := t.n_in_data_tiles, _n_stacks := t.n_stacks }

/-- `mloSetConf`: parses the value into the nine tiling fields. -/
def mloSetConf (s : mlo_construct_direct2D) (conf_val : CString) :
    Except Fault mlo_construct_direct2D := do
  let t ← mloParseConf conf_val
  pure (setTiling s t)

/-- `mloBuildConf_Key`: the key of the shape. -/
def mloBuildConf_Key (s : mlo_construct_direct2D) : CString :=
  to_string s._n_inputs
    ++ ['x'] ++ to_string s._in_height
    ++ ['x'] ++ to_string s._in_width
    ++ ['x'] ++ to_string s._kernel_size1
    ++ ['x'] ++ to_string s._kernel_size0
    ++ ['x'] ++ to_string s._n_outputs
    ++ ['x'] ++ to_string s._out_height
    ++ ['x'] ++ to_string s._out_width
    ++ ['x'] ++ to_string s._batch_sz
    ++ ['x'] ++ s._in_layout
    ++ ['x'] ++ s._in_data_type
    ++ ['x'] ++ to_string s._direction

/-- `mloSelectDefaultConfig`: sets the tiling fields from the shape; returns the object and
`conf_val`. The closing `mloSetConf(conf_val)` parses the string just built. -/
def mloSelectDefaultConfig (s : mlo_construct_direct2D) :
    Except Fault (mlo_construct_direct2D × CString) := do
  let s := { s with
    _in_tile0 := if s._in_width ≤ 8 then 8 else if s._in_width ≤ 16 then 16 else 32
    _in_tile1 := if s._in_height ≤ 8 then 8 else if s._in_height ≤ 16 then 16 else 8 }
  let s := { s with
    _grp_tile0 := if s._in_tile0 = 8 then 8 else 16
    _grp_tile1 := if s._in_tile1 = 8 then 8 else 16 }
  let s := { s with
    _out_pix_tile0 := 2
    _out_pix_tile1 := 2
    _n_out_pix_tiles := 8
    _n_in_data_tiles := 2
    _n_stacks := 1 }
  let s :=
    if s._kernel_size0 = 1 ∧ s._kernel_size1 = 1 then
      let out_len4 := (int32 (s._out_height * s._out_width + 3)).tdiv 4
      { s with
        _in_tile0 := 4
        _in_tile1 := 1
        _grp_tile0 := if out_len4 > 192 then 256 else if out_len4 > 128 then 192
                      else if out_len4 > 64 then 128 else 64
        _grp_tile1 := 1
        _out_pix_tile0 := 4
        _out_pix_tile1 := 1
        _n_out_pix_tiles := 16
        _n_in_data_tiles := 2
        _n_stacks := if s._batch_sz > 1 then 2 else 1 }
    else s
  let conf_val := mloBuildConf_Val (getConfigParameters s)
  let s ← mloSetConf s conf_val
  pure (s, conf_val)

/-! ## Kernel construction -/

/-- C++ `a / b` on `int`: truncating division; a zero divisor is undefined behaviour. -/
def cdiv (a b : Int) : Except Fault Int :=
  if b = 0 then .error .undefined_behaviour else .ok (a.tdiv b)

/-- Conversion of an integer value to `size_t` (64 bits). -/
def size_t (v : Int) : Int := v % 2 ^ 64

/-- One compiler option: the text followed by the value in decimal. -/
def optD (text : String) (v : Int) : CString := text.toList ++ to_string v

/-- The test used by `mloConstructDirect2DFwd` and by the search for an output that is small
or not aligned to 8, 16 or 32. -/
def unalignedOut (s : mlo_construct_direct2D) : Bool :=
  decide (s._out_height < 8 ∨ s._out_width < 8 ∨ (s._out_height > 8 ∧ s._out_height < 16)
    ∨ (s._out_width > 8 ∧ s._out_width < 16) ∨ (s._out_height > 16 ∧ s._out_height < 32)
    ∨ (s._out_width > 16 ∧ s._out_width < 32))

/-- The number of reading work-items chosen from the ratio of tile data to group size.
The `float` values of the code are taken as exact rationals: the conversions of the two
products are exact below 2^24, and the rounded quotient is then at most 0.25 or 0.5 exactly
when the exact quotient is. The value is only shown by the option `MLO_N_READ_PROCS`. -/
def n_read_procs (grp_tile1 grp_tile0 in_tile1 in_tile0 : Int) : Int :=
  if ((grp_tile1 * grp_tile0 : Int) : ℚ) ≤ ((in_tile1 * in_tile0 : Int) : ℚ) then
    grp_tile1 * grp_tile0
  else
    let proc_data_ratio : ℚ := ((in_tile1 * in_tile0 : Int) : ℚ) / ((grp_tile1 * grp_tile0 : Int) : ℚ)
    if proc_data_ratio ≤ 1 / 4 then (grp_tile1 * grp_tile0).tdiv 4
    else if proc_data_ratio ≤ 1 / 2 then (grp_tile1 * grp_tile0).tdiv 2
    else grp_tile1 * grp_tile0

/-- `mloConstructDirect2D1x1`: the 1x1 strategy. Returns `ret` and the object. The local
names that start with `_` are the values of the fields of the same name at that point of
the code; they are stored in the object at the end. -/
def mloConstructDirect2D1x1 (dev : Device) (s : mlo_construct_direct2D) :
    Except Fault (Int × mlo_construct_direct2D) := do
  let ret : Int := 0
  let _hw_wave_sz : Int := 64
  let _dev_local_mem_sz : Int := dev.local_mem_size
  let _in_tile0 : Int := 4
  let _in_tile1 : Int := 1
  let _out_pix_tile0 : Int := 4
  let _out_pix_tile1 : Int := 1
  let wei_cstride := int32 (s._kernel_size0 * s._kernel_size1)
  let wei_bstride := int32 (s._n_inputs * wei_cstride)
  let N4S : Int := 1
  let MAP_SZ4 ← cdiv (int32 (s._in_width * s._in_height + N4S * 4 - 1)) (N4S * 4)
  let DIVBY4 : Int :=
    if int32 (MAP_SZ4 * 4) = int32 (s._in_width * s._in_height) then 1 else 0
  let C1x1_PIXLEFT : Int :=
    if DIVBY4 = 1 then 0 else int32 (s._in_width * s._in_height - (MAP_SZ4 - 1) * 4)
  let GRP_SZ := s._grp_tile0
  let small_map : Bool := decide (MAP_SZ4 ≤ GRP_SZ.tdiv 2)
  let N_MAPS_PERGROUP ← (if small_map then cdiv GRP_SZ MAP_SZ4 else pure 1)
  let exchange_step : Int := if small_map then s._n_in_data_tiles else 6
  let _n_in_data_tiles : Int := if small_map then 1 else s._n_in_data_tiles
  let _n_in_data_tiles := min s._n_inputs _n_in_data_tiles
  let n_input_scaled ← cdiv (int32 (s._n_inputs + _n_in_data_tiles - 1)) _n_in_data_tiles
  let _n_out_pix_tiles := min s._n_outputs s._n_out_pix_tiles
  let exchange_step : Int :=
    if small_map then min (min exchange_step _n_out_pix_tiles) N_MAPS_PERGROUP
    else exchange_step
  let q ← (if small_map then cdiv _n_out_pix_tiles exchange_step else pure 0)
  let _n_out_pix_tiles : Int := if small_map then q * exchange_step else _n_out_pix_tiles
  let N_MAPS_PERGROUP := min N_MAPS_PERGROUP n_input_scaled
  let n_in_loop ← cdiv (int32 (n_input_scaled + N_MAPS_PERGROUP - 1)) N_MAPS_PERGROUP
  let _n_stacks := min s._batch_sz s._n_stacks
  let n_out_tiles_pergroup := _n_out_pix_tiles * _n_stacks
  let qb ← cdiv s._batch_sz _n_stacks
  let batch_aligned : Int := if qb * _n_stacks = s._batch_sz then 1 else 0
  let qo ← cdiv s._n_outputs _n_out_pix_tiles
  let output_aligned : Int := if qo * _n_out_pix_tiles = s._n_outputs then 1 else 0
  let _comp_options : CString := List.flatten [
    optD " -D MLO_DIR_FORWARD=" s._direction,
    optD " -D MLO_FILTER_PAD1=" s._pad1,
    optD " -D MLO_N_OUTPUTS=" s._n_outputs,
    optD " -D MLO_N_INPUTS=" s._n_inputs,
    optD " -D MLO_BATCH_SZ=" s._batch_sz,
    optD " -D MLO_OUT_BATCH_STRIDE=" s._out_batch_stride,
    optD " -D MLO_OUT_CHANNEL_STRIDE=" s._out_channel_stride,
    optD " -D MLO_OUT_STRIDE=" s._out_stride,
    optD " -D MLO_IN_BATCH_STRIDE=" s._in_batch_stride,
    optD " -D MLO_IN_CHANNEL_STRIDE=" s._in_channel_stride,
    optD " -D MLO_IN_STRIDE=" s._in_stride,
    optD " -D MLO_WEI_BSTRIDE=" wei_bstride,
    optD " -D MLO_WEI_CHANNEL_STRIDE=" wei_cstride,
    optD " -D MLO_GRP_SZ0=" GRP_SZ,
    optD " -D MLO_MAP_SZ4=" MAP_SZ4,
    optD " -D MLO_C1x1_PIXLEFT=" C1x1_PIXLEFT,
    optD " -D MLO_DIVBY4=" DIVBY4,
    optD " -D MLO_IN_LOOP=" n_in_loop,
    optD " -D MLO_N_LCL_BATCHS=" _n_stacks,
    optD " -D MLO_N_LCL_OUT_MAPS=" _n_out_pix_tiles,
    optD " -D MLO_N_OUT_TILES_PERGROUP=" n_out_tiles_pergroup,
    optD " -D MLO_N_LCL_IN_MAPS=" _n_in_data_tiles,
    optD " -D MLO_N_MAPS_PERGROUP=" N_MAPS_PERGROUP,
    optD " -D MLO_CONV_BIAS=" s._bias,
    optD " -D MLO_BATCH_ALIGNED=" batch_aligned,
    optD " -D MLO_OUTPUTS_ALIGNED=" output_aligned,
    optD " -D MLO_EXCHANGE_STEP=" exchange_step,
    getGeneralCompOptions s]
  let _l_wk : List Int := [size_t s._grp_tile0, size_t s._grp_tile1, size_t 1]
  let qg ← (if GRP_SZ < MAP_SZ4 then cdiv (int32 (MAP_SZ4 + GRP_SZ - 1)) GRP_SZ else pure 0)
  let gbl_wk0 : Int := size_t (if GRP_SZ < MAP_SZ4 then int32 (qg * GRP_SZ) else GRP_SZ)
  let gbl_wk1 :=
    size_t (← cdiv (int32 (s._n_outputs + _n_out_pix_tiles - 1)) _n_out_pix_tiles)
  let gbl_wk2 := size_t (← cdiv (int32 (s._batch_sz + _n_stacks - 1)) _n_stacks)
  let _g_wk : List Int := [gbl_wk0, gbl_wk1, gbl_wk2]
  let _n_in_data_tiles : Int := if small_map then exchange_step else _n_in_data_tiles
  pure (ret, { s with
    _hw_wave_sz := _hw_wave_sz, _dev_local_mem_sz := _dev_local_mem_sz,
    _in_tile0 := _in_tile0, _in_tile1 := _in_tile1,
    _out_pix_tile0 := _out_pix_tile0, _out_pix_tile1 := _out_pix_tile1,
    _n_in_data_tiles := _n_in_data_tiles, _n_out_pix_tiles := _n_out_pix_tiles,
    _n_stacks := _n_stacks, _comp_options := _comp_options,
    _l_wk := _l_wk, _g_wk := _g_wk,
    _kernel_file := "MLOpenConv1x1PS.cl".toList,
    _kernel_name := "MLOpenConv1x1PS".toList })

/-- `mloConstructDirect2DFwdC`: the tiled strategy for small or unaligned outputs. The
local names that start with `_` are the values of the fields of the same name. -/
def mloConstructDirect2DFwdC (dev : Device) (s : mlo_construct_direct2D) :
    Except Fault (Int × mlo_construct_direct2D) := do
  let ret : Int := 0
  if s._kernel_size0 = 1 ∧ s._kernel_size1 = 1 then
    mloConstructDirect2D1x1 dev s
  else
    let _hw_wave_sz : Int := 64
    let _dev_local_mem_sz : Int := dev.local_mem_size
    let _pad0 : Int := if s._direction = 0 then s._kernel_size0 - 1 - s._pad0 else s._pad0
    let _pad1 : Int := if s._direction = 0 then s._kernel_size1 - 1 - s._pad1 else s._pad1
    let in_tile0 := min s._out_width s._in_tile0
    let in_tile1 := min s._out_height s._in_tile1
    let alu_tile0 ← cdiv (in_tile0 + s._out_pix_tile0 - 1) s._out_pix_tile0
    let alu_tile1 ← cdiv (in_tile1 + s._out_pix_tile1 - 1) s._out_pix_tile1
    let alu_tiles_sz := alu_tile0 * alu_tile1
    if alu_tiles_sz > s._grp_tile0 * s._grp_tile1 then
      pure (-1, { s with _hw_wave_sz := _hw_wave_sz, _dev_local_mem_sz := _dev_local_mem_sz,
                         _pad0 := _pad0, _pad1 := _pad1 })
    else
      let q ← cdiv (s._grp_tile0 * s._grp_tile1) alu_tiles_sz
      let n_real_alus := max 1 q * alu_tiles_sz
      let _n_in_data_tiles := min s._n_inputs s._n_in_data_tiles
      let _n_out_pix_tiles := min s._n_outputs s._n_out_pix_tiles
      let n_read := n_read_procs s._grp_tile1 s._grp_tile0 in_tile1 in_tile0
      let n_out_tile_blocks0 ← cdiv (int32 (s._out_width + in_tile0 - 1)) in_tile0
      let n_out_tile_blocks1 ← cdiv (int32 (s._out_height + in_tile1 - 1)) in_tile1
      let n_alu_tiles ← cdiv n_real_alus alu_tiles_sz
      let _n_stacks := min s._batch_sz s._n_stacks
      let n_alu_tiles_perstack := max 1 (← cdiv n_alu_tiles _n_stacks)
      let _n_stacks := min (max 1 (← cdiv n_alu_tiles n_alu_tiles_perstack)) _n_stacks
      let n_real_alus := n_alu_tiles_perstack * _n_stacks * alu_tiles_sz
      let n_out_tiles_perstack := n_alu_tiles_perstack * _n_out_pix_tiles
      let n_out_tiles_perstack := min n_out_tiles_perstack s._n_outputs
      let _in_tile0 := in_tile0
      let _in_tile1 := in_tile1
      let _comp_options : CString := List.flatten [
        optD " -D MLO_HW_WAVE_SZ=" _hw_wave_sz,
        optD " -D MLO_DIR_FORWARD=" s._direction,
        optD " -D MLO_FILTER_SIZE0=" s._kernel_size0,
        optD " -D MLO_FILTER_SIZE1=" s._kernel_size1,
        optD " -D MLO_FILTER_PAD0=" _pad0,
        optD " -D MLO_FILTER_PAD1=" _pad1,
        optD " -D MLO_N_OUTPUTS=" s._n_outputs,
        optD " -D MLO_N_INPUTS=" s._n_inputs,
        optD " -D MLO_BATCH_SZ=" s._batch_sz,
        optD " -D MLO_OUT_WIDTH=" s._out_width,
        optD " -D MLO_OUT_HEIGHT=" s._out_height,
        optD " -D MLO_OUT_BATCH_STRIDE=" s._out_batch_stride,
        optD " -D MLO_OUT_CHANNEL_STRIDE=" s._out_channel_stride,
        optD " -D MLO_OUT_STRIDE=" s._out_stride,
        optD " -D MLO_IN_WIDTH=" s._in_width,
        optD " -D MLO_IN_HEIGHT=" s._in_height,
        optD " -D MLO_IN_BATCH_STRIDE=" s._in_batch_stride,
        optD " -D MLO_IN_CHANNEL_STRIDE=" s._in_channel_stride,
        optD " -D MLO_IN_STRIDE=" s._in_stride,
        optD " -D MLO_IN_TILE0=" _in_tile0,
        optD " -D MLO_IN_TILE1=" _in_tile1,
        optD " -D MLO_OUT_TILE0=" _in_tile0,
        optD " -D MLO_OUT_TILE1=" _in_tile1,
        optD " -D MLO_GRP_TILE0=" s._grp_tile0,
        optD " -D MLO_GRP_TILE1=" s._grp_tile1,
        optD " -D MLO_ACTIVE_ALUS=" n_real_alus,
        optD " -D MLO_N_ALUTILES_PERSTACK=" n_alu_tiles_perstack,
        optD " -D MLO_OUT_PIX_TILE0=" s._out_pix_tile0,
        optD " -D MLO_OUT_PIX_TILE1=" s._out_pix_tile1,
        optD " -D MLO_N_STACKS=" _n_stacks,
        optD " -D MLO_N_OUT_TILES=" _n_out_pix_tiles,
        optD " -D MLO_N_OUT_TILES_PERSTACK=" n_out_tiles_perstack,
        optD " -D MLO_N_IN_TILES_PERSTACK=" _n_in_data_tiles,
        optD " -D MLO_N_READ_PROCS=" n_read,
        optD " -D MLO_CONV_BIAS=" s._bias,
        optD " -D MLO_ALU_VTILE0=" alu_tile0,
        optD " -D MLO_ALU_VTILE1=" alu_tile1,
        getGeneralCompOptions s]
      let l_wk0 := size_t (int32 (s._grp_tile1 * s._grp_tile0))
      let _l_wk : List Int := [l_wk0, size_t 1, size_t 1]
      let gbl_wk0 := size_t (size_t (int32 (n_out_tile_blocks0 * n_out_tile_blocks1)) * l_wk0)
      let gbl_wk1 :=
        size_t (← cdiv (int32 (s._n_outputs + n_out_tiles_perstack - 1)) n_out_tiles_perstack)
      let gbl_wk2 := size_t (← cdiv (int32 (s._batch_sz + _n_stacks - 1)) _n_stacks)
      let _g_wk : List Int := [gbl_wk0, gbl_wk1, gbl_wk2]
      pure (ret, { s with
        _hw_wave_sz := _hw_wave_sz, _dev_local_mem_sz := _dev_local_mem_sz,
        _pad0 := _pad0, _pad1 := _pad1,
        _n_in_data_tiles := _n_in_data_tiles, _n_out_pix_tiles := _n_out_pix_tiles,
        _n_stacks := _n_stacks, _in_tile0 := _in_tile0, _in_tile1 := _in_tile1,
        _comp_options := _comp_options, _l_wk := _l_wk, _g_wk := _g_wk,
        _kernel_file := "MLOpenConvDirUniC.cl".toList,
        _kernel_name := "MLOpenConvUniC".toList })

/-- `mloConstructDirect2DFwd`: constructs the configuration stored in the tiling fields,
by the 1x1 strategy, the strategy C or the default tiled strategy. The local names that
start with `_` are the values of the fields of the same name. -/
def mloConstructDirect2DFwd (dev : Device) (s : mlo_construct_direct2D) :
    Except Fault (Int × mlo_construct_direct2D) := do
  let ret : Int := 0
  if s._kernel_size0 = 1 ∧ s._kernel_size1 = 1 then
    mloConstructDirect2D1x1 dev s
  else if unalignedOut s then
    mloConstructDirect2DFwdC dev s
  else
    let _hw_wave_sz : Int := 64
    let _dev_local_mem_sz : Int := dev.local_mem_size
    let _pad0 : Int := if s._direction = 0 then s._kernel_size0 - 1 - s._pad0 else s._pad0
    let _pad1 : Int := if s._direction = 0 then s._kernel_size1 - 1 - s._pad1 else s._pad1
    let _n_in_data_tiles := min s._n_inputs s._n_in_data_tiles
    let _n_out_pix_tiles := min s._n_outputs s._n_out_pix_tiles
    let alu_tile0 ← cdiv (s._in_tile0 + s._out_pix_tile0 - 1) s._out_pix_tile0
    let alu_tile1 ← cdiv (s._in_tile1 + s._out_pix_tile1 - 1) s._out_pix_tile1
    let alu_tiles_sz := alu_tile0 * alu_tile1
    if alu_tiles_sz > 256 then
      pure (-1, { s with _hw_wave_sz := _hw_wave_sz, _dev_local_mem_sz := _dev_local_mem_sz,
                         _pad0 := _pad0, _pad1 := _pad1,
                         _n_in_data_tiles := _n_in_data_tiles,
                         _n_out_pix_tiles := _n_out_pix_tiles })
    else
      let n_alus_total := s._grp_tile0 * s._grp_tile1
      let _n_stacks := min s._n_stacks (← cdiv (n_alus_total + alu_tiles_sz - 1) alu_tiles_sz)
      let _n_stacks := min s._batch_sz _n_stacks
      let n_alus_perstack ← cdiv (n_alus_total + _n_stacks - 1) _n_stacks
      let n_read := n_read_procs s._grp_tile1 s._grp_tile0 s._in_tile1 s._in_tile0
      let n_out_tile_blocks0 ← cdiv (int32 (s._out_width + s._in_tile0 - 1)) s._in_tile0
      let n_out_tile_blocks1 ← cdiv (int32 (s._out_height + s._in_tile1 - 1)) s._in_tile1
      let n_alu_tiles_perstack ← cdiv (n_alus_perstack + alu_tiles_sz - 1) alu_tiles_sz
      let n_out_tiles_perstack := n_alu_tiles_perstack * _n_out_pix_tiles
      let n_out_tiles_perstack := min n_out_tiles_perstack s._n_outputs
      let _comp_options : CString := List.flatten [
        optD " -D MLO_HW_WAVE_SZ=" _hw_wave_sz,
        optD " -D MLO_DIR_FORWARD=" s._direction,
        optD " -D MLO_FILTER_SIZE0=" s._kernel_size0,
        optD " -D MLO_FILTER_SIZE1=" s._kernel_size1,
        optD " -D MLO_FILTER_PAD0=" _pad0,
        optD " -D MLO_FILTER_PAD1=" _pad1,
        optD " -D MLO_N_OUTPUTS=" s._n_outputs,
        optD " -D MLO_N_INPUTS=" s._n_inputs,
        optD " -D MLO_BATCH_SZ=" s._batch_sz,
        optD " -D MLO_OUT_WIDTH=" s._out_width,
        optD " -D MLO_OUT_HEIGHT=" s._out_height,
        optD " -D MLO_OUT_BATCH_STRIDE=" s._out_batch_stride,
        optD " -D MLO_OUT_CHANNEL_STRIDE=" s._out_channel_stride,
        optD " -D MLO_OUT_STRIDE=" s._out_stride,
        optD " -D MLO_IN_WIDTH=" s._in_width,
        optD " -D MLO_IN_HEIGHT=" s._in_height,
        optD " -D MLO_IN_BATCH_STRIDE=" s._in_batch_stride,
        optD " -D MLO_IN_CHANNEL_STRIDE=" s._in_channel_stride,
        optD " -D MLO_IN_STRIDE=" s._in_stride,
        optD " -D MLO_IN_TILE0=" s._in_tile0,
        optD " -D MLO_IN_TILE1=" s._in_tile1,
        optD " -D MLO_GRP_TILE0=" s._grp_tile0,
        optD " -D MLO_GRP_TILE1=" s._grp_tile1,
        optD " -D MLO_OUT_TILE0=" s._out_pix_tile0,
        optD " -D MLO_OUT_TILE1=" s._out_pix_tile1,
        optD " -D MLO_N_STACKS=" _n_stacks,
        optD " -D MLO_N_OUT_TILES=" _n_out_pix_tiles,
        optD " -D MLO_N_OUT_TILES_PERSTACK=" n_out_tiles_perstack,
        optD " -D MLO_N_IN_TILES_PERSTACK=" _n_in_data_tiles,
        optD " -D MLO_N_READ_PROCS=" n_read,
        optD " -D MLO_CONV_BIAS=" s._bias,
        optD " -D MLO_ALU_VTILE0=" alu_tile0,
        optD " -D MLO_ALU_VTILE1=" alu_tile1,
        getGeneralCompOptions s]
      let l_wk0 := size_t (int32 (s._grp_tile1 * s._grp_tile0))
      let _l_wk : List Int := [l_wk0, size_t 1, size_t 1]
      let gbl_wk0 := size_t (int32 (n_out_tile_blocks0 * n_out_tile_blocks1))
      let gbl_wk1 :=
        size_t (← cdiv (int32 (s._n_outputs + n_out_tiles_perstack - 1)) n_out_tiles_perstack)
      let gbl_wk2 := size_t (← cdiv (int32 (s._batch_sz + _n_stacks - 1)) _n_stacks)
      let _g_wk : List Int := [size_t (gbl_wk0 * l_wk0), gbl_wk1, gbl_wk2]
      pure (ret, { s with
        _hw_wave_sz := _hw_wave_sz, _dev_local_mem_sz := _dev_local_mem_sz,
        _pad0 := _pad0, _pad1 := _pad1,
        _n_in_data_tiles := _n_in_data_tiles, _n_out_pix_tiles := _n_out_pix_tiles,
        _n_stacks := _n_stacks,
        _comp_options := _comp_options, _l_wk := _l_wk, _g_wk := _g_wk,
        _kernel_file := "MLOpenConvDirUni.cl".toList,
        _kernel_name := "MLOpenConvUni".toList })

/-- `mloConstructDirect2DFwdGen`: the generic forward strategy. The disabled `#if 0` block
is left out. `_g_wk` is not cleared before the three values are pushed. -/
def mloConstructDirect2DFwdGen (s : mlo_construct_direct2D) :
    Except Fault (Int × mlo_construct_direct2D) := do
  let ocl_group_sz0 : Int := if s._gen then 8 else 16
  let ocl_group_sz1 : Int := if s._gen then 8 else 16
  let ocl_group_sz2 : Int := 1
  let n_ins0 : Int := 1
  let n_ins1 : Int := 1
  let n_ins := n_ins0 * n_ins1
  let n_outs : Int := if s._gen then (if s._kernel_size1 ≤ 7 then 14 else 8) else 14
  let n_out_pix_horiz : Int := 2
  let n_out_pix_vert : Int :=
    if s._gen then (if s._kernel_stride1 < 4 ∧ s._kernel_size1 < 7 then 2 else 1) else 2
  let n_outs := min n_outs s._n_outputs
  let n_in_pix_horiz := n_out_pix_horiz
  let n_in_pix_vert := n_out_pix_vert
  let n_v_proc0 ← cdiv (int32 (s._out_width + n_out_pix_horiz - 1)) n_out_pix_horiz
  let n_v_proc1 ← cdiv (int32 (s._out_height + n_out_pix_vert - 1)) n_out_pix_vert
  let qb ← cdiv s._batch_sz n_ins
  let batch_aligned : Int := if qb * n_ins = s._batch_sz then 1 else 0
  let qo ← cdiv s._n_outputs n_outs
  let out_aligned : Int := if qo * n_outs = s._n_outputs then 1 else 0
  let big : Int :=
    if ocl_group_sz0 * n_in_pix_horiz < s._in_width ∨ ocl_group_sz1 * n_in_pix_vert < s._in_height
    then 1 else 0
  let n_procs0 ← cdiv ocl_group_sz0 n_ins0
  let n_procs1 ← cdiv ocl_group_sz1 n_ins1
  let in_sz0 := int32 ((n_procs0 * n_out_pix_horiz - 1) * s._kernel_stride0 + 1)
  let in_sz1 := int32 ((n_procs1 * n_out_pix_vert - 1) * s._kernel_stride1 + 1)
  let n_out_blocks ← cdiv (int32 (s._n_outputs + n_outs - 1)) n_outs
  let n_stack_blocks ← cdiv (int32 (s._batch_sz + n_ins - 1)) n_ins
  let gbl0 := int32 (n_ins0 * (← cdiv (int32 (n_v_proc0 + n_procs0 - 1)) n_procs0) * n_procs0)
  let gbl1 := int32 (n_ins1 * (← cdiv (int32 (n_v_proc1 + n_procs1 - 1)) n_procs1) * n_procs1)
  let gbl2 := int32 (n_out_blocks * n_stack_blocks)
  let aligned_out : Int :=
    if gbl0 ≠ int32 (n_ins0 * n_v_proc0) ∨ gbl1 ≠ int32 (n_ins1 * n_v_proc1) then 0 else 1
  let bias := s._bias
  let _comp_options : CString := List.flatten [
    optD "-D MLO_GRP_SZ=" (ocl_group_sz0 * ocl_group_sz1 * ocl_group_sz2),
    optD " -D MLO_GRP_SZ0=" ocl_group_sz0,
    optD " -D MLO_GRP_SZ1=" ocl_group_sz1,
    optD " -D MLO_GRP_SZ2=" ocl_group_sz2,
    optD " -D MLO_LCL_N_IN_CHNLS=" n_ins,
    optD " -D MLO_LCL_N_OUT_CHNLS=" n_outs,
    optD " -D MLO_BATCH_SZ=" s._batch_sz,
    optD " -D MLO_FLTR_SZ0=" s._kernel_size0,
    optD " -D MLO_FLTR_PAD_SZ0=" s._pad0,
    optD " -D MLO_FLTR_STRIDE0=" s._kernel_stride0,
    optD " -D MLO_FLTR_SZ1=" s._kernel_size1,
    optD " -D MLO_FLTR_PAD_SZ1=" s._pad1,
    optD " -D MLO_FLTR_STRIDE1=" s._kernel_stride1,
    optD " -D MLO_N_OUT_CHNLS=" s._n_outputs,
    optD " -D MLO_OUT_WIDTH=" s._out_width,
    optD " -D MLO_OUT_HEIGHT=" s._out_height,
    optD " -D MLO_OUT_STRIDE=" s._out_stride,
    optD " -D MLO_OUT_CHNL_STRIDE=" s._out_channel_stride,
    optD " -D MLO_OUT_BATCH_STRIDE=" s._out_batch_stride,
    optD " -D MLO_N_OUT_PIX_SZ0=" n_out_pix_horiz,
    optD " -D MLO_N_OUT_PIX_SZ1=" n_out_pix_vert,
    optD " -D MLO_N_IN_CHNLS=" s._n_inputs,
    optD " -D MLO_IN_WIDTH=" s._in_width,
    optD " -D MLO_IN_HEIGHT=" s._in_height,
    optD " -D MLO_IN_STRIDE=" s._in_stride,
    optD " -D MLO_IN_CHNL_STRIDE=" s._in_channel_stride,
    optD " -D MLO_IN_BATCH_STRIDE=" s._in_batch_stride,
    optD " -D MLO_N_IN_PIX_SZ0=" n_in_pix_horiz,
    optD " -D MLO_N_IN_PIX_SZ1=" n_in_pix_vert,
    optD " -D MLO_WEI_SZ="
      (int32 (s._n_outputs * s._n_inputs * s._kernel_size0 * s._kernel_size1)),
    optD " -D MLO_WEIGHTS_STRIDE=" (int32 (s._n_inputs * s._kernel_size0 * s._kernel_size1)),
    optD " -D MLO_N_STACKS=" n_stack_blocks,
    optD " -D MLO_N_PROCS0=" n_procs0,
    optD " -D MLO_N_PROCS1=" n_procs1,
    optD " -D MLO_ALIGNED=" aligned_out,
    optD " -D MLO_BATCH_ALIGNED=" batch_aligned,
    optD " -D MLO_OUT_ALINED=" out_aligned,
    optD " -D MLO_IN_SZ0=" in_sz0,
    optD " -D MLO_IN_SZ1=" in_sz1,
    optD " -D MLO_BIG=" big,
    optD " -D MLO_CONV_BIAS=" bias,
    getGeneralCompOptions s]
  pure (0, { s with
    _comp_options := _comp_options,
    _kernel_file := "MlOpenConvDirGenFwd.cl".toList,
    _kernel_name := "MLOpenCDFGen".toList,
    _l_wk := [size_t ocl_group_sz0, size_t ocl_group_sz1, size_t ocl_group_sz2],
    _g_wk := s._g_wk ++ [size_t gbl0, size_t gbl1, size_t gbl2] })

/-! ## Request log and configuration database -/

/-- `mloAddConfigReq`: appends the key to the request log unless it is already there. -/
def mloAddConfigReq (files : Files) (conf_key : CString) : Files :=
  let (found, req_conf_db, _) := mloFindConfigReq files.req_db conf_key []
  if !found then
    { files with req_db := mloUpdateDb (req_conf_db ++ [conf_key]) }
  else files

/-- `mloRemoveConfigReq`: erases the first entry equal to the key from the request log. -/
def mloRemoveConfigReq (files : Files) (conf_key : CString) : Files :=
  let (found, req_conf_db, it) := mloFindConfigReq files.req_db conf_key []
  if found then
    { files with req_db := mloUpdateDb (req_conf_db.eraseIdx it) }
  else files

/-- Body of the loop of `mloReadConfigDB`: the line is tokenized on the space and
`conf_db[v_key_val[0]] = v_key_val[1]` is executed. -/
def readConfigLine (conf_db : StdMap) (it : CString) : Except Fault StdMap := do
  let v_key_val := tokenize it [] [' ']
  let val ← vecAt v_key_val 1
  let key ← vecAt v_key_val 0
  pure (conf_db.set key val)

/-- `mloReadConfigDB`: reads the lines of the database file and enters each of them in
`conf_db`. -/
def mloReadConfigDB (files : Files) (conf_db : StdMap) : Except Fault StdMap :=
  let db := mloReadDb files.conf_db []
  db.foldlM readConfigLine conf_db

/-- `mloWriteConfigDB`: every entry becomes `key value\n`, and the entries are written by
`mloUpdateDb`. -/
def mloWriteConfigDB (files : Files) (conf_db : StdMap) : Files :=
  let db := conf_db.map (fun it => it.1 ++ [' '] ++ it.2 ++ ['\n'])
  { files with conf_db := mloUpdateDb db }

/-- `mloAddConfig`: reads the database, sets the key, writes the database back and removes
the key from the request log. -/
def mloAddConfig (files : Files) (conf_key conf_val : CString) : Except Fault Files := do
  let conf_db ← mloReadConfigDB files []
  let conf_db := conf_db.set conf_key conf_val
  let files := mloWriteConfigDB files conf_db
  pure (mloRemoveConfigReq files conf_key)

/-- `mloSearchConfigInDB`: reads the database and looks the key of the shape up. Returns
`known_config`, `conf_key` and `conf_val`. -/
def mloSearchConfigInDB (files : Files) (s : mlo_construct_direct2D) (conf_val : CString) :
    Except Fault (Bool × CString × CString) := do
  let conf_db ← mloReadConfigDB files []
  let conf_key := mloBuildConf_Key s
  let (known_config, conf_val) := mloSearchConfigDB conf_db conf_key conf_val
  pure (known_config, conf_key, conf_val)

/-- `mloGetConfig`: sets the known configuration of the shape, or the default one; an
unknown shape is added to the request log when `_save_srch_req` is set. -/
def mloGetConfig (files : Files) (s : mlo_construct_direct2D) :
    Except Fault (Bool × mlo_construct_direct2D × Files) := do
  let (known_config, conf_key, conf_val) ← mloSearchConfigInDB files s []
  if known_config then
    let s ← mloSetConf s conf_val
    pure (known_config, s, files)
  else
    let (s, _) ← mloSelectDefaultConfig s
    if s._save_srch_req then
      pure (known_config, s, mloAddConfigReq files conf_key)
    else
      pure (known_config, s, files)

/-! ## Measurement and search -/

/-- `CL_MAXFLOAT`, the largest finite `float`: (2 - 2^-23) * 2^127. -/
def CL_MAXFLOAT : ℚ := 340282346638528859811704183484516925440

/-- The device side of a measurement, which is outside the code at hand: building the
program and running the kernel described by the object either throws (`none`) or yields
the elapsed time. The first argument is the number of measurements made before in the same
search, so that a time may be given per candidate index as well as per kernel. -/
abbrev Measurement := Nat → mlo_construct_direct2D → Option ℚ

/-- `mloMeasuredLoop`: constructs the current configuration, then builds and runs the
kernel. Returns `ret`, the object and `processing_time`; times are exact rationals. -/
def mloMeasuredLoop (dev : Device) (run : mlo_construct_direct2D → Option ℚ)
    (s : mlo_construct_direct2D) (processing_time : ℚ) :
    Except Fault (Int × mlo_construct_direct2D × ℚ) := do
  let (ret, s) ← mloConstructDirect2DFwd dev s
  if ret ≠ 0 then
    pure (ret, s, processing_time)
  else
    match run s with
    | none => pure (-1, s, processing_time)
    | some t => pure (ret, s, t)

/-- `for (x = lo; x < hi; ++x)`: the values taken by `x`. -/
def loopRange (lo hi : Int) : List Int :=
  (List.range (hi - lo).toNat).map (fun i => lo + (i : Int))

/-- Read of a C array of `int` (all reads of the search are within bounds). -/
def arrAt (a : List Int) (i : Int) : Int := a.getD i.toNat 0

/-- `static_cast<int>(ceil(sqrt(static_cast<float>(e))))` for `e >= 0`: the least `n` with
`e <= n * n` (exact for the values that occur, which are at most 16). -/
def ceil_sqrt (e : Int) : Int :=
  (((List.range (e.toNat + 1)).find? (fun n => decide (e.toNat ≤ n * n))).getD 0 : Nat)

/-- One measurement that succeeded: the candidate as enumerated, the tiling fields as the
measurement left them, and the time. -/
structure Measured where
  candidate : Tiling
  measured : Tiling
  time : ℚ
  deriving DecidableEq

/-- The locals of `mloSearchDirect2D` that are fixed before the loops start. -/
structure SearchSpace where
  grp_tl_ln : List Int
  tile_sz : List Int
  tile_sz1 : List Int
  tile_sz0 : List Int
  out_pix_tile_sz : List Int
  n_out_tiles_rg : List Int
  n_in_stacks_sz : List Int
  n_grp_tiles1 : Int
  n_grp_tiles0 : Int
  out_pix_tl_cnt : Int
  stack_cnt : Int
  n_tile0_sz : Int
  n_tile1_sz : Int
  unaligned : Bool
  report_inteval : Int
  deriving DecidableEq

/-- The locals of `mloSearchDirect2D` that change while the loops run, and the object.
`n_calls`, `log` and `calls` are not in the code: they count the calls of
`mloMeasuredLoop`, record the measurements that succeeded, in order, and record the nine
tiling fields of the object at each call of `mloMeasuredLoop`, in order; they are never
read by the search. -/
structure SearchState where
  obj : mlo_construct_direct2D
  min : Tiling
  min_proc_time : ℚ
  processing_time : ℚ
  n_in_tiles_rg0 : Int
  n_in_tiles_rg1 : Int
  runs_left : Int
  run_counter : Int
  ret : Int
  n_calls : Nat
  log : List Measured
  calls : List Tiling := []
  deriving DecidableEq

/-- `runs_left--; runs_left = (runs_left < 0) ? 0 : runs_left;` -/
def countRun (st : SearchState) : SearchState :=
  { st with runs_left := if st.runs_left - 1 < 0 then 0 else st.runs_left - 1 }

/-- The kernel is 1x1. -/
def is1x1 (s : mlo_construct_direct2D) : Bool :=
  decide (s._kernel_size0 = 1 ∧ s._kernel_size1 = 1)

/-- The set-up of the search space: the tables and counts before the loops, the initial
`n_in_tiles_rg` and the initial `runs_left`. -/
def searchSetup (s : mlo_construct_direct2D) : SearchSpace × (Int × Int) × Int :=
  let grp_tl_ln : List Int := [8, 16, 0, 0]
  let tile_sz : List Int := [8, 16, 32]
  let tile_sz1 : List Int := [8, 16, 32]
  let tile_sz0 : List Int := [8, 16, 32]
  let out_pix_tile_sz : List Int := [1, 2, 4]
  let n_out_tiles_rg : List Int := [1, 8]
  let n_in_tiles_rg : Int × Int := (1, 4)
  let n_in_stacks_sz : List Int := [1, 2, 4]
  let n_grp_tiles1 : Int := 2
  let n_grp_tiles0 : Int := 2
  let out_pix_tl_cnt : Int := 3
  let n_out_tls : Int := arrAt n_out_tiles_rg 1
  let stack_cnt : Int := 2
  let n_tile0_sz : Int := 3
  let n_tile1_sz : Int := 3
  let n_out_tls := min s._n_outputs n_out_tls
  -- width
  let (n_tile0_sz, tile_sz0, n_in_tiles_rg) :=
    if s._in_width ≤ 8 then (1, tile_sz0, (n_in_tiles_rg.1, (16 : Int)))
    else if s._in_width ≤ 16 then (1, tile_sz0.set 0 16, (n_in_tiles_rg.1, (8 : Int)))
    else if s._in_width ≤ 32 then (2, (tile_sz0.set 0 16).set 1 32, n_in_tiles_rg)
    else (n_tile0_sz, tile_sz0, n_in_tiles_rg)
  -- height
  let (n_tile1_sz, tile_sz1, n_in_tiles_rg) :=
    if s._in_height ≤ 8 then (1, tile_sz1, (n_in_tiles_rg.1, (16 : Int)))
    else if s._in_height ≤ 16 then (1, tile_sz1.set 0 16, (n_in_tiles_rg.1, (8 : Int)))
    else if s._in_width ≤ 32 then (2, (tile_sz1.set 0 16).set 1 32, n_in_tiles_rg)
    else (n_tile1_sz, tile_sz1, n_in_tiles_rg)
  let unaligned := unalignedOut s
  let out_pix_tile_sz := if unaligned then out_pix_tile_sz.set 1 6 else out_pix_tile_sz
  let out_pix_tl_cnt := if unaligned then arrAt out_pix_tile_sz 1 else out_pix_tl_cnt
  let n_grp_tiles := n_grp_tiles1 * n_grp_tiles0
  let n_tiles_cnt := n_tile0_sz * n_tile1_sz
  let n_grp_tiles := if s._out_height > 16 ∧ s._out_width > 16 then n_grp_tiles - 1 else n_grp_tiles
  let n_tiles_cnt := if s._out_height > 16 ∧ s._out_width > 16 then n_tiles_cnt - 1 else n_tiles_cnt
  let report_inteval : Int := 100
  if is1x1 s then
    let grp_tl_ln : List Int := [64, 128, 192, 256]
    let n_grp_tiles1 : Int := 1
    let n_grp_tiles0 : Int := 4
    let tile_sz1 := tile_sz1.set 0 1
    let tile_sz0 := tile_sz0.set 0 4
    let n_tile0_sz : Int := 1
    let n_tile1_sz : Int := 1
    let n_tiles_cnt := n_tile0_sz * n_tile1_sz
    let out_pix_tile_sz := out_pix_tile_sz.set 0 (if unaligned then 0 else arrAt out_pix_tile_sz 0)
    let out_pix_tile_sz := out_pix_tile_sz.set 1 1
    let n_out_tiles_rg := n_out_tiles_rg.set 1 16
    let n_in_tiles_rg : Int × Int := (n_in_tiles_rg.1, 8)
    let stack_cnt : Int := 3
    let out_pix_tl_cnt := arrAt out_pix_tile_sz 1
    let n_out_tls := arrAt n_out_tiles_rg 1
    let n_grp_tiles := n_grp_tiles1 * n_grp_tiles0
    let report_inteval : Int := 20
    let runs_left := n_grp_tiles * n_tiles_cnt * out_pix_tl_cnt * out_pix_tl_cnt * n_out_tls
      * n_in_tiles_rg.2 * stack_cnt
    ({ grp_tl_ln := grp_tl_ln, tile_sz := tile_sz, tile_sz1 := tile_sz1, tile_sz0 := tile_sz0,
       out_pix_tile_sz := out_pix_tile_sz, n_out_tiles_rg := n_out_tiles_rg,
       n_in_stacks_sz := n_in_stacks_sz, n_grp_tiles1 := n_grp_tiles1,
       n_grp_tiles0 := n_grp_tiles0, out_pix_tl_cnt := out_pix_tl_cnt, stack_cnt := stack_cnt,
       n_tile0_sz := n_tile0_sz, n_tile1_sz := n_tile1_sz, unaligned := unaligned,
       report_inteval := report_inteval }, n_in_tiles_rg, runs_left)
  else
    let runs_left := n_grp_tiles * n_tiles_cnt * out_pix_tl_cnt * out_pix_tl_cnt * n_out_tls
      * n_in_tiles_rg.2 * stack_cnt
    ({ grp_tl_ln := grp_tl_ln, tile_sz := tile_sz, tile_sz1 := tile_sz1, tile_sz0 := tile_sz0,
       out_pix_tile_sz := out_pix_tile_sz, n_out_tiles_rg := n_out_tiles_rg,
       n_in_stacks_sz := n_in_stacks_sz, n_grp_tiles1 := n_grp_tiles1,
       n_grp_tiles0 := n_grp_tiles0, out_pix_tl_cnt := out_pix_tl_cnt, stack_cnt := stack_cnt,
       n_tile0_sz := n_tile0_sz, n_tile1_sz := n_tile1_sz, unaligned := unaligned,
       report_inteval := report_inteval }, n_in_tiles_rg, runs_left)

/-- The filter on the ALU tiles in the loop over `s`: for a kernel that is not 1x1, whether
the ALU-tile product exceeds the group size. -/
def tooManyAlus (obj : mlo_construct_direct2D) : Except Fault Bool :=
  if is1x1 obj then pure false
  else do
    let alu_tile0 := max 1 (← cdiv obj._in_tile0 obj._out_pix_tile0)
    let alu_tile1 := max 1 (← cdiv obj._in_tile1 obj._out_pix_tile1)
    let alu_tiles_sz := alu_tile0 * alu_tile1
    let n_alus_total := obj._grp_tile0 * obj._grp_tile1
    pure (decide (alu_tiles_sz > n_alus_total))

/-- The update of the minimum after a measurement that succeeded. -/
def recordRun (st : SearchState) (candidate : Tiling) : SearchState :=
  let st := { st with run_counter := st.run_counter + 1 }
  let st := countRun st
  let entry : Measured :=
    { candidate := candidate, measured := getConfigParameters st.obj,
      time := st.processing_time }
  let st := { st with log := st.log ++ [entry] }
  if st.min_proc_time > st.processing_time then
    { st with min_proc_time := st.processing_time, min := getConfigParameters st.obj }
  else st

/-- Body of the loop over `s` (stacks): the last filters, the measurement and the update
of the minimum. -/
def searchBodyS (dev : Device) (stub : Measurement) (sp : SearchSpace) (st : SearchState)
    (s : Int) : Except Fault SearchState := do
  let st := { st with obj := { st.obj with _n_stacks := arrAt sp.n_in_stacks_sz s } }
  let too_many_alus ← tooManyAlus st.obj
  if too_many_alus then
    pure (countRun st)
  else if st.obj._n_stacks > st.obj._batch_sz then
    pure (countRun st)
  else
    let candidate := getConfigParameters st.obj
    let (ret, obj, processing_time) ←
      mloMeasuredLoop dev (stub st.n_calls) st.obj st.processing_time
    let st := { st with obj := obj, ret := ret, processing_time := processing_time,
                        n_calls := st.n_calls + 1, calls := st.calls ++ [candidate] }
    if ret ≠ 0 then
      pure (countRun st)
    else
      pure (recordRun st candidate)

/-- Body of the loop over `i_t` (input data tiles). -/
def searchBodyIT (dev : Device) (stub : Measurement) (sp : SearchSpace) (st : SearchState)
    (i_t : Int) : Except Fault SearchState := do
  let st := { st with obj := { st.obj with _n_in_data_tiles := i_t } }
  if st.obj._n_inputs < st.obj._n_in_data_tiles then
    pure (countRun st)
  else
    (loopRange 0 sp.stack_cnt).foldlM (searchBodyS dev stub sp) st

/-- The block of the loop over `o_t` that, for a 1x1 kernel with a small map, sets the
range `n_in_tiles_rg` of the loop over `i_t`. -/
def searchInTilesRange (st : SearchState) : Except Fault SearchState :=
  let obj := st.obj
  if is1x1 obj then do
    let N4S : Int := 1
    let MAP_SZ4 ← cdiv (int32 (obj._in_width * obj._in_height + N4S * 4 - 1)) (N4S * 4)
    let GRP_SZ := obj._grp_tile0
    if MAP_SZ4 ≤ GRP_SZ.tdiv 2 then
      let N_MAPS_PERGROUP ← cdiv GRP_SZ MAP_SZ4
      let lcl_mem_avial : Int :=
        if obj._grp_tile0 ≤ 192 then (obj._dev_local_mem_sz.tdiv 4).tdiv 2
        else obj._dev_local_mem_sz.tdiv 4
      let exchange_step ← cdiv lcl_mem_avial (int32 (N_MAPS_PERGROUP * MAP_SZ4 * 4))
      let exchange_step := min (min exchange_step obj._n_out_pix_tiles) N_MAPS_PERGROUP
      if exchange_step < obj._n_out_pix_tiles then
        if exchange_step < 0 then .error .undefined_behaviour
        else
          let tmp_stp := ceil_sqrt exchange_step
          pure { st with n_in_tiles_rg0 := tmp_stp, n_in_tiles_rg1 := exchange_step }
      else
        pure { st with n_in_tiles_rg0 := 1, n_in_tiles_rg1 := 1 }
    else pure st
  else pure st

/-- Body of the loop over `o_t` (output pixel tiles). -/
def searchBodyOT (dev : Device) (stub : Measurement) (sp : SearchSpace) (st : SearchState)
    (o_t : Int) : Except Fault SearchState := do
  let st := { st with obj := { st.obj with _n_out_pix_tiles := o_t } }
  if st.obj._n_outputs < st.obj._n_out_pix_tiles then
    pure (countRun st)
  else
    let st ← searchInTilesRange st
    (loopRange st.n_in_tiles_rg0 (st.n_in_tiles_rg1 + 1)).foldlM (searchBodyIT dev stub sp) st

/-- Body of the loop over `l` (horizontal output pixel tile). -/
def searchBodyL (dev : Device) (stub : Measurement) (sp : SearchSpace) (st : SearchState)
    (l : Int) : Except Fault SearchState := do
  let out_pix_tile0 : Int :=
    if is1x1 st.obj then 4 else if sp.unaligned then l else arrAt sp.out_pix_tile_sz l
  let st := { st with obj := { st.obj with _out_pix_tile0 := out_pix_tile0 } }
  if st.obj._out_pix_tile0 > st.obj._in_tile0 then
    pure (countRun st)
  else
    let o_l := arrAt sp.n_out_tiles_rg 1
    (loopRange (arrAt sp.n_out_tiles_rg 0) (o_l + 1)).foldlM (searchBodyOT dev stub sp) st

/-- Body of the loop over `k` (vertical output pixel tile). -/
def searchBodyK (dev : Device) (stub : Measurement) (sp : SearchSpace) (st : SearchState)
    (k : Int) : Except Fault SearchState := do
  let out_pix_tile1 : Int := if sp.unaligned then k else arrAt sp.out_pix_tile_sz k
  let st := { st with obj := { st.obj with _out_pix_tile1 := out_pix_tile1 } }
  if st.obj._out_pix_tile1 > st.obj._in_tile1 then
    pure (countRun st)
  else
    (loopRange (if sp.unaligned then arrAt sp.out_pix_tile_sz 0 else 0) sp.out_pix_tl_cnt).foldlM
      (searchBodyL dev stub sp) st

/-- Body of the loop over `i` (horizontal input tile). -/
def searchBodyI (dev : Device) (stub : Measurement) (sp : SearchSpace) (st : SearchState)
    (i : Int) : Except Fault SearchState := do
  let st := { st with obj := { st.obj with _in_tile0 := arrAt sp.tile_sz0 i } }
  let obj := st.obj
  if int32 (obj._out_width * 2) ≤ obj._in_tile0 ∧ obj._in_tile0 > arrAt sp.tile_sz 0 then
    pure (countRun st)
  else if obj._out_height > 16 ∧ obj._out_width > 16
      ∧ ((obj._in_tile1 = 8 ∧ obj._in_tile0 = 8) ∨ (obj._grp_tile0 = 8 ∧ obj._grp_tile1 = 8)) then
    pure (countRun st)
  else if obj._out_width > 32 ∧ obj._in_tile1 > obj._in_tile0 then
    pure (countRun st)
  else
    (loopRange (if sp.unaligned then arrAt sp.out_pix_tile_sz 0 else 0) sp.out_pix_tl_cnt).foldlM
      (searchBodyK dev stub sp) st

/-- Body of the loop over `j` (vertical input tile). -/
def searchBodyJ (dev : Device) (stub : Measurement) (sp : SearchSpace) (st : SearchState)
    (j : Int) : Except Fault SearchState := do
  let st := { st with obj := { st.obj with _in_tile1 := arrAt sp.tile_sz1 j } }
  let obj := st.obj
  if int32 (obj._out_height * 2) ≤ obj._in_tile1 ∧ obj._in_tile1 > arrAt sp.tile_sz 0 then
    pure (countRun st)
  else
    (loopRange 0 sp.n_tile0_sz).foldlM (searchBodyI dev stub sp) st

/-- Body of the loop over `g0` (horizontal group size). -/
def searchBodyG0 (dev : Device) (stub : Measurement) (sp : SearchSpace) (st : SearchState)
    (g0 : Int) : Except Fault SearchState := do
  let st := { st with obj := { st.obj with _grp_tile0 := arrAt sp.grp_tl_ln g0 } }
  (loopRange 0 sp.n_tile1_sz).foldlM (searchBodyJ dev stub sp) st

/-- Body of the loop over `g1` (vertical group size). -/
def searchBodyG1 (dev : Device) (stub : Measurement) (sp : SearchSpace) (st : SearchState)
    (g1 : Int) : Except Fault SearchState := do
  let grp_tile1 : Int := if is1x1 st.obj then 1 else arrAt sp.grp_tl_ln g1
  let st := { st with obj := { st.obj with _grp_tile1 := grp_tile1 } }
  (loopRange 0 sp.n_grp_tiles0).foldlM (searchBodyG0 dev stub sp) st

/-- The result of `mloSearchDirect2D`: the returned value, the object, the files, and (not
in the code) the number of measurements made, the measurements that succeeded and the
tiling fields at each call of `mloMeasuredLoop`. -/
structure SearchResult where
  ret : Int
  obj : mlo_construct_direct2D
  files : Files
  n_calls : Nat
  log : List Measured
  calls : List Tiling := []
  deriving DecidableEq

/-- The search loop of `mloSearchDirect2D` (`#if 1` block): the set-up of the search space
and the nine nested loops, started with the minimum `min` and the time `CL_MAXFLOAT`. -/
def searchLoops (dev : Device) (stub : Measurement) (s : mlo_construct_direct2D)
    (min : Tiling) : Except Fault SearchState :=
  let min_proc_time : ℚ := CL_MAXFLOAT
  let setup := searchSetup s
  let sp := setup.1
  let n_in_tiles_rg := setup.2.1
  let runs_left := setup.2.2
  let st : SearchState :=
    { obj := s, min := min, min_proc_time := min_proc_time, processing_time := 0,
      n_in_tiles_rg0 := n_in_tiles_rg.1, n_in_tiles_rg1 := n_in_tiles_rg.2,
      runs_left := runs_left, run_counter := 0, ret := 0, n_calls := 0, log := [],
      calls := [] }
  (loopRange 0 sp.n_grp_tiles1).foldlM (searchBodyG1 dev stub sp) st

/-- `mloSearchDirect2D`: unless the shape is known, measures the candidates of the search
space, stores the fastest in the database and sets it in the object. The test buffers and
their release are outside the model (the releases are taken to return `CL_SUCCESS`). -/
def mloSearchDirect2D (dev : Device) (stub : Measurement) (files : Files)
    (s : mlo_construct_direct2D) : Except Fault SearchResult := do
  let min : Tiling :=
    { grp_tile0 := 16, grp_tile1 := 16, in_tile0 := 16, in_tile1 := 16, out_pix_tile0 := 1,
      out_pix_tile1 := 1, n_out_pix_tiles := 2, n_in_data_tiles := 3, n_stacks := 1 }
  let s := { s with _hw_wave_sz := 64, _dev_local_mem_sz := dev.local_mem_size }
  let (known_config, conf_key, _) ← mloSearchConfigInDB files s []
  if !known_config then
    let st ← searchLoops dev stub s min
    let conf_val := mloBuildConf_Val st.min
    let files ← mloAddConfig files conf_key conf_val
    let obj ← mloSetConf st.obj conf_val
    pure { ret := 0, obj := obj, files := files, n_calls := st.n_calls, log := st.log,
           calls := st.calls }
  else
    pure { ret := 0, obj := s, files := files, n_calls := 0, log := [], calls := [] }

/-- `mloConstruct`: the generic forward strategy for a large kernel or a stride, a failure
for the same in the backward direction, and otherwise the known, searched or default
configuration constructed by `mloConstructDirect2DFwd`. -/
def mloConstruct (dev : Device) (stub : Measurement) (files : Files)
    (s : mlo_construct_direct2D) : Except Fault (Int × mlo_construct_direct2D × Files) := do
  let s := { s with _gen := decide (s._kernel_size0 > 11 ∨ s._kernel_size1 > 11
    ∨ s._kernel_stride0 > 1 ∨ s._kernel_stride1 > 1) }
  if s._gen ∧ getDirectcion s then
    let (ret, s) ← mloConstructDirect2DFwdGen s
    pure (ret, s, files)
  else if s._gen then
    pure (-1, s, files)
  else
    let (known_config, s, files) ← mloGetConfig files s
    let (s, files) ←
      (if !known_config then
        (if doSearch s then
          (mloSearchDirect2D dev stub files s).map (fun r => (r.obj, r.files))
         else pure (s, files))
       else pure (s, files))
    let (ret, s) ← mloConstructDirect2DFwd dev s
    pure (ret, s, files)

/-! ## Auxiliary definitions for the statements -/

/-- The tiling chosen by `mloSelectDefaultConfig`, as a function of the shape. -/
def defaultTiling (s : mlo_construct_direct2D) : Tiling :=
  if s._kernel_size0 = 1 ∧ s._kernel_size1 = 1 then
    { grp_tile1 := 1,
      grp_tile0 :=
        if (int32 (s._out_height * s._out_width + 3)).tdiv 4 > 192 then 256
        else if (int32 (s._out_height * s._out_width + 3)).tdiv 4 > 128 then 192
        else if (int32 (s._out_height * s._out_width + 3)).tdiv 4 > 64 then 128 else 64,
      in_tile1 := 1, in_tile0 := 4, out_pix_tile1 := 1, out_pix_tile0 := 4,
      n_out_pix_tiles := 16, n_in_data_tiles := 2,
      n_stacks := if s._batch_sz > 1 then 2 else 1 }
  else
    { grp_tile1 := if (if s._in_height ≤ 8 then 8 else if s._in_height ≤ 16 then 16 else 8 : Int) = 8
        then 8 else 16,
      grp_tile0 := if (if s._in_width ≤ 8 then 8 else if s._in_width ≤ 16 then 16 else 32 : Int) = 8
        then 8 else 16,
      in_tile1 := if s._in_height ≤ 8 then 8 else if s._in_height ≤ 16 then 16 else 8,
      in_tile0 := if s._in_width ≤ 8 then 8 else if s._in_width ≤ 16 then 16 else 32,
      out_pix_tile1 := 2, out_pix_tile0 := 2, n_out_pix_tiles := 8, n_in_data_tiles := 2,
      n_stacks := 1 }

/-- The part of the object that neither the construction strategies of
`mloConstructDirect2DFwd` nor the search write: the object with the fields that they write
(paddings, tiling, wave size, local memory size, kernel description) reset. Two objects
with the same `shapeOf` describe the same convolution. -/
def shapeOf (s : mlo_construct_direct2D) : mlo_construct_direct2D :=
  { s with _pad0 := 0, _pad1 := 0, _grp_tile1 := 0, _grp_tile0 := 0, _in_tile1 := 0,
           _in_tile0 := 0, _out_pix_tile1 := 0, _out_pix_tile0 := 0, _n_out_pix_tiles := 0,
           _n_in_data_tiles := 0, _n_stacks := 0, _hw_wave_sz := 0, _dev_local_mem_sz := 0,
           _comp_options := [], _l_wk := [], _g_wk := [], _kernel_file := [],
           _kernel_name := [] }

/-- The minimum kept by the search after the measurements `log`, starting from the tiling
and time `acc`: a measurement replaces the minimum when its time is strictly smaller. -/
def bestOf (acc : Tiling × ℚ) (log : List Measured) : Tiling × ℚ :=
  log.foldl (fun acc e => if acc.2 > e.time then (e.measured, e.time) else acc) acc

/-- The relation between the state of the search at two points of a run: the shape is the
same, measurements were appended to the log, and the minimum is the one kept after these
measurements. -/
def Steps (st st' : SearchState) : Prop :=
  shapeOf st'.obj = shapeOf st.obj ∧
    ∃ ext, st'.log = st.log ++ ext ∧
      (st'.min, st'.min_proc_time) = bestOf (st.min, st.min_proc_time) ext

/-- The minimum with which `mloSearchDirect2D` starts. -/
def initialMin : Tiling :=
  { grp_tile1 := 16, grp_tile0 := 16, in_tile1 := 16, in_tile0 := 16, out_pix_tile1 := 1,
    out_pix_tile0 := 1, n_out_pix_tiles := 2, n_in_data_tiles := 3, n_stacks := 1 }

/-- An object for the scenario of the forward 3x3 convolution of 3 input maps of 32x32 to
32 output maps of 30x30 with batch 100 (layout NCHW, type FP32); the tiling and the kernel
description are not set yet, the search is disabled and requests are saved. -/
def exampleShape : mlo_construct_direct2D :=
  { _direction := 1, _pad0 := 0, _pad1 := 0, _kernel_size0 := 3, _kernel_size1 := 3,
    _kernel_stride0 := 1, _kernel_stride1 := 1, _n_outputs := 32, _n_inputs := 3,
    _batch_sz := 100, _out_width := 30, _out_height := 30,
    _out_batch_stride := 28800, _out_channel_stride := 900, _out_stride := 30,
    _in_width := 32, _in_height := 32,
    _in_batch_stride := 3072, _in_channel_stride := 1024, _in_stride := 32,
    _in_layout := "NCHW".toList, _in_data_type := "FP32".toList,
    _grp_tile1 := 0, _grp_tile0 := 0, _in_tile1 := 0, _in_tile0 := 0, _out_pix_tile1 := 0,
    _out_pix_tile0 := 0, _n_out_pix_tiles := 0, _n_in_data_tiles := 0, _n_stacks := 0,
    _bias := 0, _gen := false, _search := false, _save_srch_req := true, _hw_wave_sz := 0,
    _dev_local_mem_sz := 0, _comp_options := [], _gen_comp_options := [], _l_wk := [],
    _g_wk := [], _kernel_file := [], _kernel_name := [] }

/-- An object for the smallest shape: one 1x1 input map, a 1x1 kernel, one 1x1 output map,
batch 1 (layout NCHW, type FP32, forward); the search is enabled. -/
def tinyShape : mlo_construct_direct2D :=
  { exampleShape with
    _kernel_size0 := 1, _kernel_size1 := 1, _n_outputs := 1, _n_inputs := 1, _batch_sz := 1,
    _out_width := 1, _out_height := 1, _out_batch_stride := 1, _out_channel_stride := 1,
    _out_stride := 1, _in_width := 1, _in_height := 1, _in_batch_stride := 1,
    _in_channel_stride := 1, _in_stride := 1, _search := true }

/-- An object for a small shape with a 3x3 kernel: one 3x3 input map, one 1x1 output map,
batch 1 (layout NCHW, type FP32, forward); the search is enabled. -/
def smallShape : mlo_construct_direct2D :=
  { tinyShape with
    _kernel_size0 := 3, _kernel_size1 := 3, _in_width := 3, _in_height := 3,
    _in_batch_stride := 9, _in_channel_stride := 9, _in_stride := 3 }

/-- A device with 64 KiB of local memory. -/
def exampleDevice : Device := { local_mem_size := 65536 }

/-- A measurement that gives the times 5, 3, 3, 7 to the first four candidates measured
(and 9 to any later one). -/
def exampleTimes : Measurement := fun i _ => some (([5, 3, 3, 7] : List ℚ).getD i 9)

/-- The shape has positive dimensions: the numbers of input and output maps, the batch size
and the widths and heights of the input and of the output are at least 1. -/
def positiveShape (s : mlo_construct_direct2D) : Prop :=
  1 ≤ s._n_inputs ∧ 1 ≤ s._n_outputs ∧ 1 ≤ s._batch_sz ∧ 1 ≤ s._in_width ∧ 1 ≤ s._in_height
    ∧ 1 ≤ s._out_width ∧ 1 ≤ s._out_height

instance (s : mlo_construct_direct2D) : Decidable (positiveShape s) := by
  unfold positiveShape; infer_instance

/-- The validity filters of the search loops, read on a tiling `t` for the shape of `s`: the
tile counts do not exceed the numbers of maps and the batch size; for a kernel that is not
1x1, the ALU-tile product of `tooManyAlus` does not exceed the group size; and, for a 1x1
kernel or an output taken as aligned by `unalignedOut`, the output pixel tile does not
exceed the input tile. -/
def validTiling (s : mlo_construct_direct2D) (t : Tiling) : Prop :=
  t.n_out_pix_tiles ≤ s._n_outputs ∧ t.n_in_data_tiles ≤ s._n_inputs ∧ t.n_stacks ≤ s._batch_sz
    ∧ (is1x1 s = false →
        max 1 (t.in_tile0.tdiv t.out_pix_tile0) * max 1 (t.in_tile1.tdiv t.out_pix_tile1)
          ≤ t.grp_tile0 * t.grp_tile1)
    ∧ (is1x1 s = true ∨ unalignedOut s = false →
        t.out_pix_tile1 ≤ t.in_tile1 ∧ t.out_pix_tile0 ≤ t.in_tile0)

instance (s : mlo_construct_direct2D) (t : Tiling) : Decidable (validTiling s t) := by
  unfold validTiling; infer_instance

/-- The six validity filters named for the search, without the restriction of the filter
on the output pixel tile to aligned outputs. -/
def passesAllFilters (s : mlo_construct_direct2D) (t : Tiling) : Prop :=
  t.out_pix_tile1 ≤ t.in_tile1 ∧ t.out_pix_tile0 ≤ t.in_tile0
    ∧ t.n_out_pix_tiles ≤ s._n_outputs ∧ t.n_in_data_tiles ≤ s._n_inputs
    ∧ t.n_stacks ≤ s._batch_sz
    ∧ (is1x1 s = false →
        max 1 (t.in_tile0.tdiv t.out_pix_tile0) * max 1 (t.in_tile1.tdiv t.out_pix_tile1)
          ≤ t.grp_tile0 * t.grp_tile1)

instance (s : mlo_construct_direct2D) (t : Tiling) : Decidable (passesAllFilters s t) := by
  unfold passesAllFilters; infer_instance

/-- The nine values of the tiling are between 1 and 256. -/
def Tiling.bounded (t : Tiling) : Prop :=
  (1 ≤ t.grp_tile1 ∧ t.grp_tile1 ≤ 256) ∧ (1 ≤ t.grp_tile0 ∧ t.grp_tile0 ≤ 256)
    ∧ (1 ≤ t.in_tile1 ∧ t.in_tile1 ≤ 256) ∧ (1 ≤ t.in_tile0 ∧ t.in_tile0 ≤ 256)
    ∧ (1 ≤ t.out_pix_tile1 ∧ t.out_pix_tile1 ≤ 256)
    ∧ (1 ≤ t.out_pix_tile0 ∧ t.out_pix_tile0 ≤ 256)
    ∧ (1 ≤ t.n_out_pix_tiles ∧ t.n_out_pix_tiles ≤ 256)
    ∧ (1 ≤ t.n_in_data_tiles ∧ t.n_in_data_tiles ≤ 256)
    ∧ (1 ≤ t.n_stacks ∧ t.n_stacks ≤ 256)

/-- What holds of the tiling fields of the object `s` inside the `n` outermost loops of the
search for the shape of `s0` (the loops set the fields in the order `_grp_tile1`,
`_grp_tile0`, `_in_tile1`, `_in_tile0`, `_out_pix_tile1`, `_out_pix_tile0`,
`_n_out_pix_tiles`, `_n_in_data_tiles`, `_n_stacks`). -/
def candidateInv (s0 : mlo_construct_direct2D) (n : Nat) (s : mlo_construct_direct2D) : Prop :=
  (1 ≤ n → 1 ≤ s._grp_tile1 ∧ s._grp_tile1 ≤ 256)
    ∧ (2 ≤ n → 1 ≤ s._grp_tile0 ∧ s._grp_tile0 ≤ 256)
    ∧ (3 ≤ n → 1 ≤ s._in_tile1 ∧ s._in_tile1 ≤ 32)
    ∧ (4 ≤ n → 1 ≤ s._in_tile0 ∧ s._in_tile0 ≤ 32)
    ∧ (5 ≤ n → 0 ≤ s._out_pix_tile1 ∧ s._out_pix_tile1 ≤ 5
        ∧ (is1x1 s0 = false → 1 ≤ s._out_pix_tile1)
        ∧ (is1x1 s0 = false → unalignedOut s0 = false → s._out_pix_tile1 ≤ s._in_tile1))
    ∧ (6 ≤ n → 0 ≤ s._out_pix_tile0 ∧ s._out_pix_tile0 ≤ 5
        ∧ (is1x1 s0 = false → 1 ≤ s._out_pix_tile0)
        ∧ (is1x1 s0 = false → unalignedOut s0 = false → s._out_pix_tile0 ≤ s._in_tile0))
    ∧ (7 ≤ n → 1 ≤ s._n_out_pix_tiles ∧ s._n_out_pix_tiles ≤ 16
        ∧ s._n_out_pix_tiles ≤ s0._n_outputs)
    ∧ (8 ≤ n → 1 ≤ s._n_in_data_tiles ∧ s._n_in_data_tiles ≤ 16
        ∧ s._n_in_data_tiles ≤ s0._n_inputs)
    ∧ (9 ≤ n → 1 ≤ s._n_stacks ∧ s._n_stacks ≤ 4)

/-- What holds of the state of the search for the shape of `s0` inside the `n` outermost
loops: the object has the shape of `s0`, the local memory size is the one of the device,
the range of the loop over the input data tiles is within 1 and 16, the tiling fields are
as in `candidateInv`, and every measurement of the log left a valid and bounded tiling. -/
def SearchInv (dev : Device) (s0 : mlo_construct_direct2D) (n : Nat) (st : SearchState) :
    Prop :=
  shapeOf st.obj = shapeOf s0 ∧ st.obj._dev_local_mem_sz = dev.local_mem_size
    ∧ 1 ≤ st.n_in_tiles_rg0 ∧ st.n_in_tiles_rg1 ≤ 16
    ∧ candidateInv s0 n st.obj
    ∧ ∀ e ∈ st.log, validTiling s0 e.measured ∧ e.measured.bounded

/-- The values taken by the loops of the search are as `candidateInv` needs them: the group
sizes are between 1 and 256, the input tiles between 1 and 32, the output pixel tiles
between 0 and 5 (and at least 1 unless the kernel is 1x1), the numbers of output tiles
between 1 and 16, and the numbers of stacks between 1 and 4. -/
def SearchSpace.inRange (sp : SearchSpace) (s : mlo_construct_direct2D) : Prop :=
  (∀ g ∈ loopRange 0 sp.n_grp_tiles1, 1 ≤ arrAt sp.grp_tl_ln g ∧ arrAt sp.grp_tl_ln g ≤ 256)
    ∧ (∀ g ∈ loopRange 0 sp.n_grp_tiles0, 1 ≤ arrAt sp.grp_tl_ln g ∧ arrAt sp.grp_tl_ln g ≤ 256)
    ∧ (∀ j ∈ loopRange 0 sp.n_tile1_sz, 1 ≤ arrAt sp.tile_sz1 j ∧ arrAt sp.tile_sz1 j ≤ 32)
    ∧ (∀ i ∈ loopRange 0 sp.n_tile0_sz, 1 ≤ arrAt sp.tile_sz0 i ∧ arrAt sp.tile_sz0 i ≤ 32)
    ∧ (∀ k ∈ loopRange (if sp.unaligned then arrAt sp.out_pix_tile_sz 0 else 0) sp.out_pix_tl_cnt,
        0 ≤ (if sp.unaligned then k else arrAt sp.out_pix_tile_sz k)
        ∧ (if sp.unaligned then k else arrAt sp.out_pix_tile_sz k) ≤ 5
        ∧ (is1x1 s = false → 1 ≤ (if sp.unaligned then k else arrAt sp.out_pix_tile_sz k)))
    ∧ (∀ o ∈ loopRange (arrAt sp.n_out_tiles_rg 0) (arrAt sp.n_out_tiles_rg 1 + 1),
        1 ≤ o ∧ o ≤ 16)
    ∧ (∀ n ∈ loopRange 0 sp.stack_cnt,
        1 ≤ arrAt sp.n_in_stacks_sz n ∧ arrAt sp.n_in_stacks_sz n ≤ 4)

/-- An object for a shape with a 3x3 kernel and padding 1 over one input map of width 1 and
height 12: one output map of width 1 and height 12, batch 1 (layout NCHW, type FP32,
forward); the search is enabled. -/
def columnShape : mlo_construct_direct2D :=
  { tinyShape with
    _kernel_size0 := 3, _kernel_size1 := 3, _pad0 := 1, _pad1 := 1,
    _in_width := 1, _in_height := 12, _in_batch_stride := 12, _in_channel_stride := 12,
    _in_stride := 1, _out_width := 1, _out_height := 12, _out_batch_stride := 12,
    _out_channel_stride := 12, _out_stride := 1 }

/-- A layout or data type tag as the key can hold it: free of spaces and line breaks. -/
def cleanTag (s : CString) : Prop := ' ' ∉ s ∧ '\n' ∉ s ∧ '\r' ∉ s

instance (s : CString) : Decidable (cleanTag s) := by unfold cleanTag; infer_instance

/-- The strings of the list joined by single separator characters, with nothing before the
first and nothing after the last. -/
def joinWith (sep : Char) : List CString → CString
  | [] => []
  | [f] => f
  | f :: g :: rest => f ++ sep :: joinWith sep (g :: rest)

/-- What `std::stoi` reads at the start of a field: optional white space, an optional sign,
then one or more decimal digits, not followed by a further digit; `v` is the value of the
digits, negated after `-`, and is within `int`. What follows the digits is not read. -/
def leadingInt (f : CString) (v : Int) : Prop :=
  ∃ ws sign ds rest : CString, f = ws ++ (sign ++ (ds ++ rest)) ∧
    (∀ c ∈ ws, isspace c = true) ∧ (sign = [] ∨ sign = ['-'] ∨ sign = ['+']) ∧
    ds ≠ [] ∧ (∀ c ∈ ds, c.isDigit = true) ∧ (∀ c, rest.head? = some c → c.isDigit = false) ∧
    v = (if sign = ['-'] then -(digitsValue 0 ds : Int) else (digitsValue 0 ds : Int)) ∧
    isInt v

/-- An object for the example of the format comment of the code: 32 input maps of 16x16, a
3x3 filter, 64 output maps of 16x16, batch 100 (layout NCHW, type FP32, forward). -/
def keyExampleShape : mlo_construct_direct2D :=
  { exampleShape with
    _pad0 := 1, _pad1 := 1, _n_outputs := 64, _n_inputs := 32, _out_width := 16,
    _out_height := 16, _out_batch_stride := 16384, _out_channel_stride := 256,
    _out_stride := 16, _in_width := 16, _in_height := 16, _in_batch_stride := 8192,
    _in_channel_stride := 256, _in_stride := 16 }

/-- An object for a 1x1 kernel over one input map of 46341 x 46341 pixels, with one output
map of the same size and batch 1 (the other fields as in `tinyShape`): the number of pixels,
2147488281, is above `INT_MAX`. -/
def largeMapShape : mlo_construct_direct2D :=
  { tinyShape with
    _in_width := 46341, _in_height := 46341, _in_stride := 46341,
    _out_width := 46341, _out_height := 46341, _out_stride := 46341 }

/-- An object for a shape of the generic forward strategy (3x3 kernel, stride 2) with
917504 = 14 * 65536 output maps and batch 65536: the number of blocks of output maps times
the batch size, 65536 * 65536 = 2^32, is above `INT_MAX`. -/
def manyMapsShape : mlo_construct_direct2D :=
  { exampleShape with
    _kernel_stride0 := 2, _kernel_stride1 := 2, _gen := true,
    _n_outputs := 917504, _batch_sz := 65536, _out_width := 15, _out_height := 15,
    _out_batch_stride := 206438400, _out_channel_stride := 225, _out_stride := 15 }

/-- A database that holds the key of the smallest shape with the encoded tiling
1.64.1.4.1.4.16.2.1 (and an empty request log). -/
def storedFiles : Files :=
  ⟨mloBuildConf_Key tinyShape ++ " 1.64.1.4.1.4.16.2.1\n".toList, []⟩

/-- The map read from `storedFiles`. -/
def storedMap : StdMap := [(mloBuildConf_Key tinyShape, "1.64.1.4.1.4.16.2.1".toList)]

/-- The object with the tiling of the default selector stored in its nine tiling fields. -/
def withDefaultTiling (s : mlo_construct_direct2D) : mlo_construct_direct2D :=
  setTiling s (defaultTiling s)

/-- The example of the format comment (3x3 kernel, 16 x 16 output) with its default tiling
16.16.16.16.2.2.8.2.1: constructed by the default tiled strategy. -/
def tiledObject : mlo_construct_direct2D := withDefaultTiling keyExampleShape

/-- The smallest shape (1x1 kernel) with its default tiling 1.64.1.4.1.4.16.2.1:
constructed by the 1x1 strategy. -/
def pixelObject : mlo_construct_direct2D := withDefaultTiling tinyShape

/-- The example shape (3x3 kernel, 30 x 30 output, which is not aligned) with its default
tiling 8.16.8.32.2.2.8.2.1: constructed by the strategy C. -/
def clippedObject : mlo_construct_direct2D := withDefaultTiling exampleShape

/-- The request log: the entries that `mloReadDb` reads from the request file. -/
def requestLog (files : Files) : List CString := mloReadDb files.req_db []

/-- The exact quotient `a / b` of two integers, rounded up to an integer. -/
def ceilDiv (a b : Int) : Int := ⌈(a : ℚ) / (b : ℚ)⌉

/-- The maps fit in an `int`: for a 1x1 kernel, the number of pixels of an input map plus 3,
`_in_width * _in_height + 3`, which the 1x1 strategy and the search form in `int`, is at
most `INT_MAX`, and so is the number of input maps (which is an `int` of the object). -/
def mapsFit (s : mlo_construct_direct2D) : Prop :=
  is1x1 s = true → s._in_width * s._in_height + 3 ≤ INT_MAX ∧ s._n_inputs ≤ INT_MAX

instance (s : mlo_construct_direct2D) : Decidable (mapsFit s) := by
  unfold mapsFit; infer_instance

/-- The nine tiling fields of the object are at least 1. -/
def positiveTiling (s : mlo_construct_direct2D) : Prop :=
  1 ≤ s._grp_tile1 ∧ 1 ≤ s._grp_tile0 ∧ 1 ≤ s._in_tile1 ∧ 1 ≤ s._in_tile0
    ∧ 1 ≤ s._out_pix_tile1 ∧ 1 ≤ s._out_pix_tile0 ∧ 1 ≤ s._n_out_pix_tiles
    ∧ 1 ≤ s._n_in_data_tiles ∧ 1 ≤ s._n_stacks

instance (s : mlo_construct_direct2D) : Decidable (positiveTiling s) := by
  unfold positiveTiling; infer_instance

/-- Bounds under which the sums and products in `int` from which the four construction
strategies compute the tiling fields and the local and global work sizes stay within the
range of `int`, for a shape and a tiling of positive integers: each of the nine tiling
values is at most 1024; `_in_width * _in_height + 3` (1x1 strategy), `_out_width *
_out_height` (number of output blocks of the tiled strategies) and `_n_outputs * _batch_sz`
(third work size of the generic strategy) are at most `INT_MAX`; the output width and
height, the numbers of input and output maps and the batch size are at most 2^30, so that
a rounded-up quotient `(x + d - 1) / d` with `d <= x` or `d <= 1024` can be formed. The
kernel sizes, strides and paddings are not bounded: they enter only values passed as
compiler options. -/
def intSized (s : mlo_construct_direct2D) : Prop :=
  (s._grp_tile1 ≤ 1024 ∧ s._grp_tile0 ≤ 1024 ∧ s._in_tile1 ≤ 1024 ∧ s._in_tile0 ≤ 1024
      ∧ s._out_pix_tile1 ≤ 1024 ∧ s._out_pix_tile0 ≤ 1024 ∧ s._n_out_pix_tiles ≤ 1024
      ∧ s._n_in_data_tiles ≤ 1024 ∧ s._n_stacks ≤ 1024)
    ∧ s._in_width * s._in_height + 3 ≤ INT_MAX ∧ s._out_width * s._out_height ≤ INT_MAX
    ∧ s._n_outputs * s._batch_sz ≤ INT_MAX
    ∧ s._out_width ≤ 1073741824 ∧ s._out_height ≤ 1073741824 ∧ s._n_inputs ≤ 1073741824
    ∧ s._n_outputs ≤ 1073741824 ∧ s._batch_sz ≤ 1073741824

instance (s : mlo_construct_direct2D) : Decidable (intSized s) := by
  unfold intSized; infer_instance

/-- The compiler options pass the value `v` under the name `name`: they contain the text of
the option followed by the decimal value and by the start ` -D` of the next option. -/
def hasOption (opts : CString) (name : String) (v : Int) : Prop :=
  (optD name v ++ " -D".toList) <:+: opts

/-- The geometry that a tiled strategy leaves, for an object `s'` left by a construction of
`s`: one local work size `l0`, the number `bb` of output blocks of the size of the input
tile used, the numbers `G1` and `G2` of groups of output maps and of stacks, and the number
`nps` of output tiles per stack that the options pass to the kernel. -/
def tiledGeometry (s s' : mlo_construct_direct2D) : Prop :=
  ∃ l0 bb G1 G2 nps, s'._l_wk = [l0, 1, 1] ∧ s'._g_wk = [bb * l0, G1, G2] ∧
    l0 = s._grp_tile1 * s._grp_tile0 ∧ 1 ≤ l0 ∧
    bb = ceilDiv s._out_width s'._in_tile0 * ceilDiv s._out_height s'._in_tile1 ∧ 1 ≤ bb ∧
    1 ≤ G1 ∧ 1 ≤ G2 ∧ hasOption s'._comp_options " -D MLO_N_OUT_TILES_PERSTACK=" nps ∧
    s._n_outputs ≤ G1 * nps ∧ s._batch_sz ≤ G2 * s'._n_stacks

/-- The geometry that the 1x1 strategy leaves, for an object `s'` left by a construction of
`s`: the local work sizes are the two group sizes and 1; the first global work size is a
positive multiple `k` of the first group size that covers the quarter of the input pixels,
rounded up; `G1` and `G2` are the numbers of groups of output maps and of stacks. -/
def pixelGeometry (s s' : mlo_construct_direct2D) : Prop :=
  ∃ k G1 G2, s'._l_wk = [s._grp_tile0, s._grp_tile1, 1] ∧
    s'._g_wk = [k * s._grp_tile0, G1, G2] ∧ 1 ≤ k ∧
    ceilDiv (s._in_width * s._in_height) 4 ≤ k * s._grp_tile0 ∧ 1 ≤ G1 ∧ 1 ≤ G2 ∧
    s._n_outputs ≤ G1 * s'._n_out_pix_tiles ∧ s._batch_sz ≤ G2 * s'._n_stacks

/-- The geometry that the generic forward strategy leaves, for an object `s'` left by a
construction of `s`: the local work sizes are `l`, `l` and 1; three global work sizes are
appended to those of `s`, positive multiples `k0 * l` and `k1 * l` of `l`, and `G2`; the
options pass the numbers `npv` of output rows per work item and `nouts` of output maps per
group to the kernel. -/
def genericGeometry (s s' : mlo_construct_direct2D) : Prop :=
  ∃ l k0 k1 G2 npv nouts, s'._l_wk = [l, l, 1] ∧ s'._g_wk = s._g_wk ++ [k0 * l, k1 * l, G2] ∧
    1 ≤ l ∧ 1 ≤ k0 ∧ 1 ≤ k1 ∧ 1 ≤ G2 ∧
    hasOption s'._comp_options " -D MLO_N_OUT_PIX_SZ1=" npv ∧
    hasOption s'._comp_options " -D MLO_LCL_N_OUT_CHNLS=" nouts ∧
    s._out_width ≤ k0 * l * 2 ∧ s._out_height ≤ k1 * l * npv ∧
    G2 = ceilDiv s._n_outputs nouts * s._batch_sz

/-- An object for a small generic shape: the 3x3 kernel of `smallShape` with stride 2. -/
def strideShape : mlo_construct_direct2D :=
  { smallShape with _kernel_stride0 := 2, _kernel_stride1 := 2 }

/-- The values that the loop over `j` of the search assigns to `_in_tile1`, in order: the
first `n_tile1_sz` entries of `tile_sz1`. -/
def inTile1Candidates (s : mlo_construct_direct2D) : List Int :=
  (loopRange 0 (searchSetup s).1.n_tile1_sz).map (arrAt (searchSetup s).1.tile_sz1)

/-- The values that the loop over `i` of the search assigns to `_in_tile0`, in order: the
first `n_tile0_sz` entries of `tile_sz0`. -/
def inTile0Candidates (s : mlo_construct_direct2D) : List Int :=
  (loopRange 0 (searchSetup s).1.n_tile0_sz).map (arrAt (searchSetup s).1.tile_sz0)

/-- The narrowing rule of a search axis as the specification states it, for a dimension
`d` of the input: 8 up to 8, 16 up to 16, 16 and 32 up to 32, and 8, 16 and 32 above. -/
def narrowingRule (d : Int) : List Int :=
  if d ≤ 8 then [8] else if d ≤ 16 then [16] else if d ≤ 32 then [16, 32] else [8, 16, 32]

/-- An object for a wide and low shape: the scenario shape with an input of width 64 and
height 24 and, with padding 1, an output of the same size. -/
def wideShape : mlo_construct_direct2D :=
  { exampleShape with
    _pad0 := 1, _pad1 := 1, _in_width := 64, _in_height := 24, _in_batch_stride := 4608,
    _in_channel_stride := 1536, _in_stride := 64, _out_width := 64, _out_height := 24,
    _out_batch_stride := 49152, _out_channel_stride := 1536, _out_stride := 64 }

/-- An object for a narrow and high shape: the scenario shape with an input of width 24 and
height 64 and, with padding 1, an output of the same size. -/
def highShape : mlo_construct_direct2D :=
  { exampleShape with
    _pad0 := 1, _pad1 := 1, _in_width := 24, _in_height := 64, _in_batch_stride := 4608,
    _in_channel_stride := 1536, _in_stride := 24, _out_width := 24, _out_height := 64,
    _out_batch_stride := 49152, _out_channel_stride := 1536, _out_stride := 24 }

/-- What the validity filters of the search leave true of the tiling fields `t` of the
object at a call of `mloMeasuredLoop`, for the shape of `s`: the conditions of
`validTiling` (the tile counts do not exceed the numbers of maps and the batch size; the
ALU-tile product of a kernel that is not 1x1 does not exceed the group size; for a 1x1
kernel or an output taken as aligned the output pixel tile does not exceed the input
tile), and, for an output higher and wider than 16, neither both input tiles nor both
group sizes are 8. -/
def passedFilters (s : mlo_construct_direct2D) (t : Tiling) : Prop :=
  validTiling s t
    ∧ (s._out_height > 16 ∧ s._out_width > 16 →
        ¬ (t.in_tile0 = 8 ∧ t.in_tile1 = 8) ∧ ¬ (t.grp_tile0 = 8 ∧ t.grp_tile1 = 8))

instance (s : mlo_construct_direct2D) (t : Tiling) : Decidable (passedFilters s t) := by
  unfold passedFilters; infer_instance

/-- The part of the state of the search that the enumeration reads and writes, apart from
the outcomes of the measurements: the object, the range of the loop over the input data
tiles, the count of the runs left, and the calls of `mloMeasuredLoop` made so far. -/
def SearchState.course (st : SearchState) :
    mlo_construct_direct2D × Int × Int × Int × Nat × List Tiling :=
  (st.obj, st.n_in_tiles_rg0, st.n_in_tiles_rg1, st.runs_left, st.n_calls, st.calls)

/-- What holds of the calls of `mloMeasuredLoop` inside the `n` outermost loops of the
search for the shape of `s0`: at every call made so far the tiling fields passed the
filters of `passedFilters`; `calls` holds one entry per call; every logged measurement is
of a call made, the call number `i` say, with the time that the stub gave to the call
number `i` for an object holding the logged tiling; and the tiling fields of the object
are such that the next call passes the filters on the input tiles and on the group
sizes. -/
def CallInv (stub : Measurement) (s0 : mlo_construct_direct2D) (n : Nat) (st : SearchState) :
    Prop :=
  (∀ c ∈ st.calls, passedFilters s0 c) ∧ st.calls.length = st.n_calls
    ∧ (∀ e ∈ st.log, ∃ i o, st.calls[i]? = some e.candidate ∧ stub i o = some e.time
        ∧ e.measured = getConfigParameters o)
    ∧ (4 ≤ n → s0._out_height > 16 ∧ s0._out_width > 16 →
        ¬ (st.obj._in_tile0 = 8 ∧ st.obj._in_tile1 = 8)
          ∧ ¬ (st.obj._grp_tile0 = 8 ∧ st.obj._grp_tile1 = 8))
    ∧ (5 ≤ n → is1x1 s0 = true → st.obj._out_pix_tile1 ≤ st.obj._in_tile1)
    ∧ (6 ≤ n → is1x1 s0 = true → st.obj._out_pix_tile0 ≤ st.obj._in_tile0)

/-- The state in which the search of `columnShape` on `exampleDevice` enters the loop over
the horizontal output pixel tile for the first time: the group is 8x8, the input tile is 8
wide and 16 high, the vertical output pixel tile is 1, and no run was counted, measured or
logged yet. -/
def columnEntry : SearchState :=
  let obj : mlo_construct_direct2D :=
    { columnShape with _hw_wave_sz := 64, _dev_local_mem_sz := exampleDevice.local_mem_size }
  { obj := { obj with _grp_tile1 := 8, _grp_tile0 := 8, _in_tile1 := 16, _in_tile0 := 8,
                      _out_pix_tile1 := 1 },
    min := initialMin, min_proc_time := CL_MAXFLOAT, processing_time := 0,
    n_in_tiles_rg0 := (searchSetup obj).2.1.1, n_in_tiles_rg1 := (searchSetup obj).2.1.2,
    runs_left := (searchSetup obj).2.2, run_counter := 0, ret := 0, n_calls := 0, log := [],
    calls := [] }

end MLOpen
namespace MLOpen

theorem digitChar_isDigit {d : Nat} (h : d < 10) : (digitChar d).isDigit = true := by
  interval_cases d <;> decide

theorem digitVal_digitChar {d : Nat} (h : d < 10) : digitVal (digitChar d) = d := by
  interval_cases d <;> decide

theorem isspace_iff (c : Char) : isspace c = true ↔
    c = ' ' ∨ c = '\t' ∨ c = '\n' ∨ c = '\x0b' ∨ c = '\x0c' ∨ c = '\r' := by
  simp [isspace, or_assoc]

theorem isDigit_not_space {c : Char} (h : c.isDigit = true) : isspace c = false := by
  cases hs : isspace c with
  | false => rfl
  | true =>
    rw [isspace_iff] at hs
    rcases hs with rfl | rfl | rfl | rfl | rfl | rfl <;> revert h <;> decide

theorem isDigit_ne {c : Char} (h : c.isDigit = true) :
    c ≠ '.' ∧ c ≠ '-' ∧ c ≠ '+' ∧ c ≠ 'x' ∧ c ≠ ' ' ∧ c ≠ '\n' ∧ c ≠ '\r' := by
  refine ⟨?_, ?_, ?_, ?_, ?_, ?_, ?_⟩ <;> rintro rfl <;> revert h <;> decide

theorem digitsValue_append (a : Nat) (ds : CString) (c : Char) :
    digitsValue a (ds ++ [c]) = digitsValue a ds * 10 + digitVal c := by
  simp [digitsValue, List.foldl_append]

/-- The digits produced by `to_string_digits`: a non-empty run of digit characters whose
value is `n`. -/
theorem to_string_digits_spec : ∀ (fuel n : Nat) (acc : CString), n < fuel →
    ∃ ds : CString, to_string_digits fuel n acc = ds ++ acc ∧ ds ≠ [] ∧
      (∀ c ∈ ds, c.isDigit = true) ∧ ∀ a, digitsValue a ds = a * 10 ^ ds.length + n := by
  intro fuel
  induction fuel with
  | zero => intro n acc h; omega
  | succ fuel ih =>
    intro n acc h
    by_cases h10 : n < 10
    · refine ⟨[digitChar n], ?_, by simp, ?_, ?_⟩
      · simp [to_string_digits, h10]
      · intro c hc
        simp only [List.mem_singleton] at hc
        subst hc
        exact digitChar_isDigit h10
      · intro a
        simp [digitsValue, digitVal_digitChar h10]
    · have hlt : n / 10 < fuel := by omega
      obtain ⟨ds, hds, _, hdig, hval⟩ := ih (n / 10) (digitChar (n % 10) :: acc) hlt
      refine ⟨ds ++ [digitChar (n % 10)], ?_, by simp, ?_, ?_⟩
      · simp [to_string_digits, h10, hds]
      · intro c hc
        rcases List.mem_append.mp hc with hc | hc
        · exact hdig c hc
        · simp only [List.mem_singleton] at hc
          subst hc
          exact digitChar_isDigit (Nat.mod_lt _ (by norm_num))
      · intro a
        rw [digitsValue_append, hval, digitVal_digitChar (Nat.mod_lt _ (by norm_num))]
        simp only [List.length_append, List.length_singleton, pow_succ]
        have := Nat.div_add_mod n 10
        nlinarith [this]

/-- The decimal representation: an optional `-` and a non-empty run of digits of value
`|v|`. -/
theorem to_string_spec (v : Int) :
    ∃ ds : CString, to_string v = (if v < 0 then ['-'] else []) ++ ds ∧ ds ≠ [] ∧
      (∀ c ∈ ds, c.isDigit = true) ∧ digitsValue 0 ds = v.natAbs := by
  obtain ⟨ds, hds, hne, hdig, hval⟩ := to_string_digits_spec (v.natAbs + 1) v.natAbs [] (by omega)
  refine ⟨ds, ?_, hne, hdig, by simpa using hval 0⟩
  by_cases hv : v < 0 <;> simp [to_string, hv, hds]

theorem takeWhile_all {p : Char → Bool} {l : CString} (h : ∀ c ∈ l, p c = true) :
    l.takeWhile p = l := by
  induction l with
  | nil => rfl
  | cons a l ih =>
    have ha := h a (by simp)
    simp [List.takeWhile_cons, ha, ih (fun c hc => h c (by simp [hc]))]

/-- `std::stoi` on what `std::to_string` wrote: the value, or `out_of_range` when the value
is not an `int`. -/
theorem stoi_to_string_all (v : Int) :
    stoi (to_string v) = if isInt v then .ok v else .error .out_of_range := by
  obtain ⟨ds, hds, hne, hdig, hval⟩ := to_string_spec v
  obtain ⟨d, ds', rfl⟩ := List.exists_cons_of_ne_nil hne
  have hd : d.isDigit = true := hdig d (by simp)
  have hsp := isDigit_not_space hd
  obtain ⟨_, hm, hp, _⟩ := isDigit_ne hd
  have htw : (d :: ds').takeWhile Char.isDigit = d :: ds' := takeWhile_all hdig
  by_cases hneg : v < 0
  · have hstr : to_string v = '-' :: d :: ds' := by simpa [hneg] using hds
    have hvv : -((digitsValue 0 (d :: ds') : Nat) : Int) = v := by rw [hval]; omega
    have h1 : List.dropWhile isspace ('-' :: d :: ds') = '-' :: d :: ds' := by
      simp [List.dropWhile_cons, isspace]
    unfold stoi
    rw [hstr]
    simp only [h1, List.head?_cons, true_or, if_true, List.tail_cons, htw, hvv]
    simp
  · have hstr : to_string v = d :: ds' := by simpa [hneg] using hds
    have hvv : ((digitsValue 0 (d :: ds') : Nat) : Int) = v := by rw [hval]; omega
    have h1 : List.dropWhile isspace (d :: ds') = d :: ds' := by
      simp [List.dropWhile_cons, hsp]
    have h3 : ¬ (some d = some '-') := by simp [hm]
    unfold stoi
    rw [hstr]
    simp only [h1, List.head?_cons, h3, false_or, Option.some.injEq, hp, if_false, htw, hvv]
    simp

/-- `std::stoi` reads back what `std::to_string` wrote, for every `int`. -/
theorem stoi_to_string (v : Int) (hv : isInt v) : stoi (to_string v) = .ok v := by
  rw [stoi_to_string_all, if_pos hv]

theorem tokenizeFrom_append (delims : CString) : ∀ (tok cur rest : CString),
    (∀ c ∈ tok, c ∉ delims) →
    tokenizeFrom delims cur (tok ++ rest) = tokenizeFrom delims (tok.reverse ++ cur) rest := by
  intro tok
  induction tok with
  | nil => intro cur rest _; rfl
  | cons a tok ih =>
    intro cur rest h
    have ha : a ∉ delims := h a (by simp)
    have := ih (a :: cur) rest (fun c hc => h c (by simp [hc]))
    simp [tokenizeFrom, ha, this]

/-- A non-empty piece without delimiter, followed by a delimiter, is the next token. -/
theorem tokenizeFrom_token_cons (delims tok rest : CString) (d : Char) (hne : tok ≠ [])
    (h : ∀ c ∈ tok, c ∉ delims) (hd : d ∈ delims) :
    tokenizeFrom delims [] (tok ++ ([d] ++ rest)) = tok :: tokenizeFrom delims [] rest := by
  rw [tokenizeFrom_append delims tok [] ([d] ++ rest) h]
  simp [tokenizeFrom, hd, hne]

/-- A non-empty piece without delimiter at the end of the string is the last token. -/
theorem tokenizeFrom_token_end (delims tok : CString) (hne : tok ≠ [])
    (h : ∀ c ∈ tok, c ∉ delims) : tokenizeFrom delims [] tok = [tok] := by
  have := tokenizeFrom_append delims tok [] [] h
  simp only [List.append_nil] at this
  rw [this]
  simp [tokenizeFrom, hne]

theorem to_string_ne_nil (v : Int) : to_string v ≠ [] := by
  obtain ⟨ds, hds, hne, _, _⟩ := to_string_spec v
  rw [hds]
  simp [hne]

theorem to_string_chars (v : Int) : ∀ c ∈ to_string v, c = '-' ∨ c.isDigit = true := by
  obtain ⟨ds, hds, _, hdig, _⟩ := to_string_spec v
  intro c hc
  rw [hds] at hc
  rcases List.mem_append.mp hc with hc | hc
  · left
    split at hc <;> simp_all
  · exact Or.inr (hdig c hc)

theorem to_string_no_dot (v : Int) : ∀ c ∈ to_string v, c ∉ ['.'] := by
  intro c hc
  rcases to_string_chars v c hc with rfl | h
  · decide
  · simp [(isDigit_ne h).1]

/-- The tokens of a value built by `mloBuildConf_Val` are the nine decimal fields. -/
theorem tokenize_mloBuildConf_Val (t : Tiling) :
    tokenize (mloBuildConf_Val t) [] ['.'] =
      [to_string t.grp_tile1, to_string t.grp_tile0, to_string t.in_tile1,
       to_string t.in_tile0, to_string t.out_pix_tile1, to_string t.out_pix_tile0,
       to_string t.n_out_pix_tiles, to_string t.n_in_data_tiles, to_string t.n_stacks] := by
  have hd : '.' ∈ ['.'] := by simp
  simp only [tokenize, mloBuildConf_Val, List.nil_append, List.append_assoc]
  rw [tokenizeFrom_token_cons _ _ _ _ (to_string_ne_nil _) (to_string_no_dot _) hd,
    tokenizeFrom_token_cons _ _ _ _ (to_string_ne_nil _) (to_string_no_dot _) hd,
    tokenizeFrom_token_cons _ _ _ _ (to_string_ne_nil _) (to_string_no_dot _) hd,
    tokenizeFrom_token_cons _ _ _ _ (to_string_ne_nil _) (to_string_no_dot _) hd,
    tokenizeFrom_token_cons _ _ _ _ (to_string_ne_nil _) (to_string_no_dot _) hd,
    tokenizeFrom_token_cons _ _ _ _ (to_string_ne_nil _) (to_string_no_dot _) hd,
    tokenizeFrom_token_cons _ _ _ _ (to_string_ne_nil _) (to_string_no_dot _) hd,
    tokenizeFrom_token_cons _ _ _ _ (to_string_ne_nil _) (to_string_no_dot _) hd,
    tokenizeFrom_token_end _ _ (to_string_ne_nil _) (to_string_no_dot _)]

/-- Parsing a built value gives the nine values back (helper shared by several results). -/
theorem mloParseConf_build (t : Tiling) (h : t.isInt) :
    mloParseConf (mloBuildConf_Val t) = .ok t := by
  obtain ⟨h1, h2, h3, h4, h5, h6, h7, h8, h9⟩ := h
  simp only [mloParseConf, tokenize_mloBuildConf_Val, vecAt, List.get?_eq_getElem?,
    List.getElem?_cons_zero, List.getElem?_cons_succ, bind, Except.bind, pure, Except.pure,
    stoi_to_string _ h1, stoi_to_string _ h2, stoi_to_string _ h3, stoi_to_string _ h4,
    stoi_to_string _ h5, stoi_to_string _ h6, stoi_to_string _ h7, stoi_to_string _ h8,
    stoi_to_string _ h9]

/-- C1. Value codec round trip: for every tuple of nine C++ `int` values (positive or
not), `mloParseConf` applied to the string built by `mloBuildConf_Val` returns exactly
the nine values. -/
theorem C1_value_codec_round_trip (t : Tiling) (h : t.isInt) :
    mloParseConf (mloBuildConf_Val t) = .ok t :=
  mloParseConf_build t h

theorem C1_value_codec_round_trip_witness :
    Tiling.isInt ⟨16, 16, 8, 8, 2, 4, 1, 1, 4⟩ ∧
      mloParseConf (mloBuildConf_Val ⟨16, 16, 8, 8, 2, 4, 1, 1, 4⟩)
        = .ok ⟨16, 16, 8, 8, 2, 4, 1, 1, 4⟩ :=
  ⟨by decide, C1_value_codec_round_trip _ (by decide)⟩

end MLOpen
namespace MLOpen

/-! ### Order of strings -/

theorem strLt_irrefl : ∀ a : CString, strLt a a = false := by
  intro a
  induction a with
  | nil => rfl
  | cons c a ih => simp [strLt, ih]

theorem strLt_trans : ∀ a b c : CString, strLt a b = true → strLt b c = true →
    strLt a c = true := by
  intro a
  induction a with
  | nil =>
    intro b c hab hbc
    cases b with
    | nil => simp [strLt] at hab
    | cons y b =>
      cases c with
      | nil => simp [strLt] at hbc
      | cons z c => simp [strLt]
  | cons x a ih =>
    intro b c hab hbc
    cases b with
    | nil => simp [strLt] at hab
    | cons y b =>
      cases c with
      | nil => simp [strLt] at hbc
      | cons z c =>
        simp only [strLt, Bool.or_eq_true, Bool.and_eq_true, decide_eq_true_eq] at hab hbc ⊢
        rcases hab with hxy | ⟨rfl, hab⟩
        · rcases hbc with hyz | ⟨rfl, _⟩
          · exact Or.inl (lt_trans hxy hyz)
          · exact Or.inl hxy
        · rcases hbc with hyz | ⟨rfl, hbc⟩
          · exact Or.inl hyz
          · exact Or.inr ⟨rfl, ih b c hab hbc⟩

theorem strLt_asymm (a b : CString) (h : strLt a b = true) : strLt b a = false := by
  cases hba : strLt b a with
  | false => rfl
  | true =>
    have := strLt_trans a b a h hba
    rw [strLt_irrefl] at this
    exact absurd this (by simp)

theorem strLt_ne (a b : CString) (h : strLt a b = true) : a ≠ b := by
  rintro rfl
  rw [strLt_irrefl] at h
  exact absurd h (by simp)

theorem strLt_total : ∀ a b : CString, strLt a b = false → strLt b a = false → a = b := by
  intro a
  induction a with
  | nil =>
    intro b hab _
    cases b with
    | nil => rfl
    | cons y b => simp [strLt] at hab
  | cons x a ih =>
    intro b hab hba
    cases b with
    | nil => simp [strLt] at hba
    | cons y b =>
      simp only [strLt, Bool.or_eq_false_iff, Bool.and_eq_false_iff, decide_eq_false_iff_not] at hab hba
      have hxy : x = y := le_antisymm (not_lt.mp hba.1) (not_lt.mp hab.1)
      subst hxy
      rcases hab.2 with h | h
      · exact absurd rfl h
      · rcases hba.2 with h' | h'
        · exact absurd rfl h'
        · rw [ih b h h']

/-! ### Reading back what was written -/

theorem mloUpdateDb_foldl (db : List CString) (acc : CString) :
    db.foldl (fun serial it => serial ++ (it ++ ['\n'])) acc
      = acc ++ (db.map (fun it => it ++ ['\n'])).flatten := by
  induction db generalizing acc with
  | nil => simp
  | cons a db ih => simp [ih, List.append_assoc]

theorem mloUpdateDb_eq (db : List CString) :
    mloUpdateDb db = (db.map (fun it => it ++ ['\n'])).flatten := by
  simp [mloUpdateDb, mloUpdateDb_foldl]

theorem tokenizeFrom_skip (delims rest : CString) (d : Char) (hd : d ∈ delims) :
    tokenizeFrom delims [] ([d] ++ rest) = tokenizeFrom delims [] rest := by
  simp [tokenizeFrom, hd]

/-- The text of a database entry. -/
theorem cleanStr_line {k v : CString} (hk : cleanStr k) (hv : cleanStr v) :
    k ++ [' '] ++ v ≠ [] ∧ ∀ c ∈ k ++ [' '] ++ v, c ∉ ['\n', '\r'] := by
  refine ⟨by simp [hk.1], ?_⟩
  intro c hc
  simp only [List.mem_append, List.mem_singleton] at hc
  simp only [List.mem_cons, List.mem_singleton, List.not_mem_nil, or_false, not_or]
  rcases hc with (hc | rfl) | hc
  · exact ⟨fun h => hk.2.2.1 (h ▸ hc), fun h => hk.2.2.2 (h ▸ hc)⟩
  · decide
  · exact ⟨fun h => hv.2.2.1 (h ▸ hc), fun h => hv.2.2.2 (h ▸ hc)⟩

/-- The lines read from a written database are the entries, as `key value`. -/
theorem mloReadDb_mloWriteConfigDB (files : Files) (m : StdMap) (hm : m.clean) :
    mloReadDb (mloWriteConfigDB files m).conf_db [] = m.map (fun it => it.1 ++ [' '] ++ it.2) := by
  simp only [mloReadDb, tokenize, mloWriteConfigDB, mloUpdateDb_eq, List.nil_append,
    List.map_map]
  induction m with
  | nil => simp [tokenizeFrom]
  | cons kv m ih =>
    obtain ⟨hne, hnd⟩ := cleanStr_line (hm kv (by simp)).1 (hm kv (by simp)).2
    have ih' := ih (fun x hx => hm x (by simp [hx]))
    simp only [List.map_cons, List.flatten_cons, Function.comp_apply, List.append_assoc] at ih' ⊢
    have e : kv.1 ++ ([' '] ++ (kv.2 ++ (['\n'] ++ (['\n'] ++
        (List.map ((fun it => it ++ ['\n']) ∘ fun it => it.1 ++ ([' '] ++ (it.2 ++ ['\n']))) m).flatten))))
      = (kv.1 ++ [' '] ++ kv.2) ++ (['\n'] ++ (['\n'] ++
        (List.map ((fun it => it ++ ['\n']) ∘ fun it => it.1 ++ ([' '] ++ (it.2 ++ ['\n']))) m).flatten)) := by
      simp [List.append_assoc]
    rw [e, tokenizeFrom_token_cons _ _ _ _ hne hnd (by simp), tokenizeFrom_skip _ _ _ (by simp), ih']
    simp [List.append_assoc]

/-- A line `key value` splits into the key and the value. -/
theorem tokenize_line {k v : CString} (hk : cleanStr k) (hv : cleanStr v) :
    tokenize (k ++ [' '] ++ v) [] [' '] = [k, v] := by
  simp only [tokenize, List.nil_append, List.append_assoc]
  have hk' : ∀ c ∈ k, c ∉ [' '] := by
    intro c hc; simp only [List.mem_singleton]; rintro rfl; exact hk.2.1 hc
  have hv' : ∀ c ∈ v, c ∉ [' '] := by
    intro c hc; simp only [List.mem_singleton]; rintro rfl; exact hv.2.1 hc
  rw [tokenizeFrom_token_cons _ _ _ _ hk.1 hk' (by simp), tokenizeFrom_token_end _ _ hv.1 hv']

theorem readConfigLine_clean {k v : CString} (hk : cleanStr k) (hv : cleanStr v)
    (acc : StdMap) : readConfigLine acc (k ++ [' '] ++ v) = .ok (acc.set k v) := by
  simp only [readConfigLine, tokenize_line hk hv, vecAt, List.get?_eq_getElem?,
    List.getElem?_cons_zero, List.getElem?_cons_succ, bind, Except.bind, pure, Except.pure]

/-- The loop of `mloReadConfigDB` over the lines of clean entries sets every entry. -/
theorem readLoop_lines (m : StdMap) (hm : m.clean) (acc : StdMap) :
    (m.map (fun it => it.1 ++ [' '] ++ it.2)).foldlM readConfigLine acc
      = (Except.ok (m.foldl (fun a kv => a.set kv.1 kv.2) acc) : Except Fault StdMap) := by
  induction m generalizing acc with
  | nil => rfl
  | cons kv m ih =>
    have h := hm kv (by simp)
    simp only [List.map_cons, List.foldlM_cons, readConfigLine_clean h.1 h.2, bind, Except.bind,
      List.foldl_cons]
    exact ih (fun x hx => hm x (by simp [hx])) _

/-- Setting a key above all keys of the map appends the entry. -/
theorem StdMap.set_above (acc : StdMap) (k v : CString)
    (h : ∀ kv ∈ acc, strLt kv.1 k = true) : StdMap.set acc k v = acc ++ [(k, v)] := by
  induction acc with
  | nil => rfl
  | cons a acc ih =>
    obtain ⟨k0, v0⟩ := a
    have h0 : strLt k0 k = true := h (k0, v0) (by simp)
    have h1 : strLt k k0 = false := strLt_asymm _ _ h0
    have h2 : k0 ≠ k := strLt_ne _ _ h0
    simp [StdMap.set, h1, h2, ih (fun kv hkv => h kv (by simp [hkv]))]

/-- Setting the entries of an ordered map one after the other rebuilds the map. -/
theorem StdMap.foldl_set_ordered (m acc : StdMap) (h : StdMap.ordered (acc ++ m)) :
    m.foldl (fun a kv => a.set kv.1 kv.2) acc = acc ++ m := by
  induction m generalizing acc with
  | nil => simp
  | cons kv m ih =>
    have hlt : ∀ x ∈ acc, strLt x.1 kv.1 = true := by
      intro x hx
      simp only [StdMap.ordered, List.map_append, List.map_cons, List.pairwise_append] at h
      exact h.2.2 x.1 (List.mem_map_of_mem _ hx) kv.1 (by simp)
    simp only [List.foldl_cons, StdMap.set_above acc kv.1 kv.2 hlt]
    rw [ih (acc ++ [(kv.1, kv.2)]) (by simpa using h)]
    simp

/-- Reading a written database gives the map back (helper shared by several results). -/
theorem mloReadConfigDB_mloWriteConfigDB (files : Files) (m : StdMap) (ho : m.ordered)
    (hc : m.clean) : mloReadConfigDB (mloWriteConfigDB files m) [] = .ok m := by
  unfold mloReadConfigDB
  rw [mloReadDb_mloWriteConfigDB files m hc]
  simp only
  rw [readLoop_lines m hc [], StdMap.foldl_set_ordered m [] (by simpa using ho)]
  simp

/-- C4. Database round trip: for every mapping (a `std::map`, ordered by key) whose keys
and values are non-empty and contain no space, `\n` or `\r`, reading the file written by
`mloWriteConfigDB` back with `mloReadConfigDB` into an empty map yields exactly the
mapping. -/
theorem C4_database_round_trip (files : Files) (m : StdMap) (ho : m.ordered) (hc : m.clean) :
    mloReadConfigDB (mloWriteConfigDB files m) [] = .ok m :=
  mloReadConfigDB_mloWriteConfigDB files m ho hc

end MLOpen
namespace MLOpen

theorem C4_database_round_trip_witness :
    StdMap.ordered [("32x16x16x3x3x64x16x16x100xNCHWxFP32x1".toList, "16.16.16.16.1.4.8.4.1".toList),
        ("64x8x8x5x5x32x8x8x100xNCHWxFP32x0".toList, "16.16.8.8.2.4.1.1.4".toList)] ∧
    StdMap.clean [("32x16x16x3x3x64x16x16x100xNCHWxFP32x1".toList, "16.16.16.16.1.4.8.4.1".toList),
        ("64x8x8x5x5x32x8x8x100xNCHWxFP32x0".toList, "16.16.8.8.2.4.1.1.4".toList)] ∧
    mloReadConfigDB (mloWriteConfigDB ⟨[], []⟩
      [("32x16x16x3x3x64x16x16x100xNCHWxFP32x1".toList, "16.16.16.16.1.4.8.4.1".toList),
        ("64x8x8x5x5x32x8x8x100xNCHWxFP32x0".toList, "16.16.8.8.2.4.1.1.4".toList)]) []
      = .ok [("32x16x16x3x3x64x16x16x100xNCHWxFP32x1".toList, "16.16.16.16.1.4.8.4.1".toList),
        ("64x8x8x5x5x32x8x8x100xNCHWxFP32x0".toList, "16.16.8.8.2.4.1.1.4".toList)] :=
  ⟨by decide, by decide, C4_database_round_trip _ _ (by decide) (by decide)⟩

/-! ### Tokens -/

/-- Every token is non-empty, free of delimiters and made of characters of the input. -/
theorem tokenizeFrom_tokens (delims : CString) : ∀ (s cur : CString),
    (∀ c ∈ cur, c ∉ delims) → ∀ t ∈ tokenizeFrom delims cur s,
      t ≠ [] ∧ (∀ c ∈ t, c ∉ delims) ∧ (∀ c ∈ t, c ∈ cur ∨ c ∈ s) := by
  intro s
  induction s with
  | nil =>
    intro cur hcur t ht
    by_cases hc : cur = []
    · simp [tokenizeFrom, hc] at ht
    · simp only [tokenizeFrom, hc, if_false, List.mem_singleton] at ht
      subst ht
      refine ⟨by simpa using hc, ?_, ?_⟩
      · intro c hcm; exact hcur c (by simpa using hcm)
      · intro c hcm; exact Or.inl (by simpa using hcm)
  | cons a s ih =>
    intro cur hcur t ht
    by_cases ha : a ∈ delims
    · by_cases hc : cur = []
      · simp only [tokenizeFrom, ha, hc, if_true] at ht
        obtain ⟨h1, h2, h3⟩ := ih [] (by simp) t ht
        exact ⟨h1, h2, fun c hcm => Or.inr (by
          rcases h3 c hcm with h | h
          · simp at h
          · simp [h])⟩
      · simp only [tokenizeFrom, ha, hc, if_true, if_false, List.mem_cons] at ht
        rcases ht with rfl | ht
        · refine ⟨by simpa using hc, ?_, ?_⟩
          · intro c hcm; exact hcur c (by simpa using hcm)
          · intro c hcm; exact Or.inl (by simpa using hcm)
        · obtain ⟨h1, h2, h3⟩ := ih [] (by simp) t ht
          exact ⟨h1, h2, fun c hcm => Or.inr (by
            rcases h3 c hcm with h | h
            · simp at h
            · simp [h])⟩
    · simp only [tokenizeFrom, ha, if_false] at ht
      obtain ⟨h1, h2, h3⟩ := ih (a :: cur) (by
        intro c hc
        rcases List.mem_cons.mp hc with rfl | hc
        · exact ha
        · exact hcur c hc) t ht
      refine ⟨h1, h2, fun c hcm => ?_⟩
      rcases h3 c hcm with h | h
      · rcases List.mem_cons.mp h with rfl | h
        · exact Or.inr (by simp)
        · exact Or.inl h
      · exact Or.inr (by simp [h])

theorem tokenize_tokens (delims s : CString) : ∀ t ∈ tokenize s [] delims,
    t ≠ [] ∧ (∀ c ∈ t, c ∉ delims) ∧ (∀ c ∈ t, c ∈ s) := by
  intro t ht
  simp only [tokenize, List.nil_append] at ht
  obtain ⟨h1, h2, h3⟩ := tokenizeFrom_tokens delims s [] (by simp) t ht
  exact ⟨h1, h2, fun c hc => by rcases h3 c hc with h | h; simp at h; exact h⟩

/-- The lines read from a file are non-empty and free of line breaks. -/
theorem mloReadDb_lines (file : CString) : ∀ l ∈ mloReadDb file [],
    l ≠ [] ∧ '\n' ∉ l ∧ '\r' ∉ l := by
  intro l hl
  obtain ⟨h1, h2, _⟩ := tokenize_tokens _ _ l hl
  exact ⟨h1, fun h => h2 _ h (by simp), fun h => h2 _ h (by simp)⟩

/-- If a line free of line breaks is accepted by `readConfigLine`, a clean key and a
clean value were set. -/
theorem readConfigLine_ok {acc acc' : StdMap} {it : CString} (hn : '\n' ∉ it) (hr : '\r' ∉ it)
    (h : readConfigLine acc it = .ok acc') :
    ∃ k v, cleanStr k ∧ cleanStr v ∧ acc' = acc.set k v := by
  simp only [readConfigLine, vecAt, List.get?_eq_getElem?, bind, Except.bind, pure,
    Except.pure] at h
  cases h1 : (tokenize it [] [' '])[1]? with
  | none => simp [h1] at h
  | some v =>
    cases h0 : (tokenize it [] [' '])[0]? with
    | none => simp [h1, h0] at h
    | some k =>
      simp only [h1, h0, Except.ok.injEq] at h
      have hk := tokenize_tokens [' '] it k (List.getElem?_mem h0)
      have hv := tokenize_tokens [' '] it v (List.getElem?_mem h1)
      refine ⟨k, v, ⟨hk.1, fun hh => hk.2.1 _ hh (by simp), fun hh => hn (hk.2.2 _ hh),
        fun hh => hr (hk.2.2 _ hh)⟩, ⟨hv.1, fun hh => hv.2.1 _ hh (by simp),
        fun hh => hn (hv.2.2 _ hh), fun hh => hr (hv.2.2 _ hh)⟩, h.symm⟩

/-! ### The map -/

theorem StdMap.set_cons_lt (m : StdMap) (k v k0 v0 : CString) (h : strLt k k0 = true) :
    StdMap.set ((k0, v0) :: m) k v = (k, v) :: (k0, v0) :: m := by
  simp [StdMap.set, h]

theorem StdMap.set_cons_eq (m : StdMap) (k v v0 : CString) :
    StdMap.set ((k, v0) :: m) k v = (k, v) :: m := by
  simp [StdMap.set, strLt_irrefl]

theorem StdMap.set_cons_gt (m : StdMap) (k v k0 v0 : CString) (h1 : ¬ strLt k k0 = true)
    (h2 : k0 ≠ k) : StdMap.set ((k0, v0) :: m) k v = (k0, v0) :: StdMap.set m k v := by
  simp [StdMap.set, h1, h2]

theorem StdMap.set_keys (m : StdMap) (k v : CString) :
    ∀ x ∈ (StdMap.set m k v).map Prod.fst, x = k ∨ x ∈ m.map Prod.fst := by
  induction m with
  | nil => intro x hx; simp [StdMap.set] at hx; exact Or.inl hx
  | cons a m ih =>
    obtain ⟨k0, v0⟩ := a
    intro x hx
    by_cases h1 : strLt k k0 = true
    · rw [StdMap.set_cons_lt _ _ _ _ _ h1] at hx
      simp only [List.map_cons, List.mem_cons] at hx
      rcases hx with rfl | rfl | hx
      · exact Or.inl rfl
      · exact Or.inr (by simp)
      · exact Or.inr (by simp [hx])
    · by_cases h2 : k0 = k
      · subst h2
        rw [StdMap.set_cons_eq] at hx
        simp only [List.map_cons, List.mem_cons] at hx
        rcases hx with rfl | hx
        · exact Or.inl rfl
        · exact Or.inr (by simp [hx])
      · rw [StdMap.set_cons_gt _ _ _ _ _ h1 h2] at hx
        simp only [List.map_cons, List.mem_cons] at hx
        rcases hx with rfl | hx
        · exact Or.inr (by simp)
        · rcases ih x hx with h | h
          · exact Or.inl h
          · exact Or.inr (by simp [h])

theorem StdMap.set_ordered (m : StdMap) (k v : CString) (h : m.ordered) :
    (StdMap.set m k v).ordered := by
  induction m with
  | nil => simp [StdMap.set, StdMap.ordered]
  | cons a m ih =>
    obtain ⟨k0, v0⟩ := a
    simp only [StdMap.ordered, List.map_cons, List.pairwise_cons] at h
    by_cases h1 : strLt k k0 = true
    · rw [StdMap.set_cons_lt _ _ _ _ _ h1]
      simp only [StdMap.ordered, List.map_cons, List.pairwise_cons, List.mem_cons]
      refine ⟨?_, h.1, h.2⟩
      rintro x (rfl | hx)
      · exact h1
      · exact strLt_trans _ _ _ h1 (h.1 x hx)
    · by_cases h2 : k0 = k
      · subst h2
        rw [StdMap.set_cons_eq]
        simp only [StdMap.ordered, List.map_cons, List.pairwise_cons]
        exact h
      · rw [StdMap.set_cons_gt _ _ _ _ _ h1 h2]
        simp only [StdMap.ordered, List.map_cons, List.pairwise_cons]
        refine ⟨?_, ih h.2⟩
        intro x hx
        rcases StdMap.set_keys m k v x hx with rfl | hx
        · cases h3 : strLt k0 x with
          | true => rfl
          | false =>
            exact absurd (strLt_total k0 x h3 (by simpa using h1)) h2
        · exact h.1 x hx

theorem StdMap.set_clean (m : StdMap) (k v : CString) (h : m.clean) (hk : cleanStr k)
    (hv : cleanStr v) : (StdMap.set m k v).clean := by
  induction m with
  | nil => intro kv hkv; simp [StdMap.set] at hkv; subst hkv; exact ⟨hk, hv⟩
  | cons a m ih =>
    obtain ⟨k0, v0⟩ := a
    have h0 := h (k0, v0) (by simp)
    have hm : StdMap.clean m := fun x hx => h x (by simp [hx])
    intro kv hkv
    by_cases h1 : strLt k k0 = true
    · rw [StdMap.set_cons_lt _ _ _ _ _ h1] at hkv
      simp only [List.mem_cons] at hkv
      rcases hkv with rfl | rfl | hkv
      · exact ⟨hk, hv⟩
      · exact h0
      · exact hm kv hkv
    · by_cases h2 : k0 = k
      · subst h2
        rw [StdMap.set_cons_eq] at hkv
        simp only [List.mem_cons] at hkv
        rcases hkv with rfl | hkv
        · exact ⟨hk, hv⟩
        · exact hm kv hkv
      · rw [StdMap.set_cons_gt _ _ _ _ _ h1 h2] at hkv
        simp only [List.mem_cons] at hkv
        rcases hkv with rfl | hkv
        · exact h0
        · exact ih hm kv hkv

theorem StdMap.find_set_self (m : StdMap) (k v : CString) :
    (StdMap.set m k v).find k = some v := by
  induction m with
  | nil => simp [StdMap.set, StdMap.find]
  | cons a m ih =>
    obtain ⟨k0, v0⟩ := a
    by_cases h1 : strLt k k0 = true
    · rw [StdMap.set_cons_lt _ _ _ _ _ h1]; simp [StdMap.find]
    · by_cases h2 : k0 = k
      · subst h2
        rw [StdMap.set_cons_eq]; simp [StdMap.find]
      · rw [StdMap.set_cons_gt _ _ _ _ _ h1 h2]; simp [StdMap.find, h2, ih]

theorem StdMap.find_set_other (m : StdMap) (k v k' : CString) (hne : k' ≠ k) :
    (StdMap.set m k v).find k' = m.find k' := by
  induction m with
  | nil => simp [StdMap.set, StdMap.find, Ne.symm hne]
  | cons a m ih =>
    obtain ⟨k0, v0⟩ := a
    by_cases h1 : strLt k k0 = true
    · rw [StdMap.set_cons_lt _ _ _ _ _ h1]; simp [StdMap.find, Ne.symm hne]
    · by_cases h2 : k0 = k
      · subst h2
        rw [StdMap.set_cons_eq]; simp [StdMap.find, Ne.symm hne]
      · rw [StdMap.set_cons_gt _ _ _ _ _ h1 h2]; simp [StdMap.find, ih]

theorem StdMap.ordered_nodup (m : StdMap) (h : m.ordered) : (m.map Prod.fst).Nodup :=
  List.Pairwise.imp (fun hab => strLt_ne _ _ hab) h

/-- The loop of `mloReadConfigDB` keeps the map ordered and clean. -/
theorem readLoop_inv : ∀ (lines : List CString) (acc m : StdMap),
    (∀ l ∈ lines, '\n' ∉ l ∧ '\r' ∉ l) → acc.ordered → acc.clean →
    lines.foldlM readConfigLine acc = .ok m → m.ordered ∧ m.clean := by
  intro lines
  induction lines with
  | nil =>
    intro acc m _ ho hc h
    simp only [List.foldlM_nil, pure, Except.pure, Except.ok.injEq] at h
    subst h
    exact ⟨ho, hc⟩
  | cons l lines ih =>
    intro acc m hl ho hc h
    simp only [List.foldlM_cons, bind, Except.bind] at h
    cases h1 : readConfigLine acc l with
    | error e => simp [h1] at h
    | ok acc' =>
      simp only [h1] at h
      obtain ⟨k, v, hk, hv, rfl⟩ := readConfigLine_ok (hl l (by simp)).1 (hl l (by simp)).2 h1
      exact ih _ m (fun x hx => hl x (by simp [hx])) (StdMap.set_ordered _ _ _ ho)
        (StdMap.set_clean _ _ _ hc hk hv) h

/-- Whatever the file holds, a map read from it is ordered by key, and its keys and
values are clean. -/
theorem mloReadConfigDB_inv (files : Files) (m : StdMap)
    (h : mloReadConfigDB files [] = .ok m) : m.ordered ∧ m.clean := by
  refine readLoop_inv (mloReadDb files.conf_db []) [] m ?_ (by simp [StdMap.ordered])
    (by simp [StdMap.clean]) h
  intro l hl
  exact (mloReadDb_lines _ l hl).2

theorem mloReadConfigDB_congr (f1 f2 : Files) (h : f1.conf_db = f2.conf_db) (m : StdMap) :
    mloReadConfigDB f1 m = mloReadConfigDB f2 m := by
  simp [mloReadConfigDB, h]

/-- What `mloAddConfig` does to the database: it reads back as the old map with the key
set (helper shared by several results). -/
theorem mloAddConfig_spec (files : Files) (m : StdMap) (k v : CString)
    (hread : mloReadConfigDB files [] = .ok m) (hk : cleanStr k) (hv : cleanStr v) :
    ∃ files', mloAddConfig files k v = .ok files' ∧
      files'.conf_db = (mloWriteConfigDB files (m.set k v)).conf_db ∧
      mloReadConfigDB files' [] = .ok (m.set k v) := by
  obtain ⟨ho, hc⟩ := mloReadConfigDB_inv files m hread
  refine ⟨mloRemoveConfigReq (mloWriteConfigDB files (m.set k v)) k, ?_, ?_, ?_⟩
  · simp [mloAddConfig, hread, bind, Except.bind, pure, Except.pure]
  · unfold mloRemoveConfigReq
    split
    split <;> rfl
  · rw [mloReadConfigDB_congr _ (mloWriteConfigDB files (m.set k v))]
    · exact mloReadConfigDB_mloWriteConfigDB files _ (StdMap.set_ordered _ _ _ ho)
        (StdMap.set_clean _ _ _ hc hk hv)
    · unfold mloRemoveConfigReq
      split
      split <;> rfl

/-- C3. Upsert: when the database file reads as the mapping `m`, and `k`, `v` are a key
and a value (non-empty, free of spaces and line breaks), then after `mloAddConfig(k, v)`
a lookup of `k` (`mloReadConfigDB` followed by `mloSearchConfigDB`) returns `v`, a lookup
of any other key returns what it returned before, and the lines of the stored database
have pairwise different keys. -/
theorem C3_upsert (files : Files) (m : StdMap) (k v : CString)
    (hread : mloReadConfigDB files [] = .ok m) (hk : cleanStr k) (hv : cleanStr v) :
    ∃ files' m', mloAddConfig files k v = .ok files' ∧
      mloReadConfigDB files' [] = .ok m' ∧
      (∀ c, mloSearchConfigDB m' k c = (true, v)) ∧
      (∀ k' c, k' ≠ k → mloSearchConfigDB m' k' c = mloSearchConfigDB m k' c) ∧
      ((mloReadDb files'.conf_db []).map (fun l => (tokenize l [] [' ']).head?)).Nodup := by
  obtain ⟨ho, hc⟩ := mloReadConfigDB_inv files m hread
  obtain ⟨files', h1, h2, h3⟩ := mloAddConfig_spec files m k v hread hk hv
  have hc' := StdMap.set_clean _ _ _ hc hk hv
  refine ⟨files', m.set k v, h1, h3, ?_, ?_, ?_⟩
  · intro c
    simp [mloSearchConfigDB, StdMap.find_set_self]
  · intro k' c hne
    simp [mloSearchConfigDB, StdMap.find_set_other _ _ _ _ hne]
  · have hl : mloReadDb files'.conf_db [] = (m.set k v).map (fun it => it.1 ++ [' '] ++ it.2) := by
      rw [h2]; exact mloReadDb_mloWriteConfigDB files _ hc'
    rw [hl, List.map_map]
    have hkeys : List.map ((fun l => (tokenize l [] [' ']).head?) ∘ fun it => it.1 ++ [' '] ++ it.2)
        (m.set k v) = ((m.set k v).map Prod.fst).map some := by
      rw [List.map_map]
      apply List.map_congr_left
      intro kv hkv
      simp only [Function.comp_apply]
      rw [tokenize_line (hc' kv hkv).1 (hc' kv hkv).2]
      rfl
    rw [hkeys]
    exact (StdMap.ordered_nodup _ (StdMap.set_ordered _ _ _ ho)).map (Option.some_injective _)

theorem C3_upsert_witness :
    mloReadConfigDB ⟨"a 1\nb 2\n".toList, []⟩ [] = .ok [("a".toList, "1".toList), ("b".toList, "2".toList)] ∧
    cleanStr "b".toList ∧ cleanStr "3".toList ∧
    ∃ files' m', mloAddConfig ⟨"a 1\nb 2\n".toList, []⟩ "b".toList "3".toList = .ok files' ∧
      mloReadConfigDB files' [] = .ok m' ∧
      (∀ c, mloSearchConfigDB m' "b".toList c = (true, "3".toList)) ∧
      (∀ k' c, k' ≠ "b".toList → mloSearchConfigDB m' k' c
        = mloSearchConfigDB [("a".toList, "1".toList), ("b".toList, "2".toList)] k' c) ∧
      ((mloReadDb files'.conf_db []).map (fun l => (tokenize l [] [' ']).head?)).Nodup :=
  ⟨by decide, by decide, by decide, C3_upsert _ _ _ _ (by decide) (by decide) (by decide)⟩

end MLOpen
namespace MLOpen

theorem setTiling_getConfigParameters (s : mlo_construct_direct2D) :
    setTiling s (getConfigParameters s) = s := by
  cases s; rfl

theorem getConfigParameters_setTiling (s : mlo_construct_direct2D) (t : Tiling) :
    getConfigParameters (setTiling s t) = t := by
  cases t; rfl

/-- `mloSetConf` of a value built from `int` values stores the values. -/
theorem mloSetConf_build (s : mlo_construct_direct2D) (t : Tiling) (h : t.isInt) :
    mloSetConf s (mloBuildConf_Val t) = .ok (setTiling s t) := by
  simp [mloSetConf, mloParseConf_build t h, bind, Except.bind, pure, Except.pure]

theorem defaultTiling_isInt (s : mlo_construct_direct2D) : (defaultTiling s).isInt := by
  unfold defaultTiling
  split
  · simp only [Tiling.isInt]
    refine ⟨by decide, ?_, by decide, by decide, by decide, by decide, by decide, by decide, ?_⟩
    · split_ifs <;> decide
    · split_ifs <;> decide
  · simp only [Tiling.isInt]
    refine ⟨?_, ?_, ?_, ?_, by decide, by decide, by decide, by decide, by decide⟩ <;>
      split_ifs <;> decide

/-- What `mloSelectDefaultConfig` returns: the object with the default tiling of the shape
set, and the encoding of that tiling (helper shared by several results). -/
theorem mloSelectDefaultConfig_eq (s : mlo_construct_direct2D) :
    mloSelectDefaultConfig s
      = .ok (setTiling s (defaultTiling s), mloBuildConf_Val (defaultTiling s)) := by
  have hint := defaultTiling_isInt s
  by_cases h : s._kernel_size0 = 1 ∧ s._kernel_size1 = 1
  · have e : defaultTiling s = _ := if_pos h
    dsimp only [mloSelectDefaultConfig]
    rw [if_pos h]
    rw [e] at hint ⊢
    dsimp only [getConfigParameters]
    rw [mloSetConf_build _ _ hint]
    rfl
  · have e : defaultTiling s = _ := if_neg h
    dsimp only [mloSelectDefaultConfig]
    rw [if_neg h]
    rw [e] at hint ⊢
    dsimp only [getConfigParameters]
    rw [mloSetConf_build _ _ hint]
    rfl

/-- C10. Default selector, general case: for a kernel that is not 1x1,
`mloSelectDefaultConfig` succeeds and sets in_tile0 = 8 / 16 / 32 for in_width <= 8 /
<= 16 / larger, in_tile1 = 8 / 16 / 8 for in_height <= 8 / <= 16 / larger, grp_tile0 = 8
if in_tile0 = 8 else 16, grp_tile1 = 8 if in_tile1 = 8 else 16, out_pix_tile0 =
out_pix_tile1 = 2, n_out_pix_tiles = 8, n_in_data_tiles = 2, n_stacks = 1; the returned
string is the encoding of exactly these nine values. -/
theorem C10_default_selector_general (s : mlo_construct_direct2D)
    (h : ¬ (s._kernel_size0 = 1 ∧ s._kernel_size1 = 1)) :
    ∃ s' conf_val, mloSelectDefaultConfig s = .ok (s', conf_val) ∧
      s'._in_tile0 = (if s._in_width ≤ 8 then 8 else if s._in_width ≤ 16 then 16 else 32) ∧
      s'._in_tile1 = (if s._in_height ≤ 8 then 8 else if s._in_height ≤ 16 then 16 else 8) ∧
      s'._grp_tile0 = (if s'._in_tile0 = 8 then 8 else 16) ∧
      s'._grp_tile1 = (if s'._in_tile1 = 8 then 8 else 16) ∧
      s'._out_pix_tile0 = 2 ∧ s'._out_pix_tile1 = 2 ∧ s'._n_out_pix_tiles = 8 ∧
      s'._n_in_data_tiles = 2 ∧ s'._n_stacks = 1 ∧
      conf_val = mloBuildConf_Val ⟨s'._grp_tile1, s'._grp_tile0, s'._in_tile1, s'._in_tile0,
        s'._out_pix_tile1, s'._out_pix_tile0, s'._n_out_pix_tiles, s'._n_in_data_tiles,
        s'._n_stacks⟩ := by
  refine ⟨_, _, mloSelectDefaultConfig_eq s, ?_⟩
  have e : defaultTiling s = _ := if_neg h
  rw [e]
  simp [setTiling]

theorem C10_default_selector_general_witness :
    ¬ (exampleShape._kernel_size0 = 1 ∧ exampleShape._kernel_size1 = 1) ∧
    ∃ s' conf_val, mloSelectDefaultConfig exampleShape = .ok (s', conf_val) ∧
      s'._in_tile0 = (if exampleShape._in_width ≤ 8 then 8 else
        if exampleShape._in_width ≤ 16 then 16 else 32) ∧
      s'._in_tile1 = (if exampleShape._in_height ≤ 8 then 8 else
        if exampleShape._in_height ≤ 16 then 16 else 8) ∧
      s'._grp_tile0 = (if s'._in_tile0 = 8 then 8 else 16) ∧
      s'._grp_tile1 = (if s'._in_tile1 = 8 then 8 else 16) ∧
      s'._out_pix_tile0 = 2 ∧ s'._out_pix_tile1 = 2 ∧ s'._n_out_pix_tiles = 8 ∧
      s'._n_in_data_tiles = 2 ∧ s'._n_stacks = 1 ∧
      conf_val = mloBuildConf_Val ⟨s'._grp_tile1, s'._grp_tile0, s'._in_tile1, s'._in_tile0,
        s'._out_pix_tile1, s'._out_pix_tile0, s'._n_out_pix_tiles, s'._n_in_data_tiles,
        s'._n_stacks⟩ :=
  ⟨by decide, C10_default_selector_general exampleShape (by decide)⟩

end MLOpen
namespace MLOpen

/-- Reading back a written list of lines that are non-empty and free of line breaks. -/
theorem mloReadDb_mloUpdateDb (db : List CString)
    (h : ∀ l ∈ db, l ≠ [] ∧ '\n' ∉ l ∧ '\r' ∉ l) : mloReadDb (mloUpdateDb db) [] = db := by
  simp only [mloReadDb, tokenize, mloUpdateDb_eq, List.nil_append]
  induction db with
  | nil => simp [tokenizeFrom]
  | cons l db ih =>
    obtain ⟨hne, hn, hr⟩ := h l (by simp)
    have hnd : ∀ c ∈ l, c ∉ ['\n', '\r'] := by
      intro c hc
      simp only [List.mem_cons, List.mem_singleton, List.not_mem_nil, or_false, not_or]
      exact ⟨fun e => hn (e ▸ hc), fun e => hr (e ▸ hc)⟩
    simp only [List.map_cons, List.flatten_cons, List.append_assoc]
    rw [tokenizeFrom_token_cons _ _ _ _ hne hnd (by simp), ih (fun x hx => h x (by simp [hx]))]

theorem findReq_lt_length (db : List CString) (key : CString) :
    findReq db key < db.length ↔ key ∈ db := by
  induction db with
  | nil => simp [findReq]
  | cons a db ih =>
    by_cases h : a = key
    · simp [findReq, h]
    · simp [findReq, h, ih, Ne.symm h]

/-- After `mloAddConfigReq` the request log contains the key, and the database file is
untouched. -/
theorem mloAddConfigReq_mem (files : Files) (key : CString)
    (hk : key ≠ [] ∧ '\n' ∉ key ∧ '\r' ∉ key) :
    key ∈ mloReadDb (mloAddConfigReq files key).req_db [] ∧
      (mloAddConfigReq files key).conf_db = files.conf_db := by
  unfold mloAddConfigReq mloFindConfigReq
  by_cases hf : findReq (mloReadDb files.req_db []) key < (mloReadDb files.req_db []).length
  · simp only [hf, decide_True, Bool.not_true, Bool.false_eq_true, if_false, and_true]
    exact (findReq_lt_length _ _).mp hf
  · simp only [hf, decide_False, Bool.not_false, if_true, and_true]
    rw [mloReadDb_mloUpdateDb]
    · simp
    · intro l hl
      rcases List.mem_append.mp hl with hl | hl
      · exact mloReadDb_lines _ l hl
      · simp only [List.mem_singleton] at hl
        subst hl
        exact hk

theorem mloReadConfigDB_empty (files : Files) (h : files.conf_db = []) :
    mloReadConfigDB files [] = .ok [] := by
  simp [mloReadConfigDB, mloReadDb, tokenize, tokenizeFrom, h, pure, Except.pure]

/-- `mloSearchConfigInDB` on a database that reads as `m`. -/
theorem mloSearchConfigInDB_eq (files : Files) (s : mlo_construct_direct2D) (c : CString)
    (m : StdMap) (h : mloReadConfigDB files [] = .ok m) :
    mloSearchConfigInDB files s c
      = .ok ((mloSearchConfigDB m (mloBuildConf_Key s) c).1, mloBuildConf_Key s,
          (mloSearchConfigDB m (mloBuildConf_Key s) c).2) := by
  simp only [mloSearchConfigInDB, h, bind, Except.bind, pure, Except.pure]

theorem ok_bind {ε α β : Type} (a : α) (f : α → Except ε β) :
    (Except.ok a >>= f) = f a := rfl

theorem error_bind {ε α β : Type} (e : ε) (f : α → Except ε β) :
    ((Except.error e : Except ε α) >>= f) = Except.error e := rfl

/-- `mloGetConfig` for a shape that the database does not hold. -/
theorem mloGetConfig_unknown (files : Files) (s : mlo_construct_direct2D) (m : StdMap)
    (h : mloReadConfigDB files [] = .ok m) (hf : m.find (mloBuildConf_Key s) = none) :
    mloGetConfig files s = .ok (false, setTiling s (defaultTiling s),
      if s._save_srch_req then mloAddConfigReq files (mloBuildConf_Key s) else files) := by
  have hsave : (setTiling s (defaultTiling s))._save_srch_req = s._save_srch_req := rfl
  have e : mloSearchConfigDB m (mloBuildConf_Key s) [] = (false, []) := by
    simp only [mloSearchConfigDB, hf]
  unfold mloGetConfig
  rw [mloSearchConfigInDB_eq files s [] m h, e, mloSelectDefaultConfig_eq]
  simp only [ok_bind, Bool.false_eq_true, if_false]
  rw [hsave]
  split <;> rfl

/-- `mloGetConfig` for a shape that the database holds. -/
theorem mloGetConfig_known (files : Files) (s : mlo_construct_direct2D) (m : StdMap)
    (v : CString) (h : mloReadConfigDB files [] = .ok m)
    (hf : m.find (mloBuildConf_Key s) = some v) :
    mloGetConfig files s = (mloSetConf s v).map (fun s' => (true, s', files)) := by
  have e : mloSearchConfigDB m (mloBuildConf_Key s) [] = (true, v) := by
    simp only [mloSearchConfigDB, hf]
  unfold mloGetConfig
  rw [mloSearchConfigInDB_eq files s [] m h, e]
  simp only [ok_bind, if_true]
  cases mloSetConf s v <;> rfl

/-- C9 (as amended). Forward-output scenario: for the shape n_inputs=3, in 32x32, kernel
3x3, n_outputs=32, out 30x30, batch=100, NCHW, FP32, forward, whose key is
`3x32x32x3x3x32x30x30x100xNCHWxFP32x1`, and an empty config database, `mloGetConfig`
(a) reports the shape as not known, (b) sets the default tiling `8.16.8.32.2.2.8.2.1`
(in_tile0 = 32), and (c) leaves the config database as it is; the request log ends up
containing the key when `_save_srch_req` is set, and is left as it is otherwise. -/
theorem C9_forward_output_scenario (files : Files) (s : mlo_construct_direct2D)
    (hs : s._n_inputs = 3 ∧ s._in_height = 32 ∧ s._in_width = 32 ∧ s._kernel_size0 = 3
      ∧ s._kernel_size1 = 3 ∧ s._n_outputs = 32 ∧ s._out_height = 30 ∧ s._out_width = 30
      ∧ s._batch_sz = 100 ∧ s._in_layout = "NCHW".toList ∧ s._in_data_type = "FP32".toList
      ∧ s._direction = 1)
    (hdb : files.conf_db = []) :
    mloBuildConf_Key s = "3x32x32x3x3x32x30x30x100xNCHWxFP32x1".toList ∧
    ∃ s' files', mloGetConfig files s = .ok (false, s', files') ∧
      getConfigParameters s' = ⟨8, 16, 8, 32, 2, 2, 8, 2, 1⟩ ∧
      mloBuildConf_Val (getConfigParameters s') = "8.16.8.32.2.2.8.2.1".toList ∧
      files'.conf_db = files.conf_db ∧
      (if s._save_srch_req then
        "3x32x32x3x3x32x30x30x100xNCHWxFP32x1".toList ∈ mloReadDb files'.req_db []
       else files'.req_db = files.req_db) := by
  obtain ⟨h1, h2, h3, h4, h5, h6, h7, h8, h9, h10, h11, h12⟩ := hs
  have hkey : mloBuildConf_Key s = "3x32x32x3x3x32x30x30x100xNCHWxFP32x1".toList := by
    simp only [mloBuildConf_Key, h1, h2, h3, h4, h5, h6, h7, h8, h9, h10, h11, h12]
    decide
  have hk : ¬ (s._kernel_size0 = 1 ∧ s._kernel_size1 = 1) := by rw [h4]; simp
  have hdef : defaultTiling s = ⟨8, 16, 8, 32, 2, 2, 8, 2, 1⟩ := by
    unfold defaultTiling
    rw [if_neg hk, h2, h3]
    decide
  refine ⟨hkey, ?_⟩
  rw [mloGetConfig_unknown files s [] (mloReadConfigDB_empty files hdb) rfl]
  refine ⟨_, _, rfl, ?_, ?_, ?_, ?_⟩
  · rw [getConfigParameters_setTiling, hdef]
  · rw [getConfigParameters_setTiling, hdef]; decide
  · split
    · exact (mloAddConfigReq_mem files _ (by rw [hkey]; decide)).2
    · rfl
  · by_cases hsv : s._save_srch_req = true
    · simp only [hsv, if_true]
      rw [hkey]
      exact (mloAddConfigReq_mem files _ (by decide)).1
    · simp only [hsv, if_false, Bool.false_eq_true]

theorem C9_forward_output_scenario_witness :
    (exampleShape._n_inputs = 3 ∧ exampleShape._in_height = 32 ∧ exampleShape._in_width = 32
      ∧ exampleShape._kernel_size0 = 3 ∧ exampleShape._kernel_size1 = 3
      ∧ exampleShape._n_outputs = 32 ∧ exampleShape._out_height = 30
      ∧ exampleShape._out_width = 30 ∧ exampleShape._batch_sz = 100
      ∧ exampleShape._in_layout = "NCHW".toList ∧ exampleShape._in_data_type = "FP32".toList
      ∧ exampleShape._direction = 1) ∧
    mloBuildConf_Key exampleShape = "3x32x32x3x3x32x30x30x100xNCHWxFP32x1".toList ∧
    ∃ s' files', mloGetConfig ⟨[], []⟩ exampleShape = .ok (false, s', files') ∧
      getConfigParameters s' = ⟨8, 16, 8, 32, 2, 2, 8, 2, 1⟩ ∧
      mloBuildConf_Val (getConfigParameters s') = "8.16.8.32.2.2.8.2.1".toList ∧
      files'.conf_db = [] ∧
      (if exampleShape._save_srch_req then
        "3x32x32x3x3x32x30x30x100xNCHWxFP32x1".toList ∈ mloReadDb files'.req_db []
       else files'.req_db = []) :=
  ⟨by decide, C9_forward_output_scenario ⟨[], []⟩ exampleShape (by decide) rfl⟩

/-- C9, as stated, fails when `_save_srch_req` is not set: for the shape of the scenario
and empty files, `mloGetConfig` leaves the request log without the key. -/
theorem C9_counterexample :
    ¬ (∀ r, mloGetConfig ⟨[], []⟩ { exampleShape with _save_srch_req := false } = .ok r →
        "3x32x32x3x3x32x30x30x100xNCHWxFP32x1".toList ∈ mloReadDb r.2.2.req_db []) := by
  intro h
  have := h (false, setTiling { exampleShape with _save_srch_req := false }
    ⟨8, 16, 8, 32, 2, 2, 8, 2, 1⟩, ⟨[], []⟩) (by decide)
  revert this
  decide

/-- C5. Generic-backward rejection: for a kernel size above 11 or a stride above 1, in
the backward direction, `mloConstruct` returns -1; the object is left as it was except
for the flag `_gen` (so the compiler options, the work sizes, the kernel file and name
and the nine tiling fields are unchanged), and the files are left as they were. -/
theorem C5_generic_backward_rejection (dev : Device) (stub : Measurement) (files : Files)
    (s : mlo_construct_direct2D)
    (hgen : s._kernel_size0 > 11 ∨ s._kernel_size1 > 11 ∨ s._kernel_stride0 > 1
      ∨ s._kernel_stride1 > 1)
    (hdir : s._direction = 0) :
    mloConstruct dev stub files s = .ok (-1, { s with _gen := true }, files) := by
  simp [mloConstruct, hgen, getDirectcion, hdir, pure, Except.pure]

theorem C5_generic_backward_rejection_witness :
    (({ exampleShape with _kernel_size1 := 13, _direction := 0 } :
          mlo_construct_direct2D)._kernel_size0 > 11
      ∨ ({ exampleShape with _kernel_size1 := 13, _direction := 0 } :
          mlo_construct_direct2D)._kernel_size1 > 11
      ∨ ({ exampleShape with _kernel_size1 := 13, _direction := 0 } :
          mlo_construct_direct2D)._kernel_stride0 > 1
      ∨ ({ exampleShape with _kernel_size1 := 13, _direction := 0 } :
          mlo_construct_direct2D)._kernel_stride1 > 1) ∧
    ({ exampleShape with _kernel_size1 := 13, _direction := 0 } :
          mlo_construct_direct2D)._direction = 0 ∧
    mloConstruct ⟨65536⟩ (fun _ _ => none) ⟨[], []⟩
        { exampleShape with _kernel_size1 := 13, _direction := 0 }
      = .ok (-1, { exampleShape with _kernel_size1 := 13, _direction := 0, _gen := true },
          ⟨[], []⟩) :=
  ⟨by decide, by decide, C5_generic_backward_rejection _ _ _ _ (by decide) (by decide)⟩

end MLOpen
namespace MLOpen

/-! ### The search: what is never written -/

theorem bind_eq_ok {ε α β : Type} {x : Except ε α} {f : α → Except ε β} {b : β} :
    (x >>= f) = .ok b ↔ ∃ a, x = .ok a ∧ f a = .ok b := by
  cases x with
  | error e => simp [bind, Except.bind]
  | ok a => simp [bind, Except.bind]

theorem pure_eq_ok {ε α : Type} {a b : α} : (pure a : Except ε α) = .ok b ↔ a = b := by
  simp [pure, Except.pure]

theorem mloConstructDirect2D1x1_shape (dev : Device) (s s' : mlo_construct_direct2D) (ret : Int)
    (h : mloConstructDirect2D1x1 dev s = .ok (ret, s')) : shapeOf s' = shapeOf s := by
  simp only [mloConstructDirect2D1x1, bind_eq_ok, pure_eq_ok, Prod.mk.injEq] at h
  obtain ⟨_, _, _, _, _, _, _, _, _, _, _, _, _, _, _, _, _, _, _, _, _, rfl⟩ := h
  rfl

theorem mloConstructDirect2DFwdC_shape (dev : Device) (s s' : mlo_construct_direct2D) (ret : Int)
    (h : mloConstructDirect2DFwdC dev s = .ok (ret, s')) : shapeOf s' = shapeOf s := by
  unfold mloConstructDirect2DFwdC at h
  split at h
  · exact mloConstructDirect2D1x1_shape dev s s' ret h
  · simp only [bind_eq_ok, pure_eq_ok, Prod.mk.injEq] at h
    obtain ⟨_, _, _, _, h⟩ := h
    split at h
    · simp only [pure_eq_ok, Prod.mk.injEq] at h
      obtain ⟨_, rfl⟩ := h
      rfl
    · simp only [bind_eq_ok, pure_eq_ok, Prod.mk.injEq] at h
      obtain ⟨_, _, _, _, _, _, _, _, _, _, _, _, _, _, _, _, _, rfl⟩ := h
      rfl

theorem mloConstructDirect2DFwd_shape (dev : Device) (s s' : mlo_construct_direct2D) (ret : Int)
    (h : mloConstructDirect2DFwd dev s = .ok (ret, s')) : shapeOf s' = shapeOf s := by
  unfold mloConstructDirect2DFwd at h
  split at h
  · exact mloConstructDirect2D1x1_shape dev s s' ret h
  · split at h
    · exact mloConstructDirect2DFwdC_shape dev s s' ret h
    · simp only [bind_eq_ok, pure_eq_ok, Prod.mk.injEq] at h
      obtain ⟨_, _, _, _, h⟩ := h
      split at h
      · simp only [pure_eq_ok, Prod.mk.injEq] at h
        obtain ⟨_, rfl⟩ := h
        rfl
      · simp only [bind_eq_ok, pure_eq_ok, Prod.mk.injEq] at h
        obtain ⟨_, _, _, _, _, _, _, _, _, _, _, _, _, _, _, _, rfl⟩ := h
        rfl

theorem mloMeasuredLoop_shape (dev : Device) (run : mlo_construct_direct2D → Option ℚ)
    (s s' : mlo_construct_direct2D) (t t' : ℚ) (ret : Int)
    (h : mloMeasuredLoop dev run s t = .ok (ret, s', t')) : shapeOf s' = shapeOf s := by
  unfold mloMeasuredLoop at h
  simp only [bind_eq_ok] at h
  obtain ⟨⟨r1, s1⟩, h1, h⟩ := h
  have hs := mloConstructDirect2DFwd_shape dev s s1 r1 h1
  dsimp only at h
  split at h
  · simp only [pure_eq_ok, Prod.mk.injEq] at h
    obtain ⟨_, rfl, _⟩ := h
    exact hs
  · split at h
    · simp only [pure_eq_ok, Prod.mk.injEq] at h
      obtain ⟨_, rfl, _⟩ := h
      exact hs
    · simp only [pure_eq_ok, Prod.mk.injEq] at h
      obtain ⟨_, rfl, _⟩ := h
      exact hs

/-! ### The search: log and minimum -/

theorem bestOf_append (acc : Tiling × ℚ) (l1 l2 : List Measured) :
    bestOf acc (l1 ++ l2) = bestOf (bestOf acc l1) l2 := by
  simp [bestOf, List.foldl_append]

theorem Steps.refl (st : SearchState) : Steps st st :=
  ⟨rfl, [], by simp, rfl⟩

theorem Steps.trans {a b c : SearchState} (h1 : Steps a b) (h2 : Steps b c) : Steps a c := by
  obtain ⟨hs1, e1, hl1, hm1⟩ := h1
  obtain ⟨hs2, e2, hl2, hm2⟩ := h2
  refine ⟨hs2.trans hs1, e1 ++ e2, ?_, ?_⟩
  · rw [hl2, hl1, List.append_assoc]
  · rw [bestOf_append, ← hm1, hm2]

/-- A change of the state that keeps the shape, the log and the minimum. -/
theorem Steps.of_eq {st st' : SearchState} (h1 : shapeOf st'.obj = shapeOf st.obj)
    (h2 : st'.log = st.log) (h3 : st'.min = st.min)
    (h4 : st'.min_proc_time = st.min_proc_time) : Steps st st' :=
  ⟨h1, [], by simp [h2], by simp [bestOf, h3, h4]⟩

theorem Steps.of_countRun (st : SearchState) : Steps st (countRun st) :=
  Steps.of_eq rfl rfl rfl rfl

theorem Steps.of_recordRun (st : SearchState) (candidate : Tiling) :
    Steps st (recordRun st candidate) := by
  refine ⟨?_, [⟨candidate, getConfigParameters st.obj, st.processing_time⟩], ?_, ?_⟩
  · unfold MLOpen.recordRun; dsimp only; split <;> rfl
  · unfold MLOpen.recordRun; dsimp only; split <;> rfl
  · unfold MLOpen.recordRun bestOf
    dsimp only [MLOpen.countRun, List.foldl]
    split <;> rfl

/-- A loop whose body makes steps makes steps. -/
theorem Steps.foldlM {α : Type} (f : SearchState → α → Except Fault SearchState)
    (hf : ∀ st x st', f st x = .ok st' → Steps st st') :
    ∀ (l : List α) (st st' : SearchState), l.foldlM f st = .ok st' → Steps st st' := by
  intro l
  induction l with
  | nil =>
    intro st st' h
    simp only [List.foldlM_nil, pure_eq_ok] at h
    subst h
    exact Steps.refl _
  | cons x l ih =>
    intro st st' h
    simp only [List.foldlM_cons, bind_eq_ok] at h
    obtain ⟨st1, h1, h2⟩ := h
    exact (hf _ _ _ h1).trans (ih _ _ h2)

theorem searchBodyS_steps (dev : Device) (stub : Measurement) (sp : SearchSpace)
    (st : SearchState) (x : Int) (st' : SearchState)
    (h : searchBodyS dev stub sp st x = .ok st') : Steps st st' := by
  unfold searchBodyS at h
  simp only [bind_eq_ok] at h
  obtain ⟨b, _, h⟩ := h
  split at h
  · simp only [pure_eq_ok] at h
    subst h
    exact Steps.of_eq rfl rfl rfl rfl
  · split at h
    · simp only [pure_eq_ok] at h
      subst h
      exact Steps.of_eq rfl rfl rfl rfl
    · simp only [bind_eq_ok] at h
      obtain ⟨⟨ret, obj, t⟩, hm, h⟩ := h
      have hs := mloMeasuredLoop_shape _ _ _ _ _ _ _ hm
      dsimp only at h
      split at h
      · simp only [pure_eq_ok] at h
        subst h
        exact Steps.of_eq hs rfl rfl rfl
      · simp only [pure_eq_ok] at h
        subst h
        refine Steps.trans ?_ (Steps.of_recordRun _ _)
        exact Steps.of_eq hs rfl rfl rfl

/-- A filter of the search: the candidate is skipped, or the inner loop runs. -/
theorem Steps.filter {c : Prop} [Decidable c] {st0 st st' : SearchState}
    {m : Except Fault SearchState} (h0 : Steps st0 st)
    (hm : ∀ st', m = .ok st' → Steps st st')
    (h : (if c then pure (MLOpen.countRun st) else m) = .ok st') : Steps st0 st' := by
  split at h
  · simp only [pure_eq_ok] at h
    subst h
    exact h0.trans (Steps.of_countRun _)
  · exact h0.trans (hm _ h)

theorem searchBodyIT_steps (dev : Device) (stub : Measurement) (sp : SearchSpace)
    (st : SearchState) (x : Int) (st' : SearchState)
    (h : searchBodyIT dev stub sp st x = .ok st') : Steps st st' := by
  unfold searchBodyIT at h
  refine Steps.filter ?_ ?_ h
  · exact Steps.of_eq rfl rfl rfl rfl
  · intro st' h
    exact Steps.foldlM _ (searchBodyS_steps dev stub sp) _ _ _ h

theorem searchInTilesRange_steps (st st' : SearchState)
    (h : searchInTilesRange st = .ok st') : Steps st st' := by
  unfold searchInTilesRange at h
  dsimp only at h
  split at h
  · simp only [bind_eq_ok] at h
    obtain ⟨_, _, h⟩ := h
    split at h
    · simp only [bind_eq_ok] at h
      obtain ⟨_, _, _, _, h⟩ := h
      split at h
      · split at h
        · simp at h
        · simp only [pure_eq_ok] at h
          subst h
          exact Steps.of_eq rfl rfl rfl rfl
      · simp only [pure_eq_ok] at h
        subst h
        exact Steps.of_eq rfl rfl rfl rfl
    · simp only [pure_eq_ok] at h
      subst h
      exact Steps.refl _
  · simp only [pure_eq_ok] at h
    subst h
    exact Steps.refl _

theorem searchBodyOT_steps (dev : Device) (stub : Measurement) (sp : SearchSpace)
    (st : SearchState) (x : Int) (st' : SearchState)
    (h : searchBodyOT dev stub sp st x = .ok st') : Steps st st' := by
  unfold searchBodyOT at h
  refine Steps.filter ?_ ?_ h
  · exact Steps.of_eq rfl rfl rfl rfl
  · intro st' h
    simp only [bind_eq_ok] at h
    obtain ⟨st1, h1, h⟩ := h
    exact (searchInTilesRange_steps _ _ h1).trans
      (Steps.foldlM _ (searchBodyIT_steps dev stub sp) _ _ _ h)

theorem searchBodyL_steps (dev : Device) (stub : Measurement) (sp : SearchSpace)
    (st : SearchState) (x : Int) (st' : SearchState)
    (h : searchBodyL dev stub sp st x = .ok st') : Steps st st' := by
  unfold searchBodyL at h
  refine Steps.filter ?_ ?_ h
  · exact Steps.of_eq rfl rfl rfl rfl
  · intro st' h
    exact Steps.foldlM _ (searchBodyOT_steps dev stub sp) _ _ _ h

theorem searchBodyK_steps (dev : Device) (stub : Measurement) (sp : SearchSpace)
    (st : SearchState) (x : Int) (st' : SearchState)
    (h : searchBodyK dev stub sp st x = .ok st') : Steps st st' := by
  unfold searchBodyK at h
  refine Steps.filter ?_ ?_ h
  · exact Steps.of_eq rfl rfl rfl rfl
  · intro st' h
    exact Steps.foldlM _ (searchBodyL_steps dev stub sp) _ _ _ h

theorem searchBodyI_steps (dev : Device) (stub : Measurement) (sp : SearchSpace)
    (st : SearchState) (x : Int) (st' : SearchState)
    (h : searchBodyI dev stub sp st x = .ok st') : Steps st st' := by
  unfold searchBodyI at h
  refine Steps.filter ?_ ?_ h
  · exact Steps.of_eq rfl rfl rfl rfl
  · intro st' h
    refine Steps.filter (Steps.refl _) ?_ h
    intro st' h
    refine Steps.filter (Steps.refl _) ?_ h
    intro st' h
    exact Steps.foldlM _ (searchBodyK_steps dev stub sp) _ _ _ h

theorem searchBodyJ_steps (dev : Device) (stub : Measurement) (sp : SearchSpace)
    (st : SearchState) (x : Int) (st' : SearchState)
    (h : searchBodyJ dev stub sp st x = .ok st') : Steps st st' := by
  unfold searchBodyJ at h
  refine Steps.filter ?_ ?_ h
  · exact Steps.of_eq rfl rfl rfl rfl
  · intro st' h
    exact Steps.foldlM _ (searchBodyI_steps dev stub sp) _ _ _ h

theorem searchBodyG0_steps (dev : Device) (stub : Measurement) (sp : SearchSpace)
    (st : SearchState) (x : Int) (st' : SearchState)
    (h : searchBodyG0 dev stub sp st x = .ok st') : Steps st st' := by
  unfold searchBodyG0 at h
  refine Steps.trans ?_ (Steps.foldlM _ (searchBodyJ_steps dev stub sp) _ _ _ h)
  exact Steps.of_eq rfl rfl rfl rfl

theorem searchBodyG1_steps (dev : Device) (stub : Measurement) (sp : SearchSpace)
    (st : SearchState) (x : Int) (st' : SearchState)
    (h : searchBodyG1 dev stub sp st x = .ok st') : Steps st st' := by
  unfold searchBodyG1 at h
  refine Steps.trans ?_ (Steps.foldlM _ (searchBodyG0_steps dev stub sp) _ _ _ h)
  exact Steps.of_eq rfl rfl rfl rfl

/-! ### The search as a whole -/

theorem stoi_to_string_ok {v w : Int} (h : stoi (to_string v) = .ok w) : isInt v ∧ w = v := by
  rw [stoi_to_string_all] at h
  split at h
  · exact ⟨by assumption, by simpa using h.symm⟩
  · simp at h

theorem mloParseConf_build_eq (t : Tiling) :
    mloParseConf (mloBuildConf_Val t) = (do
      let grp_tile1 ← stoi (to_string t.grp_tile1)
      let grp_tile0 ← stoi (to_string t.grp_tile0)
      let in_tile1 ← stoi (to_string t.in_tile1)
      let in_tile0 ← stoi (to_string t.in_tile0)
      let out_pix_tile1 ← stoi (to_string t.out_pix_tile1)
      let out_pix_tile0 ← stoi (to_string t.out_pix_tile0)
      let n_out_pix_tiles ← stoi (to_string t.n_out_pix_tiles)
      let n_in_data_tiles ← stoi (to_string t.n_in_data_tiles)
      let n_stacks ← stoi (to_string t.n_stacks)
      pure ⟨grp_tile1, grp_tile0, in_tile1, in_tile0, out_pix_tile1, out_pix_tile0,
        n_out_pix_tiles, n_in_data_tiles, n_stacks⟩) := by
  simp only [mloParseConf, tokenize_mloBuildConf_Val, vecAt, List.get?_eq_getElem?,
    List.getElem?_cons_zero, List.getElem?_cons_succ]
  rfl

/-- A built value parses only when the nine values are `int` values, and then to them. -/
theorem mloParseConf_build_ok (t t' : Tiling) (h : mloParseConf (mloBuildConf_Val t) = .ok t') :
    t.isInt ∧ t' = t := by
  rw [mloParseConf_build_eq] at h
  simp only [bind_eq_ok, pure_eq_ok] at h
  obtain ⟨v1, h1, v2, h2, v3, h3, v4, h4, v5, h5, v6, h6, v7, h7, v8, h8, v9, h9, rfl⟩ := h
  obtain ⟨i1, rfl⟩ := stoi_to_string_ok h1
  obtain ⟨i2, rfl⟩ := stoi_to_string_ok h2
  obtain ⟨i3, rfl⟩ := stoi_to_string_ok h3
  obtain ⟨i4, rfl⟩ := stoi_to_string_ok h4
  obtain ⟨i5, rfl⟩ := stoi_to_string_ok h5
  obtain ⟨i6, rfl⟩ := stoi_to_string_ok h6
  obtain ⟨i7, rfl⟩ := stoi_to_string_ok h7
  obtain ⟨i8, rfl⟩ := stoi_to_string_ok h8
  obtain ⟨i9, rfl⟩ := stoi_to_string_ok h9
  exact ⟨⟨i1, i2, i3, i4, i5, i6, i7, i8, i9⟩, rfl⟩
theorem mloAddConfig_eq (files : Files) (m : StdMap) (k v : CString)
    (hread : mloReadConfigDB files [] = .ok m) :
    mloAddConfig files k v = .ok (mloRemoveConfigReq (mloWriteConfigDB files (m.set k v)) k) := by
  simp only [mloAddConfig, hread, ok_bind, pure, Except.pure]

/-- The search of a shape that the database holds does nothing but set the wave size and
the local memory size. -/
theorem mloSearchDirect2D_known (dev : Device) (stub : Measurement) (files : Files)
    (s : mlo_construct_direct2D) (m : StdMap) (v : CString)
    (hread : mloReadConfigDB files [] = .ok m)
    (hfind : m.find (mloBuildConf_Key s) = some v) :
    mloSearchDirect2D dev stub files s
      = .ok { ret := 0,
              obj := { s with _hw_wave_sz := 64, _dev_local_mem_sz := dev.local_mem_size },
              files := files, n_calls := 0, log := [] } := by
  have hk : mloBuildConf_Key
      { s with _hw_wave_sz := 64, _dev_local_mem_sz := dev.local_mem_size }
      = mloBuildConf_Key s := rfl
  have e : mloSearchConfigDB m (mloBuildConf_Key s) [] = (true, v) := by
    simp only [mloSearchConfigDB, hfind]
  unfold mloSearchDirect2D
  dsimp only
  rw [mloSearchConfigInDB_eq files _ [] m hread, hk, e]
  rfl

/-- The search of a shape that the database does not hold: the shape is kept, the tiling
set is the minimum kept after the logged measurements, its nine values are `int` values,
and the files are those left by `mloAddConfig` for the encoded tiling. -/
theorem mloSearchDirect2D_unknown (dev : Device) (stub : Measurement) (files : Files)
    (s : mlo_construct_direct2D) (m : StdMap) (r : SearchResult)
    (hread : mloReadConfigDB files [] = .ok m)
    (hnew : m.find (mloBuildConf_Key s) = none)
    (h : mloSearchDirect2D dev stub files s = .ok r) :
    shapeOf r.obj = shapeOf s ∧ (getConfigParameters r.obj).isInt ∧
      getConfigParameters r.obj = (bestOf (initialMin, CL_MAXFLOAT) r.log).1 ∧
      r.files = mloRemoveConfigReq (mloWriteConfigDB files
        (m.set (mloBuildConf_Key s) (mloBuildConf_Val (getConfigParameters r.obj))))
        (mloBuildConf_Key s) := by
  have hk : mloBuildConf_Key
      { s with _hw_wave_sz := 64, _dev_local_mem_sz := dev.local_mem_size }
      = mloBuildConf_Key s := rfl
  have e : mloSearchConfigDB m (mloBuildConf_Key s) [] = (false, []) := by
    simp only [mloSearchConfigDB, hnew]
  unfold mloSearchDirect2D at h
  dsimp only at h
  rw [mloSearchConfigInDB_eq files _ [] m hread, hk, e] at h
  simp only [ok_bind] at h
  rw [if_pos (by rfl)] at h
  simp only [bind_eq_ok] at h
  obtain ⟨st, hloop, fl, hfl, obj, hobj, h⟩ := h
  rw [mloAddConfig_eq files m _ _ hread] at hfl
  simp only [mloSetConf, bind_eq_ok, pure_eq_ok] at hobj
  obtain ⟨t, ht, hobj⟩ := hobj
  simp only [pure_eq_ok] at h
  injection hfl with hfl
  subst h
  unfold searchLoops at hloop
  obtain ⟨hint, rfl⟩ := mloParseConf_build_ok _ _ ht
  have hsteps := Steps.foldlM _ (searchBodyG1_steps dev stub _) _ _ _ hloop
  obtain ⟨hshape, ext, hlog, hmin⟩ := hsteps
  simp only [List.nil_append] at hlog
  subst hobj hfl
  have hmin1 : st.min = (bestOf (initialMin, CL_MAXFLOAT) st.log).1 := by
    rw [hlog]
    exact congrArg Prod.fst hmin
  refine ⟨?_, ?_, ?_, ?_⟩
  · exact hshape
  · rw [getConfigParameters_setTiling]; exact hint
  · rw [getConfigParameters_setTiling]; exact hmin1
  · rw [getConfigParameters_setTiling]

end MLOpen
namespace MLOpen

/-! ### Which measurement wins -/

theorem bestOf_cons (acc : Tiling × ℚ) (e : Measured) (l : List Measured) :
    bestOf acc (e :: l) = bestOf (if acc.2 > e.time then (e.measured, e.time) else acc) l := rfl

/-- Measurements that are not faster than the current minimum leave it as it is. -/
theorem bestOf_not_faster (acc : Tiling × ℚ) (l : List Measured)
    (h : ∀ x ∈ l, acc.2 ≤ x.time) : bestOf acc l = acc := by
  induction l with
  | nil => rfl
  | cons x l ih =>
    have hx : ¬ acc.2 > x.time := not_lt.mpr (h x (by simp))
    rw [bestOf_cons, if_neg hx]
    exact ih (fun y hy => h y (by simp [hy]))

/-- After measurements that are all slower than `t`, the minimum is still slower than `t`
when it was so before. -/
theorem bestOf_slower (acc : Tiling × ℚ) (l : List Measured) (t : ℚ) (hacc : t < acc.2)
    (h : ∀ x ∈ l, t < x.time) : t < (bestOf acc l).2 := by
  induction l generalizing acc with
  | nil => exact hacc
  | cons x l ih =>
    rw [bestOf_cons]
    apply ih
    · split
      · exact h x (by simp)
      · exact hacc
    · exact fun y hy => h y (by simp [hy])

/-- The first of the fastest measurements wins, provided it is faster than the starting
time. -/
theorem bestOf_first_min (acc : Tiling × ℚ) (pre post : List Measured) (e : Measured)
    (hacc : e.time < acc.2) (hpre : ∀ x ∈ pre, e.time < x.time)
    (hpost : ∀ x ∈ post, e.time ≤ x.time) :
    bestOf acc (pre ++ e :: post) = (e.measured, e.time) := by
  have h1 := bestOf_slower acc pre e.time hacc hpre
  rw [bestOf_append, bestOf_cons, if_pos h1]
  exact bestOf_not_faster _ _ hpost

theorem mloRemoveConfigReq_conf_db (files : Files) (k : CString) :
    (mloRemoveConfigReq files k).conf_db = files.conf_db := by
  unfold mloRemoveConfigReq
  split
  split <;> rfl

/-- What the search of an unknown shape sets and stores, from its log. -/
theorem search_result_of_log (dev : Device) (stub : Measurement) (files : Files)
    (s : mlo_construct_direct2D) (m : StdMap) (log : List Measured)
    (hread : mloReadConfigDB files [] = .ok m) (hnew : m.find (mloBuildConf_Key s) = none)
    (hlog : (mloSearchDirect2D dev stub files s).map (fun r => r.log) = .ok log) :
    (mloSearchDirect2D dev stub files s).map
        (fun r => (getConfigParameters r.obj, r.files.conf_db))
      = .ok ((bestOf (initialMin, CL_MAXFLOAT) log).1,
          (mloWriteConfigDB files (m.set (mloBuildConf_Key s)
            (mloBuildConf_Val (bestOf (initialMin, CL_MAXFLOAT) log).1))).conf_db) := by
  cases h : mloSearchDirect2D dev stub files s with
  | error e => rw [h] at hlog; simp [Except.map] at hlog
  | ok r =>
    rw [h] at hlog
    simp only [Except.map, Except.ok.injEq] at hlog
    obtain ⟨_, _, h3, h4⟩ := mloSearchDirect2D_unknown dev stub files s m r hread hnew h
    simp only [Except.map, Except.ok.injEq, Prod.mk.injEq]
    rw [h4, mloRemoveConfigReq_conf_db, h3, hlog]
    exact ⟨rfl, rfl⟩

/-- C6 (as amended). Tie-break: when the search of an unknown shape measured the
candidates logged in `pre ++ e :: post` (in enumeration order), the time of `e` is below
`CL_MAXFLOAT`, every candidate measured before `e` took strictly longer and no candidate
measured after `e` was faster, then the search sets, and stores under the key of the
shape, the tiling recorded for `e`: the nine fields as the measurement of `e` left them.
A later candidate with an equal time does not replace it. -/
theorem C6_tie_break (dev : Device) (stub : Measurement) (files : Files)
    (s : mlo_construct_direct2D) (m : StdMap) (pre post : List Measured) (e : Measured)
    (hread : mloReadConfigDB files [] = .ok m) (hnew : m.find (mloBuildConf_Key s) = none)
    (hlog : (mloSearchDirect2D dev stub files s).map (fun r => r.log) = .ok (pre ++ e :: post))
    (hpre : ∀ x ∈ pre, e.time < x.time) (hpost : ∀ x ∈ post, e.time ≤ x.time)
    (hmax : e.time < CL_MAXFLOAT) :
    (mloSearchDirect2D dev stub files s).map
        (fun r => (getConfigParameters r.obj, r.files.conf_db))
      = .ok (e.measured, (mloWriteConfigDB files (m.set (mloBuildConf_Key s)
          (mloBuildConf_Val e.measured))).conf_db) := by
  have h := search_result_of_log dev stub files s m _ hread hnew hlog
  rw [bestOf_first_min (initialMin, CL_MAXFLOAT) pre post e hmax hpre hpost] at h
  exact h

set_option maxRecDepth 100000 in
set_option maxHeartbeats 4000000 in
theorem C6_tie_break_witness :
    mloReadConfigDB ⟨[], []⟩ [] = .ok [] ∧
    StdMap.find [] (mloBuildConf_Key smallShape) = none ∧
    (mloSearchDirect2D exampleDevice exampleTimes ⟨[], []⟩ smallShape).map (fun r => r.log)
      = .ok ([⟨⟨8, 8, 8, 8, 1, 1, 1, 1, 1⟩, ⟨8, 8, 1, 1, 1, 1, 1, 1, 1⟩, 5⟩]
          ++ ⟨⟨8, 16, 8, 8, 1, 1, 1, 1, 1⟩, ⟨8, 16, 1, 1, 1, 1, 1, 1, 1⟩, 3⟩
          :: [⟨⟨16, 8, 8, 8, 1, 1, 1, 1, 1⟩, ⟨16, 8, 1, 1, 1, 1, 1, 1, 1⟩, 3⟩,
              ⟨⟨16, 16, 8, 8, 1, 1, 1, 1, 1⟩, ⟨16, 16, 1, 1, 1, 1, 1, 1, 1⟩, 7⟩]) ∧
    (mloSearchDirect2D exampleDevice exampleTimes ⟨[], []⟩ smallShape).map
        (fun r => (getConfigParameters r.obj, r.files.conf_db))
      = .ok (⟨8, 16, 1, 1, 1, 1, 1, 1, 1⟩, (mloWriteConfigDB ⟨[], []⟩ (StdMap.set []
          (mloBuildConf_Key smallShape)
          (mloBuildConf_Val ⟨8, 16, 1, 1, 1, 1, 1, 1, 1⟩))).conf_db) :=
  ⟨by decide, by decide, by decide,
    C6_tie_break exampleDevice exampleTimes ⟨[], []⟩ smallShape []
      [⟨⟨8, 8, 8, 8, 1, 1, 1, 1, 1⟩, ⟨8, 8, 1, 1, 1, 1, 1, 1, 1⟩, 5⟩]
      [⟨⟨16, 8, 8, 8, 1, 1, 1, 1, 1⟩, ⟨16, 8, 1, 1, 1, 1, 1, 1, 1⟩, 3⟩,
        ⟨⟨16, 16, 8, 8, 1, 1, 1, 1, 1⟩, ⟨16, 16, 1, 1, 1, 1, 1, 1, 1⟩, 7⟩]
      ⟨⟨8, 16, 8, 8, 1, 1, 1, 1, 1⟩, ⟨8, 16, 1, 1, 1, 1, 1, 1, 1⟩, 3⟩
      (by decide) (by decide) (by decide) (by decide) (by decide) (by decide)⟩

set_option maxRecDepth 100000 in
set_option maxHeartbeats 4000000 in
/-- C6, as stated, fails for finite times that are not below `CL_MAXFLOAT`: when every
candidate of the smallest shape takes 4 * 10^38 (above `CL_MAXFLOAT`), four candidates are measured and the
search sets 16.16.16.16.1.1.2.3.1, which is the tiling of none of them. -/
theorem C6_counterexample :
    (mloSearchDirect2D exampleDevice (fun _ _ => some 400000000000000000000000000000000000000) ⟨[], []⟩ tinyShape).map
      (fun r => (r.log.length, getConfigParameters r.obj,
        decide (∀ e ∈ r.log, e.measured ≠ getConfigParameters r.obj ∧ e.time = 400000000000000000000000000000000000000)))
      = .ok (4, ⟨16, 16, 16, 16, 1, 1, 2, 3, 1⟩, true) := by
  decide

/-- C8 (as amended). Zero-candidate fallback: when the search of an unknown shape measures
no candidate successfully, the tiling that it sets, and stores under the key of the shape,
is the fixed initial minimum 16.16.16.16.1.1.2.3.1 (grp_tile 16x16, in_tile 16x16,
out_pix_tile 1x1, n_out_pix_tiles 2, n_in_data_tiles 3, n_stacks 1), whatever the shape. -/
theorem C8_zero_candidate_fallback (dev : Device) (stub : Measurement) (files : Files)
    (s : mlo_construct_direct2D) (m : StdMap)
    (hread : mloReadConfigDB files [] = .ok m) (hnew : m.find (mloBuildConf_Key s) = none)
    (hlog : (mloSearchDirect2D dev stub files s).map (fun r => r.log) = .ok []) :
    (mloSearchDirect2D dev stub files s).map
        (fun r => (getConfigParameters r.obj, r.files.conf_db))
      = .ok (initialMin, (mloWriteConfigDB files (m.set (mloBuildConf_Key s)
          (mloBuildConf_Val initialMin))).conf_db) :=
  search_result_of_log dev stub files s m _ hread hnew hlog

set_option maxRecDepth 100000 in
set_option maxHeartbeats 4000000 in
theorem C8_zero_candidate_fallback_witness :
    mloReadConfigDB ⟨[], []⟩ [] = .ok [] ∧
    StdMap.find [] (mloBuildConf_Key tinyShape) = none ∧
    (mloSearchDirect2D exampleDevice (fun _ _ => none) ⟨[], []⟩ tinyShape).map (fun r => r.log)
      = .ok [] ∧
    (mloSearchDirect2D exampleDevice (fun _ _ => none) ⟨[], []⟩ tinyShape).map
        (fun r => (getConfigParameters r.obj, r.files.conf_db))
      = .ok (initialMin, (mloWriteConfigDB ⟨[], []⟩ (StdMap.set []
          (mloBuildConf_Key tinyShape) (mloBuildConf_Val initialMin))).conf_db) :=
  ⟨by decide, by decide, by decide,
    C8_zero_candidate_fallback exampleDevice (fun _ _ => none) ⟨[], []⟩ tinyShape []
      (by decide) (by decide) (by decide)⟩

set_option maxRecDepth 100000 in
set_option maxHeartbeats 4000000 in
theorem one_le_mul_int {a b : Int} (ha : 1 ≤ a) (hb : 1 ≤ b) : 1 ≤ a * b := by nlinarith

/-- C8, as stated, fails: when every measurement of the smallest shape fails, the search
sets 16.16.16.16.1.1.2.3.1, while `mloSelectDefaultConfig` gives 1.64.1.4.1.4.16.2.1 for
this shape. -/
theorem C8_counterexample :
    (mloSearchDirect2D exampleDevice (fun _ _ => none) ⟨[], []⟩ tinyShape).map
      (fun r => (r.log, getConfigParameters r.obj))
      = .ok ([], ⟨16, 16, 16, 16, 1, 1, 2, 3, 1⟩) ∧
    (mloSelectDefaultConfig tinyShape).map (fun p => getConfigParameters p.1)
      = .ok ⟨1, 64, 1, 4, 1, 4, 16, 2, 1⟩ := by
  decide

end MLOpen
namespace MLOpen

/-! ### The search returns, and what it measures is valid -/

theorem cdiv_ok (a b : Int) (hb : b ≠ 0) : cdiv a b = .ok (a.tdiv b) := by
  unfold cdiv; rw [if_neg hb]

/-- A value within the range of `int` is left as it is by `int32`. -/
theorem int32_eq {v : Int} (h0 : -2147483648 ≤ v) (h1 : v ≤ 2147483647) : int32 v = v := by
  unfold int32; omega

theorem tdiv_nonneg_of {a b : Int} (ha : 0 ≤ a) (hb : 1 ≤ b) : 0 ≤ a.tdiv b := by
  rw [Int.tdiv_eq_ediv ha (by omega)]; exact Int.ediv_nonneg ha (by omega)

theorem tdiv_le_self_of {a b : Int} (ha : 0 ≤ a) (hb : 1 ≤ b) : a.tdiv b ≤ a := by
  rw [Int.tdiv_eq_ediv ha (by omega)]; exact Int.ediv_le_self b ha

theorem tdiv_ge_one {a b : Int} (hb : 1 ≤ b) (hab : b ≤ a) : 1 ≤ a.tdiv b := by
  rw [Int.tdiv_eq_ediv (by omega) (by omega)]
  exact Int.le_ediv_of_mul_le (by omega) (by omega)

theorem tdiv_mul_le_of {a b : Int} (ha : 0 ≤ a) (hb : 1 ≤ b) : a.tdiv b * b ≤ a := by
  rw [Int.tdiv_eq_ediv ha (by omega)]; exact Int.ediv_mul_le a (by omega)

theorem tdiv_mono {a a' b : Int} (ha : 0 ≤ a) (h : a ≤ a') (hb : 1 ≤ b) :
    a.tdiv b ≤ a'.tdiv b := by
  rw [Int.tdiv_eq_ediv ha (by omega), Int.tdiv_eq_ediv (by omega) (by omega)]
  exact Int.ediv_le_ediv (by omega) h

theorem tdiv_ceil_ge_one {a b : Int} (ha : 1 ≤ a) (hb : 1 ≤ b) : 1 ≤ (a + b - 1).tdiv b :=
  tdiv_ge_one hb (by omega)

theorem two_mul_le_of_le_tdiv {m g : Int} (hg : 0 ≤ g) (h : m ≤ g.tdiv 2) : 2 * m ≤ g := by
  rw [Int.tdiv_eq_ediv hg (by omega)] at h; omega

theorem cdiv_guard_ok (c : Prop) [Decidable c] (a b d : Int) (hb : c → b ≠ 0) :
    ∃ v, (if c then cdiv a b else pure d) = Except.ok v := by
  by_cases h : c
  · rw [if_pos h]; exact ⟨_, cdiv_ok _ _ (hb h)⟩
  · rw [if_neg h]; exact ⟨d, rfl⟩

/-- The scaled number of input maps of the 1x1 strategy, `(n + t - 1) / t` formed in `int`
for `n` input maps taken `t` at a time, is not 0: it is at least 1 while the sum fits, and
at most -1 when the sum wraps (`n` within `t` of `INT_MAX`). -/
theorem scaled_ne_zero {n t : Int} (hn : 1 ≤ n) (hn2 : n ≤ 2147483647) (ht : 1 ≤ t)
    (htn : t ≤ n) (ht2 : t ≤ 1073741824) : (int32 (n + t - 1)).tdiv t ≠ 0 := by
  by_cases h : n + t - 1 ≤ 2147483647
  · rw [int32_eq (by omega) h]
    have := tdiv_ceil_ge_one hn ht
    omega
  · have e : int32 (n + t - 1) = -(4294967296 - (n + t - 1)) := by
      unfold int32
      omega
    rw [e, Int.neg_tdiv]
    have := tdiv_ge_one ht (by omega : t ≤ 4294967296 - (n + t - 1))
    omega

theorem mloConstructDirect2D1x1_ok (dev : Device) (s : mlo_construct_direct2D)
    (hw : 1 ≤ s._in_width) (hh : 1 ≤ s._in_height)
    (hpix : s._in_width * s._in_height + 3 ≤ INT_MAX ∧ s._n_inputs ≤ INT_MAX)
    (hg : 1 ≤ s._grp_tile0)
    (hni : 1 ≤ s._n_inputs) (hno : 1 ≤ s._n_outputs) (hb : 1 ≤ s._batch_sz)
    (hi : 1 ≤ s._n_in_data_tiles) (hic : s._n_in_data_tiles ≤ 1073741824)
    (ho : 1 ≤ s._n_out_pix_tiles) (hs : 1 ≤ s._n_stacks) :
    ∃ s', mloConstructDirect2D1x1 dev s = .ok (0, s') ∧
      s'._grp_tile1 = s._grp_tile1 ∧ s'._grp_tile0 = s._grp_tile0 ∧
      s'._in_tile1 = 1 ∧ s'._in_tile0 = 4 ∧ s'._out_pix_tile1 = 1 ∧ s'._out_pix_tile0 = 4 ∧
      1 ≤ s'._n_out_pix_tiles ∧ s'._n_out_pix_tiles ≤ min s._n_outputs s._n_out_pix_tiles ∧
      1 ≤ s'._n_in_data_tiles ∧ s'._n_in_data_tiles ≤ s._n_in_data_tiles ∧
      s'._n_stacks = min s._batch_sz s._n_stacks ∧
      s'._dev_local_mem_sz = dev.local_mem_size := by
  have hwh : 1 ≤ s._in_width * s._in_height := one_le_mul_int (by assumption) (by assumption)
  unfold INT_MAX at hpix
  obtain ⟨hpix, hnic⟩ := hpix
  unfold mloConstructDirect2D1x1
  dsimp only
  rw [int32_eq (by omega : -2147483648 ≤ s._in_width * s._in_height + 1 * 4 - 1) (by omega)]
  rw [cdiv_ok _ _ (by decide : (1 : Int) * 4 ≠ 0), ok_bind]
  generalize hM : (s._in_width * s._in_height + 1 * 4 - 1).tdiv (1 * 4) = M
  have hM1 : 1 ≤ M := by
    rw [← hM]; exact tdiv_ge_one (by decide) (by omega)
  obtain ⟨qg, hqg⟩ := cdiv_guard_ok (s._grp_tile0 < M) (int32 (M + s._grp_tile0 - 1))
    s._grp_tile0 0 (fun _ => by omega)
  by_cases hsm : M ≤ s._grp_tile0.tdiv 2
  · simp only [hsm, decide_True, if_true]
    have h2 := two_mul_le_of_le_tdiv (by omega) hsm
    rw [cdiv_ok _ _ (by omega : M ≠ 0), ok_bind]
    generalize hN : s._grp_tile0.tdiv M = N
    have hN1 : 1 ≤ N := by rw [← hN]; exact tdiv_ge_one hM1 (by omega)
    rw [cdiv_ok _ _ (by omega : min s._n_inputs 1 ≠ 0), ok_bind]
    generalize hnis :
      (int32 (s._n_inputs + min s._n_inputs 1 - 1)).tdiv (min s._n_inputs 1) = nis
    have hnis1 : nis ≠ 0 := by
      rw [← hnis]; exact scaled_ne_zero hni hnic (by omega) (by omega) (by omega)
    generalize hes : min (min s._n_in_data_tiles (min s._n_outputs s._n_out_pix_tiles)) N = es
    have hes1 : 1 ≤ es := by omega
    have hes2 : es ≤ min s._n_outputs s._n_out_pix_tiles := by omega
    have hes3 : es ≤ s._n_in_data_tiles := by omega
    rw [cdiv_ok _ _ (by omega : es ≠ 0), ok_bind]
    generalize hq : (min s._n_outputs s._n_out_pix_tiles).tdiv es = q
    have hq1 : 1 ≤ q := by rw [← hq]; exact tdiv_ge_one hes1 hes2
    have hq2 : q * es ≤ min s._n_outputs s._n_out_pix_tiles := by
      rw [← hq]; exact tdiv_mul_le_of (by omega) hes1
    have hq3 : 1 ≤ q * es := one_le_mul_int hq1 hes1
    rw [cdiv_ok _ _ (by omega : min N nis ≠ 0), ok_bind]
    rw [cdiv_ok _ _ (by omega : min s._batch_sz s._n_stacks ≠ 0), ok_bind]
    rw [cdiv_ok _ _ (by omega : q * es ≠ 0), ok_bind]
    rw [hqg, ok_bind]
    rw [cdiv_ok _ _ (by omega : q * es ≠ 0), ok_bind]
    rw [cdiv_ok _ _ (by omega : min s._batch_sz s._n_stacks ≠ 0), ok_bind]
    refine ⟨_, rfl, rfl, rfl, rfl, rfl, rfl, rfl, hq3, hq2, hes1, ?_, rfl, rfl⟩
    show es ≤ _
    omega
  · simp only [hsm, decide_False, if_false, Bool.false_eq_true]
    simp only [pure, Except.pure, ok_bind]
    rw [cdiv_ok _ _ (by omega : min s._n_inputs s._n_in_data_tiles ≠ 0), ok_bind]
    generalize hnis : (int32 (s._n_inputs + min s._n_inputs s._n_in_data_tiles - 1)).tdiv
      (min s._n_inputs s._n_in_data_tiles) = nis
    have hnis1 : nis ≠ 0 := by
      rw [← hnis]; exact scaled_ne_zero hni hnic (by omega) (by omega) (by omega)
    rw [cdiv_ok _ _ (by omega : min 1 nis ≠ 0), ok_bind]
    rw [cdiv_ok _ _ (by omega : min s._batch_sz s._n_stacks ≠ 0), ok_bind]
    rw [cdiv_ok _ _ (by omega : min s._n_outputs s._n_out_pix_tiles ≠ 0), ok_bind]
    simp only [pure, Except.pure] at hqg
    rw [hqg, ok_bind]
    rw [cdiv_ok _ _ (by omega : min s._n_outputs s._n_out_pix_tiles ≠ 0), ok_bind]
    rw [cdiv_ok _ _ (by omega : min s._batch_sz s._n_stacks ≠ 0), ok_bind]
    refine ⟨_, rfl, rfl, rfl, rfl, rfl, rfl, rfl, ?_, ?_, ?_, ?_, rfl, rfl⟩
    · show 1 ≤ min _ _
      omega
    · exact le_refl _
    · show 1 ≤ min _ _
      omega
    · show min _ _ ≤ _
      omega

theorem mloConstructDirect2DFwdC_ok (dev : Device) (s : mlo_construct_direct2D)
    (hk : ¬(s._kernel_size0 = 1 ∧ s._kernel_size1 = 1))
    (how : 1 ≤ s._out_width) (hoh : 1 ≤ s._out_height)
    (hi1 : 1 ≤ s._in_tile1) (hi0 : 1 ≤ s._in_tile0)
    (hp1 : 1 ≤ s._out_pix_tile1) (hp0 : 1 ≤ s._out_pix_tile0)
    (hni : 1 ≤ s._n_inputs) (hno : 1 ≤ s._n_outputs) (hb : 1 ≤ s._batch_sz)
    (hi : 1 ≤ s._n_in_data_tiles) (ho : 1 ≤ s._n_out_pix_tiles) (hs : 1 ≤ s._n_stacks) :
    ∃ ret s', mloConstructDirect2DFwdC dev s = .ok (ret, s') ∧
      s'._grp_tile1 = s._grp_tile1 ∧ s'._grp_tile0 = s._grp_tile0 ∧
      s'._out_pix_tile1 = s._out_pix_tile1 ∧ s'._out_pix_tile0 = s._out_pix_tile0 ∧
      (1 ≤ s'._in_tile1 ∧ s'._in_tile1 ≤ s._in_tile1) ∧
      (1 ≤ s'._in_tile0 ∧ s'._in_tile0 ≤ s._in_tile0) ∧
      (1 ≤ s'._n_out_pix_tiles ∧ s'._n_out_pix_tiles ≤ s._n_out_pix_tiles) ∧
      (1 ≤ s'._n_in_data_tiles ∧ s'._n_in_data_tiles ≤ s._n_in_data_tiles) ∧
      (1 ≤ s'._n_stacks ∧ s'._n_stacks ≤ s._n_stacks) ∧
      (ret = 0 → s'._n_stacks ≤ s._batch_sz) ∧
      s'._dev_local_mem_sz = dev.local_mem_size := by
  unfold mloConstructDirect2DFwdC
  rw [if_neg hk]
  dsimp only
  generalize ht0 : min s._out_width s._in_tile0 = t0
  generalize ht1 : min s._out_height s._in_tile1 = t1
  have ht0b : 1 ≤ t0 ∧ t0 ≤ s._in_tile0 := by omega
  have ht1b : 1 ≤ t1 ∧ t1 ≤ s._in_tile1 := by omega
  rw [cdiv_ok _ _ (by omega : s._out_pix_tile0 ≠ 0), ok_bind]
  rw [cdiv_ok _ _ (by omega : s._out_pix_tile1 ≠ 0), ok_bind]
  generalize ha0 : (t0 + s._out_pix_tile0 - 1).tdiv s._out_pix_tile0 = a0
  generalize ha1 : (t1 + s._out_pix_tile1 - 1).tdiv s._out_pix_tile1 = a1
  have ha0b : 1 ≤ a0 := by rw [← ha0]; exact tdiv_ceil_ge_one ht0b.1 hp0
  have ha1b : 1 ≤ a1 := by rw [← ha1]; exact tdiv_ceil_ge_one ht1b.1 hp1
  generalize hsz : a0 * a1 = sz
  have hsz1 : 1 ≤ sz := by rw [← hsz]; exact one_le_mul_int ha0b ha1b
  by_cases hbig : sz > s._grp_tile0 * s._grp_tile1
  · rw [if_pos hbig]
    exact ⟨-1, _, rfl, rfl, rfl, rfl, rfl, ⟨hi1, le_refl _⟩, ⟨hi0, le_refl _⟩, ⟨ho, le_refl _⟩,
      ⟨hi, le_refl _⟩, ⟨hs, le_refl _⟩, fun h => absurd h (by decide), rfl⟩
  · rw [if_neg hbig]
    rw [cdiv_ok _ _ (by omega : sz ≠ 0), ok_bind]
    generalize hq : (s._grp_tile0 * s._grp_tile1).tdiv sz = q
    generalize hmq : max 1 q = mq
    have hmq1 : 1 ≤ mq := by omega
    rw [cdiv_ok _ _ (by omega : t0 ≠ 0), ok_bind]
    rw [cdiv_ok _ _ (by omega : t1 ≠ 0), ok_bind]
    rw [cdiv_ok _ _ (by omega : sz ≠ 0), ok_bind]
    generalize hnat : (mq * sz).tdiv sz = nat
    rw [cdiv_ok _ _ (by omega : min s._batch_sz s._n_stacks ≠ 0), ok_bind]
    generalize hx : max 1 (nat.tdiv (min s._batch_sz s._n_stacks)) = x
    have hx1 : 1 ≤ x := by omega
    rw [cdiv_ok _ _ (by omega : x ≠ 0), ok_bind]
    generalize hy : max 1 (nat.tdiv x) = y
    have hy1 : 1 ≤ y := by omega
    generalize hpr : x * min s._n_outputs s._n_out_pix_tiles = pr
    have hpr1 : 1 ≤ pr := by
      rw [← hpr]
      have : 1 ≤ min s._n_outputs s._n_out_pix_tiles := by omega
      exact one_le_mul_int (by omega) this
    rw [cdiv_ok _ _ (by omega : min pr s._n_outputs ≠ 0), ok_bind]
    rw [cdiv_ok _ _ (by omega : min y (min s._batch_sz s._n_stacks) ≠ 0), ok_bind]
    refine ⟨0, _, rfl, rfl, rfl, rfl, rfl, ht1b, ht0b, ?_, ?_, ?_, ?_, rfl⟩
    · show 1 ≤ min _ _ ∧ min _ _ ≤ _
      omega
    · show 1 ≤ min _ _ ∧ min _ _ ≤ _
      omega
    · show 1 ≤ min _ _ ∧ min _ _ ≤ _
      omega
    · intro _
      show min _ _ ≤ _
      omega



theorem mloConstructDirect2DFwd_ok (dev : Device) (s : mlo_construct_direct2D)
    (hk : ¬(s._kernel_size0 = 1 ∧ s._kernel_size1 = 1))
    (how : 1 ≤ s._out_width) (hoh : 1 ≤ s._out_height)
    (hg1 : 1 ≤ s._grp_tile1) (hg0 : 1 ≤ s._grp_tile0)
    (hi1 : 1 ≤ s._in_tile1) (hi0 : 1 ≤ s._in_tile0)
    (hp1 : 1 ≤ s._out_pix_tile1) (hp0 : 1 ≤ s._out_pix_tile0)
    (hni : 1 ≤ s._n_inputs) (hno : 1 ≤ s._n_outputs) (hb : 1 ≤ s._batch_sz)
    (hi : 1 ≤ s._n_in_data_tiles) (ho : 1 ≤ s._n_out_pix_tiles) (hs : 1 ≤ s._n_stacks) :
    ∃ ret s', mloConstructDirect2DFwd dev s = .ok (ret, s') ∧
      s'._grp_tile1 = s._grp_tile1 ∧ s'._grp_tile0 = s._grp_tile0 ∧
      s'._out_pix_tile1 = s._out_pix_tile1 ∧ s'._out_pix_tile0 = s._out_pix_tile0 ∧
      (1 ≤ s'._in_tile1 ∧ s'._in_tile1 ≤ s._in_tile1) ∧
      (1 ≤ s'._in_tile0 ∧ s'._in_tile0 ≤ s._in_tile0) ∧
      (1 ≤ s'._n_out_pix_tiles ∧ s'._n_out_pix_tiles ≤ s._n_out_pix_tiles) ∧
      (1 ≤ s'._n_in_data_tiles ∧ s'._n_in_data_tiles ≤ s._n_in_data_tiles) ∧
      (1 ≤ s'._n_stacks ∧ s'._n_stacks ≤ s._n_stacks) ∧
      (ret = 0 → s'._n_stacks ≤ s._batch_sz) ∧
      s'._dev_local_mem_sz = dev.local_mem_size ∧
      (unalignedOut s = false → s'._in_tile1 = s._in_tile1 ∧ s'._in_tile0 = s._in_tile0) := by
  by_cases hun : unalignedOut s = true
  · obtain ⟨ret, s', h, h1, h2, h3, h4, h5, h6, h7, h8, h9, h10, h11⟩ :=
      mloConstructDirect2DFwdC_ok dev s hk how hoh hi1 hi0 hp1 hp0 hni hno hb hi ho hs
    refine ⟨ret, s', ?_, h1, h2, h3, h4, h5, h6, h7, h8, h9, h10, h11, ?_⟩
    · unfold mloConstructDirect2DFwd
      rw [if_neg hk, if_pos hun]
      exact h
    · intro hf
      rw [hf] at hun
      exact absurd hun (by decide)
  · unfold mloConstructDirect2DFwd
    rw [if_neg hk, if_neg hun]
    dsimp only
    rw [cdiv_ok _ _ (by omega : s._out_pix_tile0 ≠ 0), ok_bind]
    rw [cdiv_ok _ _ (by omega : s._out_pix_tile1 ≠ 0), ok_bind]
    generalize ha0 : (s._in_tile0 + s._out_pix_tile0 - 1).tdiv s._out_pix_tile0 = a0
    generalize ha1 : (s._in_tile1 + s._out_pix_tile1 - 1).tdiv s._out_pix_tile1 = a1
    have ha0b : 1 ≤ a0 := by rw [← ha0]; exact tdiv_ceil_ge_one hi0 hp0
    have ha1b : 1 ≤ a1 := by rw [← ha1]; exact tdiv_ceil_ge_one hi1 hp1
    generalize hsz : a0 * a1 = sz
    have hsz1 : 1 ≤ sz := by rw [← hsz]; exact one_le_mul_int ha0b ha1b
    have hmi : 1 ≤ min s._n_inputs s._n_in_data_tiles ∧
        min s._n_inputs s._n_in_data_tiles ≤ s._n_in_data_tiles := by omega
    have hmo : 1 ≤ min s._n_outputs s._n_out_pix_tiles ∧
        min s._n_outputs s._n_out_pix_tiles ≤ s._n_out_pix_tiles := by omega
    by_cases hbig : sz > 256
    · rw [if_pos hbig]
      exact ⟨-1, _, rfl, rfl, rfl, rfl, rfl, ⟨hi1, le_refl _⟩, ⟨hi0, le_refl _⟩, hmo,
        hmi, ⟨hs, le_refl _⟩, fun h => absurd h (by decide), rfl, fun _ => ⟨rfl, rfl⟩⟩
    · rw [if_neg hbig]
      have htot : 1 ≤ s._grp_tile0 * s._grp_tile1 := one_le_mul_int hg0 hg1
      generalize htt : s._grp_tile0 * s._grp_tile1 = tot at htot
      rw [cdiv_ok _ _ (by omega : sz ≠ 0), ok_bind]
      generalize hc : (tot + sz - 1).tdiv sz = c
      have hc1 : 1 ≤ c := by rw [← hc]; exact tdiv_ceil_ge_one htot hsz1
      generalize hns : min s._batch_sz (min s._n_stacks c) = ns
      have hns1 : 1 ≤ ns ∧ ns ≤ s._n_stacks ∧ ns ≤ s._batch_sz := by omega
      rw [cdiv_ok _ _ (by omega : ns ≠ 0), ok_bind]
      generalize hnap : (tot + ns - 1).tdiv ns = nap
      have hnap1 : 1 ≤ nap := by rw [← hnap]; exact tdiv_ceil_ge_one htot hns1.1
      rw [cdiv_ok _ _ (by omega : s._in_tile0 ≠ 0), ok_bind]
      rw [cdiv_ok _ _ (by omega : s._in_tile1 ≠ 0), ok_bind]
      rw [cdiv_ok _ _ (by omega : sz ≠ 0), ok_bind]
      generalize hper : (nap + sz - 1).tdiv sz = per
      have hper1 : 1 ≤ per := by rw [← hper]; exact tdiv_ceil_ge_one hnap1 hsz1
      generalize hpr : per * min s._n_outputs s._n_out_pix_tiles = pr
      have hpr1 : 1 ≤ pr := by rw [← hpr]; exact one_le_mul_int hper1 (by omega)
      rw [cdiv_ok _ _ (by omega : min pr s._n_outputs ≠ 0), ok_bind]
      rw [cdiv_ok _ _ (by omega : ns ≠ 0), ok_bind]
      exact ⟨0, _, rfl, rfl, rfl, rfl, rfl, ⟨hi1, le_refl _⟩, ⟨hi0, le_refl _⟩, hmo, hmi,
        ⟨hns1.1, hns1.2.1⟩, fun _ => hns1.2.2, rfl, fun _ => ⟨rfl, rfl⟩⟩

theorem shape_fields {a b : mlo_construct_direct2D} (h : shapeOf a = shapeOf b) :
    a._n_inputs = b._n_inputs ∧ a._n_outputs = b._n_outputs ∧ a._batch_sz = b._batch_sz
      ∧ a._in_width = b._in_width ∧ a._in_height = b._in_height
      ∧ a._out_width = b._out_width ∧ a._out_height = b._out_height
      ∧ a._kernel_size0 = b._kernel_size0 ∧ a._kernel_size1 = b._kernel_size1 :=
  ⟨(congrArg mlo_construct_direct2D._n_inputs h :),
    (congrArg mlo_construct_direct2D._n_outputs h :),
    (congrArg mlo_construct_direct2D._batch_sz h :),
    (congrArg mlo_construct_direct2D._in_width h :),
    (congrArg mlo_construct_direct2D._in_height h :),
    (congrArg mlo_construct_direct2D._out_width h :),
    (congrArg mlo_construct_direct2D._out_height h :),
    (congrArg mlo_construct_direct2D._kernel_size0 h :),
    (congrArg mlo_construct_direct2D._kernel_size1 h :)⟩

theorem is1x1_congr {a b : mlo_construct_direct2D} (h : shapeOf a = shapeOf b) :
    is1x1 a = is1x1 b := by
  obtain ⟨_, _, _, _, _, _, _, h8, h9⟩ := shape_fields h
  unfold is1x1; rw [h8, h9]

theorem unalignedOut_congr {a b : mlo_construct_direct2D} (h : shapeOf a = shapeOf b) :
    unalignedOut a = unalignedOut b := by
  obtain ⟨_, _, _, _, _, h6, h7, _, _⟩ := shape_fields h
  unfold unalignedOut; rw [h6, h7]

theorem alu_tile_mono {t t' p : Int} (h1 : 1 ≤ t') (h : t' ≤ t) (hp : 1 ≤ p) :
    max 1 (t'.tdiv p) ≤ max 1 (t.tdiv p) := by
  have := tdiv_mono (by omega : 0 ≤ t') h hp
  omega

/-- The construction of a candidate of the search returns, keeps what holds of the tiling
fields, and on success leaves a valid and bounded tiling. -/
theorem candidate_ok (dev : Device) (s0 s : mlo_construct_direct2D) (hpos : positiveShape s0 ∧ mapsFit s0)
    (hsh : shapeOf s = shapeOf s0) (hl : candidateInv s0 9 s) :
    ∃ ret s', mloConstructDirect2DFwd dev s = .ok (ret, s') ∧ shapeOf s' = shapeOf s0 ∧
      s'._dev_local_mem_sz = dev.local_mem_size ∧ candidateInv s0 9 s' ∧
      (ret = 0 →
        (is1x1 s0 = false →
          max 1 (s._in_tile0.tdiv s._out_pix_tile0) * max 1 (s._in_tile1.tdiv s._out_pix_tile1)
            ≤ s._grp_tile0 * s._grp_tile1) →
        validTiling s0 (getConfigParameters s') ∧ (getConfigParameters s').bounded) := by
  obtain ⟨f1, f2, f3, f4, f5, f6, f7, f8, f9⟩ := shape_fields hsh
  obtain ⟨⟨p1, p2, p3, p4, p5, p6, p7⟩, hpix⟩ := hpos
  obtain ⟨c1, c2, c3, c4, c5, c6, c7, c8, c9⟩ := hl
  have c1 := c1 (by decide)
  have c2 := c2 (by decide)
  have c3 := c3 (by decide)
  have c4 := c4 (by decide)
  have c5 := c5 (by decide)
  have c6 := c6 (by decide)
  have c7 := c7 (by decide)
  have c8 := c8 (by decide)
  have c9 := c9 (by decide)
  have hx := is1x1_congr hsh
  have hu := unalignedOut_congr hsh
  by_cases hk : s._kernel_size0 = 1 ∧ s._kernel_size1 = 1
  · have hx1 : is1x1 s0 = true := by rw [← hx]; unfold is1x1; exact decide_eq_true hk
    obtain ⟨s', h, e1, e2, e3, e4, e5, e6, e7, e8, e9, e10, e11, e12⟩ :=
      mloConstructDirect2D1x1_ok dev s (by omega) (by omega)
        (by rw [f4, f5, f1]; exact hpix hx1)
        c2.1 (by omega) (by omega) (by omega) c8.1 (by have := c8.2.1; omega) c7.1 c9.1
    have h' : mloConstructDirect2DFwd dev s = .ok (0, s') := by
      unfold mloConstructDirect2DFwd; rw [if_pos hk]; exact h
    refine ⟨0, s', h', (mloConstructDirect2DFwd_shape dev s s' 0 h').trans hsh, e12, ?_, ?_⟩
    · refine ⟨fun _ => ?_, fun _ => ?_, fun _ => ?_, fun _ => ?_, fun _ => ?_, fun _ => ?_,
        fun _ => ?_, fun _ => ?_, fun _ => ?_⟩
      · omega
      · omega
      · omega
      · omega
      · refine ⟨by omega, by omega, fun hf => ?_, fun hf => ?_⟩
        · rw [hx1] at hf; exact absurd hf (by decide)
        · rw [hx1] at hf; exact absurd hf (by decide)
      · refine ⟨by omega, by omega, fun hf => ?_, fun hf => ?_⟩
        · rw [hx1] at hf; exact absurd hf (by decide)
        · rw [hx1] at hf; exact absurd hf (by decide)
      · omega
      · omega
      · omega
    · intro _ _
      refine ⟨⟨?_, ?_, ?_, fun hf => ?_, fun _ => ?_⟩, ?_⟩
      · show s'._n_out_pix_tiles ≤ _
        omega
      · show s'._n_in_data_tiles ≤ _
        omega
      · show s'._n_stacks ≤ _
        omega
      · rw [hx1] at hf; exact absurd hf (by decide)
      · show s'._out_pix_tile1 ≤ s'._in_tile1 ∧ s'._out_pix_tile0 ≤ s'._in_tile0
        omega
      · unfold Tiling.bounded getConfigParameters
        dsimp only
        omega
  · have hx0 : is1x1 s0 = false := by rw [← hx]; unfold is1x1; exact decide_eq_false hk
    have q5 := c5.2.2.1 hx0
    have q6 := c6.2.2.1 hx0
    obtain ⟨ret, s', h, e1, e2, e3, e4, e5, e6, e7, e8, e9, e10, e11, e12⟩ :=
      mloConstructDirect2DFwd_ok dev s hk (by omega) (by omega) c1.1 c2.1 c3.1 c4.1 q5 q6
        (by omega) (by omega) (by omega) c8.1 c7.1 c9.1
    refine ⟨ret, s', h, (mloConstructDirect2DFwd_shape dev s s' ret h).trans hsh, e11, ?_, ?_⟩
    · refine ⟨fun _ => ?_, fun _ => ?_, fun _ => ?_, fun _ => ?_, fun _ => ?_, fun _ => ?_,
        fun _ => ?_, fun _ => ?_, fun _ => ?_⟩
      · omega
      · omega
      · omega
      · omega
      · refine ⟨by omega, by omega, fun _ => by omega, fun _ hf => ?_⟩
        have := c5.2.2.2 hx0 hf
        have := e12 (hu.trans hf)
        omega
      · refine ⟨by omega, by omega, fun _ => by omega, fun _ hf => ?_⟩
        have := c6.2.2.2 hx0 hf
        have := e12 (hu.trans hf)
        omega
      · omega
      · omega
      · omega
    · intro hr halu
      have e10 := e10 hr
      refine ⟨⟨?_, ?_, ?_, fun _ => ?_, fun hf => ?_⟩, ?_⟩
      · show s'._n_out_pix_tiles ≤ _
        omega
      · show s'._n_in_data_tiles ≤ _
        omega
      · show s'._n_stacks ≤ _
        omega
      · show max 1 (s'._in_tile0.tdiv s'._out_pix_tile0) *
          max 1 (s'._in_tile1.tdiv s'._out_pix_tile1) ≤ s'._grp_tile0 * s'._grp_tile1
        rw [e1, e2, e3, e4]
        refine le_trans (mul_le_mul (alu_tile_mono e6.1 e6.2 q6) (alu_tile_mono e5.1 e5.2 q5)
          (by omega) (by omega)) (halu hx0)
      · show s'._out_pix_tile1 ≤ s'._in_tile1 ∧ s'._out_pix_tile0 ≤ s'._in_tile0
        have hf : unalignedOut s0 = false := by
          rcases hf with hf | hf
          · rw [hx0] at hf; exact absurd hf (by decide)
          · exact hf
        have := c5.2.2.2 hx0 hf
        have := c6.2.2.2 hx0 hf
        have := e12 (hu.trans hf)
        omega
      · unfold Tiling.bounded getConfigParameters
        dsimp only
        omega

theorem foldlM_inv {σ α : Type} (f : σ → α → Except Fault σ) (I : σ → Prop) :
    ∀ (l : List α), (∀ st x, x ∈ l → I st → ∃ st', f st x = .ok st' ∧ I st') →
      ∀ st, I st → ∃ st', l.foldlM f st = .ok st' ∧ I st' := by
  intro l
  induction l with
  | nil => intro _ st h; exact ⟨st, rfl, h⟩
  | cons x l ih =>
    intro hf st h
    obtain ⟨st1, h1, hI1⟩ := hf st x (List.mem_cons_self _ _) h
    obtain ⟨st2, h2, hI2⟩ := ih (fun st y hy => hf st y (List.mem_cons_of_mem _ hy)) st1 hI1
    refine ⟨st2, ?_, hI2⟩
    rw [List.foldlM_cons, h1, ok_bind]
    exact h2

theorem mem_loopRange {lo hi x : Int} (h : x ∈ loopRange lo hi) : lo ≤ x ∧ x < hi := by
  unfold loopRange at h
  simp at h
  obtain ⟨_, ⟨i, hi', rfl⟩, rfl⟩ := h
  omega

theorem candidateInv_mono {s0 s : mlo_construct_direct2D} {m n : Nat} (hmn : m ≤ n)
    (h : candidateInv s0 n s) : candidateInv s0 m s := by
  obtain ⟨c1, c2, c3, c4, c5, c6, c7, c8, c9⟩ := h
  exact ⟨fun h => c1 (le_trans h hmn), fun h => c2 (le_trans h hmn),
    fun h => c3 (le_trans h hmn), fun h => c4 (le_trans h hmn), fun h => c5 (le_trans h hmn),
    fun h => c6 (le_trans h hmn), fun h => c7 (le_trans h hmn), fun h => c8 (le_trans h hmn),
    fun h => c9 (le_trans h hmn)⟩

theorem SearchInv_mono {dev : Device} {s0 : mlo_construct_direct2D} {st : SearchState}
    {m n : Nat} (hmn : m ≤ n) (h : SearchInv dev s0 n st) : SearchInv dev s0 m st :=
  ⟨h.1, h.2.1, h.2.2.1, h.2.2.2.1, candidateInv_mono hmn h.2.2.2.2.1, h.2.2.2.2.2⟩

theorem SearchInv_countRun {dev : Device} {s0 : mlo_construct_direct2D} {st : SearchState}
    {n : Nat} (h : SearchInv dev s0 n st) : SearchInv dev s0 n (MLOpen.countRun st) := h

theorem SearchInv_recordRun {dev : Device} {s0 : mlo_construct_direct2D} {st : SearchState}
    {n : Nat} (c : Tiling) (h : SearchInv dev s0 n st)
    (hv : validTiling s0 (getConfigParameters st.obj) ∧ (getConfigParameters st.obj).bounded) :
    SearchInv dev s0 n (MLOpen.recordRun st c) := by
  obtain ⟨h1, h2, h3, h4, h5, h6⟩ := h
  have hl : ∀ e ∈ st.log ++ [⟨c, getConfigParameters st.obj, st.processing_time⟩],
      validTiling s0 e.measured ∧ e.measured.bounded := by
    intro e he
    rcases List.mem_append.mp he with he | he
    · exact h6 e he
    · rw [List.mem_singleton] at he
      subst he
      exact hv
  unfold MLOpen.recordRun
  dsimp only
  split
  · exact ⟨h1, h2, h3, h4, h5, hl⟩
  · exact ⟨h1, h2, h3, h4, h5, hl⟩

theorem tooManyAlus_ok (s : mlo_construct_direct2D)
    (h0 : is1x1 s = false → 1 ≤ s._out_pix_tile0 ∧ 1 ≤ s._out_pix_tile1) :
    ∃ b, tooManyAlus s = .ok b ∧ (b = false → is1x1 s = false →
      max 1 (s._in_tile0.tdiv s._out_pix_tile0) * max 1 (s._in_tile1.tdiv s._out_pix_tile1)
        ≤ s._grp_tile0 * s._grp_tile1) := by
  unfold tooManyAlus
  by_cases hx : is1x1 s = true
  · rw [if_pos hx]
    exact ⟨false, rfl, fun _ hf => absurd (hx.symm.trans hf) (by decide)⟩
  · rw [if_neg hx]
    obtain ⟨a, b⟩ := h0 (Bool.eq_false_iff.mpr hx)
    rw [cdiv_ok _ _ (by omega : s._out_pix_tile0 ≠ 0), ok_bind]
    rw [cdiv_ok _ _ (by omega : s._out_pix_tile1 ≠ 0), ok_bind]
    exact ⟨_, rfl, fun hb _ => not_lt.mp (of_decide_eq_false hb)⟩

theorem mloMeasuredLoop_ok (dev : Device) (run : mlo_construct_direct2D → Option ℚ)
    (s0 s : mlo_construct_direct2D) (t : ℚ) (hpos : positiveShape s0 ∧ mapsFit s0)
    (hsh : shapeOf s = shapeOf s0) (hl : candidateInv s0 9 s) :
    ∃ ret s' t', mloMeasuredLoop dev run s t = .ok (ret, s', t') ∧ shapeOf s' = shapeOf s0 ∧
      s'._dev_local_mem_sz = dev.local_mem_size ∧ candidateInv s0 9 s' ∧
      (ret = 0 →
        (is1x1 s0 = false →
          max 1 (s._in_tile0.tdiv s._out_pix_tile0) * max 1 (s._in_tile1.tdiv s._out_pix_tile1)
            ≤ s._grp_tile0 * s._grp_tile1) →
        validTiling s0 (getConfigParameters s') ∧ (getConfigParameters s').bounded) := by
  obtain ⟨ret, s', h, h1, h2, h3, h4⟩ := candidate_ok dev s0 s hpos hsh hl
  unfold mloMeasuredLoop
  rw [h, ok_bind]
  dsimp only
  by_cases hr : ret ≠ 0
  · rw [if_pos hr]
    exact ⟨ret, s', t, rfl, h1, h2, h3, h4⟩
  · rw [if_neg hr]
    cases run s' with
    | none => exact ⟨-1, s', t, rfl, h1, h2, h3, fun hf => absurd hf (by decide)⟩
    | some v => exact ⟨ret, s', v, rfl, h1, h2, h3, h4⟩

theorem searchBodyS_inv (dev : Device) (stub : Measurement) (sp : SearchSpace)
    (s0 : mlo_construct_direct2D) (hpos : positiveShape s0 ∧ mapsFit s0) (hsp : sp.inRange s0)
    (st : SearchState) (x : Int) (hx : x ∈ loopRange 0 sp.stack_cnt)
    (h : SearchInv dev s0 8 st) :
    ∃ st', searchBodyS dev stub sp st x = .ok st' ∧ SearchInv dev s0 8 st' := by
  obtain ⟨hsh, hmem, hr0, hr1, hc, hlog⟩ := h
  obtain ⟨_, _, _, _, _, _, hstk⟩ := hsp
  have hc9 : candidateInv s0 9 { st.obj with _n_stacks := arrAt sp.n_in_stacks_sz x } := by
    obtain ⟨c1, c2, c3, c4, c5, c6, c7, c8, _⟩ := hc
    exact ⟨fun _ => c1 (by decide), fun _ => c2 (by decide), fun _ => c3 (by decide),
      fun _ => c4 (by decide), fun _ => c5 (by decide), fun _ => c6 (by decide),
      fun _ => c7 (by decide), fun _ => c8 (by decide), fun _ => hstk x hx⟩
  have hsh1 : shapeOf { st.obj with _n_stacks := arrAt sp.n_in_stacks_sz x } = shapeOf s0 := hsh
  have hx11 := is1x1_congr hsh1
  obtain ⟨b, hb, hbalu⟩ := tooManyAlus_ok { st.obj with _n_stacks := arrAt sp.n_in_stacks_sz x }
    (fun hf => ⟨(hc9.2.2.2.2.2.1 (by decide)).2.2.1 (hx11.symm.trans hf),
      (hc9.2.2.2.2.1 (by decide)).2.2.1 (hx11.symm.trans hf)⟩)
  unfold searchBodyS
  dsimp only
  rw [hb, ok_bind]
  by_cases hbt : b = true
  · rw [if_pos hbt]
    exact ⟨_, rfl, hsh, hmem, hr0, hr1, candidateInv_mono (by decide) hc9, hlog⟩
  · rw [if_neg hbt]
    by_cases hst : arrAt sp.n_in_stacks_sz x > st.obj._batch_sz
    · rw [if_pos hst]
      exact ⟨_, rfl, hsh, hmem, hr0, hr1, candidateInv_mono (by decide) hc9, hlog⟩
    · rw [if_neg hst]
      obtain ⟨ret, s', t', hm, hsh', hmem', hc', hval⟩ := mloMeasuredLoop_ok dev (stub st.n_calls)
        s0 { st.obj with _n_stacks := arrAt sp.n_in_stacks_sz x } st.processing_time hpos hsh1 hc9
      rw [hm, ok_bind]
      dsimp only
      by_cases hr : ret ≠ 0
      · rw [if_pos hr]
        exact ⟨_, rfl, hsh', hmem', hr0, hr1, candidateInv_mono (by decide) hc', hlog⟩
      · rw [if_neg hr]
        refine ⟨_, rfl, SearchInv_recordRun _ ⟨hsh', hmem', hr0, hr1, candidateInv_mono (by decide) hc', hlog⟩
          (hval (not_not.mp hr) (fun hf => hbalu (Bool.eq_false_iff.mpr hbt) (hx11.trans hf)))⟩

theorem ceil_sqrt_pos (e : Int) (he : 1 ≤ e) : 1 ≤ ceil_sqrt e := by
  unfold ceil_sqrt
  cases hfind : (List.range (e.toNat + 1)).find? (fun n => decide (e.toNat ≤ n * n)) with
  | none =>
    have h := List.find?_eq_none.mp hfind e.toNat (List.mem_range.mpr (Nat.lt_succ_self _))
    simp only [decide_eq_true_eq] at h
    exact absurd (Nat.le_mul_self _) h
  | some k =>
    have h := List.find?_some hfind
    simp only [decide_eq_true_eq] at h
    have hk : 1 ≤ k := by
      rcases Nat.eq_zero_or_pos k with hk | hk
      · subst hk
        simp only [Nat.mul_zero, Nat.le_zero_eq] at h
        omega
      · exact hk
    simp only [Option.getD_some]
    omega

theorem searchInTilesRange_inv (dev : Device) (s0 : mlo_construct_direct2D)
    (hpos : positiveShape s0 ∧ mapsFit s0) (hmem : 6144 ≤ dev.local_mem_size) (st : SearchState)
    (h : SearchInv dev s0 7 st) :
    ∃ st', searchInTilesRange st = .ok st' ∧ SearchInv dev s0 7 st' := by
  obtain ⟨hsh, hm, hr0, hr1, hc, hlog⟩ := h
  obtain ⟨f1, f2, f3, f4, f5, f6, f7, f8, f9⟩ := shape_fields hsh
  obtain ⟨⟨p1, p2, p3, p4, p5, p6, p7⟩, hpix⟩ := hpos
  have c2 := hc.2.1 (by decide)
  have c7 := hc.2.2.2.2.2.2.1 (by decide)
  unfold searchInTilesRange
  dsimp only
  by_cases hx : is1x1 st.obj = true
  · rw [if_pos hx]
    have hwh : 1 ≤ st.obj._in_width * st.obj._in_height := by
      rw [f4, f5]; exact one_le_mul_int p4 p5
    have hwh3 : st.obj._in_width * st.obj._in_height + 3 ≤ 2147483647 := by
      rw [f4, f5]; exact (hpix ((is1x1_congr hsh).symm.trans hx)).1
    rw [int32_eq (by omega : -2147483648 ≤ st.obj._in_width * st.obj._in_height + 1 * 4 - 1)
      (by omega)]
    rw [cdiv_ok _ _ (by decide : (1 : Int) * 4 ≠ 0), ok_bind]
    generalize hM : (st.obj._in_width * st.obj._in_height + 1 * 4 - 1).tdiv (1 * 4) = M
    have hM1 : 1 ≤ M := by
      rw [← hM]; exact tdiv_ge_one (by decide) (by omega)
    by_cases hsm : M ≤ st.obj._grp_tile0.tdiv 2
    · rw [if_pos hsm]
      have h2 := two_mul_le_of_le_tdiv (by omega) hsm
      rw [cdiv_ok _ _ (by omega : M ≠ 0), ok_bind]
      have hNM : st.obj._grp_tile0.tdiv M * M ≤ st.obj._grp_tile0 :=
        tdiv_mul_le_of (by omega) hM1
      have hN1 : 1 ≤ st.obj._grp_tile0.tdiv M := tdiv_ge_one hM1 (by omega)
      generalize hN : st.obj._grp_tile0.tdiv M = N at hNM hN1
      have hNM1 : 1 ≤ N * M := one_le_mul_int hN1 hM1
      generalize hP : N * M = P at hNM hNM1
      have hlcl : P * 4 ≤ (if st.obj._grp_tile0 ≤ 192 then (st.obj._dev_local_mem_sz.tdiv 4).tdiv 2
          else st.obj._dev_local_mem_sz.tdiv 4) := by
        rw [hm]
        have hd : (6144 : Int) ≤ (dev.local_mem_size : Int) := by exact_mod_cast hmem
        have e1 : (dev.local_mem_size : Int).tdiv 4 = (dev.local_mem_size : Int) / 4 :=
          Int.tdiv_eq_ediv (by omega) (by omega)
        rw [e1]
        split
        · rw [Int.tdiv_eq_ediv (by omega) (by omega)]
          omega
        · omega
      generalize hL : (if st.obj._grp_tile0 ≤ 192 then (st.obj._dev_local_mem_sz.tdiv 4).tdiv 2
          else st.obj._dev_local_mem_sz.tdiv 4) = L at hlcl
      rw [int32_eq (by omega : -2147483648 ≤ P * 4) (by omega)]
      rw [cdiv_ok _ _ (by omega : P * 4 ≠ 0), ok_bind]
      have he0 : 1 ≤ L.tdiv (P * 4) := tdiv_ge_one (by omega) hlcl
      generalize hE : L.tdiv (P * 4) = E at he0
      generalize hes : min (min E st.obj._n_out_pix_tiles) N = es
      have hes1 : 1 ≤ es ∧ es ≤ 16 := by omega
      by_cases hlt : es < st.obj._n_out_pix_tiles
      · rw [if_pos hlt, if_neg (by omega : ¬ es < 0)]
        exact ⟨_, rfl, hsh, hm, ceil_sqrt_pos es hes1.1, hes1.2, hc, hlog⟩
      · rw [if_neg hlt]
        exact ⟨_, rfl, hsh, hm, le_refl _, (by decide : (1 : Int) ≤ 16), hc, hlog⟩
    · rw [if_neg hsm]
      exact ⟨st, rfl, hsh, hm, hr0, hr1, hc, hlog⟩
  · rw [if_neg hx]
    exact ⟨st, rfl, hsh, hm, hr0, hr1, hc, hlog⟩

theorem searchBodyIT_inv (dev : Device) (stub : Measurement) (sp : SearchSpace)
    (s0 : mlo_construct_direct2D) (hpos : positiveShape s0 ∧ mapsFit s0) (hsp : sp.inRange s0)
    (st : SearchState) (x : Int) (hx : 1 ≤ x ∧ x ≤ 16) (h : SearchInv dev s0 7 st) :
    ∃ st', searchBodyIT dev stub sp st x = .ok st' ∧ SearchInv dev s0 7 st' := by
  obtain ⟨hsh, hm, hr0, hr1, hc, hlog⟩ := h
  obtain ⟨f1, _⟩ := shape_fields hsh
  obtain ⟨c1, c2, c3, c4, c5, c6, c7, _, _⟩ := hc
  have hc7 : candidateInv s0 7 { st.obj with _n_in_data_tiles := x } :=
    ⟨c1, c2, c3, c4, c5, c6, c7, fun h => absurd h (by decide), fun h => absurd h (by decide)⟩
  unfold searchBodyIT
  dsimp only
  by_cases hn : st.obj._n_inputs < x
  · rw [if_pos hn]
    exact ⟨_, rfl, hsh, hm, hr0, hr1, hc7, hlog⟩
  · rw [if_neg hn]
    have hc8 : candidateInv s0 8 { st.obj with _n_in_data_tiles := x } :=
      ⟨fun _ => c1 (by decide), fun _ => c2 (by decide), fun _ => c3 (by decide),
        fun _ => c4 (by decide), fun _ => c5 (by decide), fun _ => c6 (by decide),
        fun _ => c7 (by decide), fun _ => ⟨hx.1, hx.2, by rw [← f1]; exact not_lt.mp hn⟩,
        fun h => absurd h (by decide)⟩
    obtain ⟨st', h', hI⟩ := foldlM_inv (searchBodyS dev stub sp) (SearchInv dev s0 8) _
      (fun st y hy hI => searchBodyS_inv dev stub sp s0 hpos hsp st y hy hI)
      { st with obj := { st.obj with _n_in_data_tiles := x } }
      ⟨hsh, hm, hr0, hr1, hc8, hlog⟩
    exact ⟨st', h', SearchInv_mono (by decide) hI⟩

theorem searchBodyOT_inv (dev : Device) (stub : Measurement) (sp : SearchSpace)
    (s0 : mlo_construct_direct2D) (hpos : positiveShape s0 ∧ mapsFit s0) (hmem : 6144 ≤ dev.local_mem_size)
    (hsp : sp.inRange s0) (st : SearchState) (x : Int)
    (hx : x ∈ loopRange (arrAt sp.n_out_tiles_rg 0) (arrAt sp.n_out_tiles_rg 1 + 1))
    (h : SearchInv dev s0 6 st) :
    ∃ st', searchBodyOT dev stub sp st x = .ok st' ∧ SearchInv dev s0 6 st' := by
  obtain ⟨hsh, hm, hr0, hr1, hc, hlog⟩ := h
  obtain ⟨_, f2, _⟩ := shape_fields hsh
  obtain ⟨c1, c2, c3, c4, c5, c6, _, _, _⟩ := hc
  have hxr := hsp.2.2.2.2.2.1 x hx
  have hc6 : candidateInv s0 6 { st.obj with _n_out_pix_tiles := x } :=
    ⟨c1, c2, c3, c4, c5, c6, fun h => absurd h (by decide), fun h => absurd h (by decide),
      fun h => absurd h (by decide)⟩
  unfold searchBodyOT
  dsimp only
  by_cases hn : st.obj._n_outputs < x
  · rw [if_pos hn]
    exact ⟨_, rfl, hsh, hm, hr0, hr1, hc6, hlog⟩
  · rw [if_neg hn]
    have hc7 : candidateInv s0 7 { st.obj with _n_out_pix_tiles := x } :=
      ⟨fun _ => c1 (by decide), fun _ => c2 (by decide), fun _ => c3 (by decide),
        fun _ => c4 (by decide), fun _ => c5 (by decide), fun _ => c6 (by decide),
        fun _ => ⟨hxr.1, hxr.2, by rw [← f2]; exact not_lt.mp hn⟩,
        fun h => absurd h (by decide), fun h => absurd h (by decide)⟩
    obtain ⟨st2, h2, hI2⟩ := searchInTilesRange_inv dev s0 hpos hmem
      { st with obj := { st.obj with _n_out_pix_tiles := x } } ⟨hsh, hm, hr0, hr1, hc7, hlog⟩
    rw [h2, ok_bind]
    obtain ⟨st', h', hI⟩ := foldlM_inv (searchBodyIT dev stub sp) (SearchInv dev s0 7)
      (loopRange st2.n_in_tiles_rg0 (st2.n_in_tiles_rg1 + 1))
      (fun st y hy hI => searchBodyIT_inv dev stub sp s0 hpos hsp st y
        (by have := mem_loopRange hy; have := hI2.2.2.1; have := hI2.2.2.2.1; omega) hI)
      st2 hI2
    exact ⟨st', h', SearchInv_mono (by decide) hI⟩

theorem searchBodyL_inv (dev : Device) (stub : Measurement) (sp : SearchSpace)
    (s0 : mlo_construct_direct2D) (hpos : positiveShape s0 ∧ mapsFit s0) (hmem : 6144 ≤ dev.local_mem_size)
    (hsp : sp.inRange s0) (st : SearchState) (x : Int)
    (hx : x ∈ loopRange (if sp.unaligned then arrAt sp.out_pix_tile_sz 0 else 0)
      sp.out_pix_tl_cnt)
    (h : SearchInv dev s0 5 st) :
    ∃ st', searchBodyL dev stub sp st x = .ok st' ∧ SearchInv dev s0 5 st' := by
  obtain ⟨hsh, hm, hr0, hr1, hc, hlog⟩ := h
  obtain ⟨c1, c2, c3, c4, c5, _, _, _, _⟩ := hc
  have hxr := hsp.2.2.2.2.1 x hx
  have hx11 := is1x1_congr hsh
  have hw : 0 ≤ (if is1x1 st.obj = true then 4
        else if sp.unaligned = true then x else arrAt sp.out_pix_tile_sz x) ∧
      (if is1x1 st.obj = true then 4
        else if sp.unaligned = true then x else arrAt sp.out_pix_tile_sz x) ≤ 5 ∧
      (is1x1 s0 = false → 1 ≤ (if is1x1 st.obj = true then 4
        else if sp.unaligned = true then x else arrAt sp.out_pix_tile_sz x)) := by
    by_cases hk : is1x1 st.obj = true
    · rw [if_pos hk]
      exact ⟨by decide, by decide, fun _ => by decide⟩
    · rw [if_neg hk]
      exact hxr
  unfold searchBodyL
  dsimp only
  generalize (if is1x1 st.obj = true then 4
        else if sp.unaligned = true then x else arrAt sp.out_pix_tile_sz x) = w at hw ⊢
  have hc5 : candidateInv s0 5 { st.obj with _out_pix_tile0 := w } :=
    ⟨c1, c2, c3, c4, c5, fun h => absurd h (by decide), fun h => absurd h (by decide),
      fun h => absurd h (by decide), fun h => absurd h (by decide)⟩
  by_cases hn : w > st.obj._in_tile0
  · rw [if_pos hn]
    exact ⟨_, rfl, hsh, hm, hr0, hr1, hc5, hlog⟩
  · rw [if_neg hn]
    have hc6 : candidateInv s0 6 { st.obj with _out_pix_tile0 := w } :=
      ⟨fun _ => c1 (by decide), fun _ => c2 (by decide), fun _ => c3 (by decide),
        fun _ => c4 (by decide), fun _ => c5 (by decide),
        fun _ => ⟨hw.1, hw.2.1, hw.2.2, fun _ _ => not_lt.mp hn⟩,
        fun h => absurd h (by decide), fun h => absurd h (by decide),
        fun h => absurd h (by decide)⟩
    obtain ⟨st', h', hI⟩ := foldlM_inv (searchBodyOT dev stub sp) (SearchInv dev s0 6) _
      (fun st y hy hI => searchBodyOT_inv dev stub sp s0 hpos hmem hsp st y hy hI)
      { st with obj := { st.obj with _out_pix_tile0 := w } } ⟨hsh, hm, hr0, hr1, hc6, hlog⟩
    exact ⟨st', h', SearchInv_mono (by decide) hI⟩

theorem searchBodyK_inv (dev : Device) (stub : Measurement) (sp : SearchSpace)
    (s0 : mlo_construct_direct2D) (hpos : positiveShape s0 ∧ mapsFit s0) (hmem : 6144 ≤ dev.local_mem_size)
    (hsp : sp.inRange s0) (st : SearchState) (x : Int)
    (hx : x ∈ loopRange (if sp.unaligned then arrAt sp.out_pix_tile_sz 0 else 0)
      sp.out_pix_tl_cnt)
    (h : SearchInv dev s0 4 st) :
    ∃ st', searchBodyK dev stub sp st x = .ok st' ∧ SearchInv dev s0 4 st' := by
  obtain ⟨hsh, hm, hr0, hr1, hc, hlog⟩ := h
  obtain ⟨c1, c2, c3, c4, _, _, _, _, _⟩ := hc
  have hw := hsp.2.2.2.2.1 x hx
  unfold searchBodyK
  dsimp only
  generalize (if sp.unaligned = true then x else arrAt sp.out_pix_tile_sz x) = w at hw ⊢
  have hc4 : candidateInv s0 4 { st.obj with _out_pix_tile1 := w } :=
    ⟨c1, c2, c3, c4, fun h => absurd h (by decide), fun h => absurd h (by decide),
      fun h => absurd h (by decide), fun h => absurd h (by decide),
      fun h => absurd h (by decide)⟩
  by_cases hn : w > st.obj._in_tile1
  · rw [if_pos hn]
    exact ⟨_, rfl, hsh, hm, hr0, hr1, hc4, hlog⟩
  · rw [if_neg hn]
    have hc5 : candidateInv s0 5 { st.obj with _out_pix_tile1 := w } :=
      ⟨fun _ => c1 (by decide), fun _ => c2 (by decide), fun _ => c3 (by decide),
        fun _ => c4 (by decide),
        fun _ => ⟨hw.1, hw.2.1, hw.2.2, fun _ _ => not_lt.mp hn⟩,
        fun h => absurd h (by decide), fun h => absurd h (by decide),
        fun h => absurd h (by decide), fun h => absurd h (by decide)⟩
    obtain ⟨st', h', hI⟩ := foldlM_inv (searchBodyL dev stub sp) (SearchInv dev s0 5) _
      (fun st y hy hI => searchBodyL_inv dev stub sp s0 hpos hmem hsp st y hy hI)
      { st with obj := { st.obj with _out_pix_tile1 := w } } ⟨hsh, hm, hr0, hr1, hc5, hlog⟩
    exact ⟨st', h', SearchInv_mono (by decide) hI⟩

theorem searchBodyI_inv (dev : Device) (stub : Measurement) (sp : SearchSpace)
    (s0 : mlo_construct_direct2D) (hpos : positiveShape s0 ∧ mapsFit s0) (hmem : 6144 ≤ dev.local_mem_size)
    (hsp : sp.inRange s0) (st : SearchState) (x : Int) (hx : x ∈ loopRange 0 sp.n_tile0_sz)
    (h : SearchInv dev s0 3 st) :
    ∃ st', searchBodyI dev stub sp st x = .ok st' ∧ SearchInv dev s0 3 st' := by
  obtain ⟨hsh, hm, hr0, hr1, hc, hlog⟩ := h
  obtain ⟨c1, c2, c3, _, _, _, _, _, _⟩ := hc
  have hw := hsp.2.2.2.1 x hx
  have hc3 : candidateInv s0 3 { st.obj with _in_tile0 := arrAt sp.tile_sz0 x } :=
    ⟨c1, c2, c3, fun h => absurd h (by decide), fun h => absurd h (by decide),
      fun h => absurd h (by decide), fun h => absurd h (by decide),
      fun h => absurd h (by decide), fun h => absurd h (by decide)⟩
  have hc4 : candidateInv s0 4 { st.obj with _in_tile0 := arrAt sp.tile_sz0 x } :=
    ⟨fun _ => c1 (by decide), fun _ => c2 (by decide), fun _ => c3 (by decide),
      fun _ => hw, fun h => absurd h (by decide), fun h => absurd h (by decide),
      fun h => absurd h (by decide), fun h => absurd h (by decide),
      fun h => absurd h (by decide)⟩
  unfold searchBodyI
  dsimp only
  split
  · exact ⟨_, rfl, hsh, hm, hr0, hr1, hc3, hlog⟩
  split
  · exact ⟨_, rfl, hsh, hm, hr0, hr1, hc3, hlog⟩
  split
  · exact ⟨_, rfl, hsh, hm, hr0, hr1, hc3, hlog⟩
  · obtain ⟨st', h', hI⟩ := foldlM_inv (searchBodyK dev stub sp) (SearchInv dev s0 4) _
      (fun st y hy hI => searchBodyK_inv dev stub sp s0 hpos hmem hsp st y hy hI)
      { st with obj := { st.obj with _in_tile0 := arrAt sp.tile_sz0 x } }
      ⟨hsh, hm, hr0, hr1, hc4, hlog⟩
    exact ⟨st', h', SearchInv_mono (by decide) hI⟩

theorem searchBodyJ_inv (dev : Device) (stub : Measurement) (sp : SearchSpace)
    (s0 : mlo_construct_direct2D) (hpos : positiveShape s0 ∧ mapsFit s0) (hmem : 6144 ≤ dev.local_mem_size)
    (hsp : sp.inRange s0) (st : SearchState) (x : Int) (hx : x ∈ loopRange 0 sp.n_tile1_sz)
    (h : SearchInv dev s0 2 st) :
    ∃ st', searchBodyJ dev stub sp st x = .ok st' ∧ SearchInv dev s0 2 st' := by
  obtain ⟨hsh, hm, hr0, hr1, hc, hlog⟩ := h
  obtain ⟨c1, c2, _, _, _, _, _, _, _⟩ := hc
  have hw := hsp.2.2.1 x hx
  have hc2 : candidateInv s0 2 { st.obj with _in_tile1 := arrAt sp.tile_sz1 x } :=
    ⟨c1, c2, fun h => absurd h (by decide), fun h => absurd h (by decide),
      fun h => absurd h (by decide), fun h => absurd h (by decide),
      fun h => absurd h (by decide), fun h => absurd h (by decide),
      fun h => absurd h (by decide)⟩
  have hc3 : candidateInv s0 3 { st.obj with _in_tile1 := arrAt sp.tile_sz1 x } :=
    ⟨fun _ => c1 (by decide), fun _ => c2 (by decide), fun _ => hw,
      fun h => absurd h (by decide), fun h => absurd h (by decide),
      fun h => absurd h (by decide), fun h => absurd h (by decide),
      fun h => absurd h (by decide), fun h => absurd h (by decide)⟩
  unfold searchBodyJ
  dsimp only
  split_ifs
  · exact ⟨_, rfl, hsh, hm, hr0, hr1, hc2, hlog⟩
  · obtain ⟨st', h', hI⟩ := foldlM_inv (searchBodyI dev stub sp) (SearchInv dev s0 3) _
      (fun st y hy hI => searchBodyI_inv dev stub sp s0 hpos hmem hsp st y hy hI)
      { st with obj := { st.obj with _in_tile1 := arrAt sp.tile_sz1 x } }
      ⟨hsh, hm, hr0, hr1, hc3, hlog⟩
    exact ⟨st', h', SearchInv_mono (by decide) hI⟩

theorem searchBodyG0_inv (dev : Device) (stub : Measurement) (sp : SearchSpace)
    (s0 : mlo_construct_direct2D) (hpos : positiveShape s0 ∧ mapsFit s0) (hmem : 6144 ≤ dev.local_mem_size)
    (hsp : sp.inRange s0) (st : SearchState) (x : Int) (hx : x ∈ loopRange 0 sp.n_grp_tiles0)
    (h : SearchInv dev s0 1 st) :
    ∃ st', searchBodyG0 dev stub sp st x = .ok st' ∧ SearchInv dev s0 1 st' := by
  obtain ⟨hsh, hm, hr0, hr1, hc, hlog⟩ := h
  obtain ⟨c1, _, _, _, _, _, _, _, _⟩ := hc
  have hw := hsp.2.1 x hx
  have hc2 : candidateInv s0 2 { st.obj with _grp_tile0 := arrAt sp.grp_tl_ln x } :=
    ⟨fun _ => c1 (by decide), fun _ => hw, fun h => absurd h (by decide),
      fun h => absurd h (by decide), fun h => absurd h (by decide),
      fun h => absurd h (by decide), fun h => absurd h (by decide),
      fun h => absurd h (by decide), fun h => absurd h (by decide)⟩
  unfold searchBodyG0
  dsimp only
  obtain ⟨st', h', hI⟩ := foldlM_inv (searchBodyJ dev stub sp) (SearchInv dev s0 2) _
    (fun st y hy hI => searchBodyJ_inv dev stub sp s0 hpos hmem hsp st y hy hI)
    { st with obj := { st.obj with _grp_tile0 := arrAt sp.grp_tl_ln x } }
    ⟨hsh, hm, hr0, hr1, hc2, hlog⟩
  exact ⟨st', h', SearchInv_mono (by decide) hI⟩

theorem searchBodyG1_inv (dev : Device) (stub : Measurement) (sp : SearchSpace)
    (s0 : mlo_construct_direct2D) (hpos : positiveShape s0 ∧ mapsFit s0) (hmem : 6144 ≤ dev.local_mem_size)
    (hsp : sp.inRange s0) (st : SearchState) (x : Int) (hx : x ∈ loopRange 0 sp.n_grp_tiles1)
    (h : SearchInv dev s0 0 st) :
    ∃ st', searchBodyG1 dev stub sp st x = .ok st' ∧ SearchInv dev s0 0 st' := by
  obtain ⟨hsh, hm, hr0, hr1, hc, hlog⟩ := h
  have hxr := hsp.1 x hx
  have hw : 1 ≤ (if is1x1 st.obj = true then 1 else arrAt sp.grp_tl_ln x) ∧
      (if is1x1 st.obj = true then 1 else arrAt sp.grp_tl_ln x) ≤ 256 := by
    split
    · exact ⟨by decide, by decide⟩
    · exact hxr
  unfold searchBodyG1
  dsimp only
  generalize (if is1x1 st.obj = true then 1 else arrAt sp.grp_tl_ln x) = w at hw ⊢
  have hc1 : candidateInv s0 1 { st.obj with _grp_tile1 := w } :=
    ⟨fun _ => hw, fun h => absurd h (by decide), fun h => absurd h (by decide),
      fun h => absurd h (by decide), fun h => absurd h (by decide),
      fun h => absurd h (by decide), fun h => absurd h (by decide),
      fun h => absurd h (by decide), fun h => absurd h (by decide)⟩
  obtain ⟨st', h', hI⟩ := foldlM_inv (searchBodyG0 dev stub sp) (SearchInv dev s0 1) _
    (fun st y hy hI => searchBodyG0_inv dev stub sp s0 hpos hmem hsp st y hy hI)
    { st with obj := { st.obj with _grp_tile1 := w } } ⟨hsh, hm, hr0, hr1, hc1, hlog⟩
  exact ⟨st', h', SearchInv_mono (by decide) hI⟩

set_option maxHeartbeats 4000000 in
theorem searchSetup_inRange_aux (s : mlo_construct_direct2D) (bx bu : Bool)
    (hx : is1x1 s = bx) (hu : unalignedOut s = bu) :
    (searchSetup s).1.inRange s ∧ 1 ≤ (searchSetup s).2.1.1 ∧ (searchSetup s).2.1.2 ≤ 16 := by
  unfold searchSetup SearchSpace.inRange
  dsimp only
  rw [hx, hu]
  cases bx <;> cases bu <;>
    by_cases w8 : s._in_width ≤ 8 <;> by_cases w16 : s._in_width ≤ 16 <;>
    by_cases w32 : s._in_width ≤ 32 <;> by_cases h8 : s._in_height ≤ 8 <;>
    by_cases h16 : s._in_height ≤ 16 <;>
    simp only [w8, w16, w32, h8, h16, if_true, if_false, Bool.false_eq_true] <;>
    decide

theorem searchSetup_inRange (s : mlo_construct_direct2D) :
    (searchSetup s).1.inRange s ∧ 1 ≤ (searchSetup s).2.1.1 ∧ (searchSetup s).2.1.2 ≤ 16 :=
  searchSetup_inRange_aux s _ _ rfl rfl


theorem searchLoops_ok (dev : Device) (stub : Measurement) (s : mlo_construct_direct2D)
    (min : Tiling) (hpos : positiveShape s ∧ mapsFit s) (hmem : 6144 ≤ dev.local_mem_size)
    (hm : s._dev_local_mem_sz = dev.local_mem_size) :
    ∃ st, searchLoops dev stub s min = .ok st ∧ SearchInv dev s 0 st := by
  obtain ⟨hsp, hr0, hr1⟩ := searchSetup_inRange s
  unfold searchLoops
  dsimp only
  exact foldlM_inv (searchBodyG1 dev stub (searchSetup s).1) (SearchInv dev s 0) _
    (fun st y hy hI => searchBodyG1_inv dev stub _ s hpos hmem hsp st y hy hI) _
    ⟨rfl, hm, hr0, hr1,
      ⟨fun h => absurd h (by decide), fun h => absurd h (by decide),
        fun h => absurd h (by decide), fun h => absurd h (by decide),
        fun h => absurd h (by decide), fun h => absurd h (by decide),
        fun h => absurd h (by decide), fun h => absurd h (by decide),
        fun h => absurd h (by decide)⟩,
      fun e he => absurd he (List.not_mem_nil _)⟩

theorem bestOf_mem (log : List Measured) :
    ∀ acc : Tiling × ℚ, bestOf acc log = acc ∨ ∃ e ∈ log, bestOf acc log = (e.measured, e.time) := by
  induction log with
  | nil => intro acc; exact Or.inl rfl
  | cons e l ih =>
    intro acc
    rw [bestOf_cons]
    by_cases h : acc.2 > e.time
    · rw [if_pos h]
      rcases ih (e.measured, e.time) with h1 | ⟨e', he', h1⟩
      · exact Or.inr ⟨e, List.mem_cons_self _ _, h1⟩
      · exact Or.inr ⟨e', List.mem_cons_of_mem _ he', h1⟩
    · rw [if_neg h]
      rcases ih acc with h1 | ⟨e', he', h1⟩
      · exact Or.inl h1
      · exact Or.inr ⟨e', List.mem_cons_of_mem _ he', h1⟩

theorem bestOf_of_faster (log : List Measured) :
    ∀ acc : Tiling × ℚ, (∃ e ∈ log, e.time < acc.2) →
      ∃ e ∈ log, bestOf acc log = (e.measured, e.time) := by
  induction log with
  | nil => intro acc ⟨e, he, _⟩; exact absurd he (List.not_mem_nil _)
  | cons e l ih =>
    intro acc ⟨x, hx, hlt⟩
    rw [bestOf_cons]
    by_cases h : acc.2 > e.time
    · rw [if_pos h]
      rcases bestOf_mem l (e.measured, e.time) with h1 | ⟨e', he', h1⟩
      · exact ⟨e, List.mem_cons_self _ _, h1⟩
      · exact ⟨e', List.mem_cons_of_mem _ he', h1⟩
    · rw [if_neg h]
      rcases List.mem_cons.mp hx with rfl | hx
      · exact absurd hlt h
      · obtain ⟨e', he', h1⟩ := ih acc ⟨x, hx, hlt⟩
        exact ⟨e', List.mem_cons_of_mem _ he', h1⟩

theorem Tiling.bounded.isInt {t : Tiling} (h : t.bounded) : t.isInt := by
  unfold Tiling.bounded at h
  unfold Tiling.isInt MLOpen.isInt INT_MIN INT_MAX
  omega

/-- For a positive shape whose maps fit in an `int` when the kernel is 1x1 (`mapsFit`:
in_width * in_height + 3 <= INT_MAX and n_inputs <= INT_MAX) and that the database does not
hold, and a device with at least 6144 bytes of local memory, `mloSearchDirect2D` returns,
and every measurement of its log left a valid and bounded tiling. -/
theorem mloSearchDirect2D_total (dev : Device) (stub : Measurement) (files : Files)
    (s : mlo_construct_direct2D) (m : StdMap) (hpos : positiveShape s ∧ mapsFit s)
    (hmem : 6144 ≤ dev.local_mem_size) (hread : mloReadConfigDB files [] = .ok m)
    (hnew : m.find (mloBuildConf_Key s) = none) :
    ∃ r, mloSearchDirect2D dev stub files s = .ok r ∧
      ∀ e ∈ r.log, validTiling s e.measured ∧ e.measured.bounded := by
  have hk : mloBuildConf_Key
      { s with _hw_wave_sz := 64, _dev_local_mem_sz := dev.local_mem_size }
      = mloBuildConf_Key s := rfl
  have e : mloSearchConfigDB m (mloBuildConf_Key s) [] = (false, []) := by
    simp only [mloSearchConfigDB, hnew]
  obtain ⟨st, hst, hI⟩ := searchLoops_ok dev stub
    { s with _hw_wave_sz := 64, _dev_local_mem_sz := dev.local_mem_size }
    { grp_tile0 := 16, grp_tile1 := 16, in_tile0 := 16, in_tile1 := 16, out_pix_tile0 := 1,
      out_pix_tile1 := 1, n_out_pix_tiles := 2, n_in_data_tiles := 3, n_stacks := 1 }
    hpos hmem rfl
  have hlog : ∀ e ∈ st.log, validTiling s e.measured ∧ e.measured.bounded := hI.2.2.2.2.2
  have hint : st.min.isInt := by
    have hloop := hst
    unfold searchLoops at hloop
    obtain ⟨_, ext, hl, hmin⟩ := Steps.foldlM _ (searchBodyG1_steps dev stub _) _ _ _ hloop
    simp only [List.nil_append] at hl
    have hmin1 : st.min = (bestOf (initialMin, CL_MAXFLOAT) st.log).1 := by
      rw [hl]; exact congrArg Prod.fst hmin
    rcases bestOf_mem st.log (initialMin, CL_MAXFLOAT) with h1 | ⟨x, hx, h1⟩
    · rw [hmin1, h1]; decide
    · rw [hmin1, h1]; exact (hlog x hx).2.isInt
  unfold mloSearchDirect2D
  dsimp only
  rw [mloSearchConfigInDB_eq files _ [] m hread, hk, e]
  simp only [ok_bind]
  rw [if_pos (by rfl)]
  rw [hst, ok_bind, mloAddConfig_eq files m _ _ hread, ok_bind, mloSetConf_build _ _ hint, ok_bind]
  exact ⟨_, rfl, hlog⟩

end MLOpen
namespace MLOpen

/-! ### C2: cache idempotence -/

theorem to_string_clean (v : Int) (c : Char) (hc : c ∈ to_string v) :
    c ≠ ' ' ∧ c ≠ '\n' ∧ c ≠ '\r' := by
  rcases to_string_chars v c hc with rfl | h
  · decide
  · exact (isDigit_ne h).2.2.2.2

theorem mloBuildConf_Val_clean (t : Tiling) : cleanStr (mloBuildConf_Val t) := by
  have hmem : ∀ c ∈ mloBuildConf_Val t, c ≠ ' ' ∧ c ≠ '\n' ∧ c ≠ '\r' := by
    unfold mloBuildConf_Val
    simp only [List.forall_mem_append, List.forall_mem_singleton]
    repeat' constructor
    all_goals first
      | exact fun c hc => to_string_clean _ c hc
      | decide
  refine ⟨?_, fun h => (hmem _ h).1 rfl, fun h => (hmem _ h).2.1 rfl,
    fun h => (hmem _ h).2.2 rfl⟩
  intro h
  have : ('.' : Char) ∈ mloBuildConf_Val t := by
    simp [mloBuildConf_Val]
  rw [h] at this
  exact absurd this (List.not_mem_nil _)

theorem mloBuildConf_Key_clean (s : mlo_construct_direct2D) (hl : cleanTag s._in_layout)
    (hd : cleanTag s._in_data_type) : cleanStr (mloBuildConf_Key s) := by
  have hmem : ∀ c ∈ mloBuildConf_Key s, c ≠ ' ' ∧ c ≠ '\n' ∧ c ≠ '\r' := by
    unfold mloBuildConf_Key
    simp only [List.forall_mem_append, List.forall_mem_singleton]
    repeat' constructor
    all_goals first
      | exact fun c hc => to_string_clean _ c hc
      | decide
      | exact fun c hc => ⟨fun e => hl.1 (e ▸ hc), fun e => hl.2.1 (e ▸ hc),
          fun e => hl.2.2 (e ▸ hc)⟩
      | exact fun c hc => ⟨fun e => hd.1 (e ▸ hc), fun e => hd.2.1 (e ▸ hc),
          fun e => hd.2.2 (e ▸ hc)⟩
  refine ⟨?_, fun h => (hmem _ h).1 rfl, fun h => (hmem _ h).2.1 rfl,
    fun h => (hmem _ h).2.2 rfl⟩
  intro h
  have : ('x' : Char) ∈ mloBuildConf_Key s := by
    simp [mloBuildConf_Key]
  rw [h] at this
  exact absurd this (List.not_mem_nil _)

theorem mloBuildConf_Key_congr {a b : mlo_construct_direct2D} (h : shapeOf a = shapeOf b) :
    mloBuildConf_Key a = mloBuildConf_Key b :=
  (congrArg mloBuildConf_Key h :)

/-- `mloSetConf` on a value that `mloParseConf` reads as `t` stores `t`. -/
theorem mloSetConf_of_parse (s : mlo_construct_direct2D) (v : CString) (t : Tiling)
    (h : mloParseConf v = .ok t) : mloSetConf s v = .ok (setTiling s t) := by
  unfold mloSetConf
  rw [h]
  rfl

end MLOpen
namespace MLOpen

/-! ### C7: the search ends with a configuration -/

set_option maxRecDepth 100000 in
set_option maxHeartbeats 4000000 in
/-- With a device without local memory the search of the smallest shape divides by zero
(the exchange step computed from the local memory size is 0). -/
theorem mloSearchDirect2D_no_local_memory :
    mloSearchDirect2D { local_mem_size := 0 } (fun _ _ => none) ⟨[], []⟩ tinyShape
      = .error .undefined_behaviour := by
  decide

set_option maxRecDepth 100000 in
set_option maxHeartbeats 4000000 in
/-- With a 1x1 kernel over a map of 46341 x 46341 pixels, whose number 2147488281 does not
fit in an `int`, the search divides by zero: the product wraps to -2147479015, `MAP_SZ4` is
-536869753, the number of maps per group `64 / MAP_SZ4` is 0, and the local memory size is
divided by `0 * MAP_SZ4 * 4`. -/
theorem mloSearchDirect2D_pixel_overflow :
    positiveShape largeMapShape ∧
    int32 (largeMapShape._in_width * largeMapShape._in_height + 3) = -2147479012 ∧
    mloSearchDirect2D exampleDevice (fun _ _ => none) ⟨[], []⟩ largeMapShape
      = .error .undefined_behaviour := by
  decide

set_option maxRecDepth 100000 in
set_option maxHeartbeats 4000000 in
/-- With an input of width 0 the search of the 1x1 shape divides by zero (`MAP_SZ4` is 0). -/
theorem mloSearchDirect2D_zero_width :
    mloSearchDirect2D exampleDevice exampleTimes ⟨[], []⟩ { tinyShape with _in_width := 0 }
      = .error .undefined_behaviour := by
  decide

set_option maxRecDepth 100000 in
set_option maxHeartbeats 4000000 in
/-- With a space in the layout tag the entry that the search stores is not found again: the
line of the database is cut at its first space, so the map read back holds the part of the
key before the space, with the rest of the key as its value, and not the key. -/
theorem mloSearchDirect2D_tag_with_space :
    ¬ cleanTag "NC HW".toList ∧
    ((mloSearchDirect2D exampleDevice exampleTimes ⟨[], []⟩
        { smallShape with _in_layout := "NC HW".toList }).bind
      (fun r => mloReadConfigDB r.files [])).map
      (fun m => (m, m.find (mloBuildConf_Key { smallShape with _in_layout := "NC HW".toList })))
      = .ok ([("1x3x3x3x3x1x1x1x1xNC".toList, "HWxFP32x1".toList)], none) := by
  decide

/-- A line of the database without a value makes `mloReadConfigDB` read the vector of its
tokens past the end. -/
theorem mloReadConfigDB_line_without_value :
    mloReadConfigDB ⟨"key\n".toList, []⟩ [] = .error .undefined_behaviour := by
  decide

end MLOpen
namespace MLOpen

/-! ### C11: the default selector for a 1x1 kernel -/

/-- The rounded-up quarter of the code, `(p + 3) / 4` in `int` arithmetic, exceeds a
threshold exactly when the exact quotient `p / 4` does. -/
theorem out_len4_gt (p n : Int) (hn : 0 ≤ n) :
    (p + 3).tdiv 4 > n ↔ (p : ℚ) / 4 > n := by
  have h1 : (p + 3).tdiv 4 > n ↔ 4 * n < p := by
    by_cases hp : 0 ≤ p + 3
    · rw [Int.tdiv_eq_ediv hp (by omega)]
      omega
    · have h0 : (p + 3).tdiv 4 ≤ 0 := by
        have e : p + 3 = -(-(p + 3)) := by omega
        rw [e, Int.neg_tdiv]
        have := Int.tdiv_nonneg (by omega : 0 ≤ -(p + 3)) (by omega : (0 : Int) ≤ 4)
        omega
      constructor <;> intro h <;> omega
  rw [h1, gt_iff_lt, lt_div_iff₀ (by norm_num : (0 : ℚ) < 4)]
  constructor
  · intro h
    have : ((4 * n : Int) : ℚ) < (p : ℚ) := by exact_mod_cast h
    push_cast at this
    linarith
  · intro h
    have : ((4 * n : Int) : ℚ) < (p : ℚ) := by push_cast; linarith
    exact_mod_cast this

/-- C11 (as amended). Default selector, 1x1 case: for a 1x1 kernel and an output whose
`out_height * out_width + 3` is within `int`, `mloSelectDefaultConfig` succeeds and sets
in_tile0 = 4, in_tile1 = 1, out_pix_tile0 = 4, out_pix_tile1 = 1, n_out_pix_tiles = 16,
n_in_data_tiles = 2, n_stacks = 2 if batch_sz > 1 else 1, grp_tile1 = 1, and grp_tile0 =
256 if q > 192, 192 if 128 < q <= 192, 128 if 64 < q <= 128, else 64, where q is the exact
rational quotient out_height * out_width / 4. -/
theorem C11_default_selector_1x1 (s : mlo_construct_direct2D)
    (h : s._kernel_size0 = 1 ∧ s._kernel_size1 = 1)
    (hr : isInt (s._out_height * s._out_width + 3)) :
    ∃ s' conf_val, mloSelectDefaultConfig s = .ok (s', conf_val) ∧
      s'._in_tile0 = 4 ∧ s'._in_tile1 = 1 ∧ s'._out_pix_tile0 = 4 ∧ s'._out_pix_tile1 = 1 ∧
      s'._n_out_pix_tiles = 16 ∧ s'._n_in_data_tiles = 2 ∧
      s'._n_stacks = (if s._batch_sz > 1 then 2 else 1) ∧ s'._grp_tile1 = 1 ∧
      s'._grp_tile0 =
        (if ((s._out_height * s._out_width : Int) : ℚ) / 4 > 192 then 256
         else if ((s._out_height * s._out_width : Int) : ℚ) / 4 > 128 then 192
         else if ((s._out_height * s._out_width : Int) : ℚ) / 4 > 64 then 128 else 64) := by
  refine ⟨_, _, mloSelectDefaultConfig_eq s, ?_⟩
  have e : defaultTiling s = _ := if_pos h
  rw [e]
  refine ⟨rfl, rfl, rfl, rfl, rfl, rfl, rfl, rfl, ?_⟩
  show (if (int32 (s._out_height * s._out_width + 3)).tdiv 4 > 192 then (256 : Int)
        else if (int32 (s._out_height * s._out_width + 3)).tdiv 4 > 128 then 192
        else if (int32 (s._out_height * s._out_width + 3)).tdiv 4 > 64 then 128 else 64) = _
  unfold isInt INT_MIN INT_MAX at hr
  rw [int32_eq hr.1 hr.2]
  simp only [out_len4_gt _ 192 (by decide), out_len4_gt _ 128 (by decide),
    out_len4_gt _ 64 (by decide)]
  rfl

theorem C11_default_selector_1x1_witness :
    (tinyShape._kernel_size0 = 1 ∧ tinyShape._kernel_size1 = 1) ∧
    isInt (tinyShape._out_height * tinyShape._out_width + 3) ∧
    ∃ s' conf_val, mloSelectDefaultConfig tinyShape = .ok (s', conf_val) ∧
      s'._in_tile0 = 4 ∧ s'._in_tile1 = 1 ∧ s'._out_pix_tile0 = 4 ∧ s'._out_pix_tile1 = 1 ∧
      s'._n_out_pix_tiles = 16 ∧ s'._n_in_data_tiles = 2 ∧
      s'._n_stacks = (if tinyShape._batch_sz > 1 then 2 else 1) ∧ s'._grp_tile1 = 1 ∧
      s'._grp_tile0 =
        (if ((tinyShape._out_height * tinyShape._out_width : Int) : ℚ) / 4 > 192 then 256
         else if ((tinyShape._out_height * tinyShape._out_width : Int) : ℚ) / 4 > 128 then 192
         else if ((tinyShape._out_height * tinyShape._out_width : Int) : ℚ) / 4 > 64 then 128
         else 64) :=
  ⟨by decide, by decide, C11_default_selector_1x1 tinyShape (by decide) (by decide)⟩

/-- C11, as stated, fails when the number of output pixels does not fit in an `int`: for a
1x1 kernel and an output of 46341 x 46341 pixels the exact quotient out_height * out_width
/ 4 is above 192, for which the claim gives grp_tile0 = 256, but the product formed in `int`
wraps to a negative value and `mloSelectDefaultConfig` sets grp_tile0 = 64. -/
theorem C11_counterexample :
    (largeMapShape._kernel_size0 = 1 ∧ largeMapShape._kernel_size1 = 1) ∧
    ((largeMapShape._out_height * largeMapShape._out_width : Int) : ℚ) / 4 > 192 ∧
    int32 (largeMapShape._out_height * largeMapShape._out_width + 3) = -2147479012 ∧
    (mloSelectDefaultConfig largeMapShape).map (fun p => p.1._grp_tile0) = .ok 64 := by
  refine ⟨by decide, ?_, by decide, by decide⟩
  have e : largeMapShape._out_height * largeMapShape._out_width = 2147488281 := by decide
  rw [e]
  norm_num

/-! ### C12: what `mloParseConf` accepts -/

theorem takeWhile_append_stop {p : Char → Bool} : ∀ (l r : CString),
    (∀ c ∈ l, p c = true) → (∀ c, r.head? = some c → p c = false) →
    (l ++ r).takeWhile p = l
  | [], r, _, hr => by
    cases r with
    | nil => rfl
    | cons a r => simp [List.takeWhile_cons, hr a rfl]
  | a :: l, r, hl, hr => by
    have ha := hl a (by simp)
    simp [List.takeWhile_cons, ha,
      takeWhile_append_stop l r (fun c hc => hl c (by simp [hc])) hr]

theorem dropWhile_append_stop {p : Char → Bool} : ∀ (l r : CString),
    (∀ c ∈ l, p c = true) → (∀ c, r.head? = some c → p c = false) →
    (l ++ r).dropWhile p = r
  | [], r, _, hr => by
    cases r with
    | nil => rfl
    | cons a r => simp [List.dropWhile_cons, hr a rfl]
  | a :: l, r, hl, hr => by
    have ha := hl a (by simp)
    simp [List.dropWhile_cons, ha,
      dropWhile_append_stop l r (fun c hc => hl c (by simp [hc])) hr]

theorem head_dropWhile_stop {p : Char → Bool} (l : CString) :
    ∀ c, (l.dropWhile p).head? = some c → p c = false := by
  intro c hc
  have := List.head?_dropWhile_not p l
  rw [hc] at this
  simpa using this

/-- `std::stoi` on a string that starts with decimal digits, after a sign if `neg`. -/
theorem stoi_of_digits (ws sign ds rest : CString) (hws : ∀ c ∈ ws, isspace c = true)
    (hsign : sign = [] ∨ sign = ['-'] ∨ sign = ['+']) (hne : ds ≠ [])
    (hds : ∀ c ∈ ds, c.isDigit = true) (hrest : ∀ c, rest.head? = some c → c.isDigit = false) :
    stoi (ws ++ (sign ++ (ds ++ rest)))
      = if isInt (if sign = ['-'] then -(digitsValue 0 ds : Int) else (digitsValue 0 ds : Int))
        then .ok (if sign = ['-'] then -(digitsValue 0 ds : Int) else (digitsValue 0 ds : Int))
        else .error .out_of_range := by
  obtain ⟨d, ds', rfl⟩ := List.exists_cons_of_ne_nil hne
  have hd : d.isDigit = true := hds d (by simp)
  have hsp := isDigit_not_space hd
  obtain ⟨_, hm, hp, _⟩ := isDigit_ne hd
  have htw : ((d :: ds') ++ rest).takeWhile Char.isDigit = d :: ds' :=
    takeWhile_append_stop _ _ hds hrest
  have hdrop : (ws ++ (sign ++ ((d :: ds') ++ rest))).dropWhile isspace
      = sign ++ ((d :: ds') ++ rest) := by
    apply dropWhile_append_stop _ _ hws
    intro c hc
    rcases hsign with rfl | rfl | rfl
    · simp only [List.nil_append, List.cons_append, List.head?_cons, Option.some.injEq] at hc
      rw [← hc]; exact hsp
    · simp only [List.cons_append, List.nil_append, List.head?_cons, Option.some.injEq] at hc
      rw [← hc]; decide
    · simp only [List.cons_append, List.nil_append, List.head?_cons, Option.some.injEq] at hc
      rw [← hc]; decide
  unfold stoi
  rw [hdrop]
  rcases hsign with rfl | rfl | rfl
  · have h3 : ¬ (some d = some '-') := by simp [hm]
    have h4 : ¬ (some d = some '+') := by simp [hp]
    simp only [List.nil_append, List.cons_append, List.head?_cons, h3, h4, or_self, if_false]
    rw [← List.cons_append, htw]
    simp
  · simp only [List.cons_append, List.nil_append, List.head?_cons, true_or, if_true,
      List.tail_cons]
    rw [← List.cons_append, htw]
    simp
  · have h5 : ¬ (some '+' = some '-') := by decide
    have h6 : ¬ (['+'] = ['-']) := by decide
    simp only [List.cons_append, List.nil_append, List.head?_cons, or_true, if_true,
      List.tail_cons, h5, h6, if_false]
    rw [← List.cons_append, htw]
    simp

/-- Every string splits into white space, an optional sign and decimal digits as
`std::stoi` reads them, followed by a character that is not a digit or by nothing. -/
theorem stoi_split (f : CString) :
    ∃ ws sign ds rest : CString, f = ws ++ (sign ++ (ds ++ rest)) ∧
      (∀ c ∈ ws, isspace c = true) ∧ (sign = [] ∨ sign = ['-'] ∨ sign = ['+']) ∧
      (∀ c ∈ ds, c.isDigit = true) ∧ (∀ c, rest.head? = some c → c.isDigit = false) ∧
      (ds = [] → stoi f = .error .invalid_argument) := by
  have hws : ∀ c ∈ f.takeWhile isspace, isspace c = true :=
    fun c hc => List.mem_takeWhile_imp hc
  have hf : f = f.takeWhile isspace ++ f.dropWhile isspace :=
    (List.takeWhile_append_dropWhile isspace f).symm
  have hdig : ∀ l : CString, ∀ c ∈ l.takeWhile Char.isDigit, c.isDigit = true :=
    fun l c hc => List.mem_takeWhile_imp hc
  have hsplit : ∀ l : CString, l = l.takeWhile Char.isDigit ++ l.dropWhile Char.isDigit :=
    fun l => (List.takeWhile_append_dropWhile Char.isDigit l).symm
  cases hs1 : f.dropWhile isspace with
  | nil =>
    refine ⟨f.takeWhile isspace, [], [], [], ?_, hws, Or.inl rfl, by simp, by simp, fun _ => ?_⟩
    · rw [hs1] at hf; simpa using hf
    · unfold stoi; rw [hs1]; rfl
  | cons c tl =>
    by_cases hc : c = '-' ∨ c = '+'
    · refine ⟨f.takeWhile isspace, [c], tl.takeWhile Char.isDigit, tl.dropWhile Char.isDigit,
        ?_, hws, ?_, hdig tl, head_dropWhile_stop tl, fun he => ?_⟩
      · rw [← hsplit tl]
        show f = _ ++ (c :: tl)
        rw [← hs1]; exact hf
      · rcases hc with rfl | rfl
        · exact Or.inr (Or.inl rfl)
        · exact Or.inr (Or.inr rfl)
      · unfold stoi
        rw [hs1]
        have : (some c = some '-' ∨ some c = some '+') := by
          rcases hc with rfl | rfl
          · exact Or.inl rfl
          · exact Or.inr rfl
        simp only [List.head?_cons, this, if_true, List.tail_cons, he]
    · refine ⟨f.takeWhile isspace, [], (c :: tl).takeWhile Char.isDigit,
        (c :: tl).dropWhile Char.isDigit, ?_, hws, Or.inl rfl, hdig _,
        head_dropWhile_stop _, fun he => ?_⟩
      · rw [List.nil_append, ← hsplit (c :: tl), ← hs1]; exact hf
      · unfold stoi
        rw [hs1]
        have : ¬ (some c = some '-' ∨ some c = some '+') := by
          simpa using hc
        simp only [List.head?_cons, this, if_false, he, if_true]

/-- `std::stoi` yields `v` exactly for the strings described by `leadingInt`. -/
theorem stoi_eq_ok_iff (f : CString) (v : Int) : stoi f = .ok v ↔ leadingInt f v := by
  constructor
  · intro h
    obtain ⟨ws, sign, ds, rest, hf, hws, hsign, hds, hrest, hnil⟩ := stoi_split f
    by_cases hne : ds = []
    · rw [hnil hne] at h
      exact absurd h (by simp)
    · have hs := stoi_of_digits ws sign ds rest hws hsign hne hds hrest
      rw [← hf, h] at hs
      by_cases hi : isInt
          (if sign = ['-'] then -(digitsValue 0 ds : Int) else (digitsValue 0 ds : Int))
      · rw [if_pos hi] at hs
        have hv := Except.ok.inj hs
        exact ⟨ws, sign, ds, rest, hf, hws, hsign, hne, hds, hrest, hv, hv ▸ hi⟩
      · rw [if_neg hi] at hs
        exact absurd hs (by simp)
  · rintro ⟨ws, sign, ds, rest, hf, hws, hsign, hne, hds, hrest, hv, hi⟩
    rw [hf, stoi_of_digits ws sign ds rest hws hsign hne hds hrest, ← hv, if_pos hi]

/-- The tokens of a string of non-empty fields without dots, joined by single dots, are
the fields. -/
theorem tokenizeFrom_joinWith : ∀ (fields : List CString),
    (∀ f ∈ fields, f ≠ [] ∧ '.' ∉ f) →
    tokenizeFrom ['.'] [] (joinWith '.' fields) = fields
  | [], _ => rfl
  | [f], h => by
    have hf := h f (by simp)
    exact tokenizeFrom_token_end _ _ hf.1 (fun c hc => by
      intro hd
      simp only [List.mem_singleton] at hd
      exact hf.2 (hd ▸ hc))
  | f :: g :: rest, h => by
    have hf := h f (by simp)
    have ih := tokenizeFrom_joinWith (g :: rest) (fun x hx => h x (by simp [hx]))
    show tokenizeFrom ['.'] [] (f ++ (['.'] ++ joinWith '.' (g :: rest))) = _
    rw [tokenizeFrom_token_cons _ _ _ _ hf.1 (fun c hc => by
      intro hd
      simp only [List.mem_singleton] at hd
      exact hf.2 (hd ▸ hc)) (by simp), ih]

set_option maxHeartbeats 1000000 in
/-- `mloParseConf` yields a tiling exactly when there are at least nine tokens and
`std::stoi` reads the nine values from the first nine. -/
theorem mloParseConf_eq_ok_iff (conf_val : CString) (t : Tiling) :
    mloParseConf conf_val = .ok t ↔
      ∃ f1 f2 f3 f4 f5 f6 f7 f8 f9 rest,
        tokenize conf_val [] ['.'] = f1 :: f2 :: f3 :: f4 :: f5 :: f6 :: f7 :: f8 :: f9 :: rest ∧
        stoi f1 = .ok t.grp_tile1 ∧ stoi f2 = .ok t.grp_tile0 ∧ stoi f3 = .ok t.in_tile1 ∧
        stoi f4 = .ok t.in_tile0 ∧ stoi f5 = .ok t.out_pix_tile1 ∧
        stoi f6 = .ok t.out_pix_tile0 ∧ stoi f7 = .ok t.n_out_pix_tiles ∧
        stoi f8 = .ok t.n_in_data_tiles ∧ stoi f9 = .ok t.n_stacks := by
  unfold mloParseConf
  generalize tokenize conf_val [] ['.'] = toks
  simp only [bind_eq_ok, pure_eq_ok]
  constructor
  · rintro ⟨a1, h1, v1, s1, a2, h2, v2, s2, a3, h3, v3, s3, a4, h4, v4, s4, a5, h5, v5, s5,
      a6, h6, v6, s6, a7, h7, v7, s7, a8, h8, v8, s8, a9, h9, v9, s9, rfl⟩
    rcases toks with _ | ⟨f1, _ | ⟨f2, _ | ⟨f3, _ | ⟨f4, _ | ⟨f5, _ | ⟨f6, _ | ⟨f7, _ | ⟨f8,
      _ | ⟨f9, rest⟩⟩⟩⟩⟩⟩⟩⟩⟩
    all_goals simp [vecAt] at h1 h2 h3 h4 h5 h6 h7 h8 h9
    subst h1 h2 h3 h4 h5 h6 h7 h8 h9
    exact ⟨_, _, _, _, _, _, _, _, _, _, rfl, s1, s2, s3, s4, s5, s6, s7, s8, s9⟩
  · rintro ⟨f1, f2, f3, f4, f5, f6, f7, f8, f9, rest, rfl, s1, s2, s3, s4, s5, s6, s7, s8, s9⟩
    exact ⟨f1, rfl, _, s1, f2, rfl, _, s2, f3, rfl, _, s3, f4, rfl, _, s4, f5, rfl, _, s5,
      f6, rfl, _, s6, f7, rfl, _, s7, f8, rfl, _, s8, f9, rfl, _, s9, rfl⟩

/-- Strings of the kinds that `mloParseConf` does reject: a field without a leading digit
(`std::invalid_argument`), a value that is not an `int` (`std::out_of_range`), and fewer
than nine fields (the vector of pieces is read past its end). -/
theorem mloParseConf_rejects :
    mloParseConf "16.16.8.8.2.4.1.1.a4".toList = .error .invalid_argument ∧
    mloParseConf "16.16.8.8.2.4.1.1.99999999999".toList = .error .out_of_range ∧
    mloParseConf "16.16.8.8.2.4.1.1".toList = .error .undefined_behaviour := by
  decide

end MLOpen
namespace MLOpen

/-! ### C13: the key determines the shape -/

theorem to_string_no_x (v : Int) : 'x' ∉ to_string v := by
  intro h
  rcases to_string_chars v 'x' h with h | h
  · exact absurd h (by decide)
  · exact absurd h (by decide)

theorem to_string_injective (a b : Int) (h : to_string a = to_string b) : a = b := by
  obtain ⟨da, ha, hane, hadig, haval⟩ := to_string_spec a
  obtain ⟨db, hb, hbne, hbdig, hbval⟩ := to_string_spec b
  rw [ha, hb] at h
  obtain ⟨ca, da', rfl⟩ := List.exists_cons_of_ne_nil hane
  obtain ⟨cb, db', rfl⟩ := List.exists_cons_of_ne_nil hbne
  have hca := (isDigit_ne (hadig ca (by simp))).2.1
  have hcb := (isDigit_ne (hbdig cb (by simp))).2.1
  by_cases hna : a < 0 <;> by_cases hnb : b < 0
  · simp only [hna, hnb, if_true, List.singleton_append, List.cons.injEq, true_and] at h
    have : digitsValue 0 (ca :: da') = digitsValue 0 (cb :: db') := by
      rw [h.1, h.2]
    omega
  · simp only [hna, hnb, if_true, if_false, List.singleton_append, List.nil_append,
      List.cons.injEq] at h
    exact absurd h.1.symm hcb
  · simp only [hna, hnb, if_true, if_false, List.singleton_append, List.nil_append,
      List.cons.injEq] at h
    exact absurd h.1 hca
  · simp only [hna, hnb, if_false, List.nil_append, List.cons.injEq] at h
    have : digitsValue 0 (ca :: da') = digitsValue 0 (cb :: db') := by
      rw [h.1, h.2]
    omega

/-- A string is cut at its first `x` in one way only. -/
theorem split_at_x : ∀ (a a' r r' : CString), 'x' ∉ a → 'x' ∉ a' →
    a ++ 'x' :: r = a' ++ 'x' :: r' → a = a' ∧ r = r' := by
  intro a
  induction a with
  | nil =>
    intro a' r r' _ ha' h
    cases a' with
    | nil => simpa using h
    | cons c a' =>
      simp only [List.nil_append, List.cons_append, List.cons.injEq] at h
      exact absurd (h.1 ▸ List.mem_cons_self _ _) ha'
  | cons c a ih =>
    intro a' r r' ha ha' h
    cases a' with
    | nil =>
      simp only [List.nil_append, List.cons_append, List.cons.injEq] at h
      exact absurd (h.1 ▸ List.mem_cons_self _ _) ha
    | cons c' a' =>
      simp only [List.cons_append, List.cons.injEq] at h
      obtain ⟨h1, h2⟩ := ih a' r r' (fun hx => ha (List.mem_cons_of_mem _ hx))
        (fun hx => ha' (List.mem_cons_of_mem _ hx)) h.2
      exact ⟨by rw [h.1, h1], h2⟩

/-- C13. `mloBuildConf_Key` is lossless: two objects whose layout and data type tags
contain no `x` and whose keys are equal agree in all twelve fields of the shape signature
(n_inputs, in_height, in_width, kernel_size1, kernel_size0, n_outputs, out_height,
out_width, batch_sz, layout, data type, direction); the integer fields are arbitrary. -/
theorem C13_key_lossless (a b : mlo_construct_direct2D)
    (hla : 'x' ∉ a._in_layout) (hda : 'x' ∉ a._in_data_type)
    (hlb : 'x' ∉ b._in_layout) (hdb : 'x' ∉ b._in_data_type)
    (h : mloBuildConf_Key a = mloBuildConf_Key b) :
    a._n_inputs = b._n_inputs ∧ a._in_height = b._in_height ∧ a._in_width = b._in_width
      ∧ a._kernel_size1 = b._kernel_size1 ∧ a._kernel_size0 = b._kernel_size0
      ∧ a._n_outputs = b._n_outputs ∧ a._out_height = b._out_height
      ∧ a._out_width = b._out_width ∧ a._batch_sz = b._batch_sz
      ∧ a._in_layout = b._in_layout ∧ a._in_data_type = b._in_data_type
      ∧ a._direction = b._direction := by
  simp only [mloBuildConf_Key, List.append_assoc, List.singleton_append] at h
  obtain ⟨e1, h⟩ := split_at_x _ _ _ _ (to_string_no_x _) (to_string_no_x _) h
  obtain ⟨e2, h⟩ := split_at_x _ _ _ _ (to_string_no_x _) (to_string_no_x _) h
  obtain ⟨e3, h⟩ := split_at_x _ _ _ _ (to_string_no_x _) (to_string_no_x _) h
  obtain ⟨e4, h⟩ := split_at_x _ _ _ _ (to_string_no_x _) (to_string_no_x _) h
  obtain ⟨e5, h⟩ := split_at_x _ _ _ _ (to_string_no_x _) (to_string_no_x _) h
  obtain ⟨e6, h⟩ := split_at_x _ _ _ _ (to_string_no_x _) (to_string_no_x _) h
  obtain ⟨e7, h⟩ := split_at_x _ _ _ _ (to_string_no_x _) (to_string_no_x _) h
  obtain ⟨e8, h⟩ := split_at_x _ _ _ _ (to_string_no_x _) (to_string_no_x _) h
  obtain ⟨e9, h⟩ := split_at_x _ _ _ _ (to_string_no_x _) (to_string_no_x _) h
  obtain ⟨e10, h⟩ := split_at_x _ _ _ _ hla hlb h
  obtain ⟨e11, h⟩ := split_at_x _ _ _ _ hda hdb h
  exact ⟨to_string_injective _ _ e1, to_string_injective _ _ e2, to_string_injective _ _ e3,
    to_string_injective _ _ e4, to_string_injective _ _ e5, to_string_injective _ _ e6,
    to_string_injective _ _ e7, to_string_injective _ _ e8, to_string_injective _ _ e9,
    e10, e11, to_string_injective _ _ h⟩

theorem C13_key_lossless_witness :
    'x' ∉ exampleShape._in_layout ∧ 'x' ∉ exampleShape._in_data_type ∧
    'x' ∉ (setTiling exampleShape (defaultTiling exampleShape))._in_layout ∧
    'x' ∉ (setTiling exampleShape (defaultTiling exampleShape))._in_data_type ∧
    mloBuildConf_Key exampleShape
      = mloBuildConf_Key (setTiling exampleShape (defaultTiling exampleShape)) ∧
    (exampleShape._n_inputs = (setTiling exampleShape (defaultTiling exampleShape))._n_inputs
      ∧ exampleShape._in_height
          = (setTiling exampleShape (defaultTiling exampleShape))._in_height
      ∧ exampleShape._in_width = (setTiling exampleShape (defaultTiling exampleShape))._in_width
      ∧ exampleShape._kernel_size1
          = (setTiling exampleShape (defaultTiling exampleShape))._kernel_size1
      ∧ exampleShape._kernel_size0
          = (setTiling exampleShape (defaultTiling exampleShape))._kernel_size0
      ∧ exampleShape._n_outputs
          = (setTiling exampleShape (defaultTiling exampleShape))._n_outputs
      ∧ exampleShape._out_height
          = (setTiling exampleShape (defaultTiling exampleShape))._out_height
      ∧ exampleShape._out_width
          = (setTiling exampleShape (defaultTiling exampleShape))._out_width
      ∧ exampleShape._batch_sz = (setTiling exampleShape (defaultTiling exampleShape))._batch_sz
      ∧ exampleShape._in_layout
          = (setTiling exampleShape (defaultTiling exampleShape))._in_layout
      ∧ exampleShape._in_data_type
          = (setTiling exampleShape (defaultTiling exampleShape))._in_data_type
      ∧ exampleShape._direction
          = (setTiling exampleShape (defaultTiling exampleShape))._direction) :=
  ⟨by decide, by decide, by decide, by decide, by decide,
    C13_key_lossless exampleShape (setTiling exampleShape (defaultTiling exampleShape))
      (by decide) (by decide) (by decide) (by decide) (by decide)⟩

/-! ### C14, C15, C16: the formats -/

/-- C14. Key format: `mloBuildConf_Key` returns the decimal fields n_inputs, in_height,
in_width, filter height (`_kernel_size1`), filter width (`_kernel_size0`), n_outputs,
out_height, out_width, batch_sz, then the layout tag, the data type tag and the direction
(1 forward, 0 backward), in this order, joined by single `x` characters with nothing before
or after; 32 inputs, 16x16 input, 3x3 filter, 64 outputs, 16x16 output, batch 100, NCHW,
FP32 gives `32x16x16x3x3x64x16x16x100xNCHWxFP32x1` forward and
`32x16x16x3x3x64x16x16x100xNCHWxFP32x0` backward. -/
theorem C14_key_format (s : mlo_construct_direct2D) :
    mloBuildConf_Key s
      = joinWith 'x' [to_string s._n_inputs, to_string s._in_height, to_string s._in_width,
          to_string s._kernel_size1, to_string s._kernel_size0, to_string s._n_outputs,
          to_string s._out_height, to_string s._out_width, to_string s._batch_sz,
          s._in_layout, s._in_data_type, to_string s._direction] ∧
    mloBuildConf_Key keyExampleShape = "32x16x16x3x3x64x16x16x100xNCHWxFP32x1".toList ∧
    mloBuildConf_Key { keyExampleShape with _direction := 0 }
      = "32x16x16x3x3x64x16x16x100xNCHWxFP32x0".toList := by
  refine ⟨?_, by decide, by decide⟩
  simp only [mloBuildConf_Key, joinWith, List.append_assoc, List.singleton_append, List.cons_append, List.nil_append]

/-- C15. Value format: `mloBuildConf_Val` returns the decimal representations of
grp_tile1, grp_tile0, in_tile1, in_tile0, out_pix_tile1, out_pix_tile0, n_out_pix_tiles,
n_in_data_tiles, n_stacks, in this order, joined by single `.` characters with nothing
before or after; (16,16,8,8,2,4,1,1,4) gives `16.16.8.8.2.4.1.1.4`. -/
theorem C15_value_format (t : Tiling) :
    mloBuildConf_Val t
      = joinWith '.' [to_string t.grp_tile1, to_string t.grp_tile0, to_string t.in_tile1,
          to_string t.in_tile0, to_string t.out_pix_tile1, to_string t.out_pix_tile0,
          to_string t.n_out_pix_tiles, to_string t.n_in_data_tiles, to_string t.n_stacks] ∧
    mloBuildConf_Val ⟨16, 16, 8, 8, 2, 4, 1, 1, 4⟩ = "16.16.8.8.2.4.1.1.4".toList := by
  refine ⟨?_, by decide⟩
  simp only [mloBuildConf_Val, joinWith, List.append_assoc, List.singleton_append, List.cons_append, List.nil_append]

/-- The bytes that `mloWriteConfigDB` writes: after every entry, in the order of the keys,
the key, one space, the value and two line feeds. -/
theorem mloWriteConfigDB_bytes (files : Files) (m : StdMap) :
    (mloWriteConfigDB files m).conf_db
      = (m.map (fun kv => kv.1 ++ [' '] ++ kv.2 ++ ['\n', '\n'])).flatten := by
  unfold mloWriteConfigDB
  simp only [mloUpdateDb_eq, List.map_map]
  congr 1
  apply List.map_congr_left
  intro kv _
  simp

/-- C16, evaluated where it fails: for the mapping with the one entry of the format
comment, `mloWriteConfigDB` writes the key, a space, the value and two line feeds, so the
file ends with a blank line and is not the `<key> <value>\n` of the claim. -/
theorem C16_database_file_bytes :
    (mloWriteConfigDB ⟨[], []⟩
        [("32x16x16x3x3x64x16x16x100xNCHWxFP32x1".toList, "16.16.16.16.1.4.8.4.1".toList)]).conf_db
      = "32x16x16x3x3x64x16x16x100xNCHWxFP32x1 16.16.16.16.1.4.8.4.1\n\n".toList ∧
    (mloWriteConfigDB ⟨[], []⟩
        [("32x16x16x3x3x64x16x16x100xNCHWxFP32x1".toList, "16.16.16.16.1.4.8.4.1".toList)]).conf_db
      ≠ "32x16x16x3x3x64x16x16x100xNCHWxFP32x1 16.16.16.16.1.4.8.4.1\n".toList ∧
    (mloAddConfigReq ⟨[], []⟩ "32x16x16x3x3x64x16x16x100xNCHWxFP32x1".toList).req_db
      = "32x16x16x3x3x64x16x16x100xNCHWxFP32x1\n".toList := by
  decide

/-! ### C17, C18: the request log -/

/-- Every key built by `mloBuildConf_Key` is a non-empty string: the keys that reach the
request log are never the empty string. -/
theorem mloBuildConf_Key_ne_nil (s : mlo_construct_direct2D) : mloBuildConf_Key s ≠ [] := by
  intro h
  have hx : 'x' ∈ mloBuildConf_Key s := by
    simp [mloBuildConf_Key]
  rw [h] at hx
  exact absurd hx (List.not_mem_nil _)

theorem findReq_eraseIdx (db : List CString) (key : CString) :
    db.eraseIdx (findReq db key) = db.erase key := by
  induction db with
  | nil => rfl
  | cons a db ih =>
    by_cases h : a = key
    · subst h
      simp [findReq]
    · have hb : (a == key) = false := by simpa using h
      simp [findReq, h, ih, List.erase_cons, hb]

/-- What `mloAddConfigReq` does to the request log, for a key that a line of the log can
hold. -/
theorem requestLog_mloAddConfigReq (files : Files) (k : CString)
    (hk : k ≠ [] ∧ '\n' ∉ k ∧ '\r' ∉ k) :
    requestLog (mloAddConfigReq files k)
      = if k ∈ requestLog files then requestLog files else requestLog files ++ [k] := by
  unfold requestLog mloAddConfigReq mloFindConfigReq
  by_cases hf : k ∈ mloReadDb files.req_db []
  · have hlt := (findReq_lt_length _ _).mpr hf
    simp only [hlt, decide_True, Bool.not_true, Bool.false_eq_true, if_false, hf, if_true]
  · have hlt : ¬ findReq (mloReadDb files.req_db []) k < (mloReadDb files.req_db []).length :=
      fun h => hf ((findReq_lt_length _ _).mp h)
    simp only [hlt, decide_False, Bool.not_false, if_true, hf, if_false]
    apply mloReadDb_mloUpdateDb
    intro l hl
    rcases List.mem_append.mp hl with hl | hl
    · exact mloReadDb_lines _ l hl
    · rw [List.mem_singleton] at hl
      subst hl
      exact hk

theorem mloAddConfigReq_present (files : Files) (k : CString) (h : k ∈ requestLog files) :
    mloAddConfigReq files k = files := by
  unfold requestLog at h
  unfold mloAddConfigReq mloFindConfigReq
  have hlt := (findReq_lt_length _ _).mpr h
  simp only [hlt, decide_True, Bool.not_true, Bool.false_eq_true, if_false]

/-- C17. Request log append is dedup-on-insert: for every request file and every key `k`
that is not empty and free of line breaks, after `mloAddConfigReq` the log (the entries
read from the file) contains `k`; if `k` was already present the files are left unchanged,
otherwise the log is the old log with `k` added as the last entry; hence a log without
duplicates stays without duplicates, and calling `mloAddConfigReq` twice gives the same
files as calling it once. -/
theorem C17_request_log_append (files : Files) (k : CString)
    (hk : k ≠ [] ∧ '\n' ∉ k ∧ '\r' ∉ k) :
    k ∈ requestLog (mloAddConfigReq files k) ∧
    (k ∈ requestLog files → mloAddConfigReq files k = files) ∧
    (k ∉ requestLog files → requestLog (mloAddConfigReq files k) = requestLog files ++ [k]) ∧
    ((requestLog files).Nodup → (requestLog (mloAddConfigReq files k)).Nodup) ∧
    mloAddConfigReq (mloAddConfigReq files k) k = mloAddConfigReq files k := by
  have hlog := requestLog_mloAddConfigReq files k hk
  have hmem : k ∈ requestLog (mloAddConfigReq files k) := by
    rw [hlog]
    split
    · assumption
    · simp
  refine ⟨hmem, mloAddConfigReq_present files k, ?_, ?_, ?_⟩
  · intro h
    rw [hlog, if_neg h]
  · intro hnd
    rw [hlog]
    split
    · exact hnd
    · rename_i h
      exact List.Nodup.append hnd (List.nodup_singleton k) (by simpa using h)
  · exact mloAddConfigReq_present _ k hmem

theorem C17_request_log_append_witness :
    ("3x32x32x3x3x32x30x30x100xNCHWxFP32x1".toList ≠ []
      ∧ '\n' ∉ "3x32x32x3x3x32x30x30x100xNCHWxFP32x1".toList
      ∧ '\r' ∉ "3x32x32x3x3x32x30x30x100xNCHWxFP32x1".toList) ∧
    ("3x32x32x3x3x32x30x30x100xNCHWxFP32x1".toList
        ∈ requestLog (mloAddConfigReq ⟨[], "1x1x1x1x1x1x1x1x1xNCHWxFP32x1\n".toList⟩
            "3x32x32x3x3x32x30x30x100xNCHWxFP32x1".toList) ∧
      ("3x32x32x3x3x32x30x30x100xNCHWxFP32x1".toList
          ∈ requestLog ⟨[], "1x1x1x1x1x1x1x1x1xNCHWxFP32x1\n".toList⟩ →
        mloAddConfigReq ⟨[], "1x1x1x1x1x1x1x1x1xNCHWxFP32x1\n".toList⟩
            "3x32x32x3x3x32x30x30x100xNCHWxFP32x1".toList
          = ⟨[], "1x1x1x1x1x1x1x1x1xNCHWxFP32x1\n".toList⟩) ∧
      ("3x32x32x3x3x32x30x30x100xNCHWxFP32x1".toList
          ∉ requestLog ⟨[], "1x1x1x1x1x1x1x1x1xNCHWxFP32x1\n".toList⟩ →
        requestLog (mloAddConfigReq ⟨[], "1x1x1x1x1x1x1x1x1xNCHWxFP32x1\n".toList⟩
            "3x32x32x3x3x32x30x30x100xNCHWxFP32x1".toList)
          = requestLog ⟨[], "1x1x1x1x1x1x1x1x1xNCHWxFP32x1\n".toList⟩
              ++ ["3x32x32x3x3x32x30x30x100xNCHWxFP32x1".toList]) ∧
      ((requestLog ⟨[], "1x1x1x1x1x1x1x1x1xNCHWxFP32x1\n".toList⟩).Nodup →
        (requestLog (mloAddConfigReq ⟨[], "1x1x1x1x1x1x1x1x1xNCHWxFP32x1\n".toList⟩
            "3x32x32x3x3x32x30x30x100xNCHWxFP32x1".toList)).Nodup) ∧
      mloAddConfigReq (mloAddConfigReq ⟨[], "1x1x1x1x1x1x1x1x1xNCHWxFP32x1\n".toList⟩
          "3x32x32x3x3x32x30x30x100xNCHWxFP32x1".toList)
          "3x32x32x3x3x32x30x30x100xNCHWxFP32x1".toList
        = mloAddConfigReq ⟨[], "1x1x1x1x1x1x1x1x1xNCHWxFP32x1\n".toList⟩
            "3x32x32x3x3x32x30x30x100xNCHWxFP32x1".toList) :=
  ⟨by decide, C17_request_log_append ⟨[], "1x1x1x1x1x1x1x1x1xNCHWxFP32x1\n".toList⟩
    "3x32x32x3x3x32x30x30x100xNCHWxFP32x1".toList (by decide)⟩

theorem requestLog_mloRemoveConfigReq (files : Files) (k : CString) :
    requestLog (mloRemoveConfigReq files k) = (requestLog files).erase k ∧
      (k ∉ requestLog files → mloRemoveConfigReq files k = files) := by
  unfold requestLog mloRemoveConfigReq mloFindConfigReq
  by_cases hf : k ∈ mloReadDb files.req_db []
  · have hlt := (findReq_lt_length _ _).mpr hf
    simp only [hlt, decide_True, if_true]
    refine ⟨?_, fun h => absurd hf h⟩
    rw [findReq_eraseIdx]
    apply mloReadDb_mloUpdateDb
    intro l hl
    exact mloReadDb_lines _ l (List.mem_of_mem_erase hl)
  · have hlt : ¬ findReq (mloReadDb files.req_db []) k < (mloReadDb files.req_db []).length :=
      fun h => hf ((findReq_lt_length _ _).mp h)
    dsimp only
    rw [decide_eq_false hlt]
    exact ⟨(List.erase_of_not_mem hf).symm, fun _ => rfl⟩

/-- C18. Request log removal on resolution: for every request log without duplicates,
every key `k` and every value, when the database file is readable `mloAddConfig` returns,
and afterwards the log no longer contains `k` and consists of the other entries in their
original order; if `k` was not in the log, the request file is left unchanged. -/
theorem C18_request_log_removal (files : Files) (k v : CString) (m : StdMap)
    (hread : mloReadConfigDB files [] = .ok m) (hnd : (requestLog files).Nodup) :
    ∃ files', mloAddConfig files k v = .ok files' ∧
      k ∉ requestLog files' ∧
      requestLog files' = (requestLog files).filter (fun e => decide (e ≠ k)) ∧
      (k ∉ requestLog files → files'.req_db = files.req_db) := by
  refine ⟨_, mloAddConfig_eq files m k v hread, ?_⟩
  have hw : requestLog (mloWriteConfigDB files (m.set k v)) = requestLog files := rfl
  obtain ⟨h1, h2⟩ := requestLog_mloRemoveConfigReq (mloWriteConfigDB files (m.set k v)) k
  rw [hw] at h1 h2
  have hfilter : (requestLog files).erase k
      = (requestLog files).filter (fun e => decide (e ≠ k)) := by
    rw [List.Nodup.erase_eq_filter hnd]
    apply List.filter_congr
    intro e _
    by_cases h : e = k <;> simp [h]
  refine ⟨?_, ?_, ?_⟩
  · rw [h1]
    exact fun h => (List.Nodup.mem_erase_iff hnd).mp h |>.1 rfl
  · rw [h1, hfilter]
  · intro h
    rw [h2 h]
    rfl

theorem C18_request_log_removal_witness :
    mloReadConfigDB ⟨[], "a\nk\nb\n".toList⟩ [] = .ok [] ∧
    (requestLog ⟨[], "a\nk\nb\n".toList⟩).Nodup ∧
    ∃ files', mloAddConfig ⟨[], "a\nk\nb\n".toList⟩ "k".toList "1.1.1.1.1.1.1.1.1".toList
        = .ok files' ∧
      "k".toList ∉ requestLog files' ∧
      requestLog files' = (requestLog ⟨[], "a\nk\nb\n".toList⟩).filter
        (fun e => decide (e ≠ "k".toList)) ∧
      ("k".toList ∉ requestLog ⟨[], "a\nk\nb\n".toList⟩ →
        files'.req_db = (⟨[], "a\nk\nb\n".toList⟩ : Files).req_db) :=
  ⟨by decide, by decide,
    C18_request_log_removal ⟨[], "a\nk\nb\n".toList⟩ "k".toList "1.1.1.1.1.1.1.1.1".toList []
      (by decide) (by decide)⟩

/-! ### C19, C20: which strategy runs, and the padding it uses -/

theorem mloConstructDirect2D1x1_facts (dev : Device) (s s' : mlo_construct_direct2D) (ret : Int)
    (h : mloConstructDirect2D1x1 dev s = .ok (ret, s')) :
    ret = 0 ∧ s'._kernel_name = "MLOpenConv1x1PS".toList ∧ s'._pad0 = s._pad0 ∧
      s'._pad1 = s._pad1 := by
  simp only [mloConstructDirect2D1x1, bind_eq_ok, pure_eq_ok, Prod.mk.injEq] at h
  obtain ⟨_, _, _, _, _, _, _, _, _, _, _, _, _, _, _, _, _, _, _, _, rfl, rfl⟩ := h
  exact ⟨rfl, rfl, rfl, rfl⟩

theorem mloConstructDirect2DFwdC_facts (dev : Device) (s s' : mlo_construct_direct2D)
    (ret : Int) (hk : ¬ (s._kernel_size0 = 1 ∧ s._kernel_size1 = 1))
    (h : mloConstructDirect2DFwdC dev s = .ok (ret, s')) :
    (ret = 0 → s'._kernel_name = "MLOpenConvUniC".toList) ∧
      s'._pad0 = (if s._direction = 0 then s._kernel_size0 - 1 - s._pad0 else s._pad0) ∧
      s'._pad1 = (if s._direction = 0 then s._kernel_size1 - 1 - s._pad1 else s._pad1) := by
  unfold mloConstructDirect2DFwdC at h
  rw [if_neg hk] at h
  simp only [bind_eq_ok, pure_eq_ok, Prod.mk.injEq] at h
  obtain ⟨_, _, _, _, h⟩ := h
  split at h
  · simp only [pure_eq_ok, Prod.mk.injEq] at h
    obtain ⟨rfl, rfl⟩ := h
    exact ⟨fun hf => absurd hf (by decide), rfl, rfl⟩
  · simp only [bind_eq_ok, pure_eq_ok, Prod.mk.injEq] at h
    obtain ⟨_, _, _, _, _, _, _, _, _, _, _, _, _, _, _, _, rfl, rfl⟩ := h
    exact ⟨fun _ => rfl, rfl, rfl⟩

/-- What a call of `mloConstructDirect2DFwd` that returns leaves: on success the kernel of
the first of the strategies 1x1, C and default tiled whose predicate holds, and the
paddings, which the 1x1 strategy keeps and the other two replace by `kernel_size - 1 - pad`
in the backward direction. -/
theorem mloConstructDirect2DFwd_facts (dev : Device) (s s' : mlo_construct_direct2D)
    (ret : Int) (h : mloConstructDirect2DFwd dev s = .ok (ret, s')) :
    (ret = 0 → s'._kernel_name =
        (if s._kernel_size0 = 1 ∧ s._kernel_size1 = 1 then "MLOpenConv1x1PS".toList
         else if unalignedOut s then "MLOpenConvUniC".toList else "MLOpenConvUni".toList)) ∧
      s'._pad0 = (if s._kernel_size0 = 1 ∧ s._kernel_size1 = 1 then s._pad0
        else if s._direction = 0 then s._kernel_size0 - 1 - s._pad0 else s._pad0) ∧
      s'._pad1 = (if s._kernel_size0 = 1 ∧ s._kernel_size1 = 1 then s._pad1
        else if s._direction = 0 then s._kernel_size1 - 1 - s._pad1 else s._pad1) := by
  unfold mloConstructDirect2DFwd at h
  by_cases hk : s._kernel_size0 = 1 ∧ s._kernel_size1 = 1
  · rw [if_pos hk] at h
    obtain ⟨_, h2, h3, h4⟩ := mloConstructDirect2D1x1_facts dev s s' ret h
    rw [if_pos hk, if_pos hk, if_pos hk]
    exact ⟨fun _ => h2, h3, h4⟩
  · rw [if_neg hk] at h
    rw [if_neg hk, if_neg hk, if_neg hk]
    by_cases hu : unalignedOut s = true
    · rw [if_pos hu] at h
      rw [if_pos hu]
      exact mloConstructDirect2DFwdC_facts dev s s' ret hk h
    · rw [if_neg hu] at h
      rw [if_neg hu]
      simp only [bind_eq_ok, pure_eq_ok, Prod.mk.injEq] at h
      obtain ⟨_, _, _, _, h⟩ := h
      split at h
      · simp only [pure_eq_ok, Prod.mk.injEq] at h
        obtain ⟨rfl, rfl⟩ := h
        exact ⟨fun hf => absurd hf (by decide), rfl, rfl⟩
      · simp only [bind_eq_ok, pure_eq_ok, Prod.mk.injEq] at h
        obtain ⟨_, _, _, _, _, _, _, _, _, _, _, _, _, _, _, rfl, rfl⟩ := h
        exact ⟨fun _ => rfl, rfl, rfl⟩

theorem mloConstructDirect2DFwdGen_facts (s s' : mlo_construct_direct2D) (ret : Int)
    (h : mloConstructDirect2DFwdGen s = .ok (ret, s')) :
    ret = 0 ∧ s'._kernel_name = "MLOpenCDFGen".toList := by
  simp only [mloConstructDirect2DFwdGen, bind_eq_ok, pure_eq_ok, Prod.mk.injEq] at h
  obtain ⟨_, _, _, _, _, _, _, _, _, _, _, _, _, _, _, _, _, _, _, _, rfl, rfl⟩ := h
  exact ⟨rfl, rfl⟩

theorem mloSetConf_shape (s s' : mlo_construct_direct2D) (v : CString)
    (h : mloSetConf s v = .ok s') : shapeOf s' = shapeOf s := by
  simp only [mloSetConf, bind_eq_ok, pure_eq_ok] at h
  obtain ⟨t, _, rfl⟩ := h
  rfl

theorem mloGetConfig_shape (files files' : Files) (s s' : mlo_construct_direct2D)
    (known : Bool) (h : mloGetConfig files s = .ok (known, s', files')) :
    shapeOf s' = shapeOf s := by
  unfold mloGetConfig at h
  simp only [bind_eq_ok] at h
  obtain ⟨⟨k, key, val⟩, _, h⟩ := h
  dsimp only at h
  split at h
  · simp only [bind_eq_ok, pure_eq_ok, Prod.mk.injEq] at h
    obtain ⟨s1, h1, _, rfl, _⟩ := h
    exact mloSetConf_shape s _ val h1
  · rw [mloSelectDefaultConfig_eq, ok_bind] at h
    dsimp only at h
    split at h
    · simp only [pure_eq_ok, Prod.mk.injEq] at h
      obtain ⟨_, rfl, _⟩ := h
      rfl
    · simp only [pure_eq_ok, Prod.mk.injEq] at h
      obtain ⟨_, rfl, _⟩ := h
      rfl

theorem mloSearchDirect2D_shape (dev : Device) (stub : Measurement) (files : Files)
    (s : mlo_construct_direct2D) (r : SearchResult)
    (h : mloSearchDirect2D dev stub files s = .ok r) : shapeOf r.obj = shapeOf s := by
  unfold mloSearchDirect2D at h
  dsimp only at h
  simp only [bind_eq_ok] at h
  obtain ⟨⟨k, key, val⟩, _, h⟩ := h
  dsimp only at h
  split at h
  · simp only [bind_eq_ok, pure_eq_ok] at h
    obtain ⟨st, hloop, _, _, obj, hobj, rfl⟩ := h
    unfold searchLoops at hloop
    have hsteps := Steps.foldlM _ (searchBodyG1_steps dev stub _) _ _ _ hloop
    exact (mloSetConf_shape _ _ _ hobj).trans hsteps.1
  · simp only [pure_eq_ok] at h
    subst h
    rfl

/-- C19 (as amended). Strategy priority: `mloConstruct` tests the generic predicate (a
kernel size above 11 or a stride above 1) first; a construction that succeeds is built by
the generic strategy (kernel `MLOpenCDFGen`) when this predicate holds, and then the
direction is forward; otherwise it is built by the first of the strategies 1x1 (kernel
`MLOpenConv1x1PS`), unaligned or small output (`MLOpenConvUniC`) and default tiled
(`MLOpenConvUni`) whose predicate holds for the shape. -/
theorem C19_strategy_priority (dev : Device) (stub : Measurement) (files : Files)
    (s : mlo_construct_direct2D) (name : CString)
    (h : (mloConstruct dev stub files s).map (fun r => (r.1, r.2.1._kernel_name))
      = .ok (0, name)) :
    name =
      (if s._kernel_size0 > 11 ∨ s._kernel_size1 > 11 ∨ s._kernel_stride0 > 1
          ∨ s._kernel_stride1 > 1 then "MLOpenCDFGen".toList
       else if s._kernel_size0 = 1 ∧ s._kernel_size1 = 1 then "MLOpenConv1x1PS".toList
       else if unalignedOut s then "MLOpenConvUniC".toList
       else "MLOpenConvUni".toList) ∧
    (s._kernel_size0 > 11 ∨ s._kernel_size1 > 11 ∨ s._kernel_stride0 > 1
        ∨ s._kernel_stride1 > 1 → s._direction ≠ 0) := by
  cases hc : mloConstruct dev stub files s with
  | error e => rw [hc] at h; exact absurd h (by simp [Except.map])
  | ok r =>
    obtain ⟨ret, s', files'⟩ := r
    rw [hc] at h
    simp only [Except.map, Except.ok.injEq, Prod.mk.injEq] at h
    obtain ⟨rfl, rfl⟩ := h
    unfold mloConstruct at hc
    dsimp only at hc
    by_cases hg : s._kernel_size0 > 11 ∨ s._kernel_size1 > 11 ∨ s._kernel_stride0 > 1
        ∨ s._kernel_stride1 > 1
    · rw [if_pos hg]
      simp only [hg, decide_True, true_and] at hc
      by_cases hd : getDirectcion { s with _gen := true } = true
      · rw [if_pos hd] at hc
        simp only [bind_eq_ok, pure_eq_ok, Prod.mk.injEq] at hc
        obtain ⟨⟨r1, s1⟩, h1, _, rfl, _⟩ := hc
        refine ⟨(mloConstructDirect2DFwdGen_facts _ _ _ h1).2, fun _ => ?_⟩
        simpa [getDirectcion] using hd
      · rw [if_neg hd] at hc
        simp only [if_true, pure_eq_ok, Prod.mk.injEq] at hc
        exact absurd hc.1 (by decide)
    · rw [if_neg hg]
      simp only [hg, decide_False, Bool.false_eq_true, false_and, if_false] at hc
      simp only [bind_eq_ok, pure_eq_ok, Prod.mk.injEq] at hc
      obtain ⟨⟨known, s1, files1⟩, h1, ⟨s2, files2⟩, h2, ⟨r3, s3⟩, h3, rfl, rfl, _⟩ := hc
      have hs1 : shapeOf s1 = shapeOf { s with _gen := false } :=
        mloGetConfig_shape _ _ _ _ _ h1
      have hs2 : shapeOf s2 = shapeOf s1 := by
        dsimp only at h2
        split at h2
        · split at h2
          · cases hsr : mloSearchDirect2D dev stub files1 s1 with
            | error e => rw [hsr] at h2; exact absurd h2 (by simp [Except.map])
            | ok r =>
              rw [hsr] at h2
              simp only [Except.map, Except.ok.injEq, Prod.mk.injEq] at h2
              rw [← h2.1]
              exact mloSearchDirect2D_shape dev stub files1 s1 r hsr
          · simp only [pure_eq_ok, Prod.mk.injEq] at h2
            rw [h2.1]
        · simp only [pure_eq_ok, Prod.mk.injEq] at h2
          rw [h2.1]
      have hs := hs2.trans hs1
      obtain ⟨_, _, _, _, _, _, _, f8, f9⟩ := shape_fields hs
      have hu : unalignedOut s2 = unalignedOut s := by
        have := unalignedOut_congr hs
        exact this
      have hname := (mloConstructDirect2DFwd_facts dev s2 _ _ h3).1 rfl
      rw [hname, f8, f9, hu]
      exact ⟨rfl, fun hf => absurd hf hg⟩

set_option maxRecDepth 100000 in
set_option maxHeartbeats 4000000 in
theorem C19_strategy_priority_witness :
    (mloConstruct exampleDevice (fun _ _ => none) ⟨[], []⟩ keyExampleShape).map
        (fun r => (r.1, r.2.1._kernel_name)) = .ok (0, "MLOpenConvUni".toList) ∧
    "MLOpenConvUni".toList =
      (if keyExampleShape._kernel_size0 > 11 ∨ keyExampleShape._kernel_size1 > 11
          ∨ keyExampleShape._kernel_stride0 > 1 ∨ keyExampleShape._kernel_stride1 > 1
        then "MLOpenCDFGen".toList
       else if keyExampleShape._kernel_size0 = 1 ∧ keyExampleShape._kernel_size1 = 1
        then "MLOpenConv1x1PS".toList
       else if unalignedOut keyExampleShape then "MLOpenConvUniC".toList
       else "MLOpenConvUni".toList) ∧
    (keyExampleShape._kernel_size0 > 11 ∨ keyExampleShape._kernel_size1 > 11
        ∨ keyExampleShape._kernel_stride0 > 1 ∨ keyExampleShape._kernel_stride1 > 1 →
      keyExampleShape._direction ≠ 0) :=
  ⟨by decide, C19_strategy_priority exampleDevice (fun _ _ => none) ⟨[], []⟩ keyExampleShape
    "MLOpenConvUni".toList (by decide)⟩

set_option maxRecDepth 100000 in
set_option maxHeartbeats 4000000 in
/-- C19, as stated, fails: a shape with a 1x1 kernel and stride 2 is built by the generic
strategy (kernel `MLOpenCDFGen`) in the forward direction, and is not built at all in the
backward direction (`mloConstruct` returns -1 and sets no kernel). -/
theorem C19_counterexample :
    (tinyShape._kernel_size0 = 1 ∧ tinyShape._kernel_size1 = 1) ∧
    (mloConstruct exampleDevice (fun _ _ => none) ⟨[], []⟩
        { tinyShape with _kernel_stride0 := 2, _kernel_stride1 := 2 }).map
      (fun r => (r.1, r.2.1._kernel_name)) = .ok (0, "MLOpenCDFGen".toList) ∧
    (mloConstruct exampleDevice (fun _ _ => none) ⟨[], []⟩
        { tinyShape with _kernel_stride0 := 2, _kernel_stride1 := 2, _direction := 0 }).map
      (fun r => (r.1, r.2.1._kernel_name)) = .ok (-1, []) := by
  decide

/-- Two calls of `mloConstructDirect2DFwd` in a row, backward, for a kernel that is not
1x1: the first call replaces the paddings by `kernel_size - 1 - pad`, and the second call
puts the configured paddings back. -/
theorem mloConstructDirect2DFwd_twice_pad (dev : Device) (s s1 s2 : mlo_construct_direct2D)
    (r1 r2 : Int) (hk : ¬ (s._kernel_size0 = 1 ∧ s._kernel_size1 = 1))
    (hd : s._direction = 0)
    (h1 : mloConstructDirect2DFwd dev s = .ok (r1, s1))
    (h2 : mloConstructDirect2DFwd dev s1 = .ok (r2, s2)) :
    s1._pad0 = s._kernel_size0 - 1 - s._pad0 ∧ s1._pad1 = s._kernel_size1 - 1 - s._pad1 ∧
      s2._pad0 = s._pad0 ∧ s2._pad1 = s._pad1 := by
  have hs := mloConstructDirect2DFwd_shape dev s s1 r1 h1
  obtain ⟨_, _, _, _, _, _, _, f8, f9⟩ := shape_fields hs
  have fd : s1._direction = s._direction := (congrArg mlo_construct_direct2D._direction hs :)
  obtain ⟨_, p0, p1⟩ := mloConstructDirect2DFwd_facts dev s s1 r1 h1
  obtain ⟨_, q0, q1⟩ := mloConstructDirect2DFwd_facts dev s1 s2 r2 h2
  rw [if_neg hk, if_pos hd] at p0 p1
  rw [f8, f9, fd, if_neg hk, if_pos hd, p0] at q0
  rw [f8, f9, fd, if_neg hk, if_pos hd, p1] at q1
  exact ⟨p0, p1, by omega, by omega⟩

set_option maxRecDepth 100000 in
set_option maxHeartbeats 4000000 in
/-- C20, evaluated where it fails. For the backward 3x3 convolution of the scenario shape
with configured paddings 0 and the default tiling, the first call of
`mloConstructDirect2DFwd` uses the paddings 2 = 3 - 1 - 0, and the next call on the object
uses 0 again (each call overwrites the configured padding by `kernel_size - 1 - pad`). In
the search of a backward 3x3 shape, with a stub that reports the padding `_pad0` of the
kernel it is given as the time, the four candidates are measured with the paddings 2, 0,
2, 0. For a backward 1x1 kernel with configured paddings 1, the 1x1 strategy uses the
paddings 1, not 1 - 1 - 1 = -1. -/
theorem C20_backward_padding :
    (mloConstructDirect2DFwd exampleDevice
        (setTiling { exampleShape with _direction := 0 } (defaultTiling exampleShape))).map
      (fun r => (r.1, r.2._pad0, r.2._pad1)) = .ok (0, 2, 2) ∧
    ((mloConstructDirect2DFwd exampleDevice
        (setTiling { exampleShape with _direction := 0 } (defaultTiling exampleShape))).bind
      (fun r => mloConstructDirect2DFwd exampleDevice r.2)).map
      (fun r => (r.1, r.2._pad0, r.2._pad1)) = .ok (0, 0, 0) ∧
    (mloSearchDirect2D exampleDevice (fun _ s => some (s._pad0 : ℚ)) ⟨[], []⟩
        { smallShape with _direction := 0 }).map
      (fun r => (r.n_calls, r.log.map (fun e => e.time))) = .ok (4, [2, 0, 2, 0]) ∧
    (mloConstructDirect2DFwd exampleDevice
        (setTiling { tinyShape with _direction := 0, _pad0 := 1, _pad1 := 1 }
          (defaultTiling tinyShape))).map
      (fun r => (r.1, r.2._pad0, r.2._pad1)) = .ok (0, 1, 1) := by
  decide

end MLOpen
namespace MLOpen

/-! ### Work sizes: arithmetic of the rounded-up quotients and of `size_t` -/

theorem cdiv_eq_ok {a b v : Int} (h : cdiv a b = .ok v) : b ≠ 0 ∧ v = a.tdiv b := by
  unfold cdiv at h
  split at h
  · exact absurd h (by simp)
  · rename_i hb
    exact ⟨hb, (Except.ok.inj h).symm⟩

theorem size_t_eq {v : Int} (h0 : 0 ≤ v) (h1 : v < 2 ^ 64) : size_t v = v :=
  Int.emod_eq_of_lt h0 h1

theorem size_t_one : size_t 1 = 1 := by decide

/-- The rounded-up quotient of the code, `(a + b - 1) / b` in integer arithmetic, is the
exact quotient rounded up. -/
theorem ceil_tdiv {a b : Int} (ha : 0 ≤ a) (hb : 1 ≤ b) : (a + b - 1).tdiv b = ceilDiv a b := by
  have hb' : (0 : ℚ) < (b : ℚ) := by exact_mod_cast (by omega : 0 < b)
  unfold ceilDiv
  rw [Int.tdiv_eq_ediv (by omega) (by omega)]
  symm
  rw [Int.ceil_eq_iff]
  have h1 := Int.ediv_mul_le (a + b - 1) (by omega : b ≠ 0)
  have h2 := Int.lt_ediv_add_one_mul_self (a + b - 1) (by omega : 0 < b)
  generalize (a + b - 1) / b = z at h1 h2
  constructor
  · rw [lt_div_iff₀ hb']
    have : (z - 1) * b < a := by nlinarith
    exact_mod_cast this
  · rw [div_le_iff₀ hb']
    have : a ≤ z * b := by nlinarith
    exact_mod_cast this

theorem ceil_cover {a b : Int} (ha : 0 ≤ a) (hb : 1 ≤ b) : a ≤ (a + b - 1).tdiv b * b := by
  rw [Int.tdiv_eq_ediv (by omega) (by omega)]
  have h2 := Int.lt_ediv_add_one_mul_self (a + b - 1) (by omega : 0 < b)
  nlinarith

theorem ceil_le_self {a b : Int} (ha : 1 ≤ a) (hb : 1 ≤ b) : (a + b - 1).tdiv b ≤ a := by
  rw [Int.tdiv_eq_ediv (by omega) (by omega)]
  have h1 := Int.ediv_mul_le (a + b - 1) (by omega : b ≠ 0)
  by_contra hc
  have : (a + 1) * b ≤ (a + b - 1) / b * b := by
    apply mul_le_mul_of_nonneg_right (by omega) (by omega)
  nlinarith

theorem mul_lt_two_pow_64 {a b : Int} (hb0 : 0 ≤ b) (ha : a ≤ INT_MAX)
    (hb : b ≤ INT_MAX) : a * b < 2 ^ 64 := by
  unfold INT_MAX at ha hb
  have := mul_le_mul ha hb hb0 (by decide)
  omega

/-- The options of a list of options, flattened, pass the value of the option at position
`k` when the option at position `k + 1` starts with ` -D`. -/
theorem hasOption_at (L : List CString) (k : Nat) (name next : String) (v w : Int)
    (h1 : L.get? k = some (optD name v)) (h2 : L.get? (k + 1) = some (optD next w))
    (h3 : next.toList = " -D".toList ++ next.toList.drop 3) :
    hasOption L.flatten name v := by
  unfold hasOption
  induction k generalizing L with
  | zero =>
    match L, h1, h2 with
    | a :: b :: rest, h1, h2 =>
      simp only [List.get?_cons_zero, Option.some.injEq, List.get?_cons_succ] at h1 h2
      subst h1 h2
      refine ⟨[], next.toList.drop 3 ++ to_string w ++ rest.flatten, ?_⟩
      unfold optD
      rw [h3]
      simp [List.append_assoc]
  | succ k ih =>
    match L, h1, h2 with
    | a :: rest, h1, h2 =>
      simp only [List.get?_cons_succ] at h1 h2
      obtain ⟨p, q, hpq⟩ := ih rest h1 h2
      refine ⟨a ++ p, q, ?_⟩
      rw [List.flatten_cons, ← hpq]
      simp [List.append_assoc]

end MLOpen
namespace MLOpen

/-! ### C22: the lengths of the work sizes -/

theorem mloConstructDirect2D1x1_lengths (dev : Device) (s s' : mlo_construct_direct2D)
    (ret : Int) (h : mloConstructDirect2D1x1 dev s = .ok (ret, s')) :
    s'._l_wk.length = 3 ∧ s'._g_wk.length = 3 := by
  simp only [mloConstructDirect2D1x1, bind_eq_ok, pure_eq_ok, Prod.mk.injEq] at h
  obtain ⟨_, _, _, _, _, _, _, _, _, _, _, _, _, _, _, _, _, _, _, _, _, rfl⟩ := h
  exact ⟨rfl, rfl⟩

theorem mloConstructDirect2DFwdC_lengths (dev : Device) (s s' : mlo_construct_direct2D)
    (h : mloConstructDirect2DFwdC dev s = .ok (0, s')) :
    s'._l_wk.length = 3 ∧ s'._g_wk.length = 3 := by
  unfold mloConstructDirect2DFwdC at h
  by_cases hk : s._kernel_size0 = 1 ∧ s._kernel_size1 = 1
  · rw [if_pos hk] at h
    exact mloConstructDirect2D1x1_lengths dev s s' 0 h
  · rw [if_neg hk] at h
    simp only [bind_eq_ok, pure_eq_ok, Prod.mk.injEq] at h
    obtain ⟨_, _, _, _, h⟩ := h
    split at h
    · simp only [pure_eq_ok, Prod.mk.injEq] at h
      exact absurd h.1 (by decide)
    · simp only [bind_eq_ok, pure_eq_ok, Prod.mk.injEq] at h
      obtain ⟨_, _, _, _, _, _, _, _, _, _, _, _, _, _, _, _, _, rfl⟩ := h
      exact ⟨rfl, rfl⟩

/-- Every successful call of `mloConstructDirect2DFwd` leaves three local and three global
work sizes: the three strategies clear both vectors before they fill them. -/
theorem mloConstructDirect2DFwd_lengths (dev : Device) (s s' : mlo_construct_direct2D)
    (h : mloConstructDirect2DFwd dev s = .ok (0, s')) :
    s'._l_wk.length = 3 ∧ s'._g_wk.length = 3 := by
  unfold mloConstructDirect2DFwd at h
  by_cases hk : s._kernel_size0 = 1 ∧ s._kernel_size1 = 1
  · rw [if_pos hk] at h
    exact mloConstructDirect2D1x1_lengths dev s s' 0 h
  · rw [if_neg hk] at h
    by_cases hu : unalignedOut s = true
    · rw [if_pos hu] at h
      exact mloConstructDirect2DFwdC_lengths dev s s' h
    · rw [if_neg hu] at h
      simp only [bind_eq_ok, pure_eq_ok, Prod.mk.injEq] at h
      obtain ⟨_, _, _, _, h⟩ := h
      split at h
      · simp only [pure_eq_ok, Prod.mk.injEq] at h
        exact absurd h.1 (by decide)
      · simp only [bind_eq_ok, pure_eq_ok, Prod.mk.injEq] at h
        obtain ⟨_, _, _, _, _, _, _, _, _, _, _, _, _, _, _, _, rfl⟩ := h
        exact ⟨rfl, rfl⟩

/-- The generic forward strategy leaves three local work sizes, and appends its three
global work sizes to those that the object held before. -/
theorem mloConstructDirect2DFwdGen_lengths (s s' : mlo_construct_direct2D) (ret : Int)
    (h : mloConstructDirect2DFwdGen s = .ok (ret, s')) :
    s'._l_wk.length = 3 ∧ s'._g_wk.length = s._g_wk.length + 3 := by
  simp only [mloConstructDirect2DFwdGen, bind_eq_ok, pure_eq_ok, Prod.mk.injEq] at h
  obtain ⟨_, _, _, _, _, _, _, _, _, _, _, _, _, _, _, _, _, _, _, _, _, rfl⟩ := h
  exact ⟨rfl, by simp⟩

/-- The lengths of the work sizes after a successful `mloConstruct`: three local work
sizes; three global work sizes for the 1x1, C and default tiled strategies, and three more
than before for the generic forward strategy. -/
theorem mloConstruct_lengths (dev : Device) (stub : Measurement) (files files' : Files)
    (s s' : mlo_construct_direct2D)
    (h : mloConstruct dev stub files s = .ok (0, s', files')) :
    s'._l_wk.length = 3 ∧
      s'._g_wk.length =
        (if s._kernel_size0 > 11 ∨ s._kernel_size1 > 11 ∨ s._kernel_stride0 > 1
            ∨ s._kernel_stride1 > 1 then s._g_wk.length + 3 else 3) := by
  unfold mloConstruct at h
  dsimp only at h
  by_cases hg : s._kernel_size0 > 11 ∨ s._kernel_size1 > 11 ∨ s._kernel_stride0 > 1
      ∨ s._kernel_stride1 > 1
  · rw [if_pos hg]
    have hd : decide (s._kernel_size0 > 11 ∨ s._kernel_size1 > 11 ∨ s._kernel_stride0 > 1
      ∨ s._kernel_stride1 > 1) = true := decide_eq_true hg
    rw [hd] at h
    by_cases hdir : getDirectcion { s with _gen := true } = true
    · rw [if_pos ⟨rfl, hdir⟩] at h
      simp only [bind_eq_ok, pure_eq_ok, Prod.mk.injEq] at h
      obtain ⟨⟨r, s1⟩, h1, rfl, rfl, _⟩ := h
      have hl := mloConstructDirect2DFwdGen_lengths _ _ _ h1
      exact hl
    · rw [if_neg (fun hc => hdir hc.2), if_pos rfl] at h
      simp only [pure_eq_ok, Prod.mk.injEq] at h
      exact absurd h.1 (by decide)
  · rw [if_neg hg]
    have hd : decide (s._kernel_size0 > 11 ∨ s._kernel_size1 > 11 ∨ s._kernel_stride0 > 1
      ∨ s._kernel_stride1 > 1) = false := decide_eq_false hg
    rw [hd] at h
    rw [if_neg (fun hc => absurd hc.1 (by decide)), if_neg (by decide)] at h
    simp only [bind_eq_ok, pure_eq_ok, Prod.mk.injEq] at h
    obtain ⟨_, _, _, _, ⟨r, s3⟩, h3, rfl, rfl, _⟩ := h
    exact mloConstructDirect2DFwd_lengths dev _ _ h3

set_option maxRecDepth 100000 in
set_option maxHeartbeats 4000000 in
/-- C22, evaluated where it fails. For the 3x3 kernel with stride 2 in the forward
direction, a first `mloConstruct` on a fresh object succeeds and leaves three local and
three global work sizes; a second `mloConstruct` on the object that it left succeeds and
leaves three local work sizes and six global work sizes, 8, 8, 1, 8, 8, 1: the generic
forward strategy clears `_l_wk` but not `_g_wk` before it fills them. For the 3x3 kernel
with stride 1 the second `mloConstruct` leaves three and three. -/
theorem C22_construction_result_shape :
    (mloConstruct exampleDevice (fun _ _ => none) ⟨[], []⟩ strideShape).map
      (fun r => (r.1, r.2.1._l_wk, r.2.1._g_wk)) = .ok (0, [8, 8, 1], [8, 8, 1]) ∧
    ((mloConstruct exampleDevice (fun _ _ => none) ⟨[], []⟩ strideShape).bind
      (fun r => mloConstruct exampleDevice (fun _ _ => none) r.2.2 r.2.1)).map
      (fun r => (r.1, r.2.1._l_wk, r.2.1._g_wk)) = .ok (0, [8, 8, 1], [8, 8, 1, 8, 8, 1]) ∧
    ((mloConstruct exampleDevice (fun _ _ => none) ⟨[], []⟩ smallShape).bind
      (fun r => mloConstruct exampleDevice (fun _ _ => none) r.2.2 r.2.1)).map
      (fun r => (r.1, r.2.1._l_wk.length, r.2.1._g_wk.length)) = .ok (0, 3, 3) := by
  decide

end MLOpen
namespace MLOpen

/-! ### C23: the default selector is a function of the shape -/

theorem defaultTiling_congr (a b : mlo_construct_direct2D)
    (h : a._in_width = b._in_width ∧ a._in_height = b._in_height
      ∧ a._kernel_size0 = b._kernel_size0 ∧ a._kernel_size1 = b._kernel_size1
      ∧ a._out_height = b._out_height ∧ a._out_width = b._out_width
      ∧ a._batch_sz = b._batch_sz) :
    defaultTiling a = defaultTiling b := by
  obtain ⟨h1, h2, h3, h4, h5, h6, h7⟩ := h
  unfold defaultTiling
  rw [h1, h2, h3, h4, h5, h6, h7]

/-- C23. Default selector determinism: for two states of the object with the same
in_width, in_height, kernel sizes, out_height, out_width and batch_sz, whatever their
stored tiling fields (and their other fields), `mloSelectDefaultConfig` returns in both,
with the same nine tiling values and the same string, which encodes these values; each
resulting object is the state it was called on with the nine tiling fields replaced, and
no other field changed. -/
theorem C23_default_selector_determinism (a b : mlo_construct_direct2D)
    (h : a._in_width = b._in_width ∧ a._in_height = b._in_height
      ∧ a._kernel_size0 = b._kernel_size0 ∧ a._kernel_size1 = b._kernel_size1
      ∧ a._out_height = b._out_height ∧ a._out_width = b._out_width
      ∧ a._batch_sz = b._batch_sz) :
    ∃ a' b' v, mloSelectDefaultConfig a = .ok (a', v) ∧ mloSelectDefaultConfig b = .ok (b', v) ∧
      getConfigParameters a' = getConfigParameters b' ∧
      v = mloBuildConf_Val (getConfigParameters a') ∧
      a' = setTiling a (getConfigParameters a') ∧ b' = setTiling b (getConfigParameters b') := by
  have hb := mloSelectDefaultConfig_eq b
  rw [← defaultTiling_congr a b h] at hb
  refine ⟨setTiling a (defaultTiling a), setTiling b (defaultTiling a),
    mloBuildConf_Val (defaultTiling a), mloSelectDefaultConfig_eq a, hb, ?_, ?_, ?_, ?_⟩
  · rw [getConfigParameters_setTiling, getConfigParameters_setTiling]
  · rw [getConfigParameters_setTiling]
  · rw [getConfigParameters_setTiling]
  · rw [getConfigParameters_setTiling]

theorem C23_default_selector_determinism_witness :
    (exampleShape._in_width
        = (setTiling { exampleShape with _pad0 := 1 } ⟨1, 2, 3, 4, 5, 6, 7, 8, 9⟩)._in_width
      ∧ exampleShape._in_height
        = (setTiling { exampleShape with _pad0 := 1 } ⟨1, 2, 3, 4, 5, 6, 7, 8, 9⟩)._in_height
      ∧ exampleShape._kernel_size0
        = (setTiling { exampleShape with _pad0 := 1 } ⟨1, 2, 3, 4, 5, 6, 7, 8, 9⟩)._kernel_size0
      ∧ exampleShape._kernel_size1
        = (setTiling { exampleShape with _pad0 := 1 } ⟨1, 2, 3, 4, 5, 6, 7, 8, 9⟩)._kernel_size1
      ∧ exampleShape._out_height
        = (setTiling { exampleShape with _pad0 := 1 } ⟨1, 2, 3, 4, 5, 6, 7, 8, 9⟩)._out_height
      ∧ exampleShape._out_width
        = (setTiling { exampleShape with _pad0 := 1 } ⟨1, 2, 3, 4, 5, 6, 7, 8, 9⟩)._out_width
      ∧ exampleShape._batch_sz
        = (setTiling { exampleShape with _pad0 := 1 } ⟨1, 2, 3, 4, 5, 6, 7, 8, 9⟩)._batch_sz) ∧
    ∃ a' b' v, mloSelectDefaultConfig exampleShape = .ok (a', v) ∧
      mloSelectDefaultConfig
        (setTiling { exampleShape with _pad0 := 1 } ⟨1, 2, 3, 4, 5, 6, 7, 8, 9⟩) = .ok (b', v) ∧
      getConfigParameters a' = getConfigParameters b' ∧
      v = mloBuildConf_Val (getConfigParameters a') ∧
      a' = setTiling exampleShape (getConfigParameters a') ∧
      b' = setTiling (setTiling { exampleShape with _pad0 := 1 } ⟨1, 2, 3, 4, 5, 6, 7, 8, 9⟩)
        (getConfigParameters b') :=
  ⟨by decide, C23_default_selector_determinism exampleShape
    (setTiling { exampleShape with _pad0 := 1 } ⟨1, 2, 3, 4, 5, 6, 7, 8, 9⟩) (by decide)⟩

end MLOpen
namespace MLOpen

/-! ### C26: the dispatch of `mloConstructDirect2DFwd` -/

/-- The test for an unaligned or small output, spelled out, and its complement: both output
dimensions are 8, 16 or at least 32. -/
theorem unalignedOut_iff (s : mlo_construct_direct2D) :
    (unalignedOut s = true ↔
      (s._out_height < 8 ∨ s._out_width < 8 ∨ (8 < s._out_height ∧ s._out_height < 16)
        ∨ (8 < s._out_width ∧ s._out_width < 16) ∨ (16 < s._out_height ∧ s._out_height < 32)
        ∨ (16 < s._out_width ∧ s._out_width < 32))) ∧
    (unalignedOut s = false ↔
      ((s._out_height = 8 ∨ s._out_height = 16 ∨ 32 ≤ s._out_height)
        ∧ (s._out_width = 8 ∨ s._out_width = 16 ∨ 32 ≤ s._out_width))) := by
  unfold unalignedOut
  constructor
  · exact decide_eq_true_iff
  · rw [decide_eq_false_iff_not]
    constructor <;> intro h <;> omega

/-- C26. Non-generic dispatch: `mloConstructDirect2DFwd` runs the 1x1 strategy when
kernel_size0 = kernel_size1 = 1, and otherwise the strategy C when the output is small or
unaligned; a construction that succeeds leaves the kernel `MLOpenConv1x1PS` iff
kernel_size0 = kernel_size1 = 1, the kernel `MLOpenConvUniC` iff the kernel is not 1x1 and
out_height < 8 or out_width < 8 or 8 < out_height < 16 or 8 < out_width < 16 or
16 < out_height < 32 or 16 < out_width < 32, and the kernel `MLOpenConvUni` of the default
tiled strategy iff the kernel is not 1x1 and both output dimensions are 8, 16 or at least
32. This holds for every shape, in particular for kernel sizes up to 11 and strides 1. -/
theorem C26_non_generic_dispatch (dev : Device) (s : mlo_construct_direct2D) :
    (s._kernel_size0 = 1 ∧ s._kernel_size1 = 1 →
      mloConstructDirect2DFwd dev s = mloConstructDirect2D1x1 dev s) ∧
    (¬ (s._kernel_size0 = 1 ∧ s._kernel_size1 = 1) →
      (s._out_height < 8 ∨ s._out_width < 8 ∨ (8 < s._out_height ∧ s._out_height < 16)
        ∨ (8 < s._out_width ∧ s._out_width < 16) ∨ (16 < s._out_height ∧ s._out_height < 32)
        ∨ (16 < s._out_width ∧ s._out_width < 32)) →
      mloConstructDirect2DFwd dev s = mloConstructDirect2DFwdC dev s) ∧
    (∀ s', mloConstructDirect2DFwd dev s = .ok (0, s') →
      (s'._kernel_name = "MLOpenConv1x1PS".toList ↔
        (s._kernel_size0 = 1 ∧ s._kernel_size1 = 1)) ∧
      (s'._kernel_name = "MLOpenConvUniC".toList ↔
        (¬ (s._kernel_size0 = 1 ∧ s._kernel_size1 = 1) ∧
          (s._out_height < 8 ∨ s._out_width < 8 ∨ (8 < s._out_height ∧ s._out_height < 16)
            ∨ (8 < s._out_width ∧ s._out_width < 16)
            ∨ (16 < s._out_height ∧ s._out_height < 32)
            ∨ (16 < s._out_width ∧ s._out_width < 32)))) ∧
      (s'._kernel_name = "MLOpenConvUni".toList ↔
        (¬ (s._kernel_size0 = 1 ∧ s._kernel_size1 = 1) ∧
          (s._out_height = 8 ∨ s._out_height = 16 ∨ 32 ≤ s._out_height) ∧
          (s._out_width = 8 ∨ s._out_width = 16 ∨ 32 ≤ s._out_width)))) := by
  obtain ⟨hu1, hu2⟩ := unalignedOut_iff s
  refine ⟨?_, ?_, ?_⟩
  · intro hk
    unfold mloConstructDirect2DFwd
    rw [if_pos hk]
  · intro hk hu
    unfold mloConstructDirect2DFwd
    rw [if_neg hk, if_pos (hu1.mpr hu)]
  · intro s' h
    have hn := (mloConstructDirect2DFwd_facts dev s s' 0 h).1 rfl
    rw [← hu1, ← hu2]
    by_cases hk : s._kernel_size0 = 1 ∧ s._kernel_size1 = 1
    · rw [if_pos hk] at hn
      rw [hn]
      exact ⟨⟨fun _ => hk, fun _ => rfl⟩, ⟨fun hf => absurd hf (by decide), fun hf => absurd hk hf.1⟩,
        ⟨fun hf => absurd hf (by decide), fun hf => absurd hk hf.1⟩⟩
    · rw [if_neg hk] at hn
      by_cases hu : unalignedOut s = true
      · rw [if_pos hu] at hn
        rw [hn]
        exact ⟨⟨fun hf => absurd hf (by decide), fun hf => absurd hf hk⟩,
          ⟨fun _ => ⟨hk, hu⟩, fun _ => rfl⟩,
          ⟨fun hf => absurd hf (by decide), fun hf => absurd (hu.symm.trans hf.2) (by decide)⟩⟩
      · rw [if_neg hu] at hn
        rw [hn]
        exact ⟨⟨fun hf => absurd hf (by decide), fun hf => absurd hf hk⟩,
          ⟨fun hf => absurd hf (by decide), fun hf => absurd hf.2 hu⟩,
          ⟨fun _ => ⟨hk, Bool.eq_false_iff.mpr hu⟩, fun _ => rfl⟩⟩

set_option maxRecDepth 100000 in
set_option maxHeartbeats 4000000 in
theorem C26_non_generic_dispatch_witness :
    (mloConstructDirect2DFwd exampleDevice
        (setTiling exampleShape (defaultTiling exampleShape))).map
      (fun r => (r.1, r.2._kernel_name)) = .ok (0, "MLOpenConvUniC".toList) ∧
    mloConstructDirect2DFwd exampleDevice (setTiling exampleShape (defaultTiling exampleShape))
      = mloConstructDirect2DFwdC exampleDevice
          (setTiling exampleShape (defaultTiling exampleShape)) :=
  ⟨by decide,
    (C26_non_generic_dispatch exampleDevice
      (setTiling exampleShape (defaultTiling exampleShape))).2.1 (by decide) (by decide)⟩

end MLOpen
namespace MLOpen

/-! ### C27: the default configuration constructs -/

/-- The default tiled strategy returns a value other than 0 only when the ALU-tile product
exceeds 256. -/
theorem mloConstructDirect2DFwd_ret (dev : Device) (s s' : mlo_construct_direct2D) (ret : Int)
    (hk : ¬ (s._kernel_size0 = 1 ∧ s._kernel_size1 = 1)) (hu : unalignedOut s = false)
    (h : mloConstructDirect2DFwd dev s = .ok (ret, s')) (hr : ret ≠ 0) :
    (s._in_tile0 + s._out_pix_tile0 - 1).tdiv s._out_pix_tile0
      * (s._in_tile1 + s._out_pix_tile1 - 1).tdiv s._out_pix_tile1 > 256 := by
  unfold mloConstructDirect2DFwd at h
  rw [if_neg hk, if_neg (by rw [hu]; decide)] at h
  simp only [bind_eq_ok, pure_eq_ok, Prod.mk.injEq] at h
  obtain ⟨a0, h0, a1, h1, h⟩ := h
  rw [(cdiv_eq_ok h0).2, (cdiv_eq_ok h1).2] at h
  split at h
  · assumption
  · simp only [bind_eq_ok, pure_eq_ok, Prod.mk.injEq] at h
    obtain ⟨_, _, _, _, _, _, _, _, _, _, _, _, _, _, hret, _⟩ := h
    exact absurd hret.symm hr

/-- The strategy C returns a value other than 0 only when the ALU-tile product of the
clipped input tiles exceeds the group size. -/
theorem mloConstructDirect2DFwdC_ret (dev : Device) (s s' : mlo_construct_direct2D) (ret : Int)
    (hk : ¬ (s._kernel_size0 = 1 ∧ s._kernel_size1 = 1))
    (h : mloConstructDirect2DFwdC dev s = .ok (ret, s')) (hr : ret ≠ 0) :
    (min s._out_width s._in_tile0 + s._out_pix_tile0 - 1).tdiv s._out_pix_tile0
      * (min s._out_height s._in_tile1 + s._out_pix_tile1 - 1).tdiv s._out_pix_tile1
      > s._grp_tile0 * s._grp_tile1 := by
  unfold mloConstructDirect2DFwdC at h
  rw [if_neg hk] at h
  simp only [bind_eq_ok, pure_eq_ok, Prod.mk.injEq] at h
  obtain ⟨a0, h0, a1, h1, h⟩ := h
  rw [(cdiv_eq_ok h0).2, (cdiv_eq_ok h1).2] at h
  split at h
  · assumption
  · simp only [bind_eq_ok, pure_eq_ok, Prod.mk.injEq] at h
    obtain ⟨_, _, _, _, _, _, _, _, _, _, _, _, _, _, _, _, hret, _⟩ := h
    exact absurd hret.symm hr

theorem half_tile_le {o t g : Int} (ho : 1 ≤ o) (ht : t = 8 ∨ t = 16 ∨ t = 32)
    (hg : g = if t = 8 then 8 else 16) :
    1 ≤ (min o t + 2 - 1).tdiv 2 ∧ (min o t + 2 - 1).tdiv 2 ≤ g := by
  have h1 : 1 ≤ min o t := by rcases ht with h | h | h <;> omega
  have h2 : min o t ≤ t := min_le_right _ _
  rw [Int.tdiv_eq_ediv (by omega) (by omega)]
  rcases ht with h | h | h <;> subst h <;> norm_num at hg <;> subst hg <;> omega

theorem defaultTiling_tiles (s : mlo_construct_direct2D)
    (hk : ¬ (s._kernel_size0 = 1 ∧ s._kernel_size1 = 1)) :
    ((defaultTiling s).in_tile0 = 8 ∨ (defaultTiling s).in_tile0 = 16
        ∨ (defaultTiling s).in_tile0 = 32) ∧
      ((defaultTiling s).in_tile1 = 8 ∨ (defaultTiling s).in_tile1 = 16
        ∨ (defaultTiling s).in_tile1 = 32) ∧
      (defaultTiling s).grp_tile0 = (if (defaultTiling s).in_tile0 = 8 then 8 else 16) ∧
      (defaultTiling s).grp_tile1 = (if (defaultTiling s).in_tile1 = 8 then 8 else 16) ∧
      (defaultTiling s).out_pix_tile0 = 2 ∧ (defaultTiling s).out_pix_tile1 = 2 ∧
      (defaultTiling s).n_in_data_tiles = 2 ∧ (defaultTiling s).n_out_pix_tiles = 8 ∧
      (defaultTiling s).n_stacks = 1 := by
  have e : defaultTiling s = _ := if_neg hk
  rw [e]
  dsimp only
  refine ⟨?_, ?_, rfl, rfl, rfl, rfl, rfl, rfl, rfl⟩
  · split_ifs <;> simp
  · split_ifs <;> simp

theorem defaultTiling_tiles_1x1 (s : mlo_construct_direct2D)
    (hk : s._kernel_size0 = 1 ∧ s._kernel_size1 = 1) :
    1 ≤ (defaultTiling s).grp_tile0 ∧ (defaultTiling s).n_in_data_tiles = 2 ∧
      (defaultTiling s).n_out_pix_tiles = 16 ∧ 1 ≤ (defaultTiling s).n_stacks := by
  have e : defaultTiling s = _ := if_pos hk
  rw [e]
  dsimp only
  refine ⟨?_, rfl, rfl, ?_⟩
  · split_ifs <;> decide
  · split_ifs <;> decide

/-- A construction with input tiles of 8, 16 or 32, group sizes of 8 for an input tile of
8 and of 16 otherwise, output pixel tiles of 2 and positive tile counts returns 0 for a
kernel that is not 1x1. -/
theorem tiled_default_constructs (dev : Device) (o : mlo_construct_direct2D)
    (hk : ¬ (o._kernel_size0 = 1 ∧ o._kernel_size1 = 1))
    (p1 : 1 ≤ o._n_inputs) (p2 : 1 ≤ o._n_outputs) (p3 : 1 ≤ o._batch_sz)
    (p6 : 1 ≤ o._out_width) (p7 : 1 ≤ o._out_height)
    (ht0 : o._in_tile0 = 8 ∨ o._in_tile0 = 16 ∨ o._in_tile0 = 32)
    (ht1 : o._in_tile1 = 8 ∨ o._in_tile1 = 16 ∨ o._in_tile1 = 32)
    (hg0 : o._grp_tile0 = if o._in_tile0 = 8 then 8 else 16)
    (hg1 : o._grp_tile1 = if o._in_tile1 = 8 then 8 else 16)
    (hp0 : o._out_pix_tile0 = 2) (hp1 : o._out_pix_tile1 = 2)
    (hni : o._n_in_data_tiles = 2) (hno : o._n_out_pix_tiles = 8) (hns : o._n_stacks = 1) :
    ∃ s', mloConstructDirect2DFwd dev o = .ok (0, s') := by
  have g1 : 1 ≤ o._grp_tile1 := by rw [hg1]; split_ifs <;> decide
  have g0 : 1 ≤ o._grp_tile0 := by rw [hg0]; split_ifs <;> decide
  obtain ⟨ret, s', h, _⟩ := mloConstructDirect2DFwd_ok dev o hk
    p6 p7 g1 g0 (by omega) (by omega) (by rw [hp1]; decide) (by rw [hp0]; decide)
    p1 p2 p3 (by rw [hni]; decide) (by rw [hno]; decide) (by rw [hns])
  have hr : ret = 0 := by
    by_contra hr
    by_cases hu : unalignedOut o = true
    · have hC : mloConstructDirect2DFwdC dev o = .ok (ret, s') := by
        rw [← h]
        unfold mloConstructDirect2DFwd
        rw [if_neg hk, if_pos hu]
      have hgt := mloConstructDirect2DFwdC_ret dev _ s' ret hk hC hr
      rw [hp0, hp1] at hgt
      obtain ⟨a1, a2⟩ := half_tile_le p6 ht0 hg0
      obtain ⟨b1, b2⟩ := half_tile_le p7 ht1 hg1
      have := mul_le_mul a2 b2 (by omega) (by omega)
      omega
    · have hgt := mloConstructDirect2DFwd_ret dev _ s' ret hk (Bool.eq_false_iff.mpr hu) h hr
      rw [hp0, hp1] at hgt
      have a2 : (o._in_tile0 + 2 - 1).tdiv 2 ≤ 16 := by
        rw [Int.tdiv_eq_ediv (by omega) (by omega)]; omega
      have a1 : 0 ≤ (o._in_tile0 + 2 - 1).tdiv 2 := by
        rw [Int.tdiv_eq_ediv (by omega) (by omega)]; omega
      have b2 : (o._in_tile1 + 2 - 1).tdiv 2 ≤ 16 := by
        rw [Int.tdiv_eq_ediv (by omega) (by omega)]; omega
      have b1 : 0 ≤ (o._in_tile1 + 2 - 1).tdiv 2 := by
        rw [Int.tdiv_eq_ediv (by omega) (by omega)]; omega
      have := mul_le_mul a2 b2 b1 (by omega)
      omega
  rw [hr] at h
  exact ⟨s', h⟩

/-- C27 (as amended). The default configuration constructs: for every shape whose n_inputs,
n_outputs, batch_sz, input and output heights and widths are at least 1 (whatever its kernel
sizes and strides, so in particular for kernel sizes up to 11 and strides 1) and whose maps
fit in an `int` when the kernel is 1x1 (`mapsFit`: in_width * in_height + 3 <= INT_MAX and
n_inputs <= INT_MAX), `mloSelectDefaultConfig` returns, and `mloConstructDirect2DFwd` called
on the object that it leaves returns 0, without a division by zero, whichever of the 1x1, C
and default tiled strategies it takes. -/
theorem C27_default_config_constructs (dev : Device) (s : mlo_construct_direct2D)
    (hpos : positiveShape s) (hpix : mapsFit s) :
    ∃ s1 conf_val s', mloSelectDefaultConfig s = .ok (s1, conf_val) ∧
      mloConstructDirect2DFwd dev s1 = .ok (0, s') := by
  obtain ⟨p1, p2, p3, p4, p5, p6, p7⟩ := hpos
  by_cases hk : s._kernel_size0 = 1 ∧ s._kernel_size1 = 1
  · obtain ⟨hg, hi, ho, hs⟩ := defaultTiling_tiles_1x1 s hk
    have hx : is1x1 s = true := by unfold is1x1; exact decide_eq_true hk
    obtain ⟨s', h, _⟩ := mloConstructDirect2D1x1_ok dev (setTiling s (defaultTiling s))
      p4 p5 (hpix hx) hg p1 p2 p3
      (by rw [show (setTiling s (defaultTiling s))._n_in_data_tiles = 2 from hi]; decide)
      (by rw [show (setTiling s (defaultTiling s))._n_in_data_tiles = 2 from hi]; decide)
      (by rw [show (setTiling s (defaultTiling s))._n_out_pix_tiles = 16 from ho]; decide) hs
    refine ⟨_, _, s', mloSelectDefaultConfig_eq s, ?_⟩
    unfold mloConstructDirect2DFwd
    rw [if_pos (show (setTiling s (defaultTiling s))._kernel_size0 = 1
      ∧ (setTiling s (defaultTiling s))._kernel_size1 = 1 from hk)]
    exact h
  · obtain ⟨ht0, ht1, hg0, hg1, hp0, hp1, hni, hno, hns⟩ := defaultTiling_tiles s hk
    obtain ⟨s', h⟩ := tiled_default_constructs dev (setTiling s (defaultTiling s)) hk
      p1 p2 p3 p6 p7 ht0 ht1 hg0 hg1 hp0 hp1 hni hno hns
    exact ⟨_, _, s', mloSelectDefaultConfig_eq s, h⟩

set_option maxRecDepth 100000 in
set_option maxHeartbeats 4000000 in
theorem C27_default_config_constructs_witness :
    (positiveShape exampleShape ∧ mapsFit exampleShape ∧
      (is1x1 exampleShape = false ∧ unalignedOut exampleShape = true) ∧
      (∃ s1 conf_val s', mloSelectDefaultConfig exampleShape = .ok (s1, conf_val) ∧
        mloConstructDirect2DFwd exampleDevice s1 = .ok (0, s'))) ∧
    (positiveShape tinyShape ∧ mapsFit tinyShape ∧ is1x1 tinyShape = true ∧
      (∃ s1 conf_val s', mloSelectDefaultConfig tinyShape = .ok (s1, conf_val) ∧
        mloConstructDirect2DFwd exampleDevice s1 = .ok (0, s'))) ∧
    (positiveShape keyExampleShape ∧ mapsFit keyExampleShape ∧
      (is1x1 keyExampleShape = false ∧ unalignedOut keyExampleShape = false) ∧
      (∃ s1 conf_val s', mloSelectDefaultConfig keyExampleShape = .ok (s1, conf_val) ∧
        mloConstructDirect2DFwd exampleDevice s1 = .ok (0, s'))) :=
  ⟨⟨by decide, by decide, by decide,
      C27_default_config_constructs exampleDevice exampleShape (by decide) (by decide)⟩,
    ⟨by decide, by decide, by decide,
      C27_default_config_constructs exampleDevice tinyShape (by decide) (by decide)⟩,
    ⟨by decide, by decide, by decide,
      C27_default_config_constructs exampleDevice keyExampleShape (by decide) (by decide)⟩⟩

set_option maxRecDepth 100000 in
set_option maxHeartbeats 4000000 in
/-- C27, as stated, fails when the number of input pixels does not fit in an `int`: for the
1x1 kernel over a map of 46341 x 46341 pixels (positive dimensions, kernel sizes 1, strides
1) `mloSelectDefaultConfig` returns the tiling 1.64.1.4.1.4.16.2.1, and
`mloConstructDirect2DFwd` on the object that it leaves divides by zero in the 1x1
strategy: the product of width and height wraps, `MAP_SZ4` is -536869753, the number of
maps per group `64 / MAP_SZ4` is 0, so the exchange step is 0 and `_n_out_pix_tiles` is
divided by it. -/
theorem C27_counterexample :
    positiveShape largeMapShape ∧
    (largeMapShape._kernel_size0 = 1 ∧ largeMapShape._kernel_size1 = 1 ∧
      largeMapShape._kernel_stride0 = 1 ∧ largeMapShape._kernel_stride1 = 1) ∧
    (mloSelectDefaultConfig largeMapShape).map (fun p => getConfigParameters p.1)
      = .ok ⟨1, 64, 1, 4, 1, 4, 16, 2, 1⟩ ∧
    ((mloSelectDefaultConfig largeMapShape).bind
        (fun p => mloConstructDirect2DFwd exampleDevice p.1)).map (fun r => r.1)
      = .error .undefined_behaviour := by
  decide

end MLOpen
namespace MLOpen

/-- The rounded-up quotient `(n + d - 1) / d` formed in `int`, for `n` and `d` at least 1
whose sum is at most 2^31: the numerator does not wrap, the quotient is the exact quotient
rounded up, it is between 1 and `n`, it covers `n`, and it is not changed by the conversion
to `size_t`. -/
theorem ceil_int32 {n d x : Int} (hn : 1 ≤ n) (hd : 1 ≤ d) (hb : n + d ≤ 2147483648)
    (h : cdiv (int32 (n + d - 1)) d = .ok x) :
    x = ceilDiv n d ∧ 1 ≤ x ∧ x ≤ n ∧ n ≤ x * d ∧ size_t x = x := by
  rw [int32_eq (by omega) (by omega)] at h
  have hx := (cdiv_eq_ok h).2
  have c1 : 1 ≤ x := by rw [hx]; exact tdiv_ceil_ge_one hn hd
  have c2 : x ≤ n := by rw [hx]; exact ceil_le_self hn hd
  have c3 : n ≤ x * d := by rw [hx]; exact ceil_cover (by omega) hd
  exact ⟨by rw [hx]; exact ceil_tdiv (by omega) hd, c1, c2, c3,
    size_t_eq (by omega) (by omega)⟩

/-- A product of two values between 1 and 1024 is left as it is by `int32` and by the
conversion to `size_t`. -/
theorem group_size_eq {a b : Int} (ha : 1 ≤ a) (hb : 1 ≤ b) (ha2 : a ≤ 1024) (hb2 : b ≤ 1024) :
    size_t (int32 (a * b)) = a * b ∧ 1 ≤ a * b ∧ a * b ≤ INT_MAX := by
  have h1 : 1 ≤ a * b := one_le_mul_int ha hb
  have h2 : a * b ≤ 1024 * 1024 := mul_le_mul ha2 hb2 (by omega) (by omega)
  rw [int32_eq (by omega) (by omega)]
  exact ⟨size_t_eq (by omega) (by omega), h1, by unfold INT_MAX; omega⟩

/-- The number of output blocks `b0 * b1` of a tiled strategy, with at most `ow` blocks in
a row and `oh` in a column for an output of at most `INT_MAX` pixels, times the group size:
the product formed in `int` does not wrap, and the product with the group size fits in
`size_t`. -/
theorem block_count_eq {b0 b1 ow oh l : Int} (h0 : 1 ≤ b0) (h1 : 1 ≤ b1) (h0b : b0 ≤ ow)
    (h1b : b1 ≤ oh) (hout : ow * oh ≤ 2147483647) (hl : 1 ≤ l) (hl2 : l ≤ INT_MAX) :
    size_t (int32 (b0 * b1)) = b0 * b1 ∧ size_t (b0 * b1 * l) = b0 * b1 * l ∧ 1 ≤ b0 * b1 := by
  have hb : 1 ≤ b0 * b1 := one_le_mul_int h0 h1
  have hb2 : b0 * b1 ≤ ow * oh := mul_le_mul h0b h1b (by omega) (by omega)
  rw [int32_eq (by omega) (by omega)]
  refine ⟨size_t_eq (by omega) (by omega), size_t_eq ?_ ?_, hb⟩
  · have := one_le_mul_int hb hl
    omega
  · exact mul_lt_two_pow_64 (by omega) (by unfold INT_MAX; omega) hl2

theorem mloConstructDirect2DFwd_geometry (dev : Device) (s s' : mlo_construct_direct2D)
    (hk : ¬ (s._kernel_size0 = 1 ∧ s._kernel_size1 = 1)) (hu : unalignedOut s = false)
    (hpos : positiveShape s) (htil : positiveTiling s) (hint : intSized s)
    (h : mloConstructDirect2DFwd dev s = .ok (0, s')) : tiledGeometry s s' := by
  obtain ⟨p1, p2, p3, p4, p5, p6, p7⟩ := hpos
  obtain ⟨t1, t2, t3, t4, t5, t6, t7, t8, t9⟩ := htil
  obtain ⟨⟨u1, u2, u3, u4, u5, u6, u7, u8, u9⟩, i1, i2, i3, i4, i5, i6, i7, i8⟩ := hint
  unfold INT_MAX at i2
  unfold mloConstructDirect2DFwd at h
  rw [if_neg hk, if_neg (by rw [hu]; decide)] at h
  simp only [bind_eq_ok, pure_eq_ok, Prod.mk.injEq] at h
  obtain ⟨a0, h0, a1, h1, h⟩ := h
  split at h
  · simp only [pure_eq_ok, Prod.mk.injEq] at h
    exact absurd h.1 (by decide)
  simp only [bind_eq_ok, pure_eq_ok, Prod.mk.injEq] at h
  obtain ⟨x1, y1, x2, y2, b0, y3, b1, y4, x5, y5, x6, y6, x7, y7, _, rfl⟩ := h
  have ha0 : 1 ≤ a0 := by rw [(cdiv_eq_ok h0).2]; exact tdiv_ceil_ge_one t4 t6
  have ha1 : 1 ≤ a1 := by rw [(cdiv_eq_ok h1).2]; exact tdiv_ceil_ge_one t3 t5
  have hal : 1 ≤ a0 * a1 := one_le_mul_int ha0 ha1
  have htot : 1 ≤ s._grp_tile0 * s._grp_tile1 := one_le_mul_int t2 t1
  have hx1 : 1 ≤ x1 := by rw [(cdiv_eq_ok y1).2]; exact tdiv_ceil_ge_one htot hal
  generalize hns : min s._batch_sz (min s._n_stacks x1) = ns at y2 y7 ⊢
  have hns1 : 1 ≤ ns ∧ ns ≤ s._batch_sz := by omega
  have hx2 : 1 ≤ x2 := by rw [(cdiv_eq_ok y2).2]; exact tdiv_ceil_ge_one htot hns1.1
  have hx5 : 1 ≤ x5 := by rw [(cdiv_eq_ok y5).2]; exact tdiv_ceil_ge_one hx2 hal
  generalize hno : min s._n_outputs s._n_out_pix_tiles = no at y6 ⊢
  have hno1 : 1 ≤ no := by omega
  have hprod : 1 ≤ x5 * no := one_le_mul_int hx5 hno1
  generalize hnps : min (x5 * no) s._n_outputs = nps at y6 ⊢
  have hnps1 : 1 ≤ nps ∧ nps ≤ s._n_outputs := by omega
  obtain ⟨hb0, hb0a, hb0b, _, _⟩ := ceil_int32 p6 t4 (by omega) y3
  obtain ⟨hb1, hb1a, hb1b, _, _⟩ := ceil_int32 p7 t3 (by omega) y4
  obtain ⟨_, hx6a, _, hx6c, e6⟩ := ceil_int32 p2 hnps1.1 (by omega) y6
  obtain ⟨_, hx7a, _, hx7c, e7⟩ := ceil_int32 p3 hns1.1 (by omega) y7
  obtain ⟨e1, hl, hl2⟩ := group_size_eq t1 t2 u1 u2
  obtain ⟨e2, e3, hbb⟩ := block_count_eq hb0a hb1a hb0b hb1b i2 hl hl2
  refine ⟨s._grp_tile1 * s._grp_tile0, b0 * b1, x6, x7, nps, ?_, ?_, rfl, hl, ?_, hbb,
    hx6a, hx7a, ?_, hx6c, hx7c⟩
  · show [size_t (int32 (s._grp_tile1 * s._grp_tile0)), size_t 1, size_t 1] = _
    rw [e1, size_t_one]
  · show [size_t (size_t (int32 (b0 * b1)) * size_t (int32 (s._grp_tile1 * s._grp_tile0))),
      size_t x6, size_t x7] = _
    rw [e1, e2, e3, e6, e7]
  · rw [hb0, hb1]
  · exact hasOption_at _ 27 _ " -D MLO_N_IN_TILES_PERSTACK=" _
      (min s._n_inputs s._n_in_data_tiles) rfl rfl (by decide)

end MLOpen
namespace MLOpen

theorem mloConstructDirect2DFwdC_geometry (dev : Device) (s s' : mlo_construct_direct2D)
    (hk : ¬ (s._kernel_size0 = 1 ∧ s._kernel_size1 = 1))
    (hpos : positiveShape s) (htil : positiveTiling s) (hint : intSized s)
    (h : mloConstructDirect2DFwdC dev s = .ok (0, s')) : tiledGeometry s s' := by
  obtain ⟨p1, p2, p3, p4, p5, p6, p7⟩ := hpos
  obtain ⟨t1, t2, t3, t4, t5, t6, t7, t8, t9⟩ := htil
  obtain ⟨⟨u1, u2, u3, u4, u5, u6, u7, u8, u9⟩, i1, i2, i3, i4, i5, i6, i7, i8⟩ := hint
  unfold INT_MAX at i2
  unfold mloConstructDirect2DFwdC at h
  rw [if_neg hk] at h
  simp only [bind_eq_ok, pure_eq_ok, Prod.mk.injEq] at h
  obtain ⟨a0, h0, a1, h1, h⟩ := h
  split at h
  · simp only [pure_eq_ok, Prod.mk.injEq] at h
    exact absurd h.1 (by decide)
  simp only [bind_eq_ok, pure_eq_ok, Prod.mk.injEq] at h
  obtain ⟨x1, y1, b0, y2, b1, y3, x4, y4, x5, y5, x6, y6, x7, y7, x8, y8, _, rfl⟩ := h
  generalize hi0 : min s._out_width s._in_tile0 = it0 at h0 y2 ⊢
  generalize hi1 : min s._out_height s._in_tile1 = it1 at h1 y3 ⊢
  have hit0 : 1 ≤ it0 ∧ it0 ≤ s._out_width := by omega
  have hit1 : 1 ≤ it1 ∧ it1 ≤ s._out_height := by omega
  generalize hm : min s._batch_sz s._n_stacks = m at y5 y8 ⊢
  have hm1 : 1 ≤ m ∧ m ≤ s._batch_sz := by omega
  generalize hper : max 1 x5 = per at y6 y7 ⊢
  have hper1 : 1 ≤ per := by omega
  generalize hns : min (max 1 x6) m = ns at y8 ⊢
  have hns1 : 1 ≤ ns ∧ ns ≤ s._batch_sz := by omega
  generalize hno : min s._n_outputs s._n_out_pix_tiles = no at y7 ⊢
  have hno1 : 1 ≤ no := by omega
  have hprod : 1 ≤ per * no := one_le_mul_int hper1 hno1
  generalize hnps : min (per * no) s._n_outputs = nps at y7 ⊢
  have hnps1 : 1 ≤ nps ∧ nps ≤ s._n_outputs := by omega
  obtain ⟨hb0, hb0a, hb0b, _, _⟩ := ceil_int32 p6 hit0.1 (by omega) y2
  obtain ⟨hb1, hb1a, hb1b, _, _⟩ := ceil_int32 p7 hit1.1 (by omega) y3
  obtain ⟨_, hx7a, _, hx7c, e7⟩ := ceil_int32 p2 hnps1.1 (by omega) y7
  obtain ⟨_, hx8a, _, hx8c, e8⟩ := ceil_int32 p3 hns1.1 (by omega) y8
  obtain ⟨e1, hl, hl2⟩ := group_size_eq t1 t2 u1 u2
  obtain ⟨e2, e3, hbb⟩ := block_count_eq hb0a hb1a hb0b hb1b i2 hl hl2
  refine ⟨s._grp_tile1 * s._grp_tile0, b0 * b1, x7, x8, nps, ?_, ?_, rfl, hl, ?_, hbb,
    hx7a, hx8a, ?_, hx7c, hx8c⟩
  · show [size_t (int32 (s._grp_tile1 * s._grp_tile0)), size_t 1, size_t 1] = _
    rw [e1, size_t_one]
  · show [size_t (size_t (int32 (b0 * b1)) * size_t (int32 (s._grp_tile1 * s._grp_tile0))),
      size_t x7, size_t x8] = _
    rw [e1, e2, e3, e7, e8]
  · rw [hb0, hb1]
  · exact hasOption_at _ 31 _ " -D MLO_N_IN_TILES_PERSTACK=" _
      (min s._n_inputs s._n_in_data_tiles) rfl rfl (by decide)

end MLOpen
namespace MLOpen

theorem mloConstructDirect2D1x1_geometry (dev : Device) (s s' : mlo_construct_direct2D)
    (hpos : positiveShape s) (htil : positiveTiling s) (hint : intSized s)
    (h : mloConstructDirect2D1x1 dev s = .ok (0, s')) : pixelGeometry s s' := by
  obtain ⟨p1, p2, p3, p4, p5, p6, p7⟩ := hpos
  obtain ⟨t1, t2, t3, t4, t5, t6, t7, t8, t9⟩ := htil
  obtain ⟨⟨u1, u2, u3, u4, u5, u6, u7, u8, u9⟩, i1, i2, i3, i4, i5, i6, i7, i8⟩ := hint
  unfold INT_MAX at i1
  have hwh : 1 ≤ s._in_width * s._in_height := one_le_mul_int p4 p5
  unfold mloConstructDirect2D1x1 at h
  dsimp only at h
  rw [int32_eq (by omega : -2147483648 ≤ s._in_width * s._in_height + 1 * 4 - 1) (by omega)]
    at h
  rw [cdiv_ok _ _ (by decide : (1 : Int) * 4 ≠ 0), ok_bind] at h
  have hMc : (s._in_width * s._in_height + 1 * 4 - 1).tdiv (1 * 4)
      = ceilDiv (s._in_width * s._in_height) 4 := ceil_tdiv (by omega) (by decide)
  have hM2 : (s._in_width * s._in_height + 1 * 4 - 1).tdiv (1 * 4) ≤ 536870911 := by
    rw [Int.tdiv_eq_ediv (by omega) (by decide)]
    omega
  generalize hM : (s._in_width * s._in_height + 1 * 4 - 1).tdiv (1 * 4) = M at h hMc hM2
  have hM1 : 1 ≤ M := by
    rw [← hM]; exact tdiv_ge_one (by decide) (by omega)
  have e1 : size_t s._grp_tile0 = s._grp_tile0 := size_t_eq (by omega) (by omega)
  have e2 : size_t s._grp_tile1 = s._grp_tile1 := size_t_eq (by omega) (by omega)
  -- the first global work size
  have key0 : ∀ qg, (if s._grp_tile0 < M then cdiv (int32 (M + s._grp_tile0 - 1)) s._grp_tile0
        else pure 0) = Except.ok qg →
      ∃ k, size_t (if s._grp_tile0 < M then int32 (qg * s._grp_tile0) else s._grp_tile0)
          = k * s._grp_tile0 ∧ 1 ≤ k ∧ M ≤ k * s._grp_tile0 := by
    intro qg hq
    by_cases hlt : s._grp_tile0 < M
    · rw [if_pos hlt] at hq
      rw [if_pos hlt]
      obtain ⟨_, c1, c3, c2, _⟩ := ceil_int32 hM1 t2 (by omega) hq
      have c4 : qg * s._grp_tile0 ≤ M * s._grp_tile0 :=
        mul_le_mul_of_nonneg_right c3 (by omega)
      have c5 : qg * s._grp_tile0 ≤ M + s._grp_tile0 - 1 := by
        rw [int32_eq (by omega) (by omega)] at hq
        rw [(cdiv_eq_ok hq).2]
        exact tdiv_mul_le_of (by omega) t2
      have c6 : 1 ≤ qg * s._grp_tile0 := one_le_mul_int c1 t2
      rw [int32_eq (by omega) (by omega)]
      exact ⟨qg, size_t_eq (by omega) (by omega), c1, c2⟩
    · rw [if_neg hlt]
      exact ⟨1, by rw [e1, one_mul], le_refl _, by omega⟩
  by_cases hsm : M ≤ s._grp_tile0.tdiv 2
  · simp only [hsm, decide_True, if_true] at h
    simp only [bind_eq_ok, pure_eq_ok, Prod.mk.injEq] at h
    obtain ⟨N, hN, nis, y3, q, y4, x5, y5, x6, y6, x7, y7, qg, y8, x9, y9, x10, y10, _, rfl⟩ := h
    have h2 := two_mul_le_of_le_tdiv (by omega) hsm
    have hN1 : 1 ≤ N := by rw [(cdiv_eq_ok hN).2]; exact tdiv_ge_one hM1 (by omega)
    generalize hes : min (min s._n_in_data_tiles (min s._n_outputs s._n_out_pix_tiles)) N = es
      at y4 y7 y9 ⊢
    have hes1 : 1 ≤ es := by omega
    have hes2 : es ≤ min s._n_outputs s._n_out_pix_tiles := by omega
    have hq1 : 1 ≤ q := by rw [(cdiv_eq_ok y4).2]; exact tdiv_ge_one hes1 hes2
    have hq2 : q * es ≤ min s._n_outputs s._n_out_pix_tiles := by
      rw [(cdiv_eq_ok y4).2]; exact tdiv_mul_le_of (by omega) hes1
    have hq3 : 1 ≤ q * es := one_le_mul_int hq1 hes1
    obtain ⟨k, hk1, hk2, hk3⟩ := key0 qg y8
    obtain ⟨_, f2, _, f3, f1⟩ := ceil_int32 p2 hq3 (by omega) y9
    obtain ⟨_, g2, _, g3, g1⟩ :=
      ceil_int32 p3 (by omega : 1 ≤ min s._batch_sz s._n_stacks) (by omega) y10
    refine ⟨k, x9, x10, ?_, ?_, hk2, by rw [← hMc]; exact hk3, f2, g2, f3, g3⟩
    · show [size_t s._grp_tile0, size_t s._grp_tile1, size_t 1] = _
      rw [e1, e2, size_t_one]
    · show [size_t (if s._grp_tile0 < M then int32 (qg * s._grp_tile0) else s._grp_tile0),
        size_t x9, size_t x10] = _
      rw [hk1, f1, g1]
  · simp only [hsm, decide_False, if_false, Bool.false_eq_true] at h
    simp only [bind_eq_ok, pure_eq_ok, Prod.mk.injEq] at h
    obtain ⟨N, hN, nis, y3, q, y4, x5, y5, x6, y6, x7, y7, qg, y8, x9, y9, x10, y10, _, rfl⟩ := h
    obtain ⟨k, hk1, hk2, hk3⟩ := key0 qg y8
    obtain ⟨_, f2, _, f3, f1⟩ :=
      ceil_int32 p2 (by omega : 1 ≤ min s._n_outputs s._n_out_pix_tiles) (by omega) y9
    obtain ⟨_, g2, _, g3, g1⟩ :=
      ceil_int32 p3 (by omega : 1 ≤ min s._batch_sz s._n_stacks) (by omega) y10
    refine ⟨k, x9, x10, ?_, ?_, hk2, by rw [← hMc]; exact hk3, f2, g2, f3, g3⟩
    · show [size_t s._grp_tile0, size_t s._grp_tile1, size_t 1] = _
      rw [e1, e2, size_t_one]
    · show [size_t (if s._grp_tile0 < M then int32 (qg * s._grp_tile0) else s._grp_tile0),
        size_t x9, size_t x10] = _
      rw [hk1, f1, g1]

end MLOpen
namespace MLOpen

/-- For a shape with at least one output map the generic forward strategy returns 0. -/
theorem mloConstructDirect2DFwdGen_ok (s : mlo_construct_direct2D) (hno : 1 ≤ s._n_outputs) :
    ∃ s', mloConstructDirect2DFwdGen s = .ok (0, s') := by
  unfold mloConstructDirect2DFwdGen
  dsimp only
  have hl : (if s._gen = true then (8 : Int) else 16) ≠ 0 := by split_ifs <;> decide
  have hnpv : (if s._gen = true then
      (if s._kernel_stride1 < 4 ∧ s._kernel_size1 < 7 then (2 : Int) else 1) else 2) ≠ 0 := by
    split_ifs <;> decide
  have hnouts : min (if s._gen = true then (if s._kernel_size1 ≤ 7 then (14 : Int) else 8)
      else 14) s._n_outputs ≠ 0 := by
    split_ifs <;> omega
  simp only [cdiv_ok _ _ (by decide : (2 : Int) ≠ 0), cdiv_ok _ _ hnpv,
    cdiv_ok _ _ (by decide : (1 : Int) * 1 ≠ 0), cdiv_ok _ _ hnouts,
    cdiv_ok _ _ (by decide : (1 : Int) ≠ 0), Int.tdiv_one, cdiv_ok _ _ hl, ok_bind]
  exact ⟨_, rfl⟩

/-- The arithmetic of the work sizes of the generic forward strategy. -/
theorem generic_arith {ow oh no b l npv nouts nv0 nv1 c0 c1 nob : Int}
    (p2 : 1 ≤ no) (p3 : 1 ≤ b) (p6 : 1 ≤ ow) (p7 : 1 ≤ oh)
    (how : ow ≤ 1073741824) (hoh : oh ≤ 1073741824) (i4 : no ≤ 1073741824)
    (i3 : no * b ≤ 2147483647)
    (hl1 : l = 8 ∨ l = 16) (hnpv1 : npv = 1 ∨ npv = 2) (hno1 : 1 ≤ nouts) (hno2 : nouts ≤ no)
    (hnv0a : cdiv (int32 (ow + 2 - 1)) 2 = .ok nv0)
    (hnv1a : cdiv (int32 (oh + npv - 1)) npv = .ok nv1)
    (hk0a : cdiv (int32 (nv0 + l - 1)) l = .ok c0)
    (hk1a : cdiv (int32 (nv1 + l - 1)) l = .ok c1)
    (hnoba : cdiv (int32 (no + nouts - 1)) nouts = .ok nob) :
    size_t l = l ∧ size_t (int32 (1 * c0 * l)) = c0 * l ∧
      size_t (int32 (1 * c1 * l)) = c1 * l ∧
      size_t (int32 (nob * b)) = nob * b ∧ ow ≤ c0 * l * 2 ∧ oh ≤ c1 * l * npv ∧ 1 ≤ l ∧
      1 ≤ nob * b ∧ nob = ceilDiv no nouts ∧ 1 ≤ c0 ∧ 1 ≤ c1 := by
  obtain ⟨_, g0a, g0b, g0c, _⟩ := ceil_int32 p6 (by decide : (1 : Int) ≤ 2) (by omega) hnv0a
  obtain ⟨_, g1a, g1b, g1c, _⟩ := ceil_int32 p7 (by omega : 1 ≤ npv) (by omega) hnv1a
  obtain ⟨_, g2a, g2b, g2c, _⟩ := ceil_int32 g0a (by omega : 1 ≤ l) (by omega) hk0a
  obtain ⟨_, g3a, g3b, g3c, _⟩ := ceil_int32 g1a (by omega : 1 ≤ l) (by omega) hk1a
  obtain ⟨g4c, g4a, g4b, _, _⟩ := ceil_int32 p2 hno1 (by omega) hnoba
  have m0 : c0 * l ≤ nv0 + l - 1 := by
    rw [int32_eq (by omega) (by omega)] at hk0a
    rw [(cdiv_eq_ok hk0a).2]
    exact tdiv_mul_le_of (by omega) (by omega)
  have m1 : c1 * l ≤ nv1 + l - 1 := by
    rw [int32_eq (by omega) (by omega)] at hk1a
    rw [(cdiv_eq_ok hk1a).2]
    exact tdiv_mul_le_of (by omega) (by omega)
  have q0 : 1 ≤ c0 * l := one_le_mul_int g2a (by omega)
  have q1 : 1 ≤ c1 * l := one_le_mul_int g3a (by omega)
  have q2 : 1 ≤ nob * b := one_le_mul_int g4a p3
  have q3 : nob * b ≤ no * b := mul_le_mul_of_nonneg_right g4b (by omega)
  have e0 : size_t l = l := by rcases hl1 with h | h <;> rw [h] <;> decide
  have eg0 : size_t (int32 (1 * c0 * l)) = c0 * l := by
    rw [one_mul, int32_eq (by omega) (by omega)]
    exact size_t_eq (by omega) (by omega)
  have eg1 : size_t (int32 (1 * c1 * l)) = c1 * l := by
    rw [one_mul, int32_eq (by omega) (by omega)]
    exact size_t_eq (by omega) (by omega)
  have eg2 : size_t (int32 (nob * b)) = nob * b := by
    rw [int32_eq (by omega) (by omega)]
    exact size_t_eq (by omega) (by omega)
  have c1' : ow ≤ c0 * l * 2 := by
    have := mul_le_mul_of_nonneg_right g2c (by decide : (0 : Int) ≤ 2)
    omega
  have c2' : oh ≤ c1 * l * npv := by
    have := mul_le_mul_of_nonneg_right g3c (by omega : (0 : Int) ≤ npv)
    omega
  exact ⟨e0, eg0, eg1, eg2, c1', c2', by omega, q2, g4c, g2a, g3a⟩

/-- The geometry that the generic forward strategy leaves for a shape with positive
dimensions within the bounds of `intSized`. -/
theorem mloConstructDirect2DFwdGen_geometry (s s' : mlo_construct_direct2D)
    (hpos : positiveShape s) (hint : intSized s)
    (h : mloConstructDirect2DFwdGen s = .ok (0, s')) : genericGeometry s s' := by
  obtain ⟨p1, p2, p3, p4, p5, p6, p7⟩ := hpos
  obtain ⟨_, i1, i2, i3, i4, i5, i6, i7, i8⟩ := hint
  unfold INT_MAX at i3
  unfold mloConstructDirect2DFwdGen at h
  simp only [bind_eq_ok, pure_eq_ok, Prod.mk.injEq] at h
  obtain ⟨nv0, y1, nv1, y2, qb, y3, qo, y4, np0, y5, np1, y6, nob, y7, nsb, y8, c0, y9, c1, y10,
    _, hs'⟩ := h
  have hl1 : (if s._gen = true then (8 : Int) else 16) = 8
      ∨ (if s._gen = true then (8 : Int) else 16) = 16 := by split_ifs <;> simp
  have hnpv1 : (if s._gen = true then
      (if s._kernel_stride1 < 4 ∧ s._kernel_size1 < 7 then (2 : Int) else 1) else 2) = 1
    ∨ (if s._gen = true then
      (if s._kernel_stride1 < 4 ∧ s._kernel_size1 < 7 then (2 : Int) else 1) else 2) = 2 := by
    split_ifs <;> simp
  have hno1 : 1 ≤ min (if s._gen = true then (if s._kernel_size1 ≤ 7 then (14 : Int) else 8)
      else 14) s._n_outputs := by
    split_ifs <;> omega
  have hnp0 := (cdiv_eq_ok y5).2
  have hnp1 := (cdiv_eq_ok y6).2
  rw [Int.tdiv_one] at hnp0 hnp1
  subst hnp0 hnp1
  have hnsb : nsb = s._batch_sz := by
    rw [int32_eq (by omega) (by omega)] at y8
    rw [(cdiv_eq_ok y8).2, show (1 : Int) * 1 = 1 from rfl, Int.tdiv_one]
    omega
  subst hnsb
  obtain ⟨e0, eg0, eg1, eg2, c1', c2', c3', c4', c5', c6', c7'⟩ :=
    generic_arith p2 p3 p6 p7 i4 i5 i7 i3 hl1 hnpv1 hno1 (min_le_right _ _) y1 y2 y9 y10 y7
  subst hs'
  unfold genericGeometry
  refine ⟨if s._gen = true then (8 : Int) else 16, c0, c1, nob * s._batch_sz,
    if s._gen = true then
      (if s._kernel_stride1 < 4 ∧ s._kernel_size1 < 7 then (2 : Int) else 1) else 2,
    min (if s._gen = true then (if s._kernel_size1 ≤ 7 then (14 : Int) else 8) else 14)
      s._n_outputs, ?_, ?_, c3', c6', c7', c4', ?_, ?_, c1', c2', ?_⟩
  · show [size_t _, size_t _, size_t 1] = _
    rw [e0, size_t_one]
  · show s._g_wk ++ [size_t _, size_t _, size_t _] = _
    rw [eg0, eg1, eg2]
  · exact hasOption_at _ 20 _ " -D MLO_N_IN_CHNLS=" _ s._n_inputs rfl rfl (by decide)
  · exact hasOption_at _ 5 _ " -D MLO_BATCH_SZ=" _ s._batch_sz rfl rfl (by decide)
  · rw [c5']

end MLOpen
namespace MLOpen

/-! ### C21, C29: the work sizes cover the output and can be dispatched -/

/-- Under `intSized` the maps of a 1x1 kernel fit in an `int`, and the number of input data
tiles is at most 2^30. -/
theorem intSized_maps {s : mlo_construct_direct2D} (h : intSized s) :
    mapsFit s ∧ s._n_in_data_tiles ≤ 1073741824 := by
  obtain ⟨⟨_, _, _, _, _, _, _, h8, _⟩, hp, _, _, _, _, hni, _, _⟩ := h
  unfold INT_MAX at hp
  refine ⟨fun _ => ⟨hp, ?_⟩, ?_⟩
  · unfold INT_MAX
    omega
  · omega

/-- For a shape and a tiling of positive integers, with maps that fit in an `int` when the
kernel is 1x1 (`mapsFit`) and at most 2^30 input data tiles, `mloConstructDirect2DFwd`
returns. -/
theorem mloConstructDirect2DFwd_returns (dev : Device) (s : mlo_construct_direct2D)
    (hpos : positiveShape s) (hpix : mapsFit s) (htil : positiveTiling s)
    (hic : s._n_in_data_tiles ≤ 1073741824) :
    ∃ ret s', mloConstructDirect2DFwd dev s = .ok (ret, s') := by
  obtain ⟨p1, p2, p3, p4, p5, p6, p7⟩ := hpos
  obtain ⟨t1, t2, t3, t4, t5, t6, t7, t8, t9⟩ := htil
  by_cases hk : s._kernel_size0 = 1 ∧ s._kernel_size1 = 1
  · have hx : is1x1 s = true := by unfold is1x1; exact decide_eq_true hk
    obtain ⟨s', h, _⟩ :=
      mloConstructDirect2D1x1_ok dev s p4 p5 (hpix hx) t2 p1 p2 p3 t8 hic t7 t9
    refine ⟨0, s', ?_⟩
    unfold mloConstructDirect2DFwd
    rw [if_pos hk]
    exact h
  · obtain ⟨ret, s', h, _⟩ := mloConstructDirect2DFwd_ok dev s hk p6 p7 t1 t2 t3 t4 t5 t6 p1 p2
      p3 t8 t7 t9
    exact ⟨ret, s', h⟩

/-- The geometry left by a successful `mloConstructDirect2DFwd` for a shape and a tiling of
positive integers: that of the 1x1 strategy for a 1x1 kernel, and that of a tiled strategy
otherwise. -/
theorem mloConstructDirect2DFwd_work_sizes (dev : Device) (s s' : mlo_construct_direct2D)
    (hpos : positiveShape s) (htil : positiveTiling s) (hint : intSized s)
    (h : mloConstructDirect2DFwd dev s = .ok (0, s')) :
    (s._kernel_size0 = 1 ∧ s._kernel_size1 = 1 → pixelGeometry s s') ∧
    (¬ (s._kernel_size0 = 1 ∧ s._kernel_size1 = 1) → tiledGeometry s s') := by
  constructor
  · intro hk
    unfold mloConstructDirect2DFwd at h
    rw [if_pos hk] at h
    exact mloConstructDirect2D1x1_geometry dev s s' hpos htil hint h
  · intro hk
    by_cases hu : unalignedOut s = true
    · have hC : mloConstructDirect2DFwdC dev s = .ok (0, s') := by
        rw [← h]
        unfold mloConstructDirect2DFwd
        rw [if_neg hk, if_pos hu]
      exact mloConstructDirect2DFwdC_geometry dev s s' hk hpos htil hint hC
    · exact mloConstructDirect2DFwd_geometry dev s s' hk (Bool.eq_false_iff.mpr hu) hpos htil
        hint h

/-- C21 (as amended). Grid covers the output: for every shape and tiling of positive
integers within the bounds of `intSized` (tiling values at most 1024, in_width * in_height +
3, out_width * out_height and n_outputs * batch_sz at most INT_MAX, out_width, out_height,
n_inputs, n_outputs and batch_sz at most 2^30, under which the sums and products that give
the work sizes stay within `int`), `mloConstructDirect2DFwd` returns, and when it returns 0
the global work size covers the output: `g2 * n_stacks >= batch_sz`; for the 1x1 strategy
`g0 >= ceil(in_width * in_height / 4)` and `g1 * n_out_pix_tiles >= n_outputs`; for the
tiled strategies (default and C) `g0 = ceil(out_width / in_tile0) * ceil(out_height /
in_tile1) * l_wk[0]` with the in_tile values that the strategy left, and `g1 *
n_out_tiles_perstack >= n_outputs` for the value of n_out_tiles_perstack that the options
pass to the kernel. The generic forward strategy returns 0 and appends three global work
sizes (all of `_g_wk` when the vector was empty before) with `g0 * 2 >= out_width`, `g1 *
n_out_pix_vert >= out_height` and `g2 = ceil(n_outputs / n_outs) * batch_sz` for the values
of n_out_pix_vert and n_outs that the options pass. -/
theorem C21_grid_covers_output (dev : Device) (s : mlo_construct_direct2D)
    (hpos : positiveShape s) (htil : positiveTiling s) (hint : intSized s) :
    (∃ ret s', mloConstructDirect2DFwd dev s = .ok (ret, s') ∧ (ret = 0 →
      ∃ g0 g1 g2, s'._g_wk = [g0, g1, g2] ∧ s._batch_sz ≤ g2 * s'._n_stacks ∧
        (s._kernel_size0 = 1 ∧ s._kernel_size1 = 1 →
          ceilDiv (s._in_width * s._in_height) 4 ≤ g0 ∧
          s._n_outputs ≤ g1 * s'._n_out_pix_tiles) ∧
        (¬ (s._kernel_size0 = 1 ∧ s._kernel_size1 = 1) →
          ∃ l0 l1 l2 nps, s'._l_wk = [l0, l1, l2] ∧
            g0 = ceilDiv s._out_width s'._in_tile0 * ceilDiv s._out_height s'._in_tile1 * l0 ∧
            hasOption s'._comp_options " -D MLO_N_OUT_TILES_PERSTACK=" nps ∧
            s._n_outputs ≤ g1 * nps))) ∧
    (∃ s', mloConstructDirect2DFwdGen s = .ok (0, s') ∧
      ∃ g0 g1 g2 npv nouts, s'._g_wk = s._g_wk ++ [g0, g1, g2] ∧
        hasOption s'._comp_options " -D MLO_N_OUT_PIX_SZ1=" npv ∧
        hasOption s'._comp_options " -D MLO_LCL_N_OUT_CHNLS=" nouts ∧
        s._out_width ≤ g0 * 2 ∧ s._out_height ≤ g1 * npv ∧
        g2 = ceilDiv s._n_outputs nouts * s._batch_sz) := by
  constructor
  · obtain ⟨ret, s', h⟩ :=
      mloConstructDirect2DFwd_returns dev s hpos (intSized_maps hint).1 htil
        (intSized_maps hint).2
    refine ⟨ret, s', h, ?_⟩
    intro hr
    subst hr
    obtain ⟨hp, ht⟩ := mloConstructDirect2DFwd_work_sizes dev s s' hpos htil hint h
    by_cases hk : s._kernel_size0 = 1 ∧ s._kernel_size1 = 1
    · obtain ⟨k, G1, G2, _, hg, _, hc, _, _, h1, h2⟩ := hp hk
      exact ⟨_, _, _, hg, h2, fun _ => ⟨hc, h1⟩, fun hn => absurd hk hn⟩
    · obtain ⟨l0, bb, G1, G2, nps, hl, hg, _, _, hbb, _, _, _, ho, h1, h2⟩ := ht hk
      refine ⟨_, _, _, hg, h2, fun hn => absurd hn hk, fun _ => ⟨l0, 1, 1, nps, hl, ?_, ho, h1⟩⟩
      rw [hbb]
  · obtain ⟨s', h⟩ := mloConstructDirect2DFwdGen_ok s hpos.2.1
    obtain ⟨l, k0, k1, G2, npv, nouts, _, hg, _, _, _, _, o1, o2, c1, c2, c3⟩ :=
      mloConstructDirect2DFwdGen_geometry s s' hpos hint h
    exact ⟨s', h, _, _, _, npv, nouts, hg, o1, o2, c1, c2, c3⟩

set_option maxRecDepth 100000 in
set_option maxHeartbeats 4000000 in
theorem C21_grid_covers_output_witness :
    ((positiveShape tiledObject ∧ positiveTiling tiledObject ∧ intSized tiledObject ∧
        (mloConstructDirect2DFwd exampleDevice tiledObject).map
          (fun r => (r.1, r.2._kernel_name)) = .ok (0, "MLOpenConvUni".toList)) ∧
      ((∃ ret s', mloConstructDirect2DFwd exampleDevice tiledObject = .ok (ret, s') ∧
        (ret = 0 →
        ∃ g0 g1 g2, s'._g_wk = [g0, g1, g2] ∧ tiledObject._batch_sz ≤ g2 * s'._n_stacks ∧
          (tiledObject._kernel_size0 = 1 ∧ tiledObject._kernel_size1 = 1 →
            ceilDiv (tiledObject._in_width * tiledObject._in_height) 4 ≤ g0 ∧
            tiledObject._n_outputs ≤ g1 * s'._n_out_pix_tiles) ∧
          (¬ (tiledObject._kernel_size0 = 1 ∧ tiledObject._kernel_size1 = 1) →
            ∃ l0 l1 l2 nps, s'._l_wk = [l0, l1, l2] ∧
              g0 = ceilDiv tiledObject._out_width s'._in_tile0
                * ceilDiv tiledObject._out_height s'._in_tile1 * l0 ∧
              hasOption s'._comp_options " -D MLO_N_OUT_TILES_PERSTACK=" nps ∧
              tiledObject._n_outputs ≤ g1 * nps))) ∧
      (∃ s', mloConstructDirect2DFwdGen tiledObject = .ok (0, s') ∧
        ∃ g0 g1 g2 npv nouts, s'._g_wk = tiledObject._g_wk ++ [g0, g1, g2] ∧
          hasOption s'._comp_options " -D MLO_N_OUT_PIX_SZ1=" npv ∧
          hasOption s'._comp_options " -D MLO_LCL_N_OUT_CHNLS=" nouts ∧
          tiledObject._out_width ≤ g0 * 2 ∧ tiledObject._out_height ≤ g1 * npv ∧
          g2 = ceilDiv tiledObject._n_outputs nouts * tiledObject._batch_sz))) ∧
    ((positiveShape pixelObject ∧ positiveTiling pixelObject ∧ intSized pixelObject ∧
        (mloConstructDirect2DFwd exampleDevice pixelObject).map
          (fun r => (r.1, r.2._kernel_name)) = .ok (0, "MLOpenConv1x1PS".toList)) ∧
      ((∃ ret s', mloConstructDirect2DFwd exampleDevice pixelObject = .ok (ret, s') ∧
        (ret = 0 →
        ∃ g0 g1 g2, s'._g_wk = [g0, g1, g2] ∧ pixelObject._batch_sz ≤ g2 * s'._n_stacks ∧
          (pixelObject._kernel_size0 = 1 ∧ pixelObject._kernel_size1 = 1 →
            ceilDiv (pixelObject._in_width * pixelObject._in_height) 4 ≤ g0 ∧
            pixelObject._n_outputs ≤ g1 * s'._n_out_pix_tiles) ∧
          (¬ (pixelObject._kernel_size0 = 1 ∧ pixelObject._kernel_size1 = 1) →
            ∃ l0 l1 l2 nps, s'._l_wk = [l0, l1, l2] ∧
              g0 = ceilDiv pixelObject._out_width s'._in_tile0
                * ceilDiv pixelObject._out_height s'._in_tile1 * l0 ∧
              hasOption s'._comp_options " -D MLO_N_OUT_TILES_PERSTACK=" nps ∧
              pixelObject._n_outputs ≤ g1 * nps))) ∧
      (∃ s', mloConstructDirect2DFwdGen pixelObject = .ok (0, s') ∧
        ∃ g0 g1 g2 npv nouts, s'._g_wk = pixelObject._g_wk ++ [g0, g1, g2] ∧
          hasOption s'._comp_options " -D MLO_N_OUT_PIX_SZ1=" npv ∧
          hasOption s'._comp_options " -D MLO_LCL_N_OUT_CHNLS=" nouts ∧
          pixelObject._out_width ≤ g0 * 2 ∧ pixelObject._out_height ≤ g1 * npv ∧
          g2 = ceilDiv pixelObject._n_outputs nouts * pixelObject._batch_sz))) ∧
    ((positiveShape clippedObject ∧ positiveTiling clippedObject ∧ intSized clippedObject ∧
        (mloConstructDirect2DFwd exampleDevice clippedObject).map
          (fun r => (r.1, r.2._kernel_name)) = .ok (0, "MLOpenConvUniC".toList)) ∧
      ((∃ ret s', mloConstructDirect2DFwd exampleDevice clippedObject = .ok (ret, s') ∧
        (ret = 0 →
        ∃ g0 g1 g2, s'._g_wk = [g0, g1, g2] ∧ clippedObject._batch_sz ≤ g2 * s'._n_stacks ∧
          (clippedObject._kernel_size0 = 1 ∧ clippedObject._kernel_size1 = 1 →
            ceilDiv (clippedObject._in_width * clippedObject._in_height) 4 ≤ g0 ∧
            clippedObject._n_outputs ≤ g1 * s'._n_out_pix_tiles) ∧
          (¬ (clippedObject._kernel_size0 = 1 ∧ clippedObject._kernel_size1 = 1) →
            ∃ l0 l1 l2 nps, s'._l_wk = [l0, l1, l2] ∧
              g0 = ceilDiv clippedObject._out_width s'._in_tile0
                * ceilDiv clippedObject._out_height s'._in_tile1 * l0 ∧
              hasOption s'._comp_options " -D MLO_N_OUT_TILES_PERSTACK=" nps ∧
              clippedObject._n_outputs ≤ g1 * nps))) ∧
      (∃ s', mloConstructDirect2DFwdGen clippedObject = .ok (0, s') ∧
        ∃ g0 g1 g2 npv nouts, s'._g_wk = clippedObject._g_wk ++ [g0, g1, g2] ∧
          hasOption s'._comp_options " -D MLO_N_OUT_PIX_SZ1=" npv ∧
          hasOption s'._comp_options " -D MLO_LCL_N_OUT_CHNLS=" nouts ∧
          clippedObject._out_width ≤ g0 * 2 ∧ clippedObject._out_height ≤ g1 * npv ∧
          g2 = ceilDiv clippedObject._n_outputs nouts * clippedObject._batch_sz))) :=
  ⟨⟨⟨by decide, by decide, by decide, by decide⟩,
      C21_grid_covers_output exampleDevice tiledObject (by decide) (by decide) (by decide)⟩,
    ⟨⟨by decide, by decide, by decide, by decide⟩,
      C21_grid_covers_output exampleDevice pixelObject (by decide) (by decide) (by decide)⟩,
    ⟨⟨by decide, by decide, by decide, by decide⟩,
      C21_grid_covers_output exampleDevice clippedObject (by decide) (by decide) (by decide)⟩⟩

set_option maxRecDepth 100000 in
set_option maxHeartbeats 4000000 in
/-- C21, as stated, fails when a product formed in `int` does not fit: for the generic
forward strategy with 917504 = 14 * 65536 output maps, 14 of them per group, and batch
65536 (positive dimensions), the claim gives the third global work size
ceil(917504 / 14) * 65536 = 2^32, but the product of the 65536 blocks of output maps and
the batch size is formed in `int`, wraps to 0, and 0 is what the strategy pushes. -/
theorem C21_counterexample :
    positiveShape manyMapsShape ∧
    (mloConstructDirect2DFwdGen manyMapsShape).map (fun r => (r.1, r.2._l_wk, r.2._g_wk))
      = .ok (0, [8, 8, 1], [8, 8, 0]) ∧
    ceilDiv manyMapsShape._n_outputs 14 * manyMapsShape._batch_sz = 4294967296 := by
  refine ⟨by decide, by decide, ?_⟩
  rw [← ceil_tdiv (by decide) (by decide)]
  decide

end MLOpen
namespace MLOpen

/-- C29 (as amended). Dispatchable geometry: for every shape and tiling of positive integers
within the bounds of `intSized` (tiling values at most 1024, in_width * in_height + 3,
out_width * out_height and n_outputs * batch_sz at most INT_MAX, out_width, out_height,
n_inputs, n_outputs and batch_sz at most 2^30, under which the sums and products that give
the work sizes stay within `int`), with grp_tile1 = 1 when the kernel is 1x1,
`mloConstructDirect2DFwd` returns, and when it returns 0 it leaves three local work sizes
and three global work sizes, each global work size a positive multiple of the local work
size of the same dimension. The generic forward strategy returns 0, leaves three local work
sizes and appends three global work sizes (all of `_g_wk` when the vector was empty before),
each a positive multiple of the local work size of the same dimension. -/
theorem C29_dispatchable_geometry (dev : Device) (s : mlo_construct_direct2D)
    (hpos : positiveShape s) (htil : positiveTiling s) (hint : intSized s)
    (hgrp : s._kernel_size0 = 1 ∧ s._kernel_size1 = 1 → s._grp_tile1 = 1) :
    (∃ ret s', mloConstructDirect2DFwd dev s = .ok (ret, s') ∧ (ret = 0 →
      ∃ l0 l1 l2 k0 k1 k2, s'._l_wk = [l0, l1, l2] ∧ s'._g_wk = [k0 * l0, k1 * l1, k2 * l2] ∧
        1 ≤ l0 ∧ 1 ≤ l1 ∧ 1 ≤ l2 ∧ 1 ≤ k0 ∧ 1 ≤ k1 ∧ 1 ≤ k2)) ∧
    (∃ s', mloConstructDirect2DFwdGen s = .ok (0, s') ∧
      ∃ l0 l1 l2 k0 k1 k2, s'._l_wk = [l0, l1, l2] ∧
        s'._g_wk = s._g_wk ++ [k0 * l0, k1 * l1, k2 * l2] ∧
        1 ≤ l0 ∧ 1 ≤ l1 ∧ 1 ≤ l2 ∧ 1 ≤ k0 ∧ 1 ≤ k1 ∧ 1 ≤ k2) := by
  constructor
  · obtain ⟨ret, s', h⟩ :=
      mloConstructDirect2DFwd_returns dev s hpos (intSized_maps hint).1 htil
        (intSized_maps hint).2
    refine ⟨ret, s', h, ?_⟩
    intro hr
    subst hr
    obtain ⟨hp, ht⟩ := mloConstructDirect2DFwd_work_sizes dev s s' hpos htil hint h
    by_cases hk : s._kernel_size0 = 1 ∧ s._kernel_size1 = 1
    · obtain ⟨k, G1, G2, hl, hg, hk1, _, hG1, hG2, _, _⟩ := hp hk
      rw [hgrp hk] at hl
      refine ⟨_, _, _, k, G1, G2, hl, ?_, htil.2.1, le_refl _, le_refl _, hk1, hG1, hG2⟩
      rw [hg, mul_one, mul_one]
    · obtain ⟨l0, bb, G1, G2, nps, hl, hg, _, hl0, _, hbb, hG1, hG2, _, _, _⟩ := ht hk
      refine ⟨_, _, _, bb, G1, G2, hl, ?_, hl0, le_refl _, le_refl _, hbb, hG1, hG2⟩
      rw [hg, mul_one, mul_one]
  · obtain ⟨s', h⟩ := mloConstructDirect2DFwdGen_ok s hpos.2.1
    obtain ⟨l, k0, k1, G2, npv, nouts, hl, hg, hl1, hk0, hk1, hG2, _, _, _, _, _⟩ :=
      mloConstructDirect2DFwdGen_geometry s s' hpos hint h
    refine ⟨s', h, _, _, _, k0, k1, G2, hl, ?_, hl1, hl1, le_refl _, hk0, hk1, hG2⟩
    rw [hg, mul_one]

set_option maxRecDepth 100000 in
set_option maxHeartbeats 4000000 in
theorem C29_dispatchable_geometry_witness :
    ((positiveShape tiledObject ∧ positiveTiling tiledObject ∧ intSized tiledObject ∧
        (tiledObject._kernel_size0 = 1 ∧ tiledObject._kernel_size1 = 1 → tiledObject._grp_tile1 = 1) ∧
        (mloConstructDirect2DFwd exampleDevice tiledObject).map
          (fun r => (r.1, r.2._kernel_name)) = .ok (0, "MLOpenConvUni".toList)) ∧
      ((∃ ret s', mloConstructDirect2DFwd exampleDevice tiledObject = .ok (ret, s') ∧
        (ret = 0 →
        ∃ l0 l1 l2 k0 k1 k2, s'._l_wk = [l0, l1, l2] ∧ s'._g_wk = [k0 * l0, k1 * l1, k2 * l2] ∧
          1 ≤ l0 ∧ 1 ≤ l1 ∧ 1 ≤ l2 ∧ 1 ≤ k0 ∧ 1 ≤ k1 ∧ 1 ≤ k2)) ∧
      (∃ s', mloConstructDirect2DFwdGen tiledObject = .ok (0, s') ∧
        ∃ l0 l1 l2 k0 k1 k2, s'._l_wk = [l0, l1, l2] ∧
          s'._g_wk = tiledObject._g_wk ++ [k0 * l0, k1 * l1, k2 * l2] ∧
          1 ≤ l0 ∧ 1 ≤ l1 ∧ 1 ≤ l2 ∧ 1 ≤ k0 ∧ 1 ≤ k1 ∧ 1 ≤ k2))) ∧
    ((positiveShape pixelObject ∧ positiveTiling pixelObject ∧ intSized pixelObject ∧
        (pixelObject._kernel_size0 = 1 ∧ pixelObject._kernel_size1 = 1 → pixelObject._grp_tile1 = 1) ∧
        (mloConstructDirect2DFwd exampleDevice pixelObject).map
          (fun r => (r.1, r.2._kernel_name)) = .ok (0, "MLOpenConv1x1PS".toList)) ∧
      ((∃ ret s', mloConstructDirect2DFwd exampleDevice pixelObject = .ok (ret, s') ∧
        (ret = 0 →
        ∃ l0 l1 l2 k0 k1 k2, s'._l_wk = [l0, l1, l2] ∧ s'._g_wk = [k0 * l0, k1 * l1, k2 * l2] ∧
          1 ≤ l0 ∧ 1 ≤ l1 ∧ 1 ≤ l2 ∧ 1 ≤ k0 ∧ 1 ≤ k1 ∧ 1 ≤ k2)) ∧
      (∃ s', mloConstructDirect2DFwdGen pixelObject = .ok (0, s') ∧
        ∃ l0 l1 l2 k0 k1 k2, s'._l_wk = [l0, l1, l2] ∧
          s'._g_wk = pixelObject._g_wk ++ [k0 * l0, k1 * l1, k2 * l2] ∧
          1 ≤ l0 ∧ 1 ≤ l1 ∧ 1 ≤ l2 ∧ 1 ≤ k0 ∧ 1 ≤ k1 ∧ 1 ≤ k2))) ∧
    ((positiveShape clippedObject ∧ positiveTiling clippedObject ∧ intSized clippedObject ∧
        (clippedObject._kernel_size0 = 1 ∧ clippedObject._kernel_size1 = 1 → clippedObject._grp_tile1 = 1) ∧
        (mloConstructDirect2DFwd exampleDevice clippedObject).map
          (fun r => (r.1, r.2._kernel_name)) = .ok (0, "MLOpenConvUniC".toList)) ∧
      ((∃ ret s', mloConstructDirect2DFwd exampleDevice clippedObject = .ok (ret, s') ∧
        (ret = 0 →
        ∃ l0 l1 l2 k0 k1 k2, s'._l_wk = [l0, l1, l2] ∧ s'._g_wk = [k0 * l0, k1 * l1, k2 * l2] ∧
          1 ≤ l0 ∧ 1 ≤ l1 ∧ 1 ≤ l2 ∧ 1 ≤ k0 ∧ 1 ≤ k1 ∧ 1 ≤ k2)) ∧
      (∃ s', mloConstructDirect2DFwdGen clippedObject = .ok (0, s') ∧
        ∃ l0 l1 l2 k0 k1 k2, s'._l_wk = [l0, l1, l2] ∧
          s'._g_wk = clippedObject._g_wk ++ [k0 * l0, k1 * l1, k2 * l2] ∧
          1 ≤ l0 ∧ 1 ≤ l1 ∧ 1 ≤ l2 ∧ 1 ≤ k0 ∧ 1 ≤ k1 ∧ 1 ≤ k2))) :=
  ⟨⟨⟨by decide, by decide, by decide, by decide, by decide⟩,
      C29_dispatchable_geometry exampleDevice tiledObject (by decide) (by decide) (by decide)
        (by decide)⟩,
    ⟨⟨by decide, by decide, by decide, by decide, by decide⟩,
      C29_dispatchable_geometry exampleDevice pixelObject (by decide) (by decide) (by decide)
        (by decide)⟩,
    ⟨⟨by decide, by decide, by decide, by decide, by decide⟩,
      C29_dispatchable_geometry exampleDevice clippedObject (by decide) (by decide) (by decide)
        (by decide)⟩⟩

set_option maxRecDepth 100000 in
set_option maxHeartbeats 4000000 in
/-- C29, as stated, fails, in two ways. For the smallest shape (1x1 kernel, one output map)
with the tiling 2.64.1.4.1.4.1.1.1 of positive integers, whose grp_tile1 is 2, the
construction succeeds through the 1x1 strategy and leaves the local work sizes 64, 2, 1
and the global work sizes 64, 1, 1: the second global work size, 1, is not a multiple of
the second local work size, 2. For the generic forward strategy with 917504 output maps and
batch 65536 the product of the 65536 blocks of output maps and the batch size, formed in
`int`, wraps to 0: the third global work size is 0, which is not a positive multiple. -/
theorem C29_counterexample :
    (positiveShape (setTiling tinyShape ⟨2, 64, 1, 4, 1, 4, 1, 1, 1⟩) ∧
      positiveTiling (setTiling tinyShape ⟨2, 64, 1, 4, 1, 4, 1, 1, 1⟩) ∧
      intSized (setTiling tinyShape ⟨2, 64, 1, 4, 1, 4, 1, 1, 1⟩) ∧
      (mloConstructDirect2DFwd exampleDevice
          (setTiling tinyShape ⟨2, 64, 1, 4, 1, 4, 1, 1, 1⟩)).map
        (fun r => (r.1, r.2._kernel_name, r.2._l_wk, r.2._g_wk))
        = .ok (0, "MLOpenConv1x1PS".toList, [64, 2, 1], [64, 1, 1]) ∧
      ¬ ((2 : Int) ∣ 1)) ∧
    (positiveShape manyMapsShape ∧
      (mloConstructDirect2DFwdGen manyMapsShape).map (fun r => (r.1, r.2._l_wk, r.2._g_wk))
        = .ok (0, [8, 8, 1], [8, 8, 0]) ∧
      ¬ (∃ k2 : Int, 1 ≤ k2 ∧ (0 : Int) = k2 * 1)) := by
  refine ⟨by decide, by decide, by decide, ?_⟩
  rintro ⟨k2, h1, h2⟩
  omega

end MLOpen
namespace MLOpen

/-! ### C28: a second forward construction changes nothing -/

theorem min_min_self (a b : Int) : min a (min a b) = min a b := by omega

theorem min_stacks_idem (b n x : Int) : min b (min (min b (min n x)) x) = min b (min n x) := by
  omega

/-- The default tiled strategy, forward: the object left by a successful construction is
left unchanged by a second construction. -/
theorem mloConstructDirect2DFwd_idem (dev : Device) (s s' : mlo_construct_direct2D)
    (hk : ¬ (s._kernel_size0 = 1 ∧ s._kernel_size1 = 1)) (hu : unalignedOut s = false)
    (hdir : s._direction ≠ 0)
    (h : mloConstructDirect2DFwd dev s = .ok (0, s')) :
    mloConstructDirect2DFwd dev s' = .ok (0, s') := by
  unfold mloConstructDirect2DFwd at h
  rw [if_neg hk, if_neg (by rw [hu]; decide)] at h
  simp only [bind_eq_ok, pure_eq_ok, Prod.mk.injEq] at h
  obtain ⟨a0, h0, a1, h1, h⟩ := h
  split at h
  · simp only [pure_eq_ok, Prod.mk.injEq] at h
    exact absurd h.1 (by decide)
  rename_i halu
  simp only [bind_eq_ok, pure_eq_ok, Prod.mk.injEq] at h
  obtain ⟨x1, y1, x2, y2, b0, y3, b1, y4, x5, y5, x6, y6, x7, y7, _, rfl⟩ := h
  unfold mloConstructDirect2DFwd
  rw [if_neg hk, if_neg (fun hc => absurd (hc.symm.trans hu) (by decide))]
  dsimp only
  rw [h0, ok_bind, h1, ok_bind]
  rw [if_neg halu, y1, ok_bind]
  simp only [min_min_self, min_stacks_idem, if_neg hdir]
  rw [y2, ok_bind, y3, ok_bind, y4, ok_bind, y5, ok_bind]
  rw [y6, ok_bind, y7, ok_bind]
  rfl

end MLOpen
namespace MLOpen

theorem min_clip (a b n : Int) : min b (min a (min b n)) = min a (min b n) := by omega

/-- The number of stacks that the strategy C keeps is a fixed point: with `A` ALU tiles and
`m` stacks asked for, `per = max 1 (A / m)` tiles per stack and `ns = min (max 1 (A / per))
m` stacks, the tiles per stack computed from `ns` are `per` again. -/
theorem stacks_fixed {A m : Int} (hA : 1 ≤ A) (hm : 1 ≤ m) :
    max 1 (A.tdiv (min (max 1 (A.tdiv (max 1 (A.tdiv m)))) m)) = max 1 (A.tdiv m) := by
  by_cases hlt : A < m
  · have e1 : A.tdiv m = 0 := by
      rw [Int.tdiv_eq_ediv (by omega) (by omega)]
      exact Int.ediv_eq_zero_of_lt (by omega) hlt
    rw [e1]
    have e2 : max (1 : Int) 0 = 1 := by decide
    rw [e2, Int.tdiv_one]
    have e3 : min (max 1 A) m = A := by omega
    rw [e3]
    have e4 : A.tdiv A = 1 := by
      rw [Int.tdiv_eq_ediv (by omega) (by omega)]
      exact Int.ediv_self (by omega)
    rw [e4]
    decide
  · have hd : 1 ≤ A.tdiv m := tdiv_ge_one hm (by omega)
    have e1 : max 1 (A.tdiv m) = A.tdiv m := by omega
    rw [e1]
    have h2 : m ≤ A.tdiv (A.tdiv m) := by
      rw [Int.tdiv_eq_ediv (by omega : 0 ≤ A) (by omega : 0 ≤ A.tdiv m)]
      apply Int.le_ediv_of_mul_le (by omega)
      rw [mul_comm]
      exact tdiv_mul_le_of (by omega) hm
    have e3 : min (max 1 (A.tdiv (A.tdiv m))) m = m := by omega
    rw [e3, e1]

/-- The strategy C, forward: the object left by a successful construction of a shape and
tiling of positive integers is left unchanged by a second construction. -/
theorem mloConstructDirect2DFwdC_idem (dev : Device) (s s' : mlo_construct_direct2D)
    (hk : ¬ (s._kernel_size0 = 1 ∧ s._kernel_size1 = 1)) (hdir : s._direction ≠ 0)
    (hb : 1 ≤ s._batch_sz) (hs : 1 ≤ s._n_stacks)
    (h : mloConstructDirect2DFwdC dev s = .ok (0, s')) :
    mloConstructDirect2DFwdC dev s' = .ok (0, s') := by
  unfold mloConstructDirect2DFwdC at h
  rw [if_neg hk] at h
  simp only [bind_eq_ok, pure_eq_ok, Prod.mk.injEq] at h
  obtain ⟨a0, h0, a1, h1, h⟩ := h
  split at h
  · simp only [pure_eq_ok, Prod.mk.injEq] at h
    exact absurd h.1 (by decide)
  rename_i halu
  simp only [bind_eq_ok, pure_eq_ok, Prod.mk.injEq] at h
  obtain ⟨x1, y1, b0, y2, b1, y3, x4, y4, x5, y5, x6, y6, x7, y7, x8, y8, _, rfl⟩ := h
  have hx4 : x4 = max 1 x1 := by
    rw [(cdiv_eq_ok y4).2]
    exact Int.mul_tdiv_cancel _ (cdiv_eq_ok y4).1
  have hx41 : 1 ≤ x4 := by omega
  have hm1 : 1 ≤ min s._batch_sz s._n_stacks := by omega
  have hfix : max 1 (x4.tdiv (min (max 1 x6) (min s._batch_sz s._n_stacks))) = max 1 x5 := by
    rw [(cdiv_eq_ok y6).2, (cdiv_eq_ok y5).2]
    exact stacks_fixed hx41 hm1
  have hne : min (max 1 x6) (min s._batch_sz s._n_stacks) ≠ 0 := by omega
  unfold mloConstructDirect2DFwdC
  rw [if_neg hk]
  dsimp only
  simp only [min_min_self, min_clip, if_neg hdir]
  rw [h0, ok_bind, h1, ok_bind]
  rw [if_neg halu, y1, ok_bind, y2, ok_bind, y3, ok_bind, y4, ok_bind]
  rw [cdiv_ok _ _ hne, ok_bind, hfix, y6, ok_bind]
  simp only [min_min_self]
  rw [y7, ok_bind, y8, ok_bind]
  rfl

end MLOpen
namespace MLOpen

/-- The exchange step of the 1x1 strategy is a fixed point: with `o` output tiles, the step
`e = min (min n o) N`, which is not 0, and the `q = o / e` steps that fit, the step computed
from `e` and the `q * e` tiles kept is `e` again, and the same `q` steps fit. The number
`N` of maps per group may be negative (when the number of pixels, formed in `int`, wrapped
to a negative value); the step is then `N`. -/
theorem exchange_fixed {n o N no e q : Int} (hn : 1 ≤ n) (ho : 1 ≤ o) (he0 : e ≠ 0)
    (hno : o ≤ no) (he : e = min (min n o) N) (hq : q = o.tdiv e) :
    min no (q * e) = q * e ∧ min (min e (q * e)) N = e ∧ cdiv (q * e) e = .ok q := by
  have h3 : cdiv (q * e) e = .ok q := by
    rw [cdiv_ok _ _ he0]
    exact congrArg Except.ok (Int.mul_tdiv_cancel _ he0)
  by_cases hN : 1 ≤ N
  · have he1 : 1 ≤ e := by omega
    have he2 : e ≤ o := by omega
    have hq1 : 1 ≤ q := by rw [hq]; exact tdiv_ge_one he1 he2
    have hq2 : q * e ≤ o := by rw [hq]; exact tdiv_mul_le_of (by omega) he1
    have hq3 : e ≤ q * e := by
      have := mul_le_mul_of_nonneg_right hq1 (by omega : 0 ≤ e)
      omega
    exact ⟨by omega, by omega, h3⟩
  · have heN : e = N := by omega
    have hneg : 1 ≤ -e := by omega
    have hqe : q * e = o.tdiv (-e) * (-e) := by
      rw [hq]
      have : e = -(-e) := by omega
      conv_lhs => rw [this, Int.tdiv_neg]
      ring
    have hq2 : o.tdiv (-e) * (-e) ≤ o := tdiv_mul_le_of (by omega) hneg
    have hq0 : 0 ≤ o.tdiv (-e) * (-e) :=
      Int.mul_nonneg (tdiv_nonneg_of (by omega) hneg) (by omega)
    rw [hqe]
    rw [hqe] at h3
    exact ⟨by omega, by omega, h3⟩

/-- The 1x1 strategy: the object left by a successful construction of a shape and tiling of
positive integers is left unchanged by a second construction. -/
theorem mloConstructDirect2D1x1_idem (dev : Device) (s s' : mlo_construct_direct2D)
    (hpos : positiveShape s) (htil : positiveTiling s)
    (h : mloConstructDirect2D1x1 dev s = .ok (0, s')) :
    mloConstructDirect2D1x1 dev s' = .ok (0, s') := by
  obtain ⟨p1, p2, p3, p4, p5, p6, p7⟩ := hpos
  obtain ⟨t1, t2, t3, t4, t5, t6, t7, t8, t9⟩ := htil
  unfold mloConstructDirect2D1x1 at h
  dsimp only at h
  rw [cdiv_ok _ _ (by decide : (1 : Int) * 4 ≠ 0), ok_bind] at h
  by_cases hsm :
      (int32 (s._in_width * s._in_height + 1 * 4 - 1)).tdiv (1 * 4) ≤ s._grp_tile0.tdiv 2
  · simp only [hsm, decide_True, if_true] at h
    simp only [bind_eq_ok, pure_eq_ok, Prod.mk.injEq] at h
    obtain ⟨N, hN, nis, y3, q, y4, x5, y5, x6, y6, x7, y7, qg, y8, x9, y9, x10, y10, _, rfl⟩ := h
    obtain ⟨f1, f2, f3⟩ := exchange_fixed t8 (by omega : 1 ≤ min s._n_outputs s._n_out_pix_tiles)
      (cdiv_eq_ok y4).1 (min_le_left _ _) rfl (cdiv_eq_ok y4).2
    unfold mloConstructDirect2D1x1
    dsimp only
    rw [cdiv_ok _ _ (by decide : (1 : Int) * 4 ≠ 0), ok_bind]
    simp only [hsm, decide_True, if_true]
    rw [hN, ok_bind, y3, ok_bind]
    simp only [f1, f2, min_min_self]
    rw [f3, ok_bind, y5, ok_bind, y6, ok_bind, y7, ok_bind, y8, ok_bind, y9, ok_bind, y10,
      ok_bind]
    rfl
  · simp only [hsm, decide_False, if_false, Bool.false_eq_true] at h
    simp only [bind_eq_ok, pure_eq_ok, Prod.mk.injEq] at h
    obtain ⟨N, hN, nis, y3, q, y4, x5, y5, x6, y6, x7, y7, qg, y8, x9, y9, x10, y10, _, rfl⟩ := h
    unfold mloConstructDirect2D1x1
    dsimp only
    rw [cdiv_ok _ _ (by decide : (1 : Int) * 4 ≠ 0), ok_bind]
    simp only [hsm, decide_False, if_false, Bool.false_eq_true, min_min_self]
    subst hN y4
    simp only [pure, Except.pure]
    rw [ok_bind, y3, ok_bind, ok_bind, y5, ok_bind, y6, ok_bind, y7, ok_bind]
    simp only [pure, Except.pure] at y8
    rw [y8, ok_bind, y9, ok_bind, y10, ok_bind]
    rfl

end MLOpen
namespace MLOpen

/-- The first component of a result that maps to `.ok a` is `a`. -/
theorem ok_of_map_fst {ε α β : Type} {x : Except ε (α × β)} {a : α}
    (h : x.map Prod.fst = .ok a) : ∃ b, x = .ok (a, b) := by
  cases x with
  | error e => simp [Except.map] at h
  | ok r =>
    obtain ⟨r1, r2⟩ := r
    simp only [Except.map, Except.ok.injEq] at h
    exact ⟨r2, by rw [← h]⟩

end MLOpen
namespace MLOpen

/-! ### C30: the candidates of the two input tile axes -/

/-- The horizontal input tiles that the search enumerates for a kernel that is not 1x1
follow the narrowing rule applied to the input width. -/
theorem inTile0Candidates_eq (s : mlo_construct_direct2D) (hk : is1x1 s = false) :
    inTile0Candidates s = narrowingRule s._in_width := by
  unfold inTile0Candidates narrowingRule searchSetup
  dsimp only
  rw [hk]
  generalize unalignedOut s = bu
  cases bu <;>
    by_cases w8 : s._in_width ≤ 8 <;> by_cases w16 : s._in_width ≤ 16 <;>
    by_cases w32 : s._in_width ≤ 32 <;> by_cases h8 : s._in_height ≤ 8 <;>
    by_cases h16 : s._in_height ≤ 16 <;>
    simp only [w8, w16, w32, h8, h16, if_true, if_false, Bool.false_eq_true] <;>
    decide

/-- The vertical input tiles that the search enumerates for a kernel that is not 1x1: the
third case of the narrowing tests the input width, not the input height. -/
theorem inTile1Candidates_eq (s : mlo_construct_direct2D) (hk : is1x1 s = false) :
    inTile1Candidates s =
      (if s._in_height ≤ 8 then [8] else if s._in_height ≤ 16 then [16]
       else if s._in_width ≤ 32 then [16, 32] else [8, 16, 32]) := by
  unfold inTile1Candidates searchSetup
  dsimp only
  rw [hk]
  generalize unalignedOut s = bu
  cases bu <;>
    by_cases w8 : s._in_width ≤ 8 <;> by_cases w16 : s._in_width ≤ 16 <;>
    by_cases w32 : s._in_width ≤ 32 <;> by_cases h8 : s._in_height ≤ 8 <;>
    by_cases h16 : s._in_height ≤ 16 <;>
    simp only [w8, w16, w32, h8, h16, if_true, if_false, Bool.false_eq_true] <;>
    decide

/-- C30, evaluated where it fails. For the 3x3 kernel over an input of width 64 and height
24 the search enumerates the vertical input tiles 8, 16, 32, where the narrowing rule gives
16, 32 for the height 24; over an input of width 24 and height 64 it enumerates 16, 32,
where the rule gives 8, 16, 32 for the height 64. The horizontal input tiles follow the
rule in both cases. -/
theorem C30_axis_narrowing :
    (is1x1 wideShape = false ∧ inTile1Candidates wideShape = [8, 16, 32] ∧
      narrowingRule wideShape._in_height = [16, 32] ∧
      inTile0Candidates wideShape = narrowingRule wideShape._in_width) ∧
    (is1x1 highShape = false ∧ inTile1Candidates highShape = [16, 32] ∧
      narrowingRule highShape._in_height = [8, 16, 32] ∧
      inTile0Candidates highShape = narrowingRule highShape._in_width) := by
  decide

end MLOpen
namespace MLOpen

/-! ### C24, C25: the calls of the measurement -/

theorem foldlM_inv2 {σ α : Type} (f : σ → α → Except Fault σ) (I J : σ → Prop) :
    ∀ (l : List α), (∀ st x, x ∈ l → I st → ∃ st', f st x = .ok st' ∧ I st') →
      (∀ st x st', x ∈ l → I st → J st → f st x = .ok st' → J st') →
      ∀ st st', I st → J st → l.foldlM f st = .ok st' → J st' := by
  intro l
  induction l with
  | nil =>
    intro _ _ st st' _ hJ h
    have e : st = st' := pure_eq_ok.mp h
    rw [← e]; exact hJ
  | cons x l ih =>
    intro hf hg st st' hI hJ h
    obtain ⟨st1, h1, hI1⟩ := hf st x (List.mem_cons_self _ _) hI
    rw [List.foldlM_cons, h1, ok_bind] at h
    exact ih (fun st y hy => hf st y (List.mem_cons_of_mem _ hy))
      (fun st y st' hy => hg st y st' (List.mem_cons_of_mem _ hy)) st1 st' hI1
      (hg st x st1 (List.mem_cons_self _ _) hI hJ h1) h

theorem mloConstructDirect2D1x1_tiles (dev : Device) (s s' : mlo_construct_direct2D)
    (ret : Int) (h : mloConstructDirect2D1x1 dev s = .ok (ret, s')) :
    s'._grp_tile0 = s._grp_tile0 ∧ s'._grp_tile1 = s._grp_tile1 ∧ s'._in_tile0 = 4
      ∧ s'._in_tile1 = 1 ∧ s'._out_pix_tile0 = 4 ∧ s'._out_pix_tile1 = 1 := by
  simp only [mloConstructDirect2D1x1, bind_eq_ok, pure_eq_ok, Prod.mk.injEq] at h
  obtain ⟨_, _, _, _, _, _, _, _, _, _, _, _, _, _, _, _, _, _, _, _, _, rfl⟩ := h
  exact ⟨rfl, rfl, rfl, rfl, rfl, rfl⟩

theorem mloConstructDirect2DFwdC_tiles (dev : Device) (s s' : mlo_construct_direct2D)
    (ret : Int) (hk : ¬ (s._kernel_size0 = 1 ∧ s._kernel_size1 = 1))
    (h : mloConstructDirect2DFwdC dev s = .ok (ret, s')) :
    s'._grp_tile0 = s._grp_tile0 ∧ s'._grp_tile1 = s._grp_tile1
      ∧ (s'._in_tile0 = s._in_tile0 ∨ s'._in_tile0 = min s._out_width s._in_tile0)
      ∧ (s'._in_tile1 = s._in_tile1 ∨ s'._in_tile1 = min s._out_height s._in_tile1) := by
  unfold mloConstructDirect2DFwdC at h
  rw [if_neg hk] at h
  simp only [bind_eq_ok, pure_eq_ok, Prod.mk.injEq] at h
  obtain ⟨_, _, _, _, h⟩ := h
  split at h
  · simp only [pure_eq_ok, Prod.mk.injEq] at h
    obtain ⟨_, rfl⟩ := h
    exact ⟨rfl, rfl, Or.inl rfl, Or.inl rfl⟩
  · simp only [bind_eq_ok, pure_eq_ok, Prod.mk.injEq] at h
    obtain ⟨_, _, _, _, _, _, _, _, _, _, _, _, _, _, _, _, _, rfl⟩ := h
    exact ⟨rfl, rfl, Or.inr rfl, Or.inr rfl⟩

/-- What a construction leaves in the group sizes, the input tiles and the output pixel
tiles: the group sizes are kept; the 1x1 strategy sets the tiles to 4x1; the other
strategies keep the input tile or clip it to the output. -/
theorem mloConstructDirect2DFwd_tiles (dev : Device) (s s' : mlo_construct_direct2D)
    (ret : Int) (h : mloConstructDirect2DFwd dev s = .ok (ret, s')) :
    s'._grp_tile0 = s._grp_tile0 ∧ s'._grp_tile1 = s._grp_tile1
      ∧ (s._kernel_size0 = 1 ∧ s._kernel_size1 = 1 →
          s'._in_tile0 = 4 ∧ s'._in_tile1 = 1 ∧ s'._out_pix_tile0 = 4 ∧ s'._out_pix_tile1 = 1)
      ∧ (¬ (s._kernel_size0 = 1 ∧ s._kernel_size1 = 1) →
          (s'._in_tile0 = s._in_tile0 ∨ s'._in_tile0 = min s._out_width s._in_tile0)
          ∧ (s'._in_tile1 = s._in_tile1 ∨ s'._in_tile1 = min s._out_height s._in_tile1)) := by
  unfold mloConstructDirect2DFwd at h
  by_cases hk : s._kernel_size0 = 1 ∧ s._kernel_size1 = 1
  · rw [if_pos hk] at h
    obtain ⟨e1, e2, e3, e4, e5, e6⟩ := mloConstructDirect2D1x1_tiles dev s s' ret h
    exact ⟨e1, e2, fun _ => ⟨e3, e4, e5, e6⟩, fun hn => absurd hk hn⟩
  · rw [if_neg hk] at h
    split at h
    · obtain ⟨e1, e2, e3, e4⟩ := mloConstructDirect2DFwdC_tiles dev s s' ret hk h
      exact ⟨e1, e2, fun hn => absurd hn hk, fun _ => ⟨e3, e4⟩⟩
    · simp only [bind_eq_ok, pure_eq_ok, Prod.mk.injEq] at h
      obtain ⟨_, _, _, _, h⟩ := h
      split at h
      · simp only [pure_eq_ok, Prod.mk.injEq] at h
        obtain ⟨_, rfl⟩ := h
        exact ⟨rfl, rfl, fun hn => absurd hn hk, fun _ => ⟨Or.inl rfl, Or.inl rfl⟩⟩
      · simp only [bind_eq_ok, pure_eq_ok, Prod.mk.injEq] at h
        obtain ⟨_, _, _, _, _, _, _, _, _, _, _, _, _, _, _, _, rfl⟩ := h
        exact ⟨rfl, rfl, fun hn => absurd hn hk, fun _ => ⟨Or.inl rfl, Or.inl rfl⟩⟩

/-- A call of `mloMeasuredLoop` leaves the object as the construction left it, and returns
0 only when the device gave a time. -/
theorem mloMeasuredLoop_spec (dev : Device) (run : mlo_construct_direct2D → Option ℚ)
    (s s' : mlo_construct_direct2D) (t t' : ℚ) (ret : Int)
    (h : mloMeasuredLoop dev run s t = .ok (ret, s', t')) :
    (∃ r0, mloConstructDirect2DFwd dev s = .ok (r0, s')) ∧ (ret = 0 → run s' = some t') := by
  unfold mloMeasuredLoop at h
  simp only [bind_eq_ok] at h
  obtain ⟨⟨r0, s1⟩, hc, h⟩ := h
  dsimp only at h
  by_cases hr : r0 ≠ 0
  · rw [if_pos hr] at h
    simp only [pure_eq_ok, Prod.mk.injEq] at h
    obtain ⟨rfl, rfl, _⟩ := h
    exact ⟨⟨_, hc⟩, fun h0 => absurd h0 hr⟩
  · rw [if_neg hr] at h
    cases hrun : run s1 with
    | none =>
      rw [hrun] at h
      simp only [pure_eq_ok, Prod.mk.injEq] at h
      obtain ⟨rfl, rfl, _⟩ := h
      exact ⟨⟨_, hc⟩, fun h0 => absurd h0 (by decide)⟩
    | some v =>
      rw [hrun] at h
      simp only [pure_eq_ok, Prod.mk.injEq] at h
      obtain ⟨_, rfl, rfl⟩ := h
      exact ⟨⟨_, hc⟩, fun _ => hrun⟩

theorem CallInv_mono {stub : Measurement} {s0 : mlo_construct_direct2D} {st : SearchState}
    {m n : Nat} (hmn : m ≤ n) (h : CallInv stub s0 n st) : CallInv stub s0 m st :=
  ⟨h.1, h.2.1, h.2.2.1, fun k => h.2.2.2.1 (le_trans k hmn),
    fun k => h.2.2.2.2.1 (le_trans k hmn), fun k => h.2.2.2.2.2 (le_trans k hmn)⟩

theorem CallInv_recordRun {stub : Measurement} {s0 : mlo_construct_direct2D}
    {st : SearchState} {n : Nat} (c : Tiling) (h : CallInv stub s0 n st)
    (hs : ∃ i o, st.calls[i]? = some c ∧ stub i o = some st.processing_time
      ∧ getConfigParameters st.obj = getConfigParameters o) :
    CallInv stub s0 n (MLOpen.recordRun st c) := by
  obtain ⟨h1, h2, h3, h4, h5, h6⟩ := h
  have hl : ∀ e ∈ st.log ++ [⟨c, getConfigParameters st.obj, st.processing_time⟩],
      ∃ i o, st.calls[i]? = some e.candidate ∧ stub i o = some e.time
        ∧ e.measured = getConfigParameters o := by
    intro e he
    rcases List.mem_append.mp he with he | he
    · exact h3 e he
    · rw [List.mem_singleton] at he
      subst he
      exact hs
  unfold MLOpen.recordRun
  dsimp only
  split
  · exact ⟨h1, h2, hl, h4, h5, h6⟩
  · exact ⟨h1, h2, hl, h4, h5, h6⟩

end MLOpen
namespace MLOpen

theorem clip_eight {o t t' : Int} (ho : o > 16) (h : t' = t ∨ t' = min o t) (h8 : t' = 8) :
    t = 8 := by
  omega

/-- The tiling fields pass the filters at every call made by the body of the loop over
the stacks. -/
theorem searchBodyS_calls (dev : Device) (stub : Measurement) (sp : SearchSpace)
    (s0 : mlo_construct_direct2D) (hpos : positiveShape s0 ∧ mapsFit s0) (hsp : sp.inRange s0)
    (st : SearchState) (x : Int) (st' : SearchState) (hx : x ∈ loopRange 0 sp.stack_cnt)
    (hI : SearchInv dev s0 8 st) (hJ : CallInv stub s0 8 st)
    (h : searchBodyS dev stub sp st x = .ok st') : CallInv stub s0 8 st' := by
  obtain ⟨hsh, hmem, hr0, hr1, hc, hlog⟩ := hI
  obtain ⟨_, _, _, _, _, _, hstk⟩ := hsp
  have hc9 : candidateInv s0 9 { st.obj with _n_stacks := arrAt sp.n_in_stacks_sz x } := by
    obtain ⟨c1, c2, c3, c4, c5, c6, c7, c8, _⟩ := hc
    exact ⟨fun _ => c1 (by decide), fun _ => c2 (by decide), fun _ => c3 (by decide),
      fun _ => c4 (by decide), fun _ => c5 (by decide), fun _ => c6 (by decide),
      fun _ => c7 (by decide), fun _ => c8 (by decide), fun _ => hstk x hx⟩
  have hsh1 : shapeOf { st.obj with _n_stacks := arrAt sp.n_in_stacks_sz x } = shapeOf s0 := hsh
  have hx11 := is1x1_congr hsh1
  obtain ⟨f1, f2, f3, f4, f5, f6, f7, f8, f9⟩ := shape_fields hsh
  obtain ⟨b, hb, hbalu⟩ := tooManyAlus_ok { st.obj with _n_stacks := arrAt sp.n_in_stacks_sz x }
    (fun hf => ⟨(hc9.2.2.2.2.2.1 (by decide)).2.2.1 (hx11.symm.trans hf),
      (hc9.2.2.2.2.1 (by decide)).2.2.1 (hx11.symm.trans hf)⟩)
  unfold searchBodyS at h
  dsimp only at h
  rw [hb, ok_bind] at h
  by_cases hbt : b = true
  · rw [if_pos hbt] at h
    have e := pure_eq_ok.mp h
    rw [← e]
    exact hJ
  · rw [if_neg hbt] at h
    by_cases hst : arrAt sp.n_in_stacks_sz x > st.obj._batch_sz
    · rw [if_pos hst] at h
      have e := pure_eq_ok.mp h
      rw [← e]
      exact hJ
    · rw [if_neg hst] at h
      obtain ⟨ret, s', t', hm, hsh', hmem', hc', hval⟩ := mloMeasuredLoop_ok dev (stub st.n_calls)
        s0 { st.obj with _n_stacks := arrAt sp.n_in_stacks_sz x } st.processing_time hpos hsh1 hc9
      rw [hm, ok_bind] at h
      dsimp only at h
      obtain ⟨⟨r0, hcons⟩, hrun⟩ := mloMeasuredLoop_spec _ _ _ _ _ _ _ hm
      obtain ⟨g0, g1, t1x1, tn⟩ := mloConstructDirect2DFwd_tiles _ _ _ _ hcons
      obtain ⟨j1, j2, j3, j4, j5, j6⟩ := hJ
      have hP : passedFilters s0
          (getConfigParameters { st.obj with _n_stacks := arrAt sp.n_in_stacks_sz x }) := by
        refine ⟨⟨(hc.2.2.2.2.2.2.1 (by decide)).2.2, (hc.2.2.2.2.2.2.2.1 (by decide)).2.2, ?_,
          fun hf => hbalu (Bool.eq_false_iff.mpr hbt) (hx11.trans hf), ?_⟩, ?_⟩
        · have := not_lt.mp hst
          rw [f3] at this
          exact this
        · intro ha
          by_cases hk : is1x1 s0 = true
          · exact ⟨j5 (by decide) hk, j6 (by decide) hk⟩
          · have hk0 := Bool.eq_false_iff.mpr hk
            rcases ha with ha | ha
            · exact absurd ha hk
            · exact ⟨(hc.2.2.2.2.1 (by decide)).2.2.2 hk0 ha,
                (hc.2.2.2.2.2.1 (by decide)).2.2.2 hk0 ha⟩
        · exact j4 (by decide)
      have hJ' : CallInv stub s0 8 { st with
          obj := s', ret := ret, processing_time := t', n_calls := st.n_calls + 1,
          calls := st.calls ++
            [getConfigParameters { st.obj with _n_stacks := arrAt sp.n_in_stacks_sz x }] } := by
        refine ⟨?_, ?_, ?_, ?_, ?_, ?_⟩
        · intro c hcm
          rcases List.mem_append.mp hcm with hcm | hcm
          · exact j1 c hcm
          · rw [List.mem_singleton] at hcm
            rw [hcm]
            exact hP
        · show (st.calls ++ _).length = st.n_calls + 1
          rw [List.length_append, j2]
          rfl
        · intro e he
          obtain ⟨i, o, hi, hrest⟩ := j3 e he
          refine ⟨i, o, ?_, hrest⟩
          show (st.calls ++ _)[i]? = _
          rw [List.getElem?_append_left (List.getElem?_eq_some.mp hi).1]
          exact hi
        · intro _ hout
          have hd := j4 (by decide) hout
          have g0' : s'._grp_tile0 = st.obj._grp_tile0 := g0
          have g1' : s'._grp_tile1 = st.obj._grp_tile1 := g1
          refine ⟨?_, by rw [g0', g1']; exact hd.2⟩
          by_cases hk : st.obj._kernel_size0 = 1 ∧ st.obj._kernel_size1 = 1
          · have e4 : s'._in_tile0 = 4 := (t1x1 hk).1
            exact fun hc8 => absurd (e4.symm.trans hc8.1) (by decide)
          · obtain ⟨ta, tb⟩ := tn hk
            have ta' : s'._in_tile0 = st.obj._in_tile0
                ∨ s'._in_tile0 = min st.obj._out_width st.obj._in_tile0 := ta
            have tb' : s'._in_tile1 = st.obj._in_tile1
                ∨ s'._in_tile1 = min st.obj._out_height st.obj._in_tile1 := tb
            rw [f6] at ta'
            rw [f7] at tb'
            exact fun hc8 => hd.1 ⟨clip_eight hout.2 ta' hc8.1, clip_eight hout.1 tb' hc8.2⟩
        · intro _ hk
          have hk1 : st.obj._kernel_size0 = 1 ∧ st.obj._kernel_size1 = 1 := by
            have := hx11.trans hk
            exact of_decide_eq_true this
          obtain ⟨_, e2, _, e4⟩ := t1x1 hk1
          rw [e2, e4]
        · intro _ hk
          have hk1 : st.obj._kernel_size0 = 1 ∧ st.obj._kernel_size1 = 1 := by
            have := hx11.trans hk
            exact of_decide_eq_true this
          obtain ⟨e1, _, e3, _⟩ := t1x1 hk1
          rw [e1, e3]
      by_cases hr : ret ≠ 0
      · rw [if_pos hr] at h
        have e := pure_eq_ok.mp h
        rw [← e]
        exact hJ'
      · rw [if_neg hr] at h
        have e := pure_eq_ok.mp h
        rw [← e]
        refine CallInv_recordRun _ hJ' ⟨st.n_calls, s', ?_, hrun (not_not.mp hr), rfl⟩
        show (st.calls ++ _)[st.n_calls]? = _
        rw [← j2]
        exact List.getElem?_concat_length _ _

end MLOpen
namespace MLOpen

theorem searchBodyIT_calls (dev : Device) (stub : Measurement) (sp : SearchSpace)
    (s0 : mlo_construct_direct2D) (hpos : positiveShape s0 ∧ mapsFit s0) (hsp : sp.inRange s0)
    (st : SearchState) (x : Int) (st' : SearchState) (hx : 1 ≤ x ∧ x ≤ 16)
    (hI : SearchInv dev s0 7 st) (hJ : CallInv stub s0 7 st)
    (h : searchBodyIT dev stub sp st x = .ok st') : CallInv stub s0 7 st' := by
  obtain ⟨hsh, hm, hr0, hr1, hc, hlog⟩ := hI
  obtain ⟨f1, _⟩ := shape_fields hsh
  obtain ⟨c1, c2, c3, c4, c5, c6, c7, _, _⟩ := hc
  obtain ⟨j1, j2, j3, j4, j5, j6⟩ := hJ
  unfold searchBodyIT at h
  dsimp only at h
  by_cases hn : st.obj._n_inputs < x
  · rw [if_pos hn] at h
    have e := pure_eq_ok.mp h
    rw [← e]
    exact ⟨j1, j2, j3, j4, j5, j6⟩
  · rw [if_neg hn] at h
    have hc8 : candidateInv s0 8 { st.obj with _n_in_data_tiles := x } :=
      ⟨fun _ => c1 (by decide), fun _ => c2 (by decide), fun _ => c3 (by decide),
        fun _ => c4 (by decide), fun _ => c5 (by decide), fun _ => c6 (by decide),
        fun _ => c7 (by decide), fun _ => ⟨hx.1, hx.2, by rw [← f1]; exact not_lt.mp hn⟩,
        fun h => absurd h (by decide)⟩
    have hJ8 : CallInv stub s0 8 { st with obj := { st.obj with _n_in_data_tiles := x } } :=
      ⟨j1, j2, j3, fun _ => j4 (by decide), fun _ => j5 (by decide), fun _ => j6 (by decide)⟩
    exact CallInv_mono (by decide)
      (foldlM_inv2 (searchBodyS dev stub sp) (SearchInv dev s0 8) (CallInv stub s0 8) _
        (fun st y hy hI => searchBodyS_inv dev stub sp s0 hpos hsp st y hy hI)
        (fun st y st' hy hI hJ h => searchBodyS_calls dev stub sp s0 hpos hsp st y st' hy hI hJ h)
        { st with obj := { st.obj with _n_in_data_tiles := x } } st'
        ⟨hsh, hm, hr0, hr1, hc8, hlog⟩ hJ8 h)

theorem searchInTilesRange_calls (stub : Measurement) (s0 : mlo_construct_direct2D) (n : Nat)
    (st st' : SearchState) (hJ : CallInv stub s0 n st)
    (h : searchInTilesRange st = .ok st') : CallInv stub s0 n st' := by
  unfold searchInTilesRange at h
  dsimp only at h
  split at h
  · simp only [bind_eq_ok] at h
    obtain ⟨_, _, h⟩ := h
    split at h
    · simp only [bind_eq_ok] at h
      obtain ⟨_, _, _, _, h⟩ := h
      split at h
      · split at h
        · simp at h
        · simp only [pure_eq_ok] at h
          subst h
          exact hJ
      · simp only [pure_eq_ok] at h
        subst h
        exact hJ
    · simp only [pure_eq_ok] at h
      subst h
      exact hJ
  · simp only [pure_eq_ok] at h
    subst h
    exact hJ

theorem searchBodyOT_calls (dev : Device) (stub : Measurement) (sp : SearchSpace)
    (s0 : mlo_construct_direct2D) (hpos : positiveShape s0 ∧ mapsFit s0)
    (hmem : 6144 ≤ dev.local_mem_size)
    (hsp : sp.inRange s0) (st : SearchState) (x : Int) (st' : SearchState)
    (hx : x ∈ loopRange (arrAt sp.n_out_tiles_rg 0) (arrAt sp.n_out_tiles_rg 1 + 1))
    (hI : SearchInv dev s0 6 st) (hJ : CallInv stub s0 6 st)
    (h : searchBodyOT dev stub sp st x = .ok st') : CallInv stub s0 6 st' := by
  obtain ⟨hsh, hm, hr0, hr1, hc, hlog⟩ := hI
  obtain ⟨_, f2, _⟩ := shape_fields hsh
  obtain ⟨c1, c2, c3, c4, c5, c6, _, _, _⟩ := hc
  obtain ⟨j1, j2, j3, j4, j5, j6⟩ := hJ
  have hxr := hsp.2.2.2.2.2.1 x hx
  unfold searchBodyOT at h
  dsimp only at h
  by_cases hn : st.obj._n_outputs < x
  · rw [if_pos hn] at h
    have e := pure_eq_ok.mp h
    rw [← e]
    exact ⟨j1, j2, j3, j4, j5, j6⟩
  · rw [if_neg hn] at h
    have hc7 : candidateInv s0 7 { st.obj with _n_out_pix_tiles := x } :=
      ⟨fun _ => c1 (by decide), fun _ => c2 (by decide), fun _ => c3 (by decide),
        fun _ => c4 (by decide), fun _ => c5 (by decide), fun _ => c6 (by decide),
        fun _ => ⟨hxr.1, hxr.2, by rw [← f2]; exact not_lt.mp hn⟩,
        fun h => absurd h (by decide), fun h => absurd h (by decide)⟩
    have hJ7 : CallInv stub s0 7 { st with obj := { st.obj with _n_out_pix_tiles := x } } :=
      ⟨j1, j2, j3, fun _ => j4 (by decide), fun _ => j5 (by decide), fun _ => j6 (by decide)⟩
    obtain ⟨st2, h2, hI2⟩ := searchInTilesRange_inv dev s0 hpos hmem
      { st with obj := { st.obj with _n_out_pix_tiles := x } } ⟨hsh, hm, hr0, hr1, hc7, hlog⟩
    rw [h2, ok_bind] at h
    have hJ2 := searchInTilesRange_calls stub s0 7 _ st2 hJ7 h2
    exact CallInv_mono (by decide)
      (foldlM_inv2 (searchBodyIT dev stub sp) (SearchInv dev s0 7) (CallInv stub s0 7)
        (loopRange st2.n_in_tiles_rg0 (st2.n_in_tiles_rg1 + 1))
        (fun st y hy hI => searchBodyIT_inv dev stub sp s0 hpos hsp st y
          (by have := mem_loopRange hy; have := hI2.2.2.1; have := hI2.2.2.2.1; omega) hI)
        (fun st y st' hy hI hJ h => searchBodyIT_calls dev stub sp s0 hpos hsp st y st'
          (by have := mem_loopRange hy; have := hI2.2.2.1; have := hI2.2.2.2.1; omega) hI hJ h)
        st2 st' hI2 hJ2 h)

theorem searchBodyL_calls (dev : Device) (stub : Measurement) (sp : SearchSpace)
    (s0 : mlo_construct_direct2D) (hpos : positiveShape s0 ∧ mapsFit s0)
    (hmem : 6144 ≤ dev.local_mem_size)
    (hsp : sp.inRange s0) (st : SearchState) (x : Int) (st' : SearchState)
    (hx : x ∈ loopRange (if sp.unaligned then arrAt sp.out_pix_tile_sz 0 else 0)
      sp.out_pix_tl_cnt)
    (hI : SearchInv dev s0 5 st) (hJ : CallInv stub s0 5 st)
    (h : searchBodyL dev stub sp st x = .ok st') : CallInv stub s0 5 st' := by
  obtain ⟨hsh, hm, hr0, hr1, hc, hlog⟩ := hI
  obtain ⟨c1, c2, c3, c4, c5, _, _, _, _⟩ := hc
  obtain ⟨j1, j2, j3, j4, j5, j6⟩ := hJ
  have hxr := hsp.2.2.2.2.1 x hx
  have hx11 := is1x1_congr hsh
  have hw : 0 ≤ (if is1x1 st.obj = true then 4
        else if sp.unaligned = true then x else arrAt sp.out_pix_tile_sz x) ∧
      (if is1x1 st.obj = true then 4
        else if sp.unaligned = true then x else arrAt sp.out_pix_tile_sz x) ≤ 5 ∧
      (is1x1 s0 = false → 1 ≤ (if is1x1 st.obj = true then 4
        else if sp.unaligned = true then x else arrAt sp.out_pix_tile_sz x)) := by
    by_cases hk : is1x1 st.obj = true
    · rw [if_pos hk]
      exact ⟨by decide, by decide, fun _ => by decide⟩
    · rw [if_neg hk]
      exact hxr
  unfold searchBodyL at h
  dsimp only at h
  generalize (if is1x1 st.obj = true then 4
        else if sp.unaligned = true then x else arrAt sp.out_pix_tile_sz x) = w at hw h
  by_cases hn : w > st.obj._in_tile0
  · rw [if_pos hn] at h
    have e := pure_eq_ok.mp h
    rw [← e]
    exact ⟨j1, j2, j3, j4, j5, fun k => absurd k (by decide)⟩
  · rw [if_neg hn] at h
    have hc6 : candidateInv s0 6 { st.obj with _out_pix_tile0 := w } :=
      ⟨fun _ => c1 (by decide), fun _ => c2 (by decide), fun _ => c3 (by decide),
        fun _ => c4 (by decide), fun _ => c5 (by decide),
        fun _ => ⟨hw.1, hw.2.1, hw.2.2, fun _ _ => not_lt.mp hn⟩,
        fun h => absurd h (by decide), fun h => absurd h (by decide),
        fun h => absurd h (by decide)⟩
    have hJ6 : CallInv stub s0 6 { st with obj := { st.obj with _out_pix_tile0 := w } } :=
      ⟨j1, j2, j3, fun _ => j4 (by decide), fun _ => j5 (by decide),
        fun _ _ => not_lt.mp hn⟩
    exact CallInv_mono (by decide)
      (foldlM_inv2 (searchBodyOT dev stub sp) (SearchInv dev s0 6) (CallInv stub s0 6) _
        (fun st y hy hI => searchBodyOT_inv dev stub sp s0 hpos hmem hsp st y hy hI)
        (fun st y st' hy hI hJ h =>
          searchBodyOT_calls dev stub sp s0 hpos hmem hsp st y st' hy hI hJ h)
        { st with obj := { st.obj with _out_pix_tile0 := w } } st'
        ⟨hsh, hm, hr0, hr1, hc6, hlog⟩ hJ6 h)

theorem searchBodyK_calls (dev : Device) (stub : Measurement) (sp : SearchSpace)
    (s0 : mlo_construct_direct2D) (hpos : positiveShape s0 ∧ mapsFit s0)
    (hmem : 6144 ≤ dev.local_mem_size)
    (hsp : sp.inRange s0) (st : SearchState) (x : Int) (st' : SearchState)
    (hx : x ∈ loopRange (if sp.unaligned then arrAt sp.out_pix_tile_sz 0 else 0)
      sp.out_pix_tl_cnt)
    (hI : SearchInv dev s0 4 st) (hJ : CallInv stub s0 4 st)
    (h : searchBodyK dev stub sp st x = .ok st') : CallInv stub s0 4 st' := by
  obtain ⟨hsh, hm, hr0, hr1, hc, hlog⟩ := hI
  obtain ⟨c1, c2, c3, c4, _, _, _, _, _⟩ := hc
  obtain ⟨j1, j2, j3, j4, j5, j6⟩ := hJ
  have hw := hsp.2.2.2.2.1 x hx
  unfold searchBodyK at h
  dsimp only at h
  generalize (if sp.unaligned = true then x else arrAt sp.out_pix_tile_sz x) = w at hw h
  by_cases hn : w > st.obj._in_tile1
  · rw [if_pos hn] at h
    have e := pure_eq_ok.mp h
    rw [← e]
    exact ⟨j1, j2, j3, j4, fun k => absurd k (by decide), fun k => absurd k (by decide)⟩
  · rw [if_neg hn] at h
    have hc5 : candidateInv s0 5 { st.obj with _out_pix_tile1 := w } :=
      ⟨fun _ => c1 (by decide), fun _ => c2 (by decide), fun _ => c3 (by decide),
        fun _ => c4 (by decide),
        fun _ => ⟨hw.1, hw.2.1, hw.2.2, fun _ _ => not_lt.mp hn⟩,
        fun h => absurd h (by decide), fun h => absurd h (by decide),
        fun h => absurd h (by decide), fun h => absurd h (by decide)⟩
    have hJ5 : CallInv stub s0 5 { st with obj := { st.obj with _out_pix_tile1 := w } } :=
      ⟨j1, j2, j3, fun _ => j4 (by decide), fun _ _ => not_lt.mp hn,
        fun k => absurd k (by decide)⟩
    exact CallInv_mono (by decide)
      (foldlM_inv2 (searchBodyL dev stub sp) (SearchInv dev s0 5) (CallInv stub s0 5) _
        (fun st y hy hI => searchBodyL_inv dev stub sp s0 hpos hmem hsp st y hy hI)
        (fun st y st' hy hI hJ h =>
          searchBodyL_calls dev stub sp s0 hpos hmem hsp st y st' hy hI hJ h)
        { st with obj := { st.obj with _out_pix_tile1 := w } } st'
        ⟨hsh, hm, hr0, hr1, hc5, hlog⟩ hJ5 h)

theorem searchBodyI_calls (dev : Device) (stub : Measurement) (sp : SearchSpace)
    (s0 : mlo_construct_direct2D) (hpos : positiveShape s0 ∧ mapsFit s0)
    (hmem : 6144 ≤ dev.local_mem_size)
    (hsp : sp.inRange s0) (st : SearchState) (x : Int) (st' : SearchState)
    (hx : x ∈ loopRange 0 sp.n_tile0_sz)
    (hI : SearchInv dev s0 3 st) (hJ : CallInv stub s0 3 st)
    (h : searchBodyI dev stub sp st x = .ok st') : CallInv stub s0 3 st' := by
  obtain ⟨hsh, hm, hr0, hr1, hc, hlog⟩ := hI
  obtain ⟨_, _, _, _, _, f6, f7, _, _⟩ := shape_fields hsh
  obtain ⟨c1, c2, c3, _, _, _, _, _, _⟩ := hc
  obtain ⟨j1, j2, j3, j4, j5, j6⟩ := hJ
  have hw := hsp.2.2.2.1 x hx
  have hc4 : candidateInv s0 4 { st.obj with _in_tile0 := arrAt sp.tile_sz0 x } :=
    ⟨fun _ => c1 (by decide), fun _ => c2 (by decide), fun _ => c3 (by decide),
      fun _ => hw, fun h => absurd h (by decide), fun h => absurd h (by decide),
      fun h => absurd h (by decide), fun h => absurd h (by decide),
      fun h => absurd h (by decide)⟩
  have hJ3 : CallInv stub s0 3
      (MLOpen.countRun { st with obj := { st.obj with _in_tile0 := arrAt sp.tile_sz0 x } }) :=
    ⟨j1, j2, j3, fun k => absurd k (by decide), fun k => absurd k (by decide),
      fun k => absurd k (by decide)⟩
  unfold searchBodyI at h
  dsimp only at h
  split at h
  · have e := pure_eq_ok.mp h
    rw [← e]
    exact hJ3
  split at h
  · have e := pure_eq_ok.mp h
    rw [← e]
    exact hJ3
  rename_i hf
  split at h
  · have e := pure_eq_ok.mp h
    rw [← e]
    exact hJ3
  · have hJ4 : CallInv stub s0 4
        { st with obj := { st.obj with _in_tile0 := arrAt sp.tile_sz0 x } } := by
      refine ⟨j1, j2, j3, fun _ hout => ?_, fun k => absurd k (by decide),
        fun k => absurd k (by decide)⟩
      rw [← f6, ← f7] at hout
      exact ⟨fun hc8 => hf ⟨hout.1, hout.2, Or.inl ⟨hc8.2, hc8.1⟩⟩,
        fun hc8 => hf ⟨hout.1, hout.2, Or.inr hc8⟩⟩
    exact CallInv_mono (by decide)
      (foldlM_inv2 (searchBodyK dev stub sp) (SearchInv dev s0 4) (CallInv stub s0 4) _
        (fun st y hy hI => searchBodyK_inv dev stub sp s0 hpos hmem hsp st y hy hI)
        (fun st y st' hy hI hJ h =>
          searchBodyK_calls dev stub sp s0 hpos hmem hsp st y st' hy hI hJ h)
        { st with obj := { st.obj with _in_tile0 := arrAt sp.tile_sz0 x } } st'
        ⟨hsh, hm, hr0, hr1, hc4, hlog⟩ hJ4 h)

theorem searchBodyJ_calls (dev : Device) (stub : Measurement) (sp : SearchSpace)
    (s0 : mlo_construct_direct2D) (hpos : positiveShape s0 ∧ mapsFit s0)
    (hmem : 6144 ≤ dev.local_mem_size)
    (hsp : sp.inRange s0) (st : SearchState) (x : Int) (st' : SearchState)
    (hx : x ∈ loopRange 0 sp.n_tile1_sz)
    (hI : SearchInv dev s0 2 st) (hJ : CallInv stub s0 2 st)
    (h : searchBodyJ dev stub sp st x = .ok st') : CallInv stub s0 2 st' := by
  obtain ⟨hsh, hm, hr0, hr1, hc, hlog⟩ := hI
  obtain ⟨c1, c2, _, _, _, _, _, _, _⟩ := hc
  obtain ⟨j1, j2, j3, j4, j5, j6⟩ := hJ
  have hw := hsp.2.2.1 x hx
  have hc3 : candidateInv s0 3 { st.obj with _in_tile1 := arrAt sp.tile_sz1 x } :=
    ⟨fun _ => c1 (by decide), fun _ => c2 (by decide), fun _ => hw,
      fun h => absurd h (by decide), fun h => absurd h (by decide),
      fun h => absurd h (by decide), fun h => absurd h (by decide),
      fun h => absurd h (by decide), fun h => absurd h (by decide)⟩
  unfold searchBodyJ at h
  dsimp only at h
  split at h
  · have e := pure_eq_ok.mp h
    rw [← e]
    exact ⟨j1, j2, j3, fun k => absurd k (by decide), fun k => absurd k (by decide),
      fun k => absurd k (by decide)⟩
  · have hJ3 : CallInv stub s0 3
        { st with obj := { st.obj with _in_tile1 := arrAt sp.tile_sz1 x } } :=
      ⟨j1, j2, j3, fun k => absurd k (by decide), fun k => absurd k (by decide),
        fun k => absurd k (by decide)⟩
    exact CallInv_mono (by decide)
      (foldlM_inv2 (searchBodyI dev stub sp) (SearchInv dev s0 3) (CallInv stub s0 3) _
        (fun st y hy hI => searchBodyI_inv dev stub sp s0 hpos hmem hsp st y hy hI)
        (fun st y st' hy hI hJ h =>
          searchBodyI_calls dev stub sp s0 hpos hmem hsp st y st' hy hI hJ h)
        { st with obj := { st.obj with _in_tile1 := arrAt sp.tile_sz1 x } } st'
        ⟨hsh, hm, hr0, hr1, hc3, hlog⟩ hJ3 h)

theorem searchBodyG0_calls (dev : Device) (stub : Measurement) (sp : SearchSpace)
    (s0 : mlo_construct_direct2D) (hpos : positiveShape s0 ∧ mapsFit s0)
    (hmem : 6144 ≤ dev.local_mem_size)
    (hsp : sp.inRange s0) (st : SearchState) (x : Int) (st' : SearchState)
    (hx : x ∈ loopRange 0 sp.n_grp_tiles0)
    (hI : SearchInv dev s0 1 st) (hJ : CallInv stub s0 1 st)
    (h : searchBodyG0 dev stub sp st x = .ok st') : CallInv stub s0 1 st' := by
  obtain ⟨hsh, hm, hr0, hr1, hc, hlog⟩ := hI
  obtain ⟨c1, _, _, _, _, _, _, _, _⟩ := hc
  obtain ⟨j1, j2, j3, j4, j5, j6⟩ := hJ
  have hw := hsp.2.1 x hx
  have hc2 : candidateInv s0 2 { st.obj with _grp_tile0 := arrAt sp.grp_tl_ln x } :=
    ⟨fun _ => c1 (by decide), fun _ => hw, fun h => absurd h (by decide),
      fun h => absurd h (by decide), fun h => absurd h (by decide),
      fun h => absurd h (by decide), fun h => absurd h (by decide),
      fun h => absurd h (by decide), fun h => absurd h (by decide)⟩
  have hJ2 : CallInv stub s0 2
      { st with obj := { st.obj with _grp_tile0 := arrAt sp.grp_tl_ln x } } :=
    ⟨j1, j2, j3, fun k => absurd k (by decide), fun k => absurd k (by decide),
      fun k => absurd k (by decide)⟩
  unfold searchBodyG0 at h
  dsimp only at h
  exact CallInv_mono (by decide)
    (foldlM_inv2 (searchBodyJ dev stub sp) (SearchInv dev s0 2) (CallInv stub s0 2) _
      (fun st y hy hI => searchBodyJ_inv dev stub sp s0 hpos hmem hsp st y hy hI)
      (fun st y st' hy hI hJ h =>
        searchBodyJ_calls dev stub sp s0 hpos hmem hsp st y st' hy hI hJ h)
        { st with obj := { st.obj with _grp_tile0 := arrAt sp.grp_tl_ln x } } st'
        ⟨hsh, hm, hr0, hr1, hc2, hlog⟩ hJ2 h)

theorem searchBodyG1_calls (dev : Device) (stub : Measurement) (sp : SearchSpace)
    (s0 : mlo_construct_direct2D) (hpos : positiveShape s0 ∧ mapsFit s0)
    (hmem : 6144 ≤ dev.local_mem_size)
    (hsp : sp.inRange s0) (st : SearchState) (x : Int) (st' : SearchState)
    (hx : x ∈ loopRange 0 sp.n_grp_tiles1)
    (hI : SearchInv dev s0 0 st) (hJ : CallInv stub s0 0 st)
    (h : searchBodyG1 dev stub sp st x = .ok st') : CallInv stub s0 0 st' := by
  obtain ⟨hsh, hm, hr0, hr1, hc, hlog⟩ := hI
  obtain ⟨j1, j2, j3, j4, j5, j6⟩ := hJ
  have hxr := hsp.1 x hx
  have hw : 1 ≤ (if is1x1 st.obj = true then 1 else arrAt sp.grp_tl_ln x) ∧
      (if is1x1 st.obj = true then 1 else arrAt sp.grp_tl_ln x) ≤ 256 := by
    split
    · exact ⟨by decide, by decide⟩
    · exact hxr
  unfold searchBodyG1 at h
  dsimp only at h
  generalize (if is1x1 st.obj = true then 1 else arrAt sp.grp_tl_ln x) = w at hw h
  have hc1 : candidateInv s0 1 { st.obj with _grp_tile1 := w } :=
    ⟨fun _ => hw, fun h => absurd h (by decide), fun h => absurd h (by decide),
      fun h => absurd h (by decide), fun h => absurd h (by decide),
      fun h => absurd h (by decide), fun h => absurd h (by decide),
      fun h => absurd h (by decide), fun h => absurd h (by decide)⟩
  have hJ1 : CallInv stub s0 1 { st with obj := { st.obj with _grp_tile1 := w } } :=
    ⟨j1, j2, j3, fun k => absurd k (by decide), fun k => absurd k (by decide),
      fun k => absurd k (by decide)⟩
  exact CallInv_mono (by decide)
    (foldlM_inv2 (searchBodyG0 dev stub sp) (SearchInv dev s0 1) (CallInv stub s0 1) _
      (fun st y hy hI => searchBodyG0_inv dev stub sp s0 hpos hmem hsp st y hy hI)
      (fun st y st' hy hI hJ h =>
        searchBodyG0_calls dev stub sp s0 hpos hmem hsp st y st' hy hI hJ h)
        { st with obj := { st.obj with _grp_tile1 := w } } st'
        ⟨hsh, hm, hr0, hr1, hc1, hlog⟩ hJ1 h)

/-- The search loops return, and the tiling fields passed the filters at every call of
`mloMeasuredLoop`. -/
theorem searchLoops_calls (dev : Device) (stub : Measurement) (s : mlo_construct_direct2D)
    (min : Tiling) (hpos : positiveShape s ∧ mapsFit s)
    (hmem : 6144 ≤ dev.local_mem_size)
    (hm : s._dev_local_mem_sz = dev.local_mem_size) :
    ∃ st, searchLoops dev stub s min = .ok st ∧ SearchInv dev s 0 st ∧ CallInv stub s 0 st := by
  obtain ⟨st, hst, hI⟩ := searchLoops_ok dev stub s min hpos hmem hm
  refine ⟨st, hst, hI, ?_⟩
  obtain ⟨hsp, hr0, hr1⟩ := searchSetup_inRange s
  unfold searchLoops at hst
  dsimp only at hst
  exact foldlM_inv2 (searchBodyG1 dev stub (searchSetup s).1) (SearchInv dev s 0)
    (CallInv stub s 0) _
    (fun st y hy hI => searchBodyG1_inv dev stub _ s hpos hmem hsp st y hy hI)
    (fun st y st' hy hI hJ h => searchBodyG1_calls dev stub _ s hpos hmem hsp st y st' hy hI hJ h)
    _ st
    ⟨rfl, hm, hr0, hr1,
      ⟨fun h => absurd h (by decide), fun h => absurd h (by decide),
        fun h => absurd h (by decide), fun h => absurd h (by decide),
        fun h => absurd h (by decide), fun h => absurd h (by decide),
        fun h => absurd h (by decide), fun h => absurd h (by decide),
        fun h => absurd h (by decide)⟩,
      fun e he => absurd he (List.not_mem_nil _)⟩
    ⟨fun c hc => absurd hc (List.not_mem_nil _), rfl,
      fun e he => absurd he (List.not_mem_nil _),
      fun k => absurd k (by decide), fun k => absurd k (by decide),
      fun k => absurd k (by decide)⟩
    hst

end MLOpen
namespace MLOpen

/-! ### C24: the course of the search does not depend on the outcomes of the measurements -/

theorem bind_course {α : Type} (ma mb : Except Fault SearchState)
    (f g : SearchState → Except Fault α) (r : α → β)
    (h : ma.map SearchState.course = mb.map SearchState.course)
    (hfg : ∀ a b, a.course = b.course → (f a).map r = (g b).map r) :
    (ma >>= f).map r = (mb >>= g).map r := by
  cases ma with
  | error e =>
    cases mb with
    | error e' =>
      have e1 : e = e' := Except.error.inj h
      rw [e1]
      rfl
    | ok b => exact absurd h (by simp [Except.map])
  | ok a =>
    cases mb with
    | error e' => exact absurd h (by simp [Except.map])
    | ok b => exact hfg a b (Except.ok.inj h)

theorem foldlM_course {α : Type} (f g : SearchState → α → Except Fault SearchState) :
    ∀ (l : List α),
      (∀ a b x, a.course = b.course →
        (f a x).map SearchState.course = (g b x).map SearchState.course) →
      ∀ a b, a.course = b.course →
        (l.foldlM f a).map SearchState.course = (l.foldlM g b).map SearchState.course := by
  intro l
  induction l with
  | nil =>
    intro _ a b h
    show (Except.ok a.course : Except Fault _) = Except.ok b.course
    rw [h]
  | cons x l ih =>
    intro hfg a b h
    rw [List.foldlM_cons, List.foldlM_cons]
    exact bind_course _ _ _ _ _ (hfg a b x h) (fun a' b' h' => ih hfg a' b' h')

theorem course_countRun (a b : SearchState) (h : a.course = b.course) :
    (MLOpen.countRun a).course = (MLOpen.countRun b).course := by
  simp only [SearchState.course, Prod.mk.injEq] at h
  obtain ⟨h1, h2, h3, h4, h5, h6⟩ := h
  simp only [SearchState.course, MLOpen.countRun, h1, h2, h3, h4, h5, h6]

theorem course_recordRun (a : SearchState) (c : Tiling) :
    (MLOpen.recordRun a c).course = (MLOpen.countRun a).course := by
  unfold MLOpen.recordRun
  dsimp only
  split <;> rfl

/-- A filter of the search gives the same course in two runs that agree on the course so
far. -/
theorem course_filter {c c' : Prop} [Decidable c] [Decidable c'] (hcc : c ↔ c')
    (a b : SearchState) (ma mb : Except Fault SearchState) (h : a.course = b.course)
    (hm : ma.map SearchState.course = mb.map SearchState.course) :
    (if c then pure (MLOpen.countRun a) else ma).map SearchState.course
      = (if c' then pure (MLOpen.countRun b) else mb).map SearchState.course := by
  by_cases hc : c
  · rw [if_pos hc, if_pos (hcc.mp hc)]
    show (Except.ok (MLOpen.countRun a).course : Except Fault _) = Except.ok (MLOpen.countRun b).course
    rw [course_countRun a b h]
  · rw [if_neg hc, if_neg (fun k => hc (hcc.mpr k))]
    exact hm

theorem course_obj {a b : SearchState} (h : a.course = b.course) :
    a.obj = b.obj ∧ a.n_in_tiles_rg0 = b.n_in_tiles_rg0 ∧ a.n_in_tiles_rg1 = b.n_in_tiles_rg1
      ∧ a.runs_left = b.runs_left ∧ a.n_calls = b.n_calls ∧ a.calls = b.calls := by
  simp only [SearchState.course, Prod.mk.injEq] at h
  exact h

/-- The body of the loop over the stacks reads only the course of the search: two runs
that agree on it so far, with any two measurement stubs, agree on it afterwards. -/
theorem searchBodyS_course (dev : Device) (stubA stubB : Measurement) (sp : SearchSpace)
    (a b : SearchState) (x : Int) (h : a.course = b.course) :
    (searchBodyS dev stubA sp a x).map SearchState.course
      = (searchBodyS dev stubB sp b x).map SearchState.course := by
  obtain ⟨objA, mnA, mptA, ptA, r0A, r1A, rlA, rcA, retA, ncA, lgA, clA⟩ := a
  obtain ⟨objB, mnB, mptB, ptB, r0B, r1B, rlB, rcB, retB, ncB, lgB, clB⟩ := b
  simp only [SearchState.course, Prod.mk.injEq] at h
  obtain ⟨rfl, rfl, rfl, rfl, rfl, rfl⟩ := h
  unfold searchBodyS
  dsimp only
  generalize tooManyAlus { objA with _n_stacks := arrAt sp.n_in_stacks_sz x } = tm
  cases tm with
  | error e => rfl
  | ok tm =>
    rw [ok_bind, ok_bind]
    refine course_filter Iff.rfl _ _ _ _ rfl ?_
    refine course_filter Iff.rfl _ _ _ _ rfl ?_
    unfold mloMeasuredLoop
    generalize mloConstructDirect2DFwd dev { objA with _n_stacks := arrAt sp.n_in_stacks_sz x }
      = con
    cases con with
    | error e => rfl
    | ok p =>
      obtain ⟨r, s'⟩ := p
      simp only [ok_bind]
      by_cases hr : r ≠ 0
      · simp only [if_pos hr, ok_bind, pure, Except.pure]
        rfl
      · have hr0 : r = 0 := not_not.mp hr
        subst hr0
        cases stubA ncA s' <;> cases stubB ncA s' <;>
          simp only [ne_eq, not_true_eq_false, if_false, ok_bind, pure, Except.pure, Except.map,
            Int.reduceNeg, Int.neg_eq_zero, one_ne_zero, not_false_eq_true, if_true,
            course_recordRun, Except.ok.injEq] <;> rfl

end MLOpen
namespace MLOpen

theorem searchBodyIT_course (dev : Device) (stubA stubB : Measurement) (sp : SearchSpace)
    (a b : SearchState) (x : Int) (h : a.course = b.course) :
    (searchBodyIT dev stubA sp a x).map SearchState.course
      = (searchBodyIT dev stubB sp b x).map SearchState.course := by
  obtain ⟨objA, mnA, mptA, ptA, r0A, r1A, rlA, rcA, retA, ncA, lgA, clA⟩ := a
  obtain ⟨objB, mnB, mptB, ptB, r0B, r1B, rlB, rcB, retB, ncB, lgB, clB⟩ := b
  simp only [SearchState.course, Prod.mk.injEq] at h
  obtain ⟨rfl, rfl, rfl, rfl, rfl, rfl⟩ := h
  unfold searchBodyIT
  dsimp only
  refine course_filter Iff.rfl _ _ _ _ rfl ?_
  exact foldlM_course _ _ _ (searchBodyS_course dev stubA stubB sp) _ _ rfl

theorem searchInTilesRange_course (a b : SearchState) (h : a.course = b.course) :
    (searchInTilesRange a).map SearchState.course
      = (searchInTilesRange b).map SearchState.course := by
  obtain ⟨objA, mnA, mptA, ptA, r0A, r1A, rlA, rcA, retA, ncA, lgA, clA⟩ := a
  obtain ⟨objB, mnB, mptB, ptB, r0B, r1B, rlB, rcB, retB, ncB, lgB, clB⟩ := b
  simp only [SearchState.course, Prod.mk.injEq] at h
  obtain ⟨rfl, rfl, rfl, rfl, rfl, rfl⟩ := h
  unfold searchInTilesRange
  dsimp only
  by_cases hx : is1x1 objA = true
  · rw [if_pos hx, if_pos hx]
    generalize cdiv (int32 (objA._in_width * objA._in_height + 1 * 4 - 1)) (1 * 4) = m
    cases m with
    | error e => rfl
    | ok M =>
      rw [ok_bind, ok_bind]
      by_cases hsm : M ≤ objA._grp_tile0.tdiv 2
      · rw [if_pos hsm, if_pos hsm]
        generalize cdiv objA._grp_tile0 M = n
        cases n with
        | error e => rfl
        | ok N =>
          rw [ok_bind, ok_bind]
          generalize cdiv (if objA._grp_tile0 ≤ 192 then (objA._dev_local_mem_sz.tdiv 4).tdiv 2
            else objA._dev_local_mem_sz.tdiv 4) (int32 (N * M * 4)) = q
          cases q with
          | error e => rfl
          | ok E =>
            rw [ok_bind, ok_bind]
            split
            · split
              · rfl
              · rfl
            · rfl
      · rw [if_neg hsm, if_neg hsm]
        rfl
  · rw [if_neg hx, if_neg hx]
    rfl

theorem searchBodyOT_course (dev : Device) (stubA stubB : Measurement) (sp : SearchSpace)
    (a b : SearchState) (x : Int) (h : a.course = b.course) :
    (searchBodyOT dev stubA sp a x).map SearchState.course
      = (searchBodyOT dev stubB sp b x).map SearchState.course := by
  obtain ⟨objA, mnA, mptA, ptA, r0A, r1A, rlA, rcA, retA, ncA, lgA, clA⟩ := a
  obtain ⟨objB, mnB, mptB, ptB, r0B, r1B, rlB, rcB, retB, ncB, lgB, clB⟩ := b
  simp only [SearchState.course, Prod.mk.injEq] at h
  obtain ⟨rfl, rfl, rfl, rfl, rfl, rfl⟩ := h
  unfold searchBodyOT
  dsimp only
  refine course_filter Iff.rfl _ _ _ _ rfl ?_
  refine bind_course _ _ _ _ _ (searchInTilesRange_course _ _ rfl) ?_
  intro a' b' h'
  obtain ⟨_, e2, e3, _, _, _⟩ := course_obj h'
  rw [e2, e3]
  exact foldlM_course _ _ _ (searchBodyIT_course dev stubA stubB sp) _ _ h'

theorem searchBodyL_course (dev : Device) (stubA stubB : Measurement) (sp : SearchSpace)
    (a b : SearchState) (x : Int) (h : a.course = b.course) :
    (searchBodyL dev stubA sp a x).map SearchState.course
      = (searchBodyL dev stubB sp b x).map SearchState.course := by
  obtain ⟨objA, mnA, mptA, ptA, r0A, r1A, rlA, rcA, retA, ncA, lgA, clA⟩ := a
  obtain ⟨objB, mnB, mptB, ptB, r0B, r1B, rlB, rcB, retB, ncB, lgB, clB⟩ := b
  simp only [SearchState.course, Prod.mk.injEq] at h
  obtain ⟨rfl, rfl, rfl, rfl, rfl, rfl⟩ := h
  unfold searchBodyL
  dsimp only
  refine course_filter Iff.rfl _ _ _ _ rfl ?_
  exact foldlM_course _ _ _ (searchBodyOT_course dev stubA stubB sp) _ _ rfl

theorem searchBodyK_course (dev : Device) (stubA stubB : Measurement) (sp : SearchSpace)
    (a b : SearchState) (x : Int) (h : a.course = b.course) :
    (searchBodyK dev stubA sp a x).map SearchState.course
      = (searchBodyK dev stubB sp b x).map SearchState.course := by
  obtain ⟨objA, mnA, mptA, ptA, r0A, r1A, rlA, rcA, retA, ncA, lgA, clA⟩ := a
  obtain ⟨objB, mnB, mptB, ptB, r0B, r1B, rlB, rcB, retB, ncB, lgB, clB⟩ := b
  simp only [SearchState.course, Prod.mk.injEq] at h
  obtain ⟨rfl, rfl, rfl, rfl, rfl, rfl⟩ := h
  unfold searchBodyK
  dsimp only
  refine course_filter Iff.rfl _ _ _ _ rfl ?_
  exact foldlM_course _ _ _ (searchBodyL_course dev stubA stubB sp) _ _ rfl

theorem searchBodyI_course (dev : Device) (stubA stubB : Measurement) (sp : SearchSpace)
    (a b : SearchState) (x : Int) (h : a.course = b.course) :
    (searchBodyI dev stubA sp a x).map SearchState.course
      = (searchBodyI dev stubB sp b x).map SearchState.course := by
  obtain ⟨objA, mnA, mptA, ptA, r0A, r1A, rlA, rcA, retA, ncA, lgA, clA⟩ := a
  obtain ⟨objB, mnB, mptB, ptB, r0B, r1B, rlB, rcB, retB, ncB, lgB, clB⟩ := b
  simp only [SearchState.course, Prod.mk.injEq] at h
  obtain ⟨rfl, rfl, rfl, rfl, rfl, rfl⟩ := h
  unfold searchBodyI
  dsimp only
  refine course_filter Iff.rfl _ _ _ _ rfl ?_
  refine course_filter Iff.rfl _ _ _ _ rfl ?_
  refine course_filter Iff.rfl _ _ _ _ rfl ?_
  exact foldlM_course _ _ _ (searchBodyK_course dev stubA stubB sp) _ _ rfl

theorem searchBodyJ_course (dev : Device) (stubA stubB : Measurement) (sp : SearchSpace)
    (a b : SearchState) (x : Int) (h : a.course = b.course) :
    (searchBodyJ dev stubA sp a x).map SearchState.course
      = (searchBodyJ dev stubB sp b x).map SearchState.course := by
  obtain ⟨objA, mnA, mptA, ptA, r0A, r1A, rlA, rcA, retA, ncA, lgA, clA⟩ := a
  obtain ⟨objB, mnB, mptB, ptB, r0B, r1B, rlB, rcB, retB, ncB, lgB, clB⟩ := b
  simp only [SearchState.course, Prod.mk.injEq] at h
  obtain ⟨rfl, rfl, rfl, rfl, rfl, rfl⟩ := h
  unfold searchBodyJ
  dsimp only
  refine course_filter Iff.rfl _ _ _ _ rfl ?_
  exact foldlM_course _ _ _ (searchBodyI_course dev stubA stubB sp) _ _ rfl

theorem searchBodyG0_course (dev : Device) (stubA stubB : Measurement) (sp : SearchSpace)
    (a b : SearchState) (x : Int) (h : a.course = b.course) :
    (searchBodyG0 dev stubA sp a x).map SearchState.course
      = (searchBodyG0 dev stubB sp b x).map SearchState.course := by
  obtain ⟨objA, mnA, mptA, ptA, r0A, r1A, rlA, rcA, retA, ncA, lgA, clA⟩ := a
  obtain ⟨objB, mnB, mptB, ptB, r0B, r1B, rlB, rcB, retB, ncB, lgB, clB⟩ := b
  simp only [SearchState.course, Prod.mk.injEq] at h
  obtain ⟨rfl, rfl, rfl, rfl, rfl, rfl⟩ := h
  unfold searchBodyG0
  dsimp only
  exact foldlM_course _ _ _ (searchBodyJ_course dev stubA stubB sp) _ _ rfl

theorem searchBodyG1_course (dev : Device) (stubA stubB : Measurement) (sp : SearchSpace)
    (a b : SearchState) (x : Int) (h : a.course = b.course) :
    (searchBodyG1 dev stubA sp a x).map SearchState.course
      = (searchBodyG1 dev stubB sp b x).map SearchState.course := by
  obtain ⟨objA, mnA, mptA, ptA, r0A, r1A, rlA, rcA, retA, ncA, lgA, clA⟩ := a
  obtain ⟨objB, mnB, mptB, ptB, r0B, r1B, rlB, rcB, retB, ncB, lgB, clB⟩ := b
  simp only [SearchState.course, Prod.mk.injEq] at h
  obtain ⟨rfl, rfl, rfl, rfl, rfl, rfl⟩ := h
  unfold searchBodyG1
  dsimp only
  exact foldlM_course _ _ _ (searchBodyG0_course dev stubA stubB sp) _ _ rfl

/-- The course of the search loops (the object, the calls of `mloMeasuredLoop` and their
number) is the same for any two measurement stubs. -/
theorem searchLoops_course (dev : Device) (stubA stubB : Measurement)
    (s : mlo_construct_direct2D) (minA minB : Tiling) :
    (searchLoops dev stubA s minA).map SearchState.course
      = (searchLoops dev stubB s minB).map SearchState.course := by
  unfold searchLoops
  dsimp only
  exact foldlM_course _ _ _ (searchBodyG1_course dev stubA stubB _) _ _ rfl

end MLOpen
namespace MLOpen

/-- The search of a shape that the database does not hold runs the search loops, from the
initial minimum and with the wave size and the local memory size set in the object; the
calls, their number and the log of the result are those of the loops. -/
theorem mloSearchDirect2D_loops (dev : Device) (stub : Measurement) (files : Files)
    (s : mlo_construct_direct2D) (m : StdMap) (r : SearchResult)
    (hread : mloReadConfigDB files [] = .ok m)
    (hnew : m.find (mloBuildConf_Key s) = none)
    (h : mloSearchDirect2D dev stub files s = .ok r) :
    ∃ st, searchLoops dev stub
        { s with _hw_wave_sz := 64, _dev_local_mem_sz := dev.local_mem_size } initialMin
          = .ok st
      ∧ r.n_calls = st.n_calls ∧ r.log = st.log ∧ r.calls = st.calls := by
  have hk : mloBuildConf_Key
      { s with _hw_wave_sz := 64, _dev_local_mem_sz := dev.local_mem_size }
      = mloBuildConf_Key s := rfl
  have e : mloSearchConfigDB m (mloBuildConf_Key s) [] = (false, []) := by
    simp only [mloSearchConfigDB, hnew]
  unfold mloSearchDirect2D at h
  dsimp only at h
  rw [mloSearchConfigInDB_eq files _ [] m hread, hk, e] at h
  simp only [ok_bind] at h
  rw [if_pos (by rfl)] at h
  simp only [bind_eq_ok] at h
  obtain ⟨st, hloop, fl, hfl, obj, hobj, h⟩ := h
  simp only [pure_eq_ok] at h
  subst h
  exact ⟨st, hloop, rfl, rfl, rfl⟩

/-- For a positive shape whose maps fit in an `int` when the kernel is 1x1 (`mapsFit`:
in_width * in_height + 3 <= INT_MAX and n_inputs <= INT_MAX) and that the database does not
hold, and a device with at least 6144 bytes of local memory, `mloSearchDirect2D` returns,
and what `CallInv` states of the calls of `mloMeasuredLoop` holds of the result. -/
theorem mloSearchDirect2D_calls (dev : Device) (stub : Measurement) (files : Files)
    (s : mlo_construct_direct2D) (m : StdMap) (hpos : positiveShape s ∧ mapsFit s)
    (hmem : 6144 ≤ dev.local_mem_size) (hread : mloReadConfigDB files [] = .ok m)
    (hnew : m.find (mloBuildConf_Key s) = none) :
    ∃ r, mloSearchDirect2D dev stub files s = .ok r ∧ r.calls.length = r.n_calls
      ∧ (∀ c ∈ r.calls, passedFilters s c)
      ∧ (∀ e ∈ r.log, ∃ i o, r.calls[i]? = some e.candidate ∧ stub i o = some e.time
          ∧ e.measured = getConfigParameters o) := by
  obtain ⟨r, hr, _⟩ := mloSearchDirect2D_total dev stub files s m hpos hmem hread hnew
  obtain ⟨st, hst, e1, e2, e3⟩ := mloSearchDirect2D_loops dev stub files s m r hread hnew hr
  obtain ⟨st2, hst2, _, hJ⟩ := searchLoops_calls dev stub
    { s with _hw_wave_sz := 64, _dev_local_mem_sz := dev.local_mem_size } initialMin
    hpos hmem rfl
  have est : st2 = st := Except.ok.inj (hst2.symm.trans hst)
  subst est
  obtain ⟨j1, j2, j3, _⟩ := hJ
  refine ⟨r, hr, ?_, ?_, ?_⟩
  · rw [e3, e1]; exact j2
  · rw [e3]; exact j1
  · rw [e3, e2]; exact j3

/-- The calls of `mloMeasuredLoop` made by a search, and their number, do not depend on the
measurement stub. -/
theorem mloSearchDirect2D_course (dev : Device) (stubA stubB : Measurement) (files : Files)
    (s : mlo_construct_direct2D) (m : StdMap) (rA rB : SearchResult)
    (hread : mloReadConfigDB files [] = .ok m)
    (hnew : m.find (mloBuildConf_Key s) = none)
    (hA : mloSearchDirect2D dev stubA files s = .ok rA)
    (hB : mloSearchDirect2D dev stubB files s = .ok rB) :
    rA.calls = rB.calls ∧ rA.n_calls = rB.n_calls := by
  obtain ⟨sa, hsa, a1, _, a3⟩ := mloSearchDirect2D_loops dev stubA files s m rA hread hnew hA
  obtain ⟨sb, hsb, b1, _, b3⟩ := mloSearchDirect2D_loops dev stubB files s m rB hread hnew hB
  have hc := searchLoops_course dev stubA stubB
    { s with _hw_wave_sz := 64, _dev_local_mem_sz := dev.local_mem_size } initialMin initialMin
  rw [hsa, hsb] at hc
  obtain ⟨_, _, _, _, h5, h6⟩ := course_obj (Except.ok.inj hc)
  exact ⟨by rw [a3, b3, h6], by rw [a1, b1, h5]⟩

end MLOpen
namespace MLOpen

/-! ### C24: a failing candidate never aborts the search -/

end MLOpen
namespace MLOpen

/-! ### C25: the validity filters at the calls of the measurement -/

end MLOpen
